import Mathlib

/-!
# lol-kind-bot: end-of-game analysis

A shallow embedding of `analyzer/summary.go`, of the parser `ParseEoGStats` of
`eog/stats.go` (with the record types of `eog/stats.go` and the thresholds of
`config/config.go`) and of `FormatNumber` of `analyzer/format.go`, followed by
theorems about `AnalyzeGame`, the passes it runs, `ParseEoGStats` and
`FormatNumber`.

Modelling conventions:

* Go `int` is `Int`.  The counters are game statistics far below `2^63`, so no
  wrap-around is modelled.
* Go `float64` is `ℚ`.  Every float in `AnalyzeGame` is a quotient of two
  integers (or of an integer and the game minutes) compared with a short decimal
  constant; as long as the integers stay below `2^51` the correctly rounded
  quotient lies on the same side of the constant as the exact quotient, so the
  comparisons agree.
* A Go `map[int]int` read with the zero default is a function `Int → Int`
  (maps built by the code) or an association list read by `mapGet` (maps that
  are input data).
* A `for i := range players` loop that only reads is a recursion over the list
  with the running index; a loop that writes `players[i]` is a fold over the
  indices with the list as state.
* The `...Formatted` string fields of `PlayerSummary` and `TeamInsights` are
  renderings of integer fields that are kept; they are left out.
* `ParseEoGStats` takes the JSON value that its bytes denote (`JVal`), `none`
  for bytes that are not valid JSON.  A JSON number is a rational, standing for
  the `float64` it decodes to (exact for the integers below `2^53`), together
  with the information whether its literal is an integer literal; `int(v)` is
  truncation towards zero when the result is an `int64`.  Outside that range Go
  leaves the result of the conversion to the implementation; `goInt` then takes
  the value of the amd64 code, the least `int64`.
* `json.Unmarshal` into the records of `eog/stats.go` is modelled as
  `encoding/json` documents it: a member selects the field with its exact name,
  else the first field equal to it case-insensitively; members are decoded in
  document order; `null` leaves a scalar as it is and sets a pointer, slice or
  map to nil; a value of the wrong type, or a number that is not an integer
  literal within 64 bits for an `int` field, makes the call return an error, in
  which case the function never uses what was decoded.  `json.Marshal` of a
  decoded map writes its members sorted by name, one per name.
* An `error` is the message its text starts with.
* In `FormatNumber` the floats are again rationals: `float64(n) / 1000.0` is the
  exact quotient, `int(x)` is truncation, and the verbs `%.0f` and `%.1f` round
  the rational to the nearest value with that many decimals.
-/

namespace LolKindBot

/-! ## Records (`eog/stats.go`, `config/config.go`) -/

def TeamIDBlue : Int := 100

def TeamIDRed : Int := 200

structure EoGPlayerStats where
  Kills : Int := 0
  Deaths : Int := 0
  Assists : Int := 0
  TotalMinionsKilled : Int := 0
  NeutralMinionsKilled : Int := 0
  GoldEarned : Int := 0
  TotalDamageDealtToChampions : Int := 0
  VisionScore : Int := 0
  Win : Bool := false
  Leaver : Bool := false
  TotalDamageTaken : Int := 0
  TimeCCingOthers : Int := 0
  TotalHealsOnTeammates : Int := 0
  TotalDamageShieldedOnTeammates : Int := 0
  TotalDamageSelfMitigated : Int := 0
deriving DecidableEq

structure EoGParticipant where
  SummonerName : String := ""
  RiotIdGameName : String := ""
  DisplayName : String := ""
  RiotIdTagline : String := ""
  RiotIdTagLine : String := ""
  TeamID : Int := 0
  ChampionName : String := ""
  ChampionID : Int := 0
  Kills : Int := 0
  Deaths : Int := 0
  Assists : Int := 0
  TotalMinionsKilled : Int := 0
  NeutralMinionsKilled : Int := 0
  GoldEarned : Int := 0
  TotalDamageDealtToChampions : Int := 0
  VisionScore : Int := 0
  Win : Bool := false
  TotalDamageTaken : Int := 0
  TimeCCingOthers : Int := 0
  TotalHealsOnTeammates : Int := 0
  TotalDamageShieldedOnTeammates : Int := 0
  TotalDamageSelfMitigated : Int := 0
  Role : String := ""
  Leaver : Bool := false
  Stats : Option EoGPlayerStats := none
deriving DecidableEq

structure EoGStatsBlock where
  GameDurationSeconds : Int := 0
  GameLength : Int := 0
  Participants : List EoGParticipant := []
  GameMode : String := ""
  QueueType : String := ""
  GameType : String := ""
  TeamDragons : Option (List (Int × Int)) := none
  TeamBarons : Option (List (Int × Int)) := none
deriving DecidableEq

def TeamIDToSide (teamID : Int) : String :=
  if teamID = TeamIDBlue then "BLUE"
  else if teamID = TeamIDRed then "RED"
  else "UNKNOWN"

/-- Reading key `k` of a Go map given as data: the zero value when absent. -/
def mapGet (m : List (Int × Int)) (k : Int) : Int :=
  (m.lookup k).getD 0

structure AFKThresholds where
  MinGameMinutes : ℚ := 0
  MaxCsPerMin : ℚ := 0
  MaxDamageToChamp : Int := 0
  MaxGoldEarned : Int := 0
deriving DecidableEq

/-- The fields of `config.Config` that the analyzer reads. -/
structure Config where
  MySummonerName : String := ""
  AFKThresholds : AFKThresholds := {}
deriving DecidableEq

def DefaultMinGameMinutes : ℚ := 10

def DefaultMaxCsPerMin : ℚ := 0.5

def DefaultMaxDamageToChamp : Int := 1500

def DefaultMaxGoldEarned : Int := 4000

/-- The analyzer-relevant part of `config.DefaultConfig()`. -/
def DefaultConfig : Config :=
  { MySummonerName := ""
    AFKThresholds :=
      { MinGameMinutes := DefaultMinGameMinutes
        MaxCsPerMin := DefaultMaxCsPerMin
        MaxDamageToChamp := DefaultMaxDamageToChamp
        MaxGoldEarned := DefaultMaxGoldEarned } }

/-! ## Summary records (`analyzer/summary.go`) -/

structure PlayerMetrics where
  Kills : Int := 0
  Deaths : Int := 0
  Assists : Int := 0
  KDA : ℚ := 0
  TeamKills : Int := 0
  TeamDamageChamps : Int := 0
  TeamGold : Int := 0
  GameMinutes : ℚ := 0
  CSTotal : Int := 0
  CSPM : ℚ := 0
  KP : ℚ := 0
  DamageShare : ℚ := 0
  DPM : ℚ := 0
  GoldShare : ℚ := 0
  VSPM : ℚ := 0
  DTAM : ℚ := 0
  TeamDamageTaken : Int := 0
  DamageTakenShare : ℚ := 0
  CCPerMinute : ℚ := 0
  TotalHealsOnTeammates : Int := 0
  TotalDamageShieldedOnTeammates : Int := 0
  TimeCCingOthers : Int := 0
  TotalDamageTaken : Int := 0
  TotalDamageSelfMitigated : Int := 0
  Role : String := ""
  EfficiencyScore : ℚ := 0
  TeamplayScore : ℚ := 0
  SurvivabilityScore : ℚ := 0
  ImpactScore : ℚ := 0
  GoldEfficiency : ℚ := 0
  UtilityScore : ℚ := 0
  WellRoundedScore : ℚ := 0
deriving DecidableEq

structure PlayerSummary where
  SummonerName : String := ""
  Team : String := ""
  Champion : String := ""
  K : Int := 0
  D : Int := 0
  A : Int := 0
  CsPerMin : ℚ := 0
  DamageShare : ℚ := 0
  VisionScore : Int := 0
  Tags : List String := []
  Afk : Bool := false
  Metrics : PlayerMetrics := {}
  HighestDamageInGame : Bool := false
  HighestDamageOnTeam : Bool := false
  MostHealingInGame : Bool := false
  MostShieldingInGame : Bool := false
  MostHealingShielding : Bool := false
  HighestVisionInGame : Bool := false
  HighestVisionOnTeam : Bool := false
  MostCCInGame : Bool := false
  MostCCOnTeam : Bool := false
  MostTankingInGame : Bool := false
  TotalDamage : Int := 0
  TotalHealing : Int := 0
  TotalShielding : Int := 0
  TotalCC : Int := 0
  TotalDamageMitigated : Int := 0
  LivesSaved : Int := 0
  TimesSaved : Int := 0
  CriticalSaves : Int := 0
deriving DecidableEq

structure TeamInsights where
  AverageKP : ℚ := 0
  HighKPCount : Int := 0
  TotalUtility : Int := 0
  TotalVision : Int := 0
  WellRoundedPlayers : Int := 0
  SynergyScore : ℚ := 0
  CarryPerformance : String := ""
  TeamComposition : String := ""
deriving DecidableEq

structure GameAchievements where
  HighestDamageInGame : String := ""
  HighestDamageOnMyTeam : String := ""
  MostHealingShielding : String := ""
  HighestVisionInGame : String := ""
  HighestVisionOnMyTeam : String := ""
  MostCCInGame : String := ""
  MostCCOnMyTeam : String := ""
  MostTankingInGame : String := ""
deriving DecidableEq

structure GameSummary where
  GameDurationMinutes : ℚ := 0
  WinningTeam : String := ""
  MySummonerName : String := ""
  MyTeam : String := ""
  Players : List PlayerSummary := []
  AfkOnMyTeam : Bool := false
  AfkOnEnemyTeam : Bool := false
  GameMode : String := ""
  QueueType : String := ""
  GameType : String := ""
  IsIntenseMatch : Bool := false
  IsComeback : Bool := false
  TotalKills : Int := 0
  KillDifference : Int := 0
  GoldDifference : Int := 0
  MyTeamInsights : TeamInsights := {}
  EnemyTeamInsights : TeamInsights := {}
  WasStomp : Bool := false
  WasClose : Bool := false
  HadClutchMoments : Bool := false
  TeamworkHighlight : String := ""
  Achievements : GameAchievements := {}
deriving DecidableEq

/-! ## Helpers of `AnalyzeGame` -/

/-- The closure `getPlayerName` of `AnalyzeGame`. -/
def getPlayerName (p : EoGParticipant) : String :=
  if p.SummonerName ≠ "" then p.SummonerName
  else if p.RiotIdGameName ≠ "" then
    let tagline := if p.RiotIdTagline = "" then p.RiotIdTagLine else p.RiotIdTagline
    if tagline ≠ "" then p.RiotIdGameName ++ "#" ++ tagline else p.RiotIdGameName
  else if p.DisplayName ≠ "" then p.DisplayName
  else "Unknown"

/-- The closure `getChampionName` of `AnalyzeGame`; `Champion%d` prints the
decimal digits of the id. -/
def getChampionName (p : EoGParticipant) : String :=
  if p.ChampionName ≠ "" then p.ChampionName
  else if p.ChampionID > 0 then "Champion" ++ toString p.ChampionID
  else "Unknown"

/-- The closure `getStatValue` of `AnalyzeGame`: the nested stats object is
consulted first, and a name that its switch does not list falls through to the
switch over the top-level fields, which returns 0 for a name it does not list
either. -/
def getStatValue (p : EoGParticipant) (statName : String) : Int :=
  let top : Int :=
    if statName = "kills" then p.Kills
    else if statName = "totalDamageDealtToChampions" then p.TotalDamageDealtToChampions
    else if statName = "goldEarned" then p.GoldEarned
    else if statName = "totalDamageTaken" then p.TotalDamageTaken
    else 0
  match p.Stats with
  | some s =>
    if statName = "kills" then s.Kills
    else if statName = "totalDamageDealtToChampions" then s.TotalDamageDealtToChampions
    else if statName = "goldEarned" then s.GoldEarned
    else if statName = "totalDamageTaken" then s.TotalDamageTaken
    else top
  | none => top

/-- The closure `getPlayerStat` of `AnalyzeGame`. -/
def getPlayerStat (p : EoGParticipant) (statName : String) : Int :=
  let top : Int :=
    if statName = "kills" then p.Kills
    else if statName = "deaths" then p.Deaths
    else if statName = "assists" then p.Assists
    else if statName = "totalMinionsKilled" then p.TotalMinionsKilled
    else if statName = "neutralMinionsKilled" then p.NeutralMinionsKilled
    else if statName = "goldEarned" then p.GoldEarned
    else if statName = "totalDamageDealtToChampions" then p.TotalDamageDealtToChampions
    else if statName = "visionScore" then p.VisionScore
    else if statName = "totalDamageTaken" then p.TotalDamageTaken
    else if statName = "timeCCingOthers" then p.TimeCCingOthers
    else if statName = "totalHealsOnTeammates" then p.TotalHealsOnTeammates
    else if statName = "totalDamageShieldedOnTeammates" then p.TotalDamageShieldedOnTeammates
    else if statName = "totalDamageSelfMitigated" then p.TotalDamageSelfMitigated
    else 0
  match p.Stats with
  | some s =>
    if statName = "kills" then s.Kills
    else if statName = "deaths" then s.Deaths
    else if statName = "assists" then s.Assists
    else if statName = "totalMinionsKilled" then s.TotalMinionsKilled
    else if statName = "neutralMinionsKilled" then s.NeutralMinionsKilled
    else if statName = "goldEarned" then s.GoldEarned
    else if statName = "totalDamageDealtToChampions" then s.TotalDamageDealtToChampions
    else if statName = "visionScore" then s.VisionScore
    else if statName = "totalDamageTaken" then s.TotalDamageTaken
    else if statName = "timeCCingOthers" then s.TimeCCingOthers
    else if statName = "totalHealsOnTeammates" then s.TotalHealsOnTeammates
    else if statName = "totalDamageShieldedOnTeammates" then s.TotalDamageShieldedOnTeammates
    else top
  | none => top

/-- The first pass of `AnalyzeGame` for one statistic: `total[p.TeamID] += v`
for every participant, starting from the empty map. -/
def teamTotals (participants : List EoGParticipant) (statName : String) : Int → Int :=
  participants.foldl
    (fun m p => Function.update m p.TeamID (m p.TeamID + getStatValue p statName))
    (fun _ => 0)

/-- The loop "Find my team": the team id of the first participant whose name is
the configured one, 0 when there is none. -/
def findMyTeamID (participants : List EoGParticipant) (cfg : Config) : Int :=
  match participants.find? (fun p => decide (getPlayerName p = cfg.MySummonerName)) with
  | some p => p.TeamID
  | none => 0

/-- Go's `math.Max(1.0, x)`. -/
def floorOne (x : ℚ) : ℚ := max 1 x

/-- The function `detectRoleFromStats`. -/
def detectRoleFromStats (neutralMinionsKilled visionScore healShieldTotal : Int)
    (cspm damageShare gameMinutes : ℚ) : String :=
  if neutralMinionsKilled ≥ 50 ∨ (neutralMinionsKilled ≥ 30 ∧ gameMinutes ≥ 20) then "JUNGLE"
  else if healShieldTotal ≥ 5000 ∨ (visionScore ≥ 50 ∧ cspm < 2.0) then "SUPPORT"
  else if cspm ≥ 7.0 then "BOTTOM"
  else if cspm ≥ 5.0 ∧ damageShare ≥ 0.25 then "MIDDLE"
  else if cspm ≥ 4.0 then "TOP"
  else ""

/-- The body of the second pass of `AnalyzeGame`: the summary of one
participant, from the team totals of the first pass. -/
def buildPlayerSummary (gameMinutes : ℚ)
    (teamKills teamDamageChamps teamGold teamDamageTaken : Int → Int)
    (p : EoGParticipant) : PlayerSummary :=
  let kills := getPlayerStat p "kills"
  let deaths := getPlayerStat p "deaths"
  let assists := getPlayerStat p "assists"
  let totalMinionsKilled := getPlayerStat p "totalMinionsKilled"
  let neutralMinionsKilled := getPlayerStat p "neutralMinionsKilled"
  let goldEarned := getPlayerStat p "goldEarned"
  let totalDamageDealtToChampions := getPlayerStat p "totalDamageDealtToChampions"
  let visionScore := getPlayerStat p "visionScore"
  let totalDamageTaken := getPlayerStat p "totalDamageTaken"
  let timeCCingOthers := getPlayerStat p "timeCCingOthers"
  let totalHealsOnTeammates := getPlayerStat p "totalHealsOnTeammates"
  let totalDamageShieldedOnTeammates := getPlayerStat p "totalDamageShieldedOnTeammates"
  let totalDamageSelfMitigated := getPlayerStat p "totalDamageSelfMitigated"
  let csTotal := totalMinionsKilled + neutralMinionsKilled
  let cspm := (csTotal : ℚ) / floorOne gameMinutes
  let teamK := teamKills p.TeamID
  let teamDmg := teamDamageChamps p.TeamID
  let teamG := teamGold p.TeamID
  let teamDT := teamDamageTaken p.TeamID
  let kda := ((kills + assists : Int) : ℚ) / floorOne (deaths : ℚ)
  let kp := ((kills + assists : Int) : ℚ) / floorOne (teamK : ℚ)
  let damageShare := (totalDamageDealtToChampions : ℚ) / floorOne (teamDmg : ℚ)
  let dpm := (totalDamageDealtToChampions : ℚ) / floorOne gameMinutes
  let goldShare := (goldEarned : ℚ) / floorOne (teamG : ℚ)
  let vspm := (visionScore : ℚ) / floorOne gameMinutes
  let dtam := (totalDamageTaken : ℚ) / floorOne gameMinutes
  let damageTakenShare := (totalDamageTaken : ℚ) / floorOne (teamDT : ℚ)
  let ccPerMinute := (timeCCingOthers : ℚ) / floorOne gameMinutes
  let detectedRole :=
    if p.Role = "" then
      detectRoleFromStats neutralMinionsKilled visionScore
        (totalHealsOnTeammates + totalDamageShieldedOnTeammates) cspm damageShare gameMinutes
    else p.Role
  let metrics : PlayerMetrics :=
    { Kills := kills
      Deaths := deaths
      Assists := assists
      KDA := kda
      TeamKills := teamK
      TeamDamageChamps := teamDmg
      TeamGold := teamG
      GameMinutes := gameMinutes
      CSTotal := csTotal
      CSPM := cspm
      KP := kp
      DamageShare := damageShare
      DPM := dpm
      GoldShare := goldShare
      VSPM := vspm
      DTAM := dtam
      TeamDamageTaken := teamDT
      DamageTakenShare := damageTakenShare
      CCPerMinute := ccPerMinute
      TotalHealsOnTeammates := totalHealsOnTeammates
      TotalDamageShieldedOnTeammates := totalDamageShieldedOnTeammates
      TimeCCingOthers := timeCCingOthers
      TotalDamageTaken := totalDamageTaken
      TotalDamageSelfMitigated := totalDamageSelfMitigated
      Role := detectedRole }
  { SummonerName := getPlayerName p
    Team := TeamIDToSide p.TeamID
    Champion := getChampionName p
    K := kills
    D := deaths
    A := assists
    CsPerMin := cspm
    DamageShare := damageShare
    VisionScore := visionScore
    Tags := []
    Afk := false
    Metrics := metrics
    TotalDamage := totalDamageDealtToChampions
    TotalHealing := totalHealsOnTeammates
    TotalShielding := totalDamageShieldedOnTeammates
    TotalCC := timeCCingOthers
    TotalDamageMitigated := totalDamageSelfMitigated }

/-- One iteration of the AFK loop of `AnalyzeGame`: `player` is `players[i]`
and `p` is `stats.Participants[i]`. -/
def detectAfk (cfg : Config) (gameMinutes : ℚ) (player : PlayerSummary)
    (p : EoGParticipant) : PlayerSummary :=
  if p.Leaver then { player with Afk := true }
  else if (match p.Stats with | some s => s.Leaver | none => false) then
    { player with Afk := true }
  else if gameMinutes ≥ cfg.AFKThresholds.MinGameMinutes then
    let csTotal := getPlayerStat p "totalMinionsKilled" + getPlayerStat p "neutralMinionsKilled"
    let cspm := (csTotal : ℚ) / floorOne gameMinutes
    let totalDamage := getPlayerStat p "totalDamageDealtToChampions"
    let goldEarned := getPlayerStat p "goldEarned"
    let kills := getPlayerStat p "kills"
    let assists := getPlayerStat p "assists"
    if cspm < cfg.AFKThresholds.MaxCsPerMin ∧
        totalDamage < cfg.AFKThresholds.MaxDamageToChamp ∧
        goldEarned < cfg.AFKThresholds.MaxGoldEarned ∧
        kills = 0 ∧ assists = 0 then
      { player with Afk := true }
    else player
  else player

/-- Reading `stats.Participants[i]`; the zero participant stands for an index
out of range, which `AnalyzeGame` never produces because `players` is built
with one entry per participant. -/
def participantAt (stats : EoGStatsBlock) (i : Nat) : EoGParticipant :=
  (stats.Participants[i]?).getD {}

/-- Reading `stats.Participants[i].TeamID`. -/
def teamIDAt (stats : EoGStatsBlock) (i : Nat) : Int :=
  (participantAt stats i).TeamID

/-! ## `identifyStandoutPerformances` -/

/-- The game-wide maxima of the first loop of `identifyStandoutPerformances`. -/
structure GameMaxima where
  maxDamage : Int := 0
  maxHealing : Int := 0
  maxShielding : Int := 0
  maxHealingShielding : Int := 0
  maxVision : Int := 0
  maxCC : Int := 0
  maxTankingScore : ℚ := 0
deriving DecidableEq

/-- Tanking score of a player: damage taken over deaths, a death count of 0
being replaced by 1. -/
def tankingScoreOf (p : PlayerSummary) : ℚ :=
  let deaths : Int := if p.D = 0 then 1 else p.D
  (p.Metrics.TotalDamageTaken : ℚ) / (deaths : ℚ)

/-- One iteration of the first loop of `identifyStandoutPerformances`. -/
def gameMaximaStep (m : GameMaxima) (p : PlayerSummary) : GameMaxima :=
  if p.Afk then m
  else
    { maxDamage := if p.TotalDamage > m.maxDamage then p.TotalDamage else m.maxDamage
      maxHealing := if p.TotalHealing > m.maxHealing then p.TotalHealing else m.maxHealing
      maxShielding :=
        if p.TotalShielding > m.maxShielding then p.TotalShielding else m.maxShielding
      maxHealingShielding :=
        if p.TotalHealing + p.TotalShielding > m.maxHealingShielding then
          p.TotalHealing + p.TotalShielding
        else m.maxHealingShielding
      maxVision := if p.VisionScore > m.maxVision then p.VisionScore else m.maxVision
      maxCC := if p.TotalCC > m.maxCC then p.TotalCC else m.maxCC
      maxTankingScore :=
        if tankingScoreOf p > m.maxTankingScore then tankingScoreOf p else m.maxTankingScore }

/-- The first loop of `identifyStandoutPerformances`. -/
def gameMaxima (players : List PlayerSummary) : GameMaxima :=
  players.foldl gameMaximaStep {}

/-- The second loop of `identifyStandoutPerformances` for one of its three
maps (`teamMaxDamage`, `teamMaxVision`, `teamMaxCC`), from index `i` on. -/
def teamMaxLoop (stats : EoGStatsBlock) (val : PlayerSummary → Int) :
    Nat → List PlayerSummary → (Int → Int) → (Int → Int)
  | _, [], m => m
  | i, p :: ps, m =>
    teamMaxLoop stats val (i + 1) ps
      (if p.Afk then m
       else if val p > m (teamIDAt stats i) then Function.update m (teamIDAt stats i) (val p)
       else m)

/-- The per-team maximum of `val` over the non-AFK players. -/
def teamMax (stats : EoGStatsBlock) (val : PlayerSummary → Int)
    (players : List PlayerSummary) : Int → Int :=
  teamMaxLoop stats val 0 players (fun _ => 0)

/-- The inner loop over `j` that looks for a player of team `teamID` already
carrying `HighestDamageOnTeam`, from index `j` on. -/
def markedOnTeamFrom (stats : EoGStatsBlock) (teamID : Int) :
    Nat → List PlayerSummary → Bool
  | _, [] => false
  | j, q :: qs =>
    (decide (teamIDAt stats j = teamID) && q.HighestDamageOnTeam)
      || markedOnTeamFrom stats teamID (j + 1) qs

/-- The flags of `players[i]` after iteration `i` of the marking loop, `p` being
`players[i]` and `players` the list as the iteration finds it. -/
def markPlayer (stats : EoGStatsBlock) (mx : GameMaxima)
    (teamMaxDamage teamMaxVision teamMaxCC : Int → Int)
    (players : List PlayerSummary) (i : Nat) (p : PlayerSummary) : PlayerSummary :=
  let teamID := teamIDAt stats i
  let alreadyMarked := players.any (fun q => q.HighestDamageInGame)
  let alreadyMarkedOnTeam := markedOnTeamFrom stats teamID 0 players
  let totalHealShield := p.TotalHealing + p.TotalShielding
  let deaths : Int := if p.D = 0 then 1 else p.D
  let tankingScore : ℚ := (p.Metrics.TotalDamageTaken : ℚ) / (deaths : ℚ)
  { p with
    HighestDamageInGame :=
      if p.TotalDamage = mx.maxDamage ∧ mx.maxDamage > 0 then
        (if alreadyMarked then p.HighestDamageInGame else true)
      else p.HighestDamageInGame
    HighestDamageOnTeam :=
      if p.TotalDamage = teamMaxDamage teamID ∧ teamMaxDamage teamID > 0 then
        (if alreadyMarkedOnTeam then p.HighestDamageOnTeam else true)
      else p.HighestDamageOnTeam
    MostHealingInGame :=
      if p.TotalHealing = mx.maxHealing ∧ mx.maxHealing > 0 then true
      else p.MostHealingInGame
    MostShieldingInGame :=
      if p.TotalShielding = mx.maxShielding ∧ mx.maxShielding > 0 then true
      else p.MostShieldingInGame
    MostHealingShielding :=
      if totalHealShield = mx.maxHealingShielding ∧ mx.maxHealingShielding > 0 then true
      else p.MostHealingShielding
    HighestVisionInGame :=
      if p.VisionScore = mx.maxVision ∧ mx.maxVision > 0 then true
      else p.HighestVisionInGame
    HighestVisionOnTeam :=
      if p.VisionScore = teamMaxVision teamID ∧ teamMaxVision teamID > 0 then true
      else p.HighestVisionOnTeam
    MostCCInGame :=
      if p.TotalCC = mx.maxCC ∧ mx.maxCC > 0 then true else p.MostCCInGame
    MostCCOnTeam :=
      if p.TotalCC = teamMaxCC teamID ∧ teamMaxCC teamID > 0 then true
      else p.MostCCOnTeam
    MostTankingInGame :=
      if tankingScore = mx.maxTankingScore ∧ mx.maxTankingScore > 1000 ∧ deaths ≤ 5 then true
      else p.MostTankingInGame }

/-- Iteration `i` of the marking loop of `identifyStandoutPerformances`. -/
def markStandout (stats : EoGStatsBlock) (mx : GameMaxima)
    (teamMaxDamage teamMaxVision teamMaxCC : Int → Int)
    (players : List PlayerSummary) (i : Nat) : List PlayerSummary :=
  match players[i]? with
  | none => players
  | some p =>
    if p.Afk then players
    else players.set i (markPlayer stats mx teamMaxDamage teamMaxVision teamMaxCC players i p)

/-- The function `identifyStandoutPerformances`; the Go function updates the
slice in place, the model returns the updated list. -/
def identifyStandoutPerformances (players : List PlayerSummary) (stats : EoGStatsBlock)
    ( _myTeamID : Int) : List PlayerSummary :=
  let mx := gameMaxima players
  let teamMaxDamage := teamMax stats (fun p => p.TotalDamage) players
  let teamMaxVision := teamMax stats (fun p => p.VisionScore) players
  let teamMaxCC := teamMax stats (fun p => p.TotalCC) players
  (List.range players.length).foldl
    (markStandout stats mx teamMaxDamage teamMaxVision teamMaxCC) players

/-! ## `assignGoldenRulesTags` and its comparison helpers -/

/-- The function `isHighest`. -/
def isHighest (value : ℚ) (values : List ℚ) : Bool :=
  match values with
  | [] => false
  | v0 :: _ =>
    let maxVal := values.foldl (fun m v => if v > m then v else m) v0
    decide (value ≥ maxVal ∧ value > 0)

/-- The conditional swap `sorted[i], sorted[j] = sorted[j], sorted[i]` of
`isTopN`, done when `sorted[i] < sorted[j]`. -/
def swapIfLess (sorted : List ℚ) (i j : Nat) : List ℚ :=
  match sorted[i]?, sorted[j]? with
  | some a, some b => if a < b then (sorted.set i b).set j a else sorted
  | _, _ => sorted

/-- The exchange sort of `isTopN`, into descending order. -/
def sortDescending (values : List ℚ) : List ℚ :=
  (List.range (values.length - 1)).foldl
    (fun s i => (List.range' (i + 1) (values.length - (i + 1))).foldl
      (fun t j => swapIfLess t i j) s)
    values

/-- The function `isTopN`. -/
def isTopN (value : ℚ) (values : List ℚ) (n : Int) : Bool :=
  if values.length = 0 ∨ n ≤ 0 then false
  else
    let sorted := sortDescending values
    let n2 : Int := if n > (sorted.length : Int) then (sorted.length : Int) else n
    (List.range n2.toNat).any
      (fun i => decide (value ≥ (sorted[i]?).getD 0 ∧ value > 0))

/-- The function `floatSlice`. -/
def floatSlice (ints : List Int) : List ℚ :=
  ints.map (fun v => (v : ℚ))

/-- The first loop of `assignGoldenRulesTags`: the indices of the non-AFK
players of every team, in input order, from index `i` on. -/
def groupTeamPlayers (stats : EoGStatsBlock) :
    Nat → List PlayerSummary → (Int → List Nat) → (Int → List Nat)
  | _, [], m => m
  | i, p :: ps, m =>
    groupTeamPlayers stats (i + 1) ps
      (if p.Afk then m
       else Function.update m (teamIDAt stats i) (m (teamIDAt stats i) ++ [i]))

/-- Reading `players[idx].Metrics`. -/
def metricsAt (players : List PlayerSummary) (idx : Nat) : PlayerMetrics :=
  ((players[idx]?).getD {}).Metrics

/-- The statement `if c { tags = append(tags, tag) }`. -/
def appendIf (c : Prop) [Decidable c] (tags : List String) (tag : String) : List String :=
  if c then tags ++ [tag] else tags

/-- The tag list of `players[i]` after iteration `i` of the tagging loop.  `p` is
the copy `p := players[i]` taken when the iteration starts: the rules read its
metrics, and the last rule reads `p.Tags`, the tags the copy was taken with,
while the tags themselves are appended to `players[i].Tags`. -/
def tagsFor (stats : EoGStatsBlock) (gameMinutes : ℚ) (teamPlayers : Int → List Nat)
    (teamDragons teamBarons : List (Int × Int))
    (players : List PlayerSummary) (i : Nat) (p : PlayerSummary) : List String :=
  let m := p.Metrics
  let participant := participantAt stats i
  let teamID := participant.TeamID
  let teamIndices := teamPlayers teamID
  let tags0 := p.Tags
  let tags1 := appendIf
    (m.DamageShare ≥ 0.30 ∧ m.KP ≥ 0.60 ∧ (m.KDA ≥ 2.0 ∨ m.Kills + m.Assists ≥ 10))
    tags0 "hard_carry"
  let ccValues := teamIndices.map (fun idx => (metricsAt players idx).CCPerMinute)
  let tags2 := appendIf
    (m.DamageTakenShare ≥ 0.30 ∧ m.Deaths ≤ 8 ∧ isTopN m.CCPerMinute ccValues 2 = true)
    tags1 "frontline_rock"
  let vspmValues := teamIndices.map (fun idx => (metricsAt players idx).VSPM)
  let tags3 := appendIf (isHighest m.VSPM vspmValues = true ∧ m.VSPM ≥ 1.5) tags2 "vision_mvp"
  let healShieldValues := teamIndices.map (fun idx =>
    (metricsAt players idx).TotalHealsOnTeammates
      + (metricsAt players idx).TotalDamageShieldedOnTeammates)
  let healShieldTotal := m.TotalHealsOnTeammates + m.TotalDamageShieldedOnTeammates
  let tags4 := appendIf
    (m.Assists ≥ 10 ∧
      (isHighest (healShieldTotal : ℚ) (floatSlice healShieldValues) = true
        ∨ isHighest m.CCPerMinute ccValues = true))
    tags3 "utility_mvp"
  let enemyTeamID := if teamID = TeamIDBlue then TeamIDRed else TeamIDBlue
  let tags5 := appendIf
    ((m.Role = "JUNGLE" ∨ m.Role = "SUPPORT") ∧ m.KP ≥ 0.60 ∧
      mapGet teamDragons teamID ≥ mapGet teamDragons enemyTeamID ∧
      mapGet teamBarons teamID ≥ mapGet teamBarons enemyTeamID)
    tags4 "objective_brain"
  let tags6 := appendIf
    (m.GoldShare ≤ 0.18 ∧ m.Deaths ≤ 5 ∧ (m.KP ≥ 0.40 ∨ m.Assists ≥ 8))
    tags5 "weakside_warrior"
  let participantWin :=
    match participant.Stats with
    | some s => s.Win
    | none => participant.Win
  let hasOtherTag := p.Tags.any (fun tag =>
    decide (tag = "hard_carry" ∨ tag = "frontline_rock" ∨ tag = "vision_mvp"
      ∨ tag = "utility_mvp"))
  appendIf (participantWin = false ∧ gameMinutes ≥ 25 ∧ hasOtherTag = true)
    tags6 "heroic_in_loss"

/-- The player `players[i]` after iteration `i` of the tagging loop: only its
tag list changes. -/
def tagPlayer (stats : EoGStatsBlock) (gameMinutes : ℚ) (teamPlayers : Int → List Nat)
    (teamDragons teamBarons : List (Int × Int))
    (players : List PlayerSummary) (i : Nat) (p : PlayerSummary) : PlayerSummary :=
  { p with Tags := tagsFor stats gameMinutes teamPlayers teamDragons teamBarons players i p }

/-- Iteration `i` of the tagging loop of `assignGoldenRulesTags`. -/
def tagStep (stats : EoGStatsBlock) (gameMinutes : ℚ) (teamPlayers : Int → List Nat)
    (teamDragons teamBarons : List (Int × Int))
    (players : List PlayerSummary) (i : Nat) : List PlayerSummary :=
  match players[i]? with
  | none => players
  | some p =>
    if p.Afk then players
    else players.set i (tagPlayer stats gameMinutes teamPlayers teamDragons teamBarons players i p)

/-- The function `assignGoldenRulesTags`; the Go function updates the slice in
place, the model returns the updated list.  A nil objective map reads as the
empty map. -/
def assignGoldenRulesTags (players : List PlayerSummary) (stats : EoGStatsBlock)
    (gameMinutes : ℚ) ( _myTeamID : Int) : List PlayerSummary :=
  let teamPlayers := groupTeamPlayers stats 0 players (fun _ => [])
  let teamDragons := stats.TeamDragons.getD []
  let teamBarons := stats.TeamBarons.getD []
  (List.range players.length).foldl
    (tagStep stats gameMinutes teamPlayers teamDragons teamBarons) players

/-! ## `calculateAchievements` -/

/-- One of the eight loops of `calculateAchievements`, from index `i` on: the
state is the running maximum with the champion that set it; a non-AFK player
for whom `cond` holds and whose value is strictly above the running maximum
replaces both. -/
def scanHolder {α : Type} [LinearOrder α] (cond : Nat → PlayerSummary → Bool)
    (val : PlayerSummary → α) : Nat → List PlayerSummary → α × String → α × String
  | _, [], st => st
  | i, player :: rest, st =>
    scanHolder cond val (i + 1) rest
      (if player.Afk then st
       else if cond i player = true ∧ val player > st.1 then (val player, player.Champion)
       else st)

/-- The champion named by one loop of `calculateAchievements`, with the final
`if champ != ""` assignment into the zero-valued record. -/
def holderName {α : Type} [LinearOrder α] [Zero α] (cond : Nat → PlayerSummary → Bool)
    (val : PlayerSummary → α) (players : List PlayerSummary) : String :=
  let champ := (scanHolder cond val 0 players (0, "")).2
  if champ ≠ "" then champ else ""

/-- The function `calculateAchievements`. -/
def calculateAchievements (players : List PlayerSummary) (stats : EoGStatsBlock)
    (myTeamID : Int) : GameAchievements :=
  { HighestDamageInGame :=
      holderName (fun _ p => p.HighestDamageInGame) (fun p => p.TotalDamage) players
    HighestDamageOnMyTeam :=
      holderName (fun i p => decide (teamIDAt stats i = myTeamID) && p.HighestDamageOnTeam)
        (fun p => p.TotalDamage) players
    MostHealingShielding :=
      holderName (fun _ p => p.MostHealingShielding)
        (fun p => p.TotalHealing + p.TotalShielding) players
    HighestVisionInGame :=
      holderName (fun _ p => p.HighestVisionInGame) (fun p => p.VisionScore) players
    HighestVisionOnMyTeam :=
      holderName (fun i p => decide (teamIDAt stats i = myTeamID) && p.HighestVisionOnTeam)
        (fun p => p.VisionScore) players
    MostCCInGame :=
      holderName (fun _ p => p.MostCCInGame) (fun p => p.TotalCC) players
    MostCCOnMyTeam :=
      holderName (fun i p => decide (teamIDAt stats i = myTeamID) && p.MostCCOnTeam)
        (fun p => p.TotalCC) players
    MostTankingInGame :=
      holderName (fun _ p => p.MostTankingInGame) tankingScoreOf players }

/-! ## `calculateTeamInsights` and `determineTeamworkHighlight` -/

/-- The filter loop of `calculateTeamInsights`, from index `i` on: the non-AFK
players of the viewer's team (`isMyTeam`) or of every other team. -/
def teamPlayersOf (stats : EoGStatsBlock) (myTeamID : Int) (isMyTeam : Bool) :
    Nat → List PlayerSummary → List PlayerSummary
  | _, [] => []
  | i, player :: rest =>
    if player.Afk then teamPlayersOf stats myTeamID isMyTeam (i + 1) rest
    else if isMyTeam = true ∧ teamIDAt stats i = myTeamID then
      player :: teamPlayersOf stats myTeamID isMyTeam (i + 1) rest
    else if isMyTeam = false ∧ teamIDAt stats i ≠ myTeamID then
      player :: teamPlayersOf stats myTeamID isMyTeam (i + 1) rest
    else teamPlayersOf stats myTeamID isMyTeam (i + 1) rest

/-- The count `excellenceCount` of one player in `calculateTeamInsights`. -/
def excellenceCount (player : PlayerSummary) : Nat :=
  (if player.Metrics.DamageShare ≥ 0.25 then 1 else 0)
    + (if player.Metrics.VSPM ≥ 1.5 then 1 else 0)
    + (if player.Metrics.KP ≥ 0.60 then 1 else 0)
    + (if player.Metrics.UtilityScore ≥ 5.0 then 1 else 0)
    + (if player.Metrics.CSPM ≥ 6.0 then 1 else 0)

/-- The value `synergy` of one player in `calculateTeamInsights`. -/
def synergyOf (player : PlayerSummary) : ℚ :=
  if player.Metrics.UtilityScore > 0 then
    player.Metrics.KP * 0.6 + (player.Metrics.UtilityScore / 10.0) * 0.4
  else player.Metrics.KP * 0.6

/-- The function `calculateTeamInsights`; its accumulating loop is written as
one sum or count per accumulator. -/
def calculateTeamInsights (players : List PlayerSummary) (stats : EoGStatsBlock)
    (myTeamID : Int) (isMyTeam : Bool) : TeamInsights :=
  let teamPlayers := teamPlayersOf stats myTeamID isMyTeam 0 players
  if teamPlayers.length = 0 then {}
  else
    let totalKP : ℚ := (teamPlayers.map (fun player => player.Metrics.KP)).sum
    let highKPCount := teamPlayers.countP (fun player => decide (player.Metrics.KP ≥ 0.60))
    let totalUtility : Int :=
      (teamPlayers.map (fun player => player.TotalHealing + player.TotalShielding)).sum
    let totalVision : Int := (teamPlayers.map (fun player => player.VisionScore)).sum
    let wellRoundedCount :=
      teamPlayers.countP (fun player => decide (excellenceCount player ≥ 2))
    let totalSynergy : ℚ := (teamPlayers.map synergyOf).sum
    let highDamageCount :=
      teamPlayers.countP (fun player => decide (player.Metrics.DamageShare ≥ 0.25))
    let totalDamage : Int := (teamPlayers.map (fun player => player.TotalDamage)).sum
    let avgDamage : ℚ := (totalDamage : ℚ) / (teamPlayers.length : ℚ)
    { AverageKP := totalKP / (teamPlayers.length : ℚ)
      HighKPCount := (highKPCount : Int)
      TotalUtility := totalUtility
      TotalVision := totalVision
      WellRoundedPlayers := (wellRoundedCount : Int)
      SynergyScore := totalSynergy / (teamPlayers.length : ℚ)
      CarryPerformance :=
        if highDamageCount ≥ 3 then "distributed"
        else if highDamageCount ≥ 1 then "focused"
        else "balanced"
      TeamComposition :=
        if avgDamage ≥ 50000 ∧ totalUtility < 20000 then "damage-heavy"
        else if totalUtility ≥ 30000 then "utility-heavy"
        else "balanced" }

/-- The function `determineTeamworkHighlight`, which reads only the insights. -/
def determineTeamworkHighlight (insights : TeamInsights) : String :=
  if insights.HighKPCount ≥ 4 then "exceptional_team_coordination"
  else if insights.SynergyScore ≥ 0.7 then "strong_team_synergy"
  else if insights.WellRoundedPlayers ≥ 3 then "well_rounded_team"
  else if insights.TotalUtility ≥ 30000 then "outstanding_support_play"
  else if insights.AverageKP ≥ 0.65 then "high_team_participation"
  else ""

/-! ## `AnalyzeGame` -/

/-- The loop "Check for AFKs on each team", from index `i` on; the state is
`(afkOnMyTeam, afkOnEnemyTeam)`. -/
def afkTeamFlags (stats : EoGStatsBlock) (myTeamID : Int) :
    Nat → List PlayerSummary → Bool × Bool → Bool × Bool
  | _, [], st => st
  | i, player :: rest, st =>
    afkTeamFlags stats myTeamID (i + 1) rest
      (if player.Afk then
        (if myTeamID > 0 ∧ teamIDAt stats i = myTeamID then (true, st.2)
         else if myTeamID > 0 ∧ teamIDAt stats i ≠ myTeamID then (st.1, true)
         else st)
       else st)

/-- The accumulators of the intensity loop of `AnalyzeGame`. -/
structure MatchTotals where
  totalKills : Int := 0
  myTeamKills : Int := 0
  enemyTeamKills : Int := 0
  myTeamGold : Int := 0
  enemyTeamGold : Int := 0
  myTeamDamage : Int := 0
  enemyTeamDamage : Int := 0
  myTeamDeaths : Int := 0
  enemyTeamDeaths : Int := 0
deriving DecidableEq

/-- The intensity loop of `AnalyzeGame`, from index `i` on.  The four values are
read with `getStatValue`, under the names the source passes to it. -/
def matchTotalsLoop (stats : EoGStatsBlock) (myTeamID : Int) :
    Nat → List PlayerSummary → MatchTotals → MatchTotals
  | _, [], t => t
  | i, player :: rest, t =>
    matchTotalsLoop stats myTeamID (i + 1) rest
      (if player.Afk then t
       else
        let participantTeamID := teamIDAt stats i
        let kills := getStatValue (participantAt stats i) "kills"
        let gold := getStatValue (participantAt stats i) "goldEarned"
        let damage := getStatValue (participantAt stats i) "totalDamageDealtToChampions"
        let deaths := getStatValue (participantAt stats i) "deaths"
        if participantTeamID = myTeamID then
          { t with
            totalKills := t.totalKills + kills
            myTeamKills := t.myTeamKills + kills
            myTeamGold := t.myTeamGold + gold
            myTeamDamage := t.myTeamDamage + damage
            myTeamDeaths := t.myTeamDeaths + deaths }
        else
          { t with
            totalKills := t.totalKills + kills
            enemyTeamKills := t.enemyTeamKills + kills
            enemyTeamGold := t.enemyTeamGold + gold
            enemyTeamDamage := t.enemyTeamDamage + damage
            enemyTeamDeaths := t.enemyTeamDeaths + deaths })

/-- The absolute value as the source takes it: `d = -d` when `d < 0`. -/
def absDiff (a b : Int) : Int :=
  if a - b < 0 then -(a - b) else a - b

/-- The value `comebackScore` of `AnalyzeGame`, computed on a win. -/
def comebackScore (killDiff totalKills myTeamDeaths enemyTeamDeaths : Int)
    (gameMinutes : ℚ) : Int :=
  (if killDiff ≤ 8 ∧ totalKills ≥ 50 then 2 else 0)
    + (if gameMinutes ≥ 35 then 1 else 0)
    + (if killDiff ≤ 5 ∧ totalKills ≥ 60 then 2 else 0)
    + (if myTeamDeaths > enemyTeamDeaths ∧ totalKills ≥ 50 then 1 else 0)

/-- The players of `AnalyzeGame` after the second pass and the AFK loop, before
the standout and tag passes. -/
def playersAfterAfk (stats : EoGStatsBlock) (cfg : Config) : List PlayerSummary :=
  let gameMinutes : ℚ := (stats.GameDurationSeconds : ℚ) / 60.0
  let teamKills := teamTotals stats.Participants "kills"
  let teamDamageChamps := teamTotals stats.Participants "totalDamageDealtToChampions"
  let teamGold := teamTotals stats.Participants "goldEarned"
  let teamDamageTaken := teamTotals stats.Participants "totalDamageTaken"
  let players := stats.Participants.map
    (buildPlayerSummary gameMinutes teamKills teamDamageChamps teamGold teamDamageTaken)
  List.zipWith (detectAfk cfg gameMinutes) players stats.Participants

/-- The function `AnalyzeGame`.  The result is the Go pair `(*GameSummary,
error)`: `none` is the nil pointer, respectively the nil error. -/
def AnalyzeGame (stats : EoGStatsBlock) (cfg : Config) :
    Option GameSummary × Option String :=
  if stats.Participants.length = 0 then (none, none)
  else
    let gameMinutes : ℚ := (stats.GameDurationSeconds : ℚ) / 60.0
    let myTeamID := findMyTeamID stats.Participants cfg
    let players0 := playersAfterAfk stats cfg
    let players1 := identifyStandoutPerformances players0 stats myTeamID
    let players := assignGoldenRulesTags players1 stats gameMinutes myTeamID
    let winningTeam :=
      match stats.Participants.find? (fun p => p.Win) with
      | some p => TeamIDToSide p.TeamID
      | none => "UNKNOWN"
    let afkFlags := afkTeamFlags stats myTeamID 0 players (false, false)
    let t := matchTotalsLoop stats myTeamID 0 players {}
    let killDiff := absDiff t.myTeamKills t.enemyTeamKills
    let goldDiff := absDiff t.myTeamGold t.enemyTeamGold
    let damageDiff := absDiff t.myTeamDamage t.enemyTeamDamage
    let intense1 : Bool :=
      decide (gameMinutes ≥ 30) || decide (killDiff ≤ 10 ∧ t.totalKills ≥ 40)
        || decide (t.totalKills ≥ 60)
    let didWin : Bool := decide (winningTeam = TeamIDToSide myTeamID)
    let score := comebackScore killDiff t.totalKills t.myTeamDeaths t.enemyTeamDeaths gameMinutes
    let isComeback : Bool :=
      didWin && (decide (score ≥ 3) || decide (score ≥ 2 ∧ gameMinutes ≥ 30))
    let isIntenseMatch : Bool :=
      intense1 || isComeback
        || decide (damageDiff ≤ 10000 ∧ t.myTeamDamage + t.enemyTeamDamage ≥ 200000)
    let myTeamInsights := calculateTeamInsights players stats myTeamID true
    let enemyTeamInsights := calculateTeamInsights players stats myTeamID false
    let wasStomp : Bool := decide (killDiff ≥ 20 ∨ goldDiff ≥ 15000)
    let wasClose : Bool := decide (killDiff ≤ 5 ∧ t.totalKills ≥ 40)
    let hadClutchMoments : Bool := isComeback || decide (killDiff ≤ 3 ∧ t.totalKills ≥ 50)
    (some
      { GameDurationMinutes := gameMinutes
        WinningTeam := winningTeam
        MySummonerName := cfg.MySummonerName
        MyTeam := TeamIDToSide myTeamID
        Players := players
        AfkOnMyTeam := afkFlags.1
        AfkOnEnemyTeam := afkFlags.2
        IsIntenseMatch := isIntenseMatch
        IsComeback := isComeback
        TotalKills := t.totalKills
        KillDifference := killDiff
        GoldDifference := goldDiff
        GameMode := stats.GameMode
        QueueType := stats.QueueType
        GameType := stats.GameType
        MyTeamInsights := myTeamInsights
        EnemyTeamInsights := enemyTeamInsights
        WasStomp := wasStomp
        WasClose := wasClose
        HadClutchMoments := hadClutchMoments
        TeamworkHighlight := determineTeamworkHighlight myTeamInsights
        Achievements := calculateAchievements players stats myTeamID },
     none)

/-! ## JSON documents and the decoder of `encoding/json` -/

/-- A JSON value.  A number carries its value and `intLit`, whether its literal
is an integer literal (an optional minus sign and digits, no fraction and no
exponent); an object is the list of its members in document order. -/
inductive JVal where
  | null
  | bool (b : Bool)
  | num (q : ℚ) (intLit : Bool)
  | str (s : String)
  | arr (xs : List JVal)
  | obj (kvs : List (String × JVal))

/-- The number `n` written as an integer literal. -/
def JVal.int (n : Int) : JVal := JVal.num n true

/-- Reading `m[key]` in a `map[string]interface{}` decoded from the members
`kvs`: of members with the same name the last one is kept. -/
def mapIndex (kvs : List (String × JVal)) (key : String) : Option JVal :=
  kvs.reverse.lookup key

/-- The type assertion `.(float64)`. -/
def asFloat64 : Option JVal → Option ℚ
  | some (JVal.num q _) => some q
  | _ => none

/-- The type assertion `.(string)`. -/
def asString : Option JVal → Option String
  | some (JVal.str s) => some s
  | _ => none

/-- The type assertion `.(bool)`. -/
def asBool : Option JVal → Option Bool
  | some (JVal.bool b) => some b
  | _ => none

/-- The type assertion `.([]interface{})`. -/
def asArray : Option JVal → Option (List JVal)
  | some (JVal.arr xs) => some xs
  | _ => none

/-- The type assertion `.(map[string]interface{})`. -/
def asMap : Option JVal → Option (List (String × JVal))
  | some (JVal.obj kvs) => some kvs
  | _ => none

/-- The conversion `int(v)` of a `float64`: truncation towards zero when the
truncated value is an `int64`, i.e. at least `-2^63` and below `2^63`.  For every
other value the Go specification leaves the result to the implementation; the
model takes what the amd64 code returns, the least `int64`. -/
def goInt (v : ℚ) : Int :=
  let t := v.num.tdiv v.den
  if -9223372036854775808 ≤ t ∧ t < 9223372036854775808 then t else -9223372036854775808

/-- The statement `if v, ok := m[key].(float64); ok { x = int(v) }`. -/
def setInt (m : List (String × JVal)) (key : String) (x : Int) : Int :=
  match asFloat64 (mapIndex m key) with
  | some v => goInt v
  | none => x

/-- The statement `if v, ok := m[key].(string); ok { x = v }`. -/
def setString (m : List (String × JVal)) (key : String) (x : String) : String :=
  match asString (mapIndex m key) with
  | some v => v
  | none => x

/-- The statement `if v, ok := m[key].(bool); ok { x = v }`. -/
def setBool (m : List (String × JVal)) (key : String) (x : Bool) : Bool :=
  match asBool (mapIndex m key) with
  | some v => v
  | none => x

/-- The closure `getStatValue(camelKey, upperKey)` of `ParseEoGStats`: the
number under the first key, else the number under the second. -/
def getNestedStat (statsMap : List (String × JVal)) (camelKey upperKey : String) : Option ℚ :=
  match asFloat64 (mapIndex statsMap camelKey) with
  | some v => some v
  | none => asFloat64 (mapIndex statsMap upperKey)

/-- The statement `if v, ok := m[k1].(float64); ok { x = int(v) } else if v, ok
:= m[k2].(float64); ok { x = int(v) }`. -/
def setIntEither (m : List (String × JVal)) (k1 k2 : String) (x : Int) : Int :=
  match getNestedStat m k1 k2 with
  | some v => goInt v
  | none => x

/-- The same statement for a `bool`. -/
def setBoolEither (m : List (String × JVal)) (k1 k2 : String) (x : Bool) : Bool :=
  match asBool (mapIndex m k1) with
  | some v => v
  | none => setBool m k2 x

/-- The folding of one character of a member name by which the decoder compares
it with the ASCII field names: lower-case ASCII letters go to upper case, and the
two non-ASCII characters that fold to an ASCII letter, the long s and the Kelvin
sign, go to `S` and `K`. -/
def foldRune (c : Char) : Char :=
  if c = Char.ofNat 0x17F then 'S'
  else if c = Char.ofNat 0x212A then 'K'
  else c.toUpper

def foldName (s : String) : List Char := s.data.map foldRune

/-- The struct field a member name selects: the field with exactly that name,
else the first field whose name is equal to it under folding. -/
def matchField (names : List String) (key : String) : Option String :=
  if key ∈ names then some key
  else names.find? (fun n => decide (foldName n = foldName key))

/-- Decoding one member into the struct: a state `none` is a recorded type
error; a member that selects no field is skipped. -/
def decodeMember {σ : Type} (names : List String) (set : String → JVal → σ → Option σ)
    (st : Option σ) (kv : String × JVal) : Option σ :=
  match st with
  | none => none
  | some s =>
    match matchField names kv.1 with
    | none => some s
    | some f => set f kv.2 s

/-- Decoding the members `kvs` of a JSON object into a struct holding `init`:
every member that selects a field is decoded into it, in document order; the
result is `none` when some member has a value of the wrong type, in which case
`json.Unmarshal` returns an error. -/
def decodeFields {σ : Type} (names : List String) (set : String → JVal → σ → Option σ)
    (kvs : List (String × JVal)) (init : σ) : Option σ :=
  kvs.foldl (decodeMember names set) (some init)

/-- One step of `json.Marshal` on a `map[string]interface{}`: member `kv` is put
at its place in the members already there, which are sorted by name, and replaces
a member of the same name. -/
def insertMember (kv : String × JVal) : List (String × JVal) → List (String × JVal)
  | [] => [kv]
  | x :: rest =>
    if kv.1 = x.1 then kv :: rest
    else if kv.1.data < x.1.data then kv :: x :: rest
    else x :: insertMember kv rest

/-- The members of the object that `json.Marshal` writes for the map decoded
from the members `kvs`: one member per name, the last of that name, sorted by
name. -/
def marshalMembers (kvs : List (String × JVal)) : List (String × JVal) :=
  kvs.foldl (fun acc kv => insertMember kv acc) []

/-- The members a decoder reads: those of the document when `lit` is true, those
of the re-marshalled value otherwise. -/
def membersRead (lit : Bool) (kvs : List (String × JVal)) : List (String × JVal) :=
  if lit then kvs else marshalMembers kvs

/-- Decoding a JSON value into an `int` that holds `cur`.  `lit` tells whether
the text decoded is the document itself; otherwise it is a value re-marshalled
from `float64`, in which an integral number is printed as an integer literal. -/
def decodeInt (lit : Bool) (v : JVal) (cur : Int) : Option Int :=
  match v with
  | JVal.null => some cur
  | JVal.num q il =>
    if (lit = true → il = true) ∧ q.den = 1 ∧ -(2 : Int) ^ 63 ≤ q.num ∧ q.num < (2 : Int) ^ 63
    then some q.num else none
  | _ => none

/-- Decoding a JSON value into a `string` that holds `cur`. -/
def decodeString (v : JVal) (cur : String) : Option String :=
  match v with
  | JVal.null => some cur
  | JVal.str s => some s
  | _ => none

/-- Decoding a JSON value into a `bool` that holds `cur`. -/
def decodeBool (v : JVal) (cur : Bool) : Option Bool :=
  match v with
  | JVal.null => some cur
  | JVal.bool b => some b
  | _ => none

/-- Decoding the elements of a JSON array into a slice that holds `cur`: element
`i` is decoded into `cur[i]` when the slice has one, else into a zero value. -/
def decodeElems {α : Type} (dec : JVal → α → Option α) (zero : α) :
    List JVal → List α → Option (List α)
  | [], _ => some []
  | x :: xs, cur =>
    match dec x (cur.headD zero), decodeElems dec zero xs cur.tail with
    | some a, some rest => some (a :: rest)
    | _, _ => none

/-- Decoding a JSON value into a slice that holds `cur`. -/
def decodeSlice {α : Type} (dec : JVal → α → Option α) (zero : α) (v : JVal)
    (cur : List α) : Option (List α) :=
  match v with
  | JVal.null => some []
  | JVal.arr xs => decodeElems dec zero xs cur
  | _ => none

/-- The digits of `strconv.ParseInt(s, 10, 64)` after the sign. -/
def parseDigits (cs : List Char) : Option Nat :=
  if cs = [] ∨ cs.all Char.isDigit = false then none
  else some (cs.foldl (fun n c => 10 * n + (c.toNat - 48)) 0)

/-- The call `strconv.ParseInt(s, 10, 64)`, by which the decoder reads the key
of a `map[int]int`. -/
def parseInt64 (s : String) : Option Int :=
  match s.data with
  | '-' :: cs => (parseDigits cs).bind (fun n => if n ≤ 2 ^ 63 then some (-(n : Int)) else none)
  | '+' :: cs => (parseDigits cs).bind (fun n => if n < 2 ^ 63 then some (n : Int) else none)
  | cs => (parseDigits cs).bind (fun n => if n < 2 ^ 63 then some (n : Int) else none)

/-- Decoding a JSON value into a `map[int]int` that holds `cur`; the entry
decoded last stands first in the association list. -/
def decodeIntMap (lit : Bool) (v : JVal) (cur : Option (List (Int × Int))) :
    Option (Option (List (Int × Int))) :=
  match v with
  | JVal.null => some none
  | JVal.obj kvs =>
    (kvs.foldl
      (fun st kv =>
        match st with
        | none => none
        | some m =>
          match parseInt64 kv.1, decodeInt lit kv.2 0 with
          | some k, some x => some ((k, x) :: m)
          | _, _ => none)
      (some (cur.getD []))).map some
  | _ => none

/-! ## Decoding into the records of `eog/stats.go` -/

/-- The JSON names of the fields of `EoGPlayerStats`, in declaration order. -/
def statsFieldNames : List String :=
  ["kills", "deaths", "assists", "totalMinionsKilled", "neutralMinionsKilled", "goldEarned",
    "totalDamageDealtToChampions", "visionScore", "win", "leaver", "totalDamageTaken",
    "timeCCingOthers", "totalHealsOnTeammates", "totalDamageShieldedOnTeammates",
    "totalDamageSelfMitigated"]

/-- Decoding the value `v` into the field of `EoGPlayerStats` named `name`. -/
def setStatsField (lit : Bool) (name : String) (v : JVal) (s : EoGPlayerStats) :
    Option EoGPlayerStats :=
  if name = "kills" then (decodeInt lit v s.Kills).map (fun x => { s with Kills := x })
  else if name = "deaths" then (decodeInt lit v s.Deaths).map (fun x => { s with Deaths := x })
  else if name = "assists" then
    (decodeInt lit v s.Assists).map (fun x => { s with Assists := x })
  else if name = "totalMinionsKilled" then
    (decodeInt lit v s.TotalMinionsKilled).map (fun x => { s with TotalMinionsKilled := x })
  else if name = "neutralMinionsKilled" then
    (decodeInt lit v s.NeutralMinionsKilled).map (fun x => { s with NeutralMinionsKilled := x })
  else if name = "goldEarned" then
    (decodeInt lit v s.GoldEarned).map (fun x => { s with GoldEarned := x })
  else if name = "totalDamageDealtToChampions" then
    (decodeInt lit v s.TotalDamageDealtToChampions).map
      (fun x => { s with TotalDamageDealtToChampions := x })
  else if name = "visionScore" then
    (decodeInt lit v s.VisionScore).map (fun x => { s with VisionScore := x })
  else if name = "win" then (decodeBool v s.Win).map (fun x => { s with Win := x })
  else if name = "leaver" then (decodeBool v s.Leaver).map (fun x => { s with Leaver := x })
  else if name = "totalDamageTaken" then
    (decodeInt lit v s.TotalDamageTaken).map (fun x => { s with TotalDamageTaken := x })
  else if name = "timeCCingOthers" then
    (decodeInt lit v s.TimeCCingOthers).map (fun x => { s with TimeCCingOthers := x })
  else if name = "totalHealsOnTeammates" then
    (decodeInt lit v s.TotalHealsOnTeammates).map (fun x => { s with TotalHealsOnTeammates := x })
  else if name = "totalDamageShieldedOnTeammates" then
    (decodeInt lit v s.TotalDamageShieldedOnTeammates).map
      (fun x => { s with TotalDamageShieldedOnTeammates := x })
  else if name = "totalDamageSelfMitigated" then
    (decodeInt lit v s.TotalDamageSelfMitigated).map
      (fun x => { s with TotalDamageSelfMitigated := x })
  else some s

/-- Decoding a JSON value into a `*EoGPlayerStats` that holds `cur`: `null` sets
the pointer to nil, an object is decoded into the record pointed to, a new one
when the pointer is nil. -/
def decodeStatsPtr (lit : Bool) (v : JVal) (cur : Option EoGPlayerStats) :
    Option (Option EoGPlayerStats) :=
  match v with
  | JVal.null => some none
  | JVal.obj kvs =>
    (decodeFields statsFieldNames (setStatsField lit) (membersRead lit kvs) (cur.getD {})).map
      some
  | _ => none

/-- The JSON names of the fields of `EoGParticipant`, in declaration order. -/
def participantFieldNames : List String :=
  ["summonerName", "riotIdGameName", "displayName", "riotIdTagline", "riotIdTagLine", "teamId",
    "championName", "championId", "kills", "deaths", "assists", "totalMinionsKilled",
    "neutralMinionsKilled", "goldEarned", "totalDamageDealtToChampions", "visionScore", "win",
    "totalDamageTaken", "timeCCingOthers", "totalHealsOnTeammates",
    "totalDamageShieldedOnTeammates", "totalDamageSelfMitigated", "role", "leaver", "stats"]

/-- Decoding the value `v` into the field of `EoGParticipant` named `name`. -/
def setParticipantField (lit : Bool) (name : String) (v : JVal) (p : EoGParticipant) :
    Option EoGParticipant :=
  if name = "summonerName" then
    (decodeString v p.SummonerName).map (fun x => { p with SummonerName := x })
  else if name = "riotIdGameName" then
    (decodeString v p.RiotIdGameName).map (fun x => { p with RiotIdGameName := x })
  else if name = "displayName" then
    (decodeString v p.DisplayName).map (fun x => { p with DisplayName := x })
  else if name = "riotIdTagline" then
    (decodeString v p.RiotIdTagline).map (fun x => { p with RiotIdTagline := x })
  else if name = "riotIdTagLine" then
    (decodeString v p.RiotIdTagLine).map (fun x => { p with RiotIdTagLine := x })
  else if name = "teamId" then (decodeInt lit v p.TeamID).map (fun x => { p with TeamID := x })
  else if name = "championName" then
    (decodeString v p.ChampionName).map (fun x => { p with ChampionName := x })
  else if name = "championId" then
    (decodeInt lit v p.ChampionID).map (fun x => { p with ChampionID := x })
  else if name = "kills" then (decodeInt lit v p.Kills).map (fun x => { p with Kills := x })
  else if name = "deaths" then (decodeInt lit v p.Deaths).map (fun x => { p with Deaths := x })
  else if name = "assists" then
    (decodeInt lit v p.Assists).map (fun x => { p with Assists := x })
  else if name = "totalMinionsKilled" then
    (decodeInt lit v p.TotalMinionsKilled).map (fun x => { p with TotalMinionsKilled := x })
  else if name = "neutralMinionsKilled" then
    (decodeInt lit v p.NeutralMinionsKilled).map (fun x => { p with NeutralMinionsKilled := x })
  else if name = "goldEarned" then
    (decodeInt lit v p.GoldEarned).map (fun x => { p with GoldEarned := x })
  else if name = "totalDamageDealtToChampions" then
    (decodeInt lit v p.TotalDamageDealtToChampions).map
      (fun x => { p with TotalDamageDealtToChampions := x })
  else if name = "visionScore" then
    (decodeInt lit v p.VisionScore).map (fun x => { p with VisionScore := x })
  else if name = "win" then (decodeBool v p.Win).map (fun x => { p with Win := x })
  else if name = "totalDamageTaken" then
    (decodeInt lit v p.TotalDamageTaken).map (fun x => { p with TotalDamageTaken := x })
  else if name = "timeCCingOthers" then
    (decodeInt lit v p.TimeCCingOthers).map (fun x => { p with TimeCCingOthers := x })
  else if name = "totalHealsOnTeammates" then
    (decodeInt lit v p.TotalHealsOnTeammates).map (fun x => { p with TotalHealsOnTeammates := x })
  else if name = "totalDamageShieldedOnTeammates" then
    (decodeInt lit v p.TotalDamageShieldedOnTeammates).map
      (fun x => { p with TotalDamageShieldedOnTeammates := x })
  else if name = "totalDamageSelfMitigated" then
    (decodeInt lit v p.TotalDamageSelfMitigated).map
      (fun x => { p with TotalDamageSelfMitigated := x })
  else if name = "role" then (decodeString v p.Role).map (fun x => { p with Role := x })
  else if name = "leaver" then (decodeBool v p.Leaver).map (fun x => { p with Leaver := x })
  else if name = "stats" then (decodeStatsPtr lit v p.Stats).map (fun x => { p with Stats := x })
  else some p

/-- Decoding a JSON value into an `EoGParticipant` that holds `cur`; `none` is a
returned error. -/
def decodeParticipant (lit : Bool) (v : JVal) (cur : EoGParticipant) : Option EoGParticipant :=
  match v with
  | JVal.null => some cur
  | JVal.obj kvs =>
    decodeFields participantFieldNames (setParticipantField lit) (membersRead lit kvs) cur
  | _ => none

/-- The record `EoGTeam`. -/
structure EoGTeam where
  TeamID : Int := 0
  Players : List EoGParticipant := []
  Participants : List EoGParticipant := []
deriving DecidableEq

/-- Decoding the value `v` into the field of `EoGTeam` named `name`. -/
def setTeamField (lit : Bool) (name : String) (v : JVal) (t : EoGTeam) : Option EoGTeam :=
  if name = "teamId" then (decodeInt lit v t.TeamID).map (fun x => { t with TeamID := x })
  else if name = "players" then
    (decodeSlice (decodeParticipant lit) {} v t.Players).map (fun x => { t with Players := x })
  else if name = "participants" then
    (decodeSlice (decodeParticipant lit) {} v t.Participants).map
      (fun x => { t with Participants := x })
  else some t

/-- Decoding a JSON value into an `EoGTeam` that holds `cur`. -/
def decodeTeam (lit : Bool) (v : JVal) (cur : EoGTeam) : Option EoGTeam :=
  match v with
  | JVal.null => some cur
  | JVal.obj kvs =>
    decodeFields ["teamId", "players", "participants"] (setTeamField lit) (membersRead lit kvs)
      cur
  | _ => none

/-- The JSON names of the fields of `EoGStatsBlock`, in declaration order. -/
def statsBlockFieldNames : List String :=
  ["gameDuration", "gameLength", "participants", "gameMode", "queueType", "gameType",
    "teamDragons", "teamBarons"]

/-- Decoding the value `v` into the field of `EoGStatsBlock` named `name`. -/
def setStatsBlockField (lit : Bool) (name : String) (v : JVal) (b : EoGStatsBlock) :
    Option EoGStatsBlock :=
  if name = "gameDuration" then
    (decodeInt lit v b.GameDurationSeconds).map (fun x => { b with GameDurationSeconds := x })
  else if name = "gameLength" then
    (decodeInt lit v b.GameLength).map (fun x => { b with GameLength := x })
  else if name = "participants" then
    (decodeSlice (decodeParticipant lit) {} v b.Participants).map
      (fun x => { b with Participants := x })
  else if name = "gameMode" then (decodeString v b.GameMode).map (fun x => { b with GameMode := x })
  else if name = "queueType" then
    (decodeString v b.QueueType).map (fun x => { b with QueueType := x })
  else if name = "gameType" then (decodeString v b.GameType).map (fun x => { b with GameType := x })
  else if name = "teamDragons" then
    (decodeIntMap lit v b.TeamDragons).map (fun x => { b with TeamDragons := x })
  else if name = "teamBarons" then
    (decodeIntMap lit v b.TeamBarons).map (fun x => { b with TeamBarons := x })
  else some b

/-- Decoding a JSON value into an `EoGStatsBlock` that holds `cur`. -/
def decodeStatsBlock (lit : Bool) (v : JVal) (cur : EoGStatsBlock) : Option EoGStatsBlock :=
  match v with
  | JVal.null => some cur
  | JVal.obj kvs =>
    decodeFields statsBlockFieldNames (setStatsBlockField lit) (membersRead lit kvs) cur
  | _ => none

/-- Decoding a JSON value into a `*EoGStatsBlock` that holds `cur`. -/
def decodeStatsBlockPtr (lit : Bool) (v : JVal) (cur : Option EoGStatsBlock) :
    Option (Option EoGStatsBlock) :=
  match v with
  | JVal.null => some none
  | JVal.obj kvs =>
    (decodeFields statsBlockFieldNames (setStatsBlockField lit) (membersRead lit kvs)
      (cur.getD {})).map some
  | _ => none

/-- The record `EoGStatsBlockWrapper`. -/
structure EoGStatsBlockWrapper where
  GameLength : Int := 0
  GameDuration : Int := 0
  StatsBlock : Option EoGStatsBlock := none
  Teams : List EoGTeam := []
  Participants : List EoGParticipant := []
deriving DecidableEq

/-- Decoding the value `v` into the field of `EoGStatsBlockWrapper` named
`name`. -/
def setWrapperField (lit : Bool) (name : String) (v : JVal) (w : EoGStatsBlockWrapper) :
    Option EoGStatsBlockWrapper :=
  if name = "gameLength" then
    (decodeInt lit v w.GameLength).map (fun x => { w with GameLength := x })
  else if name = "gameDuration" then
    (decodeInt lit v w.GameDuration).map (fun x => { w with GameDuration := x })
  else if name = "statsBlock" then
    (decodeStatsBlockPtr lit v w.StatsBlock).map (fun x => { w with StatsBlock := x })
  else if name = "teams" then
    (decodeSlice (decodeTeam lit) {} v w.Teams).map (fun x => { w with Teams := x })
  else if name = "participants" then
    (decodeSlice (decodeParticipant lit) {} v w.Participants).map
      (fun x => { w with Participants := x })
  else some w

/-- Decoding a JSON value into an `EoGStatsBlockWrapper` that holds `cur`. -/
def decodeWrapper (lit : Bool) (v : JVal) (cur : EoGStatsBlockWrapper) :
    Option EoGStatsBlockWrapper :=
  match v with
  | JVal.null => some cur
  | JVal.obj kvs =>
    decodeFields ["gameLength", "gameDuration", "statsBlock", "teams", "participants"]
      (setWrapperField lit) (membersRead lit kvs) cur
  | _ => none

/-! ## `extractParticipantFromMap` and `ParseEoGStats` -/

/-- The function `extractParticipantFromMap`. -/
def extractParticipantFromMap (playerMap : List (String × JVal)) : EoGParticipant :=
  let p : EoGParticipant :=
    { SummonerName := setString playerMap "summonerName" ""
      RiotIdGameName := setString playerMap "riotIdGameName" ""
      RiotIdTagLine := setString playerMap "riotIdTagLine" ""
      RiotIdTagline := setString playerMap "riotIdTagline" (setString playerMap "riotIdTagLine" "")
      DisplayName := setString playerMap "displayName" ""
      TeamID := setInt playerMap "teamId" 0
      ChampionName := setString playerMap "championName" ""
      ChampionID := setInt playerMap "championId" 0
      Leaver := setBool playerMap "leaver" false }
  match asMap (mapIndex playerMap "stats") with
  | some statsMap =>
    let q : EoGParticipant :=
      { p with
        Kills := setIntEither statsMap "kills" "CHAMPIONS_KILLED" p.Kills
        Deaths := setIntEither statsMap "deaths" "NUM_DEATHS" p.Deaths
        Assists := setIntEither statsMap "assists" "ASSISTS" p.Assists
        TotalMinionsKilled :=
          setIntEither statsMap "totalMinionsKilled" "MINIONS_KILLED" p.TotalMinionsKilled
        NeutralMinionsKilled :=
          setIntEither statsMap "neutralMinionsKilled" "NEUTRAL_MINIONS_KILLED"
            p.NeutralMinionsKilled
        GoldEarned := setIntEither statsMap "goldEarned" "GOLD_EARNED" p.GoldEarned
        TotalDamageDealtToChampions :=
          setIntEither statsMap "totalDamageDealtToChampions" "TOTAL_DAMAGE_DEALT_TO_CHAMPIONS"
            p.TotalDamageDealtToChampions
        VisionScore := setIntEither statsMap "VISION_SCORE" "visionScore" p.VisionScore
        Win := setBoolEither statsMap "win" "WIN" p.Win
        TotalDamageTaken :=
          setIntEither statsMap "totalDamageTaken" "TOTAL_DAMAGE_TAKEN" p.TotalDamageTaken
        TimeCCingOthers :=
          setIntEither statsMap "timeCCingOthers" "TIME_CCING_OTHERS" p.TimeCCingOthers
        TotalHealsOnTeammates :=
          setIntEither statsMap "totalHealsOnTeammates" "TOTAL_HEAL_ON_TEAMMATES"
            p.TotalHealsOnTeammates
        TotalDamageShieldedOnTeammates :=
          setIntEither statsMap "totalDamageShieldedOnTeammates"
            "TOTAL_DAMAGE_SHIELDED_ON_TEAMMATES" p.TotalDamageShieldedOnTeammates
        TotalDamageSelfMitigated :=
          setIntEither statsMap "totalDamageSelfMitigated" "TOTAL_DAMAGE_SELF_MITIGATED"
            p.TotalDamageSelfMitigated
        Leaver := setBoolEither statsMap "leaver" "WAS_AFK" p.Leaver }
    { q with
      Stats := some
        { Kills := q.Kills
          Deaths := q.Deaths
          Assists := q.Assists
          TotalMinionsKilled := q.TotalMinionsKilled
          NeutralMinionsKilled := q.NeutralMinionsKilled
          GoldEarned := q.GoldEarned
          TotalDamageDealtToChampions := q.TotalDamageDealtToChampions
          VisionScore := q.VisionScore
          Win := q.Win
          Leaver := q.Leaver
          TotalDamageTaken := q.TotalDamageTaken
          TimeCCingOthers := q.TimeCCingOthers
          TotalHealsOnTeammates := q.TotalHealsOnTeammates
          TotalDamageShieldedOnTeammates := q.TotalDamageShieldedOnTeammates
          TotalDamageSelfMitigated := q.TotalDamageSelfMitigated } }
  | none =>
    { p with
      Kills := setInt playerMap "kills" p.Kills
      Deaths := setInt playerMap "deaths" p.Deaths
      Assists := setInt playerMap "assists" p.Assists
      TotalMinionsKilled := setInt playerMap "totalMinionsKilled" p.TotalMinionsKilled
      NeutralMinionsKilled := setInt playerMap "neutralMinionsKilled" p.NeutralMinionsKilled
      GoldEarned := setInt playerMap "goldEarned" p.GoldEarned
      TotalDamageDealtToChampions :=
        setInt playerMap "totalDamageDealtToChampions" p.TotalDamageDealtToChampions
      VisionScore := setInt playerMap "visionScore" p.VisionScore
      Win := setBool playerMap "win" p.Win
      TotalDamageTaken := setInt playerMap "totalDamageTaken" p.TotalDamageTaken
      TimeCCingOthers := setInt playerMap "timeCCingOthers" p.TimeCCingOthers
      TotalHealsOnTeammates := setInt playerMap "totalHealsOnTeammates" p.TotalHealsOnTeammates
      TotalDamageShieldedOnTeammates :=
        setInt playerMap "totalDamageShieldedOnTeammates" p.TotalDamageShieldedOnTeammates
      Role := setString playerMap "role" p.Role
      Leaver := setBool playerMap "leaver" p.Leaver }

/-- The statement "Normalize riotIdTagLine -> riotIdTagline" of `ParseEoGStats`. -/
def normalizeTagline (p : EoGParticipant) : EoGParticipant :=
  if p.RiotIdTagLine ≠ "" ∧ p.RiotIdTagline = "" then { p with RiotIdTagline := p.RiotIdTagLine }
  else p

/-- The block "ALWAYS extract from nested stats object if present" of
`ParseEoGStats`: the upper-case keys of the nested stats overwrite the decoded
fields, and the fields are then copied into the `Stats` record, which is created
when the pointer is nil. -/
def upperBlock (statsMap : List (String × JVal)) (p : EoGParticipant) : EoGParticipant :=
  let q : EoGParticipant :=
    { p with
      TotalDamageDealtToChampions :=
        setInt statsMap "TOTAL_DAMAGE_DEALT_TO_CHAMPIONS" p.TotalDamageDealtToChampions
      Kills := setInt statsMap "CHAMPIONS_KILLED" p.Kills
      Deaths := setInt statsMap "NUM_DEATHS" p.Deaths
      Assists := setInt statsMap "ASSISTS" p.Assists
      GoldEarned := setInt statsMap "GOLD_EARNED" p.GoldEarned
      TotalMinionsKilled := setInt statsMap "MINIONS_KILLED" p.TotalMinionsKilled
      NeutralMinionsKilled := setInt statsMap "NEUTRAL_MINIONS_KILLED" p.NeutralMinionsKilled
      Win := setBool statsMap "WIN" p.Win
      TotalDamageTaken := setInt statsMap "TOTAL_DAMAGE_TAKEN" p.TotalDamageTaken
      TimeCCingOthers := setInt statsMap "TIME_CCING_OTHERS" p.TimeCCingOthers
      TotalHealsOnTeammates := setInt statsMap "TOTAL_HEAL_ON_TEAMMATES" p.TotalHealsOnTeammates
      TotalDamageShieldedOnTeammates :=
        setInt statsMap "TOTAL_DAMAGE_SHIELDED_ON_TEAMMATES" p.TotalDamageShieldedOnTeammates
      TotalDamageSelfMitigated :=
        setInt statsMap "TOTAL_DAMAGE_SELF_MITIGATED" p.TotalDamageSelfMitigated
      VisionScore := setIntEither statsMap "VISION_SCORE" "visionScore" p.VisionScore
      Leaver := setBool statsMap "WAS_AFK" p.Leaver }
  { q with
    Stats := some
      { (q.Stats.getD {}) with
        TotalDamageDealtToChampions := q.TotalDamageDealtToChampions
        Kills := q.Kills
        Deaths := q.Deaths
        Assists := q.Assists
        GoldEarned := q.GoldEarned
        TotalMinionsKilled := q.TotalMinionsKilled
        NeutralMinionsKilled := q.NeutralMinionsKilled
        Win := q.Win
        TotalDamageTaken := q.TotalDamageTaken
        TimeCCingOthers := q.TimeCCingOthers
        TotalHealsOnTeammates := q.TotalHealsOnTeammates
        TotalDamageShieldedOnTeammates := q.TotalDamageShieldedOnTeammates
        Leaver := q.Leaver } }

/-- The statement `if x == 0 && s > 0 { x = s }`. -/
def fillInt (x s : Int) : Int :=
  if x = 0 ∧ s > 0 then s else x

/-- The block "If Stats object exists but top-level fields are empty, copy from
Stats" of `ParseEoGStats`. -/
def fallbackBlock (p : EoGParticipant) : EoGParticipant :=
  match p.Stats with
  | none => p
  | some s =>
    { p with
      TotalDamageDealtToChampions :=
        fillInt p.TotalDamageDealtToChampions s.TotalDamageDealtToChampions
      Kills := fillInt p.Kills s.Kills
      Deaths := fillInt p.Deaths s.Deaths
      Assists := fillInt p.Assists s.Assists
      GoldEarned := fillInt p.GoldEarned s.GoldEarned
      VisionScore := fillInt p.VisionScore s.VisionScore
      TotalMinionsKilled := fillInt p.TotalMinionsKilled s.TotalMinionsKilled
      NeutralMinionsKilled := fillInt p.NeutralMinionsKilled s.NeutralMinionsKilled
      Win := if p.Win = false then s.Win else p.Win
      TotalDamageTaken := fillInt p.TotalDamageTaken s.TotalDamageTaken
      TimeCCingOthers := fillInt p.TimeCCingOthers s.TimeCCingOthers
      TotalHealsOnTeammates := fillInt p.TotalHealsOnTeammates s.TotalHealsOnTeammates
      TotalDamageShieldedOnTeammates :=
        fillInt p.TotalDamageShieldedOnTeammates s.TotalDamageShieldedOnTeammates
      Leaver := if p.Leaver = false then s.Leaver else p.Leaver }

/-- The statement `if v, ok := ...; ok && x == 0 { x = int(v) }`. -/
def fillFrom (o : Option ℚ) (x : Int) : Int :=
  match o with
  | some v => if x = 0 then goInt v else x
  | none => x

/-- The block "If stats are nested in playerMap but not extracted, extract them"
of `ParseEoGStats`: fields that are still 0 are filled from the nested stats, a
new `Stats` record is built from the fields, and the additional statistics found
in the nested stats are written to both. -/
def camelBlock (statsMap : List (String × JVal)) (p : EoGParticipant) : EoGParticipant :=
  let q : EoGParticipant :=
    { p with
      TotalDamageDealtToChampions :=
        match asFloat64 (mapIndex statsMap "totalDamageDealtToChampions") with
        | some v =>
          if p.TotalDamageDealtToChampions = 0 then goInt v
          else p.TotalDamageDealtToChampions
        | none =>
          match asFloat64 (mapIndex statsMap "TOTAL_DAMAGE_DEALT_TO_CHAMPIONS") with
          | some v =>
            if p.TotalDamageDealtToChampions = 0 then goInt v
            else p.TotalDamageDealtToChampions
          | none => p.TotalDamageDealtToChampions
      Kills := fillFrom (getNestedStat statsMap "kills" "CHAMPIONS_KILLED") p.Kills
      Deaths := fillFrom (getNestedStat statsMap "deaths" "NUM_DEATHS") p.Deaths
      Assists := fillFrom (getNestedStat statsMap "assists" "ASSISTS") p.Assists
      GoldEarned := fillFrom (getNestedStat statsMap "goldEarned" "GOLD_EARNED") p.GoldEarned
      VisionScore := fillFrom (asFloat64 (mapIndex statsMap "visionScore")) p.VisionScore
      TotalMinionsKilled :=
        fillFrom (getNestedStat statsMap "totalMinionsKilled" "MINIONS_KILLED")
          p.TotalMinionsKilled
      NeutralMinionsKilled :=
        fillFrom (getNestedStat statsMap "neutralMinionsKilled" "NEUTRAL_MINIONS_KILLED")
          p.NeutralMinionsKilled
      Win := setBoolEither statsMap "win" "WIN" p.Win
      TotalDamageTaken :=
        setIntEither statsMap "totalDamageTaken" "TOTAL_DAMAGE_TAKEN" p.TotalDamageTaken
      TimeCCingOthers :=
        setIntEither statsMap "timeCCingOthers" "TIME_CCING_OTHERS" p.TimeCCingOthers
      TotalHealsOnTeammates :=
        setIntEither statsMap "totalHealsOnTeammates" "TOTAL_HEAL_ON_TEAMMATES"
          p.TotalHealsOnTeammates
      TotalDamageShieldedOnTeammates :=
        setIntEither statsMap "totalDamageShieldedOnTeammates"
          "TOTAL_DAMAGE_SHIELDED_ON_TEAMMATES" p.TotalDamageShieldedOnTeammates
      TotalDamageSelfMitigated :=
        setIntEither statsMap "totalDamageSelfMitigated" "TOTAL_DAMAGE_SELF_MITIGATED"
          p.TotalDamageSelfMitigated
      Leaver := setBoolEither statsMap "leaver" "WAS_AFK" p.Leaver }
  { q with
    Stats := some
      { Kills := q.Kills
        Deaths := q.Deaths
        Assists := q.Assists
        TotalMinionsKilled := q.TotalMinionsKilled
        NeutralMinionsKilled := q.NeutralMinionsKilled
        GoldEarned := q.GoldEarned
        TotalDamageDealtToChampions := q.TotalDamageDealtToChampions
        VisionScore := q.VisionScore
        Win := q.Win
        TotalDamageTaken := setIntEither statsMap "totalDamageTaken" "TOTAL_DAMAGE_TAKEN" 0
        TimeCCingOthers := setIntEither statsMap "timeCCingOthers" "TIME_CCING_OTHERS" 0
        TotalHealsOnTeammates :=
          setIntEither statsMap "totalHealsOnTeammates" "TOTAL_HEAL_ON_TEAMMATES" 0
        TotalDamageShieldedOnTeammates :=
          setIntEither statsMap "totalDamageShieldedOnTeammates"
            "TOTAL_DAMAGE_SHIELDED_ON_TEAMMATES" 0
        TotalDamageSelfMitigated :=
          setIntEither statsMap "totalDamageSelfMitigated" "TOTAL_DAMAGE_SELF_MITIGATED" 0
        Leaver := setBoolEither statsMap "leaver" "WAS_AFK" false } }

/-- The body of the loop over `playersRaw` in `ParseEoGStats`, up to the test
for a name: the participant built from one element of `teams[].players`.  The
element is re-marshalled and decoded into an `EoGParticipant`; when that fails
the participant is extracted by hand, otherwise the decoded participant is
merged with its nested stats. -/
def parseTeamPlayer (playerRaw : JVal) : EoGParticipant :=
  match decodeParticipant false playerRaw {} with
  | none =>
    match playerRaw with
    | JVal.obj playerMap => extractParticipantFromMap playerMap
    | _ => {}
  | some p0 =>
    let p1 := normalizeTagline p0
    match playerRaw with
    | JVal.obj playerMap =>
      match asMap (mapIndex playerMap "stats") with
      | some statsMap => camelBlock statsMap (fallbackBlock (upperBlock statsMap p1))
      | none => fallbackBlock p1
    | _ => fallbackBlock p1

/-- The test "Only add if we have at least a name". -/
def hasName (p : EoGParticipant) : Bool :=
  decide (p.SummonerName ≠ "" ∨ p.RiotIdGameName ≠ "" ∨ p.DisplayName ≠ "")

/-- The participants that `ParseEoGStats` appends for one element of `teams`. -/
def teamParticipants (teamRaw : JVal) : List EoGParticipant :=
  match teamRaw with
  | JVal.obj teamMap =>
    match asArray (mapIndex teamMap "players") with
    | some playersRaw => (playersRaw.map parseTeamPlayer).filter hasName
    | none => []
  | _ => []

/-- The slice `allParticipants` of `ParseEoGStats` after the loop over
`teams`. -/
def teamsParticipants (rawData : List (String × JVal)) : List EoGParticipant :=
  match asArray (mapIndex rawData "teams") with
  | some teamsRaw => teamsRaw.foldr (fun teamRaw acc => teamParticipants teamRaw ++ acc) []
  | none => []

/-- The duration that the wrapper supplies: `GameLength` when positive, else
`GameDuration` when positive, else the value `cur` already there. -/
def wrapperDuration (w : EoGStatsBlockWrapper) (cur : Int) : Int :=
  if w.GameLength > 0 then w.GameLength
  else if w.GameDuration > 0 then w.GameDuration
  else cur

/-- The block "Fallback: try parsing as wrapper structure" of `ParseEoGStats`:
the record it returns, `none` when it falls through. -/
def wrapperResult (doc : JVal) : Option EoGStatsBlock :=
  match decodeWrapper true doc {} with
  | none => none
  | some wrapper =>
    if wrapper.Participants.length > 0 then
      some { Participants := wrapper.Participants
             GameDurationSeconds := wrapperDuration wrapper 0 }
    else
      match wrapper.StatsBlock with
      | some result =>
        if result.Participants.length > 0 then
          some (if result.GameDurationSeconds = 0 then
            { result with GameDurationSeconds := wrapperDuration wrapper result.GameDurationSeconds }
            else result)
        else none
      | none => none

/-- The first `json.Unmarshal` of `ParseEoGStats`, into a
`map[string]interface{}`: an object gives its members, `null` leaves the map nil,
any other value is an error. -/
def rawDataOf (doc : JVal) : Option (List (String × JVal)) :=
  match doc with
  | JVal.obj kvs => some kvs
  | JVal.null => some []
  | _ => none

/-- The function `ParseEoGStats`.  The argument is the JSON value that the bytes
`data` denote, `none` when they are not valid JSON; the result is the Go pair
`(*EoGStatsBlock, error)`, the error reduced to the message its text starts
with. -/
def ParseEoGStats (data : Option JVal) : Option EoGStatsBlock × Option String :=
  match data with
  | none => (none, some "failed to unmarshal raw data")
  | some doc =>
    match rawDataOf doc with
    | none => (none, some "failed to unmarshal raw data")
    | some rawData =>
      let gameDuration : Int :=
        match asFloat64 (mapIndex rawData "gameLength") with
        | some gameLength => goInt gameLength
        | none =>
          match asFloat64 (mapIndex rawData "gameDuration") with
          | some gameDurationRaw => goInt gameDurationRaw
          | none => 0
      let gameMode := setString rawData "gameMode" ""
      let queueType := setString rawData "queueType" ""
      let gameType := setString rawData "gameType" ""
      let allParticipants := teamsParticipants rawData
      if allParticipants.length > 0 then
        (some
          { Participants := allParticipants
            GameDurationSeconds := gameDuration
            GameMode := gameMode
            QueueType := queueType
            GameType := gameType },
         none)
      else
        match wrapperResult doc with
        | some result => (some result, none)
        | none =>
          match decodeStatsBlock true doc {} with
          | none => (none, some "failed to parse EoG stats")
          | some stats =>
            (some (if stats.GameDurationSeconds = 0 ∧ stats.GameLength > 0 then
              { stats with GameDurationSeconds := stats.GameLength } else stats),
             none)

/-! ## `FormatNumber` (`analyzer/format.go`) -/

/-- Rounding to the nearest integer, a tie going to the even one: the rounding of
the verbs `%.0f` and `%.1f`. -/
def roundHalfEven (x : ℚ) : Int :=
  let f := Rat.floor x
  if x - f < 1 / 2 then f
  else if x - f > 1 / 2 then f + 1
  else if f % 2 = 0 then f else f + 1

/-- The digits of `a` padded with zeros on the left to the width `w`. -/
def padDigits (w : Nat) (a : Nat) : String :=
  String.mk (List.replicate (w - (toString a).length) '0') ++ toString a

/-- The verb `%.<prec>f` applied to `x`: `x` rounded to `prec` decimals, written
with all of them.  The float is taken as the rational it stands for, so the model
gives the text Go prints whenever that rational is not a tie of the rounding that
the binary value breaks. -/
def formatFixed (prec : Nat) (x : ℚ) : String :=
  let r := roundHalfEven (x * (10 : ℚ) ^ prec)
  let a := r.natAbs
  let sign := if x < 0 then "-" else ""
  if prec = 0 then sign ++ toString a
  else sign ++ toString (a / 10 ^ prec) ++ "." ++ padDigits prec (a % 10 ^ prec)

/-- The function `FormatNumber`. -/
def FormatNumber (n : Int) : String :=
  if n < 1000 then toString n
  else if n < 10000 then
    let thousands : ℚ := (n : ℚ) / 1000.0
    if thousands = ((goInt thousands : Int) : ℚ) then formatFixed 0 thousands ++ "k"
    else formatFixed 1 thousands ++ "k"
  else if n < 1000000 then
    let thousands : ℚ := (n : ℚ) / 1000.0
    if thousands = ((goInt thousands : Int) : ℚ) then formatFixed 0 thousands ++ "k"
    else
      let rounded : ℚ := ((goInt (thousands * 10 + 0.5) : Int) : ℚ) / 10.0
      if rounded = ((goInt rounded : Int) : ℚ) then formatFixed 0 rounded ++ "k"
      else formatFixed 1 rounded ++ "k"
  else
    let millions : ℚ := (n : ℚ) / 1000000.0
    if millions = ((goInt millions : Int) : ℚ) then formatFixed 0 millions ++ "M"
    else formatFixed 1 millions ++ "M"

/-! ## Definitions used to state and prove the theorems -/

/-- The shape shared by the two loops that write `players[i]`: skip an index out
of range or an AFK player, otherwise replace `players[i]` by `f players i
players[i]`. -/
def updateAt (f : List PlayerSummary → Nat → PlayerSummary → PlayerSummary)
    (ps : List PlayerSummary) (i : Nat) : List PlayerSummary :=
  match ps[i]? with
  | none => ps
  | some p => if p.Afk then ps else ps.set i (f ps i p)

/-- The first `k` iterations of such a loop. -/
def loopUpTo (f : List PlayerSummary → Nat → PlayerSummary → PlayerSummary)
    (ps : List PlayerSummary) (k : Nat) : List PlayerSummary :=
  (List.range k).foldl (updateAt f) ps

/-- The game length in minutes as `AnalyzeGame` computes it. -/
def gameMinutesOf (stats : EoGStatsBlock) : ℚ :=
  (stats.GameDurationSeconds : ℚ) / 60.0

/-- The summary of participant `p` after the second pass of `AnalyzeGame`. -/
def basePlayer (stats : EoGStatsBlock) (p : EoGParticipant) : PlayerSummary :=
  buildPlayerSummary (gameMinutesOf stats) (teamTotals stats.Participants "kills")
    (teamTotals stats.Participants "totalDamageDealtToChampions")
    (teamTotals stats.Participants "goldEarned")
    (teamTotals stats.Participants "totalDamageTaken") p

/-- The players of `AnalyzeGame` after the standout and tag passes, i.e. the
`Players` of the summary it returns. -/
def finalPlayers (stats : EoGStatsBlock) (cfg : Config) : List PlayerSummary :=
  assignGoldenRulesTags
    (identifyStandoutPerformances (playersAfterAfk stats cfg) stats
      (findMyTeamID stats.Participants cfg))
    stats (gameMinutesOf stats) (findMyTeamID stats.Participants cfg)

/-- Player `p` with the ten standout flags of `q`. -/
def withFlagsOf (p q : PlayerSummary) : PlayerSummary :=
  { p with
    HighestDamageInGame := q.HighestDamageInGame
    HighestDamageOnTeam := q.HighestDamageOnTeam
    MostHealingInGame := q.MostHealingInGame
    MostShieldingInGame := q.MostShieldingInGame
    MostHealingShielding := q.MostHealingShielding
    HighestVisionInGame := q.HighestVisionInGame
    HighestVisionOnTeam := q.HighestVisionOnTeam
    MostCCInGame := q.MostCCInGame
    MostCCOnTeam := q.MostCCOnTeam
    MostTankingInGame := q.MostTankingInGame }

/-- None of the ten standout flags of `p` is set. -/
def NoFlags (p : PlayerSummary) : Prop :=
  withFlagsOf p {} = p

/-- Player `q` with an empty tag list. -/
def clearTags (q : PlayerSummary) : PlayerSummary :=
  { q with Tags := [] }

/-- Whether the AFK loop of `AnalyzeGame` marks participant `p`. -/
def afkOf (cfg : Config) (gm : ℚ) (p : EoGParticipant) : Bool :=
  (detectAfk cfg gm {} p).Afk

/-- The running maximum of `val` over the non-AFK players, started at `init`: one
field of the first loop of `identifyStandoutPerformances`. -/
def maxOver {α : Type} [LinearOrder α] (val : PlayerSummary → α) (ps : List PlayerSummary)
    (init : α) : α :=
  ps.foldl (fun m p => if p.Afk then m else if val p > m then val p else m) init

/-- Player `q` with no flag and no tag: the state before the standout and tag
passes. -/
def resetPlayer (q : PlayerSummary) : PlayerSummary :=
  withFlagsOf (clearTags q) {}

/-- Participant `h`, standing between `pre` and `post` in the input, is the first
holder of a category: among the participants selected by `sel`, `h` is not AFK,
its value is positive, no non-AFK participant exceeds it, and no non-AFK
participant before it equals it. -/
def FirstHolder (cfg : Config) (gm : ℚ) (sel : EoGParticipant → Prop)
    (val : EoGParticipant → Int) (pre post : List EoGParticipant) (h : EoGParticipant) : Prop :=
  sel h ∧ afkOf cfg gm h = false ∧ 0 < val h ∧
    (∀ p, p ∈ pre ++ post → sel p → afkOf cfg gm p = false → val p ≤ val h) ∧
    (∀ p, p ∈ pre → sel p → afkOf cfg gm p = false → val p ≠ val h)

/-- The record `stats` with the participant list `l`. -/
def withParticipants (stats : EoGStatsBlock) (l : List EoGParticipant) : EoGStatsBlock :=
  { stats with Participants := l }

/-- Two player lists of the same length that agree at every index, except that
where both hold an AFK player without flags the two players may be any. -/
def SameButAfk (ps ps2 : List PlayerSummary) : Prop :=
  ps.length = ps2.length ∧
    ∀ (j : Nat) (p p2 : PlayerSummary), ps[j]? = some p → ps2[j]? = some p2 →
      p = p2 ∨ (p.Afk = true ∧ p2.Afk = true ∧ NoFlags p ∧ NoFlags p2)

/-- Two players with the same AFK mark and the same two damage flags, equal when
not AFK. -/
def AfkAgree (p p2 : PlayerSummary) : Prop :=
  p.Afk = p2.Afk ∧ (p.Afk = false → p = p2) ∧
    p.HighestDamageInGame = p2.HighestDamageInGame ∧
    p.HighestDamageOnTeam = p2.HighestDamageOnTeam

/-- The relation `AfkAgree` at every index of two lists of the same length. -/
def ListAgree (l l2 : List PlayerSummary) : Prop :=
  l.length = l2.length ∧
    ∀ (j : Nat) (a b : PlayerSummary), l[j]? = some a → l2[j]? = some b → AfkAgree a b

/-- The number of the four criteria other than the utility score that a player
meets in `calculateTeamInsights`. -/
def excellenceWithoutUtility (player : PlayerSummary) : Nat :=
  (if player.Metrics.DamageShare ≥ 0.25 then 1 else 0)
    + (if player.Metrics.VSPM ≥ 1.5 then 1 else 0)
    + (if player.Metrics.KP ≥ 0.60 then 1 else 0)
    + (if player.Metrics.CSPM ≥ 6.0 then 1 else 0)

/-- The non-AFK players with team id `T` among `players`, in input order; `i` is
the index of the first player of the list. -/
def nonAfkOfTeam (stats : EoGStatsBlock) (T : Int) : Nat → List PlayerSummary → List PlayerSummary
  | _, [] => []
  | i, p :: rest =>
    if p.Afk = false ∧ teamIDAt stats i = T then p :: nonAfkOfTeam stats T (i + 1) rest
    else nonAfkOfTeam stats T (i + 1) rest

/-! ### Concrete matches used to instantiate the theorems -/

/-- A 30-minute match lost by `ann`, who deals all of her team's damage. -/
def lossStats : EoGStatsBlock :=
  { GameDurationSeconds := 1800
    Participants :=
      [ { SummonerName := "ann", TeamID := 100, ChampionName := "Ahri", Kills := 10, Deaths := 2,
          Assists := 5, TotalDamageDealtToChampions := 30000, GoldEarned := 12000,
          TotalMinionsKilled := 200, Win := false },
        { SummonerName := "bob", TeamID := 200, ChampionName := "Garen", Kills := 2,
          Deaths := 10, Assists := 1, TotalDamageDealtToChampions := 30000, GoldEarned := 9000,
          TotalMinionsKilled := 150, Win := true } ] }

def lossCfg : Config :=
  { MySummonerName := "ann", AFKThresholds := DefaultConfig.AFKThresholds }

/-- The summary `AnalyzeGame` returns for `lossStats`. -/
def lossSummary : GameSummary :=
  ((AnalyzeGame lossStats lossCfg).1).getD {}

/-- Entry `i` of the players of `lossSummary`. -/
def lossPlayer (i : Nat) : PlayerSummary :=
  lossSummary.Players.getD i {}

/-- The sum of the kills of all participants whose team id is `T`. -/
def teamKillsOf (stats : EoGStatsBlock) (T : Int) : Int :=
  ((stats.Participants.filter (fun p => decide (p.TeamID = T))).map
    (fun p => getPlayerStat p "kills")).sum

/-- A 30-minute match of two teams of five.  `kai` has kills 10, assists 5,
deaths 2 on a team whose kills sum to 20; `idle` has every counter at 0 and no
leaver flag; `lea` is flagged as a leaver although her statistics are the best of
the match. -/
def scenarioStats : EoGStatsBlock :=
  { GameDurationSeconds := 1800
    Participants :=
      [ { SummonerName := "kai", TeamID := 100, ChampionName := "Kaisa", Kills := 10,
          Deaths := 2, Assists := 5, TotalMinionsKilled := 220, GoldEarned := 14000,
          TotalDamageDealtToChampions := 28000, TotalDamageTaken := 15000, VisionScore := 20,
          Win := true },
        { SummonerName := "lee", TeamID := 100, ChampionName := "LeeSin", Kills := 4,
          Deaths := 5, Assists := 9, TotalMinionsKilled := 30, NeutralMinionsKilled := 60,
          GoldEarned := 10000, TotalDamageDealtToChampions := 12000, TotalDamageTaken := 30000,
          TotalHealsOnTeammates := 9000, VisionScore := 25, Win := true },
        { SummonerName := "max", TeamID := 100, ChampionName := "Malphite", Kills := 3,
          Deaths := 4, Assists := 8, TotalMinionsKilled := 170, GoldEarned := 9500,
          TotalDamageDealtToChampions := 9000, TotalDamageTaken := 40000,
          TimeCCingOthers := 60, VisionScore := 15, Role := "TOP", Win := true },
        { SummonerName := "nia", TeamID := 100, ChampionName := "Nami", Kills := 2,
          Deaths := 3, Assists := 14, TotalMinionsKilled := 20, GoldEarned := 8000,
          TotalDamageDealtToChampions := 6000, TotalDamageTaken := 12000,
          TotalHealsOnTeammates := 7000, VisionScore := 70, Win := true },
        { SummonerName := "oli", TeamID := 100, ChampionName := "Orianna", Kills := 1,
          Deaths := 6, Assists := 7, TotalMinionsKilled := 190, GoldEarned := 9800,
          TotalDamageDealtToChampions := 20000, TotalDamageTaken := 16000, VisionScore := 18,
          Win := true },
        { SummonerName := "pam", TeamID := 200, ChampionName := "Poppy", Kills := 6,
          Deaths := 5, Assists := 4, TotalMinionsKilled := 160, GoldEarned := 9900,
          TotalDamageDealtToChampions := 14000, TotalDamageTaken := 33000, VisionScore := 14 },
        { SummonerName := "idle", TeamID := 200, ChampionName := "Teemo" },
        { SummonerName := "lea", TeamID := 200, ChampionName := "Lux", Kills := 9, Deaths := 1,
          Assists := 3, TotalMinionsKilled := 150, GoldEarned := 11000,
          TotalDamageDealtToChampions := 50000, TotalDamageTaken := 9000,
          TotalHealsOnTeammates := 20000, TotalDamageShieldedOnTeammates := 20000,
          TimeCCingOthers := 500, VisionScore := 90, Leaver := true },
        { SummonerName := "sam", TeamID := 200, ChampionName := "Sona", Kills := 1, Deaths := 4,
          Assists := 10, TotalMinionsKilled := 25, GoldEarned := 7000,
          TotalDamageDealtToChampions := 5000, TotalDamageTaken := 11000,
          TotalHealsOnTeammates := 8000, VisionScore := 60 },
        { SummonerName := "tom", TeamID := 200, ChampionName := "Tristana", Kills := 4,
          Deaths := 6, Assists := 5, TotalMinionsKilled := 230, GoldEarned := 12000,
          TotalDamageDealtToChampions := 21000, TotalDamageTaken := 17000, VisionScore := 16 } ] }

def scenarioCfg : Config :=
  { MySummonerName := "kai", AFKThresholds := DefaultConfig.AFKThresholds }

/-- The summary `AnalyzeGame` returns for `scenarioStats`. -/
def scenarioSummary : GameSummary :=
  ((AnalyzeGame scenarioStats scenarioCfg).1).getD {}

/-- Entry `i` of the players of `scenarioSummary`. -/
def scenarioPlayer (i : Nat) : PlayerSummary :=
  scenarioSummary.Players.getD i {}

/-- A 20-minute match in which `bea` and `cal` have the same damage to champions,
the highest of the match. -/
def tieStats : EoGStatsBlock :=
  { GameDurationSeconds := 1200
    Participants :=
      [ { SummonerName := "abe", TeamID := 100, ChampionName := "Ashe", Kills := 3, Deaths := 4,
          Assists := 2, TotalDamageDealtToChampions := 20000, GoldEarned := 8000 },
        { SummonerName := "bea", TeamID := 100, ChampionName := "Brand", Kills := 5,
          Deaths := 3, Assists := 4, TotalDamageDealtToChampions := 30000, GoldEarned := 9000 },
        { SummonerName := "cal", TeamID := 200, ChampionName := "Corki", Kills := 6,
          Deaths := 5, Assists := 1, TotalDamageDealtToChampions := 30000, GoldEarned := 9500,
          Win := true } ] }

def tieCfg : Config :=
  { MySummonerName := "abe", AFKThresholds := DefaultConfig.AFKThresholds }

/-- The summary `AnalyzeGame` returns for `tieStats`. -/
def tieSummary : GameSummary :=
  ((AnalyzeGame tieStats tieCfg).1).getD {}

/-- Entry `i` of the players of `tieSummary`. -/
def tiePlayer (i : Nat) : PlayerSummary :=
  tieSummary.Players.getD i {}

/-- A match in which nobody dealt damage, healed, shielded, warded or applied
crowd control. -/
def quietStats : EoGStatsBlock :=
  { GameDurationSeconds := 300
    Participants :=
      [ { SummonerName := "dan", TeamID := 100, ChampionName := "Darius", Kills := 0,
          GoldEarned := 1500 },
        { SummonerName := "eve", TeamID := 200, ChampionName := "Ezreal", GoldEarned := 1400,
          Win := true } ] }

def quietCfg : Config :=
  { MySummonerName := "dan", AFKThresholds := DefaultConfig.AFKThresholds }

/-- The summary `AnalyzeGame` returns for `quietStats`. -/
def quietSummary : GameSummary :=
  ((AnalyzeGame quietStats quietCfg).1).getD {}

/-- A match in which two participants on different teams carry the viewer's
name `me`. -/
def twinStats : EoGStatsBlock :=
  { GameDurationSeconds := 300
    Participants :=
      [ { SummonerName := "xan", TeamID := 100, ChampionName := "Xayah", Kills := 1,
          TotalDamageDealtToChampions := 50 },
        { SummonerName := "me", TeamID := 100, ChampionName := "Varus", Kills := 1,
          TotalDamageDealtToChampions := 10 },
        { SummonerName := "me", TeamID := 200, ChampionName := "Vayne", Kills := 1,
          TotalDamageDealtToChampions := 20, Win := true } ] }

def twinCfg : Config :=
  { MySummonerName := "me", AFKThresholds := DefaultConfig.AFKThresholds }

/-- The participants of `twinStats` with the two that follow `xan` exchanged. -/
def twinSwapped : List EoGParticipant :=
  [ participantAt twinStats 0, participantAt twinStats 2, participantAt twinStats 1 ]

/-- The sum of `getStatValue p statName` over the participants of `pts` that the
AFK loop does not mark and that `sel` selects. -/
def sumNonAfk (cfg : Config) (gm : ℚ) (pts : List EoGParticipant)
    (sel : EoGParticipant → Bool) (statName : String) : Int :=
  ((pts.filter (fun p => !afkOf cfg gm p && sel p)).map
    (fun p => getStatValue p statName)).sum

/-- The totals of the intensity loop of `AnalyzeGame` as sums over the non-AFK
participants: all of them, those of team `T`, and the others. -/
def totalsOf (cfg : Config) (gm : ℚ) (pts : List EoGParticipant) (T : Int) : MatchTotals :=
  { totalKills := sumNonAfk cfg gm pts (fun _ => true) "kills"
    myTeamKills := sumNonAfk cfg gm pts (fun p => decide (p.TeamID = T)) "kills"
    enemyTeamKills := sumNonAfk cfg gm pts (fun p => !decide (p.TeamID = T)) "kills"
    myTeamGold := sumNonAfk cfg gm pts (fun p => decide (p.TeamID = T)) "goldEarned"
    enemyTeamGold := sumNonAfk cfg gm pts (fun p => !decide (p.TeamID = T)) "goldEarned"
    myTeamDamage :=
      sumNonAfk cfg gm pts (fun p => decide (p.TeamID = T)) "totalDamageDealtToChampions"
    enemyTeamDamage :=
      sumNonAfk cfg gm pts (fun p => !decide (p.TeamID = T)) "totalDamageDealtToChampions"
    myTeamDeaths := 0
    enemyTeamDeaths := 0 }

/-- Field-wise sum of two records of totals. -/
def addTotals (t u : MatchTotals) : MatchTotals :=
  { totalKills := t.totalKills + u.totalKills
    myTeamKills := t.myTeamKills + u.myTeamKills
    enemyTeamKills := t.enemyTeamKills + u.enemyTeamKills
    myTeamGold := t.myTeamGold + u.myTeamGold
    enemyTeamGold := t.enemyTeamGold + u.enemyTeamGold
    myTeamDamage := t.myTeamDamage + u.myTeamDamage
    enemyTeamDamage := t.enemyTeamDamage + u.enemyTeamDamage
    myTeamDeaths := t.myTeamDeaths + u.myTeamDeaths
    enemyTeamDeaths := t.enemyTeamDeaths + u.enemyTeamDeaths }

/-- The sum of a statistic over all non-AFK participants of the match. -/
def allTotal (stats : EoGStatsBlock) (cfg : Config) (statName : String) : Int :=
  sumNonAfk cfg (gameMinutesOf stats) stats.Participants (fun _ => true) statName

/-- The sum of a statistic over the non-AFK participants that carry the viewer's
team id. -/
def myTeamTotal (stats : EoGStatsBlock) (cfg : Config) (statName : String) : Int :=
  sumNonAfk cfg (gameMinutesOf stats) stats.Participants
    (fun p => decide (p.TeamID = findMyTeamID stats.Participants cfg)) statName

/-- The sum of a statistic over all other non-AFK participants. -/
def otherTeamTotal (stats : EoGStatsBlock) (cfg : Config) (statName : String) : Int :=
  sumNonAfk cfg (gameMinutesOf stats) stats.Participants
    (fun p => !decide (p.TeamID = findMyTeamID stats.Participants cfg)) statName

/-- The side `AnalyzeGame` reports as the winner. -/
def winningTeamOf (stats : EoGStatsBlock) : String :=
  match stats.Participants.find? (fun p => p.Win) with
  | some p => TeamIDToSide p.TeamID
  | none => "UNKNOWN"

/-- A 40-minute match whose payload names no winner and in which the viewer
`zed` does not play; `uma` carries no team id. -/
def ghostStats : EoGStatsBlock :=
  { GameDurationSeconds := 2400
    Participants :=
      [ { SummonerName := "uma", TeamID := 0, ChampionName := "Udyr", Kills := 30, Deaths := 28,
          Assists := 4, TotalMinionsKilled := 250, GoldEarned := 18000,
          TotalDamageDealtToChampions := 40000 },
        { SummonerName := "vic", TeamID := 200, ChampionName := "Viktor", Kills := 28,
          Deaths := 30, Assists := 3, TotalMinionsKilled := 260, GoldEarned := 17500,
          TotalDamageDealtToChampions := 39000 } ] }

def ghostCfg : Config :=
  { MySummonerName := "zed", AFKThresholds := DefaultConfig.AFKThresholds }

/-- A 36-minute match won by the viewer `wes`, whose team has 20 kills and 31
deaths against 31 kills and 20 deaths. -/
def bloodyStats : EoGStatsBlock :=
  { GameDurationSeconds := 2160
    Participants :=
      [ { SummonerName := "wes", TeamID := 100, ChampionName := "Warwick", Kills := 20,
          Deaths := 31, Assists := 6, TotalMinionsKilled := 240, GoldEarned := 16000,
          TotalDamageDealtToChampions := 35000, Win := true },
        { SummonerName := "yan", TeamID := 200, ChampionName := "Yasuo", Kills := 31,
          Deaths := 20, Assists := 5, TotalMinionsKilled := 255, GoldEarned := 17000,
          TotalDamageDealtToChampions := 42000 } ] }

def bloodyCfg : Config :=
  { MySummonerName := "wes", AFKThresholds := DefaultConfig.AFKThresholds }

/-- The summary `AnalyzeGame` returns for `bloodyStats`. -/
def bloodySummary : GameSummary :=
  ((AnalyzeGame bloodyStats bloodyCfg).1).getD {}

/-- The sum of the deaths of the participants with team id `T`. -/
def teamDeathsOf (stats : EoGStatsBlock) (T : Int) : Int :=
  ((stats.Participants.filter (fun p => decide (p.TeamID = T))).map
    (fun p => getPlayerStat p "deaths")).sum

/-- A 30-minute match in which the teammates `ada` and `ben` both have a vision
score of 60, i.e. 2 per minute, the highest of their team. -/
def visionTieStats : EoGStatsBlock :=
  { GameDurationSeconds := 1800
    Participants :=
      [ { SummonerName := "ada", TeamID := 100, ChampionName := "Ahri", Kills := 5, Deaths := 3,
          Assists := 4, TotalMinionsKilled := 200, GoldEarned := 11000,
          TotalDamageDealtToChampions := 20000, VisionScore := 60, Win := true },
        { SummonerName := "ben", TeamID := 100, ChampionName := "Bard", Kills := 1, Deaths := 4,
          Assists := 12, TotalMinionsKilled := 30, GoldEarned := 8000,
          TotalDamageDealtToChampions := 7000, VisionScore := 60, Win := true },
        { SummonerName := "cy", TeamID := 100, ChampionName := "Camille", Kills := 4,
          Deaths := 5, Assists := 3, TotalMinionsKilled := 190, GoldEarned := 10000,
          TotalDamageDealtToChampions := 15000, VisionScore := 20, Win := true },
        { SummonerName := "dee", TeamID := 200, ChampionName := "Diana", Kills := 12,
          Deaths := 10, Assists := 2, TotalMinionsKilled := 210, GoldEarned := 12000,
          TotalDamageDealtToChampions := 30000, VisionScore := 30 } ] }

def visionTieCfg : Config :=
  { MySummonerName := "ada", AFKThresholds := DefaultConfig.AFKThresholds }

/-- The summary `AnalyzeGame` returns for `visionTieStats`. -/
def visionTieSummary : GameSummary :=
  ((AnalyzeGame visionTieStats visionTieCfg).1).getD {}

/-- Entry `i` of the players of `visionTieSummary`. -/
def visionTiePlayer (i : Nat) : PlayerSummary :=
  visionTieSummary.Players.getD i {}

/-- A 30-minute match between teams with ids 300 and 400; team 400 took three
dragons and team 300 none. -/
def farTeamsStats : EoGStatsBlock :=
  { GameDurationSeconds := 1800
    TeamDragons := some [(400, 3)]
    Participants :=
      [ { SummonerName := "jo", TeamID := 300, ChampionName := "Jarvan", Kills := 4, Deaths := 6,
          Assists := 5, TotalMinionsKilled := 40, NeutralMinionsKilled := 120,
          GoldEarned := 9000, TotalDamageDealtToChampions := 11000, Role := "JUNGLE" },
        { SummonerName := "kim", TeamID := 300, ChampionName := "Kennen", Kills := 6,
          Deaths := 5, Assists := 2, TotalMinionsKilled := 200, GoldEarned := 11000,
          TotalDamageDealtToChampions := 18000, Role := "TOP" },
        { SummonerName := "liv", TeamID := 400, ChampionName := "Lulu", Kills := 11,
          Deaths := 10, Assists := 9, TotalMinionsKilled := 180, GoldEarned := 12500,
          TotalDamageDealtToChampions := 21000, Role := "MIDDLE", Win := true } ] }

def farTeamsCfg : Config :=
  { MySummonerName := "jo", AFKThresholds := DefaultConfig.AFKThresholds }

/-- The summary `AnalyzeGame` returns for `farTeamsStats`. -/
def farTeamsSummary : GameSummary :=
  ((AnalyzeGame farTeamsStats farTeamsCfg).1).getD {}

/-- Entry `i` of the players of `farTeamsSummary`. -/
def farTeamsPlayer (i : Nat) : PlayerSummary :=
  farTeamsSummary.Players.getD i {}

/-! ### Concrete payloads used to instantiate the theorems -/

/-- The participant `x` whose kills are given as a string. -/
def mistypedPlayer : JVal :=
  JVal.obj [("summonerName", JVal.str "x"), ("teamId", JVal.int 100), ("kills", JVal.str "abc"),
    ("deaths", JVal.int 2)]

/-- The payload with `mistypedPlayer` in a top-level `participants` list. -/
def mistypedTop : JVal :=
  JVal.obj [("gameLength", JVal.int 1800), ("participants", JVal.arr [mistypedPlayer])]

/-- The payload with `mistypedPlayer` in `statsBlock.participants`. -/
def mistypedNested : JVal :=
  JVal.obj [("gameLength", JVal.int 1800),
    ("statsBlock", JVal.obj [("participants", JVal.arr [mistypedPlayer])])]

/-- The payload with `mistypedPlayer` in `teams[].players`. -/
def mistypedTeams : JVal :=
  JVal.obj [("gameLength", JVal.int 1800),
    ("teams", JVal.arr [JVal.obj [("teamId", JVal.int 100),
      ("players", JVal.arr [mistypedPlayer])]])]

/-- A payload with one player in `teams[].players`, `gameLength` 0 and
`gameDuration` 1800. -/
def zeroLengthTeams : JVal :=
  JVal.obj [("gameLength", JVal.int 0), ("gameDuration", JVal.int 1800),
    ("teams", JVal.arr [JVal.obj [("teamId", JVal.int 100),
      ("players", JVal.arr [JVal.obj [("summonerName", JVal.str "x"), ("kills", JVal.int 3)]])]])]

/-- The same player in a top-level `participants` list, with the same two
durations. -/
def zeroLengthTop : JVal :=
  JVal.obj [("gameLength", JVal.int 0), ("gameDuration", JVal.int 1800),
    ("participants", JVal.arr [JVal.obj [("summonerName", JVal.str "x"), ("kills", JVal.int 3)]])]

/-- The integer counters that an `EoGParticipant` holds at top level and in its
`Stats` record. -/
inductive Counter where
  | kills | deaths | assists | gold | minions | neutralMinions | damage
  | vision | damageTaken | cc | heals | shields | selfMitigated
deriving DecidableEq

/-- The camelCase key of a counter: the JSON name of its field. -/
def Counter.camelKey : Counter → String
  | .kills => "kills"
  | .deaths => "deaths"
  | .assists => "assists"
  | .gold => "goldEarned"
  | .minions => "totalMinionsKilled"
  | .neutralMinions => "neutralMinionsKilled"
  | .damage => "totalDamageDealtToChampions"
  | .vision => "visionScore"
  | .damageTaken => "totalDamageTaken"
  | .cc => "timeCCingOthers"
  | .heals => "totalHealsOnTeammates"
  | .shields => "totalDamageShieldedOnTeammates"
  | .selfMitigated => "totalDamageSelfMitigated"

/-- The UPPER_SNAKE_CASE key under which `ParseEoGStats` looks a counter up in
the nested stats. -/
def Counter.upperKey : Counter → String
  | .kills => "CHAMPIONS_KILLED"
  | .deaths => "NUM_DEATHS"
  | .assists => "ASSISTS"
  | .gold => "GOLD_EARNED"
  | .minions => "MINIONS_KILLED"
  | .neutralMinions => "NEUTRAL_MINIONS_KILLED"
  | .damage => "TOTAL_DAMAGE_DEALT_TO_CHAMPIONS"
  | .vision => "VISION_SCORE"
  | .damageTaken => "TOTAL_DAMAGE_TAKEN"
  | .cc => "TIME_CCING_OTHERS"
  | .heals => "TOTAL_HEAL_ON_TEAMMATES"
  | .shields => "TOTAL_DAMAGE_SHIELDED_ON_TEAMMATES"
  | .selfMitigated => "TOTAL_DAMAGE_SELF_MITIGATED"

/-- The top-level field of a counter. -/
def Counter.top : Counter → EoGParticipant → Int
  | .kills, p => p.Kills
  | .deaths, p => p.Deaths
  | .assists, p => p.Assists
  | .gold, p => p.GoldEarned
  | .minions, p => p.TotalMinionsKilled
  | .neutralMinions, p => p.NeutralMinionsKilled
  | .damage, p => p.TotalDamageDealtToChampions
  | .vision, p => p.VisionScore
  | .damageTaken, p => p.TotalDamageTaken
  | .cc, p => p.TimeCCingOthers
  | .heals, p => p.TotalHealsOnTeammates
  | .shields, p => p.TotalDamageShieldedOnTeammates
  | .selfMitigated, p => p.TotalDamageSelfMitigated

/-- The field of a counter in the `Stats` record. -/
def Counter.nested : Counter → EoGPlayerStats → Int
  | .kills, s => s.Kills
  | .deaths, s => s.Deaths
  | .assists, s => s.Assists
  | .gold, s => s.GoldEarned
  | .minions, s => s.TotalMinionsKilled
  | .neutralMinions, s => s.NeutralMinionsKilled
  | .damage, s => s.TotalDamageDealtToChampions
  | .vision, s => s.VisionScore
  | .damageTaken, s => s.TotalDamageTaken
  | .cc, s => s.TimeCCingOthers
  | .heals, s => s.TotalHealsOnTeammates
  | .shields, s => s.TotalDamageShieldedOnTeammates
  | .selfMitigated, s => s.TotalDamageSelfMitigated

/-- The seven counters that the last block of the player loop fills from the
nested stats only when they are still 0. -/
def Counter.filledWhenZero : Counter → Bool
  | .kills | .deaths | .assists | .gold | .minions | .neutralMinions | .damage => true
  | _ => false

/-- A player of `teams[].players` with kills 7 at top level and 0 under the
upper-case key of the nested stats. -/
def upperZeroPlayer : JVal :=
  JVal.obj [("summonerName", JVal.str "x"), ("kills", JVal.int 7),
    ("stats", JVal.obj [("CHAMPIONS_KILLED", JVal.int 0)])]

/-- The same player with the nested 0 under the camelCase key. -/
def camelZeroPlayer : JVal :=
  JVal.obj [("summonerName", JVal.str "x"), ("kills", JVal.int 7),
    ("stats", JVal.obj [("kills", JVal.int 0)])]

/-- A player of `teams[].players` with vision score 30 at top level and 0 in the
nested stats. -/
def visionZeroPlayer : JVal :=
  JVal.obj [("summonerName", JVal.str "x"), ("visionScore", JVal.int 30),
    ("stats", JVal.obj [("visionScore", JVal.int 0)])]

mutual
/-- Every number in the JSON value is at least 0 and below `2^63`: none is
negative, and `int(v)` of each is its truncation. -/
def JVal.inRange : JVal → Bool
  | JVal.num q _ => decide (0 ≤ q ∧ q < 9223372036854775808)
  | JVal.arr xs => inRangeList xs
  | JVal.obj kvs => inRangeFields kvs
  | _ => true
/-- Every number in the JSON values of the list is at least 0 and below `2^63`. -/
def inRangeList : List JVal → Bool
  | [] => true
  | x :: xs => x.inRange && inRangeList xs
/-- Every number in the members is at least 0 and below `2^63`. -/
def inRangeFields : List (String × JVal) → Bool
  | [] => true
  | kv :: kvs => kv.2.inRange && inRangeFields kvs
end

/-- Every counter of the `Stats` record is non-negative. -/
def GoodStats (s : EoGPlayerStats) : Prop :=
  ∀ c : Counter, 0 ≤ c.nested s

/-- Every counter of the participant is non-negative, at top level and in the
`Stats` record. -/
def GoodParticipant (p : EoGParticipant) : Prop :=
  (∀ c : Counter, 0 ≤ c.top p) ∧ ∀ s, p.Stats = some s → GoodStats s

/-- The durations and the counters of every participant of the record are
non-negative. -/
def GoodBlock (b : EoGStatsBlock) : Prop :=
  0 ≤ b.GameDurationSeconds ∧ 0 ≤ b.GameLength ∧ ∀ p ∈ b.Participants, GoodParticipant p

/-- The durations, the counters of the nested record and the counters of the
participants of the wrapper are non-negative. -/
def GoodWrapper (w : EoGStatsBlockWrapper) : Prop :=
  0 ≤ w.GameLength ∧ 0 ≤ w.GameDuration ∧ (∀ sb, w.StatsBlock = some sb → GoodBlock sb) ∧
    ∀ p ∈ w.Participants, GoodParticipant p

/-- A payload with one player in `teams[].players` whose kills are -5, and with
`gameLength` -60. -/
def negativeTeams : JVal :=
  JVal.obj [("gameLength", JVal.int (-60)),
    ("teams", JVal.arr [JVal.obj [("teamId", JVal.int 100),
      ("players", JVal.arr [JVal.obj [("summonerName", JVal.str "x"),
        ("kills", JVal.int (-5))]])]])]

/-- A payload without negative number in which `gameLength` and the kills of the
one player of `teams[].players` are `1e19`, above every `int64`. -/
def hugeTeams : JVal :=
  JVal.obj [("gameLength", JVal.num 10000000000000000000 false),
    ("teams", JVal.arr [JVal.obj [("players", JVal.arr [JVal.obj [("summonerName", JVal.str "x"),
      ("kills", JVal.num 10000000000000000000 false)]])]])]

/-! # Theorems -/

/-! ## Loops that write `players[i]` -/

theorem updateAt_length (f : List PlayerSummary → Nat → PlayerSummary → PlayerSummary)
    (ps : List PlayerSummary) (i : Nat) : (updateAt f ps i).length = ps.length := by
  unfold updateAt
  split
  · rfl
  · split <;> simp

theorem updateAt_getElem?_ne (f : List PlayerSummary → Nat → PlayerSummary → PlayerSummary)
    (ps : List PlayerSummary) {i j : Nat} (h : i ≠ j) : (updateAt f ps i)[j]? = ps[j]? := by
  unfold updateAt
  split
  · rfl
  · split
    · rfl
    · simp [List.getElem?_set_ne h]

theorem updateAt_getElem?_self (f : List PlayerSummary → Nat → PlayerSummary → PlayerSummary)
    (ps : List PlayerSummary) {i : Nat} {p : PlayerSummary} (h : ps[i]? = some p) :
    (updateAt f ps i)[i]? = some (if p.Afk then p else f ps i p) := by
  unfold updateAt
  rw [h]
  by_cases hp : p.Afk = true
  · simp [hp, h]
  · have hi : i < ps.length := by
      rcases List.getElem?_eq_some.1 h with ⟨hi, _⟩
      exact hi
    simp [hp, List.getElem?_set_self hi]

theorem loopUpTo_succ (f : List PlayerSummary → Nat → PlayerSummary → PlayerSummary)
    (ps : List PlayerSummary) (k : Nat) :
    loopUpTo f ps (k + 1) = updateAt f (loopUpTo f ps k) k := by
  simp [loopUpTo, List.range_succ, List.foldl_append]

theorem loopUpTo_length (f : List PlayerSummary → Nat → PlayerSummary → PlayerSummary)
    (ps : List PlayerSummary) (k : Nat) : (loopUpTo f ps k).length = ps.length := by
  induction k with
  | zero => rfl
  | succ k ih => rw [loopUpTo_succ, updateAt_length, ih]

theorem loopUpTo_getElem?_ge (f : List PlayerSummary → Nat → PlayerSummary → PlayerSummary)
    (ps : List PlayerSummary) {k j : Nat} (h : k ≤ j) : (loopUpTo f ps k)[j]? = ps[j]? := by
  induction k with
  | zero => rfl
  | succ k ih =>
    rw [loopUpTo_succ, updateAt_getElem?_ne f _ (by omega), ih (by omega)]

theorem loopUpTo_getElem?_lt (f : List PlayerSummary → Nat → PlayerSummary → PlayerSummary)
    (ps : List PlayerSummary) {k j : Nat} (h : j < k) :
    (loopUpTo f ps k)[j]? = (loopUpTo f ps (j + 1))[j]? := by
  induction k with
  | zero => omega
  | succ k ih =>
    by_cases hk : j = k
    · subst hk; rfl
    · rw [loopUpTo_succ, updateAt_getElem?_ne f _ (by omega), ih (by omega)]

theorem loopUpTo_getElem?_done (f : List PlayerSummary → Nat → PlayerSummary → PlayerSummary)
    (ps : List PlayerSummary) {k j : Nat} {p : PlayerSummary} (hp : ps[j]? = some p)
    (h : j < k) :
    (loopUpTo f ps k)[j]? = some (if p.Afk then p else f (loopUpTo f ps j) j p) := by
  rw [loopUpTo_getElem?_lt f ps h, loopUpTo_succ]
  exact updateAt_getElem?_self f _ (by rw [loopUpTo_getElem?_ge f ps (le_refl j)]; exact hp)

theorem markStandout_eq_updateAt (stats : EoGStatsBlock) (mx : GameMaxima)
    (a b c : Int → Int) :
    markStandout stats mx a b c = updateAt (markPlayer stats mx a b c) := rfl

theorem tagStep_eq_updateAt (stats : EoGStatsBlock) (gm : ℚ) (tp : Int → List Nat)
    (td tb : List (Int × Int)) :
    tagStep stats gm tp td tb = updateAt (tagPlayer stats gm tp td tb) := rfl

/-! ## The pipeline of `AnalyzeGame` -/

theorem zipWith_map_self {α β γ : Type} (f : β → α → γ) (g : α → β) (l : List α) :
    List.zipWith f (l.map g) l = l.map (fun x => f (g x) x) := by
  induction l with
  | nil => rfl
  | cons a l ih => simp [ih]

theorem playersAfterAfk_eq (stats : EoGStatsBlock) (cfg : Config) :
    playersAfterAfk stats cfg
      = stats.Participants.map
          (fun p => detectAfk cfg (gameMinutesOf stats) (basePlayer stats p) p) := by
  unfold playersAfterAfk basePlayer gameMinutesOf
  exact zipWith_map_self _ _ _

theorem playersAfterAfk_getElem? (stats : EoGStatsBlock) (cfg : Config) (i : Nat) :
    (playersAfterAfk stats cfg)[i]?
      = (stats.Participants[i]?).map
          (fun p => detectAfk cfg (gameMinutesOf stats) (basePlayer stats p) p) := by
  rw [playersAfterAfk_eq, List.getElem?_map]

theorem playersAfterAfk_length (stats : EoGStatsBlock) (cfg : Config) :
    (playersAfterAfk stats cfg).length = stats.Participants.length := by
  rw [playersAfterAfk_eq, List.length_map]

theorem AnalyzeGame_some {stats : EoGStatsBlock} {cfg : Config} {s : GameSummary}
    (h : (AnalyzeGame stats cfg).1 = some s) :
    s.Players = finalPlayers stats cfg ∧
      s.Achievements
        = calculateAchievements (finalPlayers stats cfg) stats
            (findMyTeamID stats.Participants cfg) := by
  unfold AnalyzeGame at h
  split at h
  · simp at h
  · simp only [Option.some.injEq] at h
    subst h
    exact ⟨rfl, rfl⟩

theorem identify_eq_loop (ps : List PlayerSummary) (stats : EoGStatsBlock) (t : Int) :
    identifyStandoutPerformances ps stats t
      = loopUpTo (markPlayer stats (gameMaxima ps) (teamMax stats (fun p => p.TotalDamage) ps)
          (teamMax stats (fun p => p.VisionScore) ps) (teamMax stats (fun p => p.TotalCC) ps))
          ps ps.length := rfl

theorem assign_eq_loop (ps : List PlayerSummary) (stats : EoGStatsBlock) (gm : ℚ) (t : Int) :
    assignGoldenRulesTags ps stats gm t
      = loopUpTo (tagPlayer stats gm (groupTeamPlayers stats 0 ps (fun _ => []))
          (stats.TeamDragons.getD []) (stats.TeamBarons.getD [])) ps ps.length := rfl

/-- A loop whose body keeps a projection `g` of the player keeps it at every index. -/
theorem loopUpTo_preserves {β : Type} (g : PlayerSummary → β)
    (f : List PlayerSummary → Nat → PlayerSummary → PlayerSummary)
    (hf : ∀ l i p, g (f l i p) = g p) (ps : List PlayerSummary) (k j : Nat) :
    ((loopUpTo f ps k)[j]?).map g = (ps[j]?).map g := by
  by_cases h : j < k
  · cases hp : ps[j]? with
    | none =>
      have hlen : ps.length ≤ j := List.getElem?_eq_none_iff.1 hp
      have : (loopUpTo f ps k)[j]? = none :=
        List.getElem?_eq_none_iff.2 (by rw [loopUpTo_length]; exact hlen)
      rw [this]
    | some p =>
      rw [loopUpTo_getElem?_done f ps hp h]
      by_cases hA : p.Afk = true <;> simp [hA, hf]
  · rw [loopUpTo_getElem?_ge f ps (by omega)]

theorem identify_length (ps : List PlayerSummary) (stats : EoGStatsBlock) (t : Int) :
    (identifyStandoutPerformances ps stats t).length = ps.length := by
  rw [identify_eq_loop, loopUpTo_length]

theorem assign_length (ps : List PlayerSummary) (stats : EoGStatsBlock) (gm : ℚ) (t : Int) :
    (assignGoldenRulesTags ps stats gm t).length = ps.length := by
  rw [assign_eq_loop, loopUpTo_length]

theorem finalPlayers_length (stats : EoGStatsBlock) (cfg : Config) :
    (finalPlayers stats cfg).length = stats.Participants.length := by
  unfold finalPlayers
  rw [assign_length, identify_length, playersAfterAfk_length]

/-- The standout pass changes nothing but the ten flags. -/
theorem identify_frame (ps : List PlayerSummary) (stats : EoGStatsBlock) (t : Int) (j : Nat) :
    ((identifyStandoutPerformances ps stats t)[j]?).map (fun q => withFlagsOf q {})
      = (ps[j]?).map (fun q => withFlagsOf q {}) := by
  rw [identify_eq_loop]
  exact loopUpTo_preserves (fun q => withFlagsOf q {}) (markPlayer stats _ _ _ _)
    (fun _ _ _ => rfl) ps _ j

/-- The tag pass changes nothing but the tag list. -/
theorem assign_frame (ps : List PlayerSummary) (stats : EoGStatsBlock) (gm : ℚ) (t : Int)
    (j : Nat) :
    ((assignGoldenRulesTags ps stats gm t)[j]?).map clearTags
      = (ps[j]?).map clearTags := by
  rw [assign_eq_loop]
  exact loopUpTo_preserves clearTags (tagPlayer stats gm _ _ _)
    (fun _ _ _ => rfl) ps _ j

theorem identify_field {β : Type} (g : PlayerSummary → β)
    (hg : ∀ q, g (withFlagsOf q {}) = g q) (ps : List PlayerSummary) (stats : EoGStatsBlock)
    (t : Int) (j : Nat) :
    ((identifyStandoutPerformances ps stats t)[j]?).map g = (ps[j]?).map g := by
  have h := congrArg (Option.map g) (identify_frame ps stats t j)
  simpa [Option.map_map, Function.comp_def, hg] using h

theorem detectAfk_eq (cfg : Config) (gm : ℚ) (pl : PlayerSummary) (p : EoGParticipant) :
    detectAfk cfg gm pl p = { pl with Afk := pl.Afk || afkOf cfg gm p } := by
  cases pl
  unfold afkOf detectAfk
  dsimp only
  split_ifs <;> simp

theorem playersAfterAfk_tags (stats : EoGStatsBlock) (cfg : Config) (j : Nat) (q : PlayerSummary)
    (h : (playersAfterAfk stats cfg)[j]? = some q) : q.Tags = [] := by
  rw [playersAfterAfk_getElem?] at h
  cases hp : stats.Participants[j]? with
  | none => simp [hp] at h
  | some p =>
    simp only [hp, Option.map_some', Option.some.injEq] at h
    rw [← h, detectAfk_eq]
    rfl

theorem mem_appendIf (c : Prop) [Decidable c] (tags : List String) (tag x : String) :
    x ∈ appendIf c tags tag ↔ x ∈ tags ∨ (c ∧ x = tag) := by
  unfold appendIf
  split_ifs with h <;> simp [h]

/-- With an empty tag list in the copy `p`, the last rule of the tagging loop
finds no qualifying tag and adds nothing. -/
theorem tagsFor_not_heroic (stats : EoGStatsBlock) (gm : ℚ) (tp : Int → List Nat)
    (td tb : List (Int × Int)) (ps : List PlayerSummary) (i : Nat) (p : PlayerSummary)
    (h : p.Tags = []) : "heroic_in_loss" ∉ tagsFor stats gm tp td tb ps i p := by
  unfold tagsFor
  simp only [mem_appendIf, h, List.any_nil]
  simp

theorem finalPlayers_not_heroic (stats : EoGStatsBlock) (cfg : Config) (j : Nat)
    (q : PlayerSummary) (h : (finalPlayers stats cfg)[j]? = some q) :
    "heroic_in_loss" ∉ q.Tags := by
  unfold finalPlayers at h
  rw [assign_eq_loop] at h
  generalize hps : identifyStandoutPerformances (playersAfterAfk stats cfg) stats
    (findMyTeamID stats.Participants cfg) = ps at h
  have hj : j < ps.length := by
    have := List.getElem?_eq_some.1 h
    rcases this with ⟨hj, _⟩
    rwa [loopUpTo_length] at hj
  obtain ⟨p, hp⟩ : ∃ p, ps[j]? = some p := ⟨ps[j], List.getElem?_eq_getElem hj⟩
  have htags : p.Tags = [] := by
    have h1 := identify_field (fun q => q.Tags) (fun _ => rfl) (playersAfterAfk stats cfg) stats
      (findMyTeamID stats.Participants cfg) j
    rw [hps, hp] at h1
    cases h0 : (playersAfterAfk stats cfg)[j]? with
    | none => simp [h0] at h1
    | some p0 =>
      simp only [h0, Option.map_some', Option.some.injEq] at h1
      rw [h1]
      exact playersAfterAfk_tags stats cfg j p0 h0
  rw [loopUpTo_getElem?_done _ ps hp hj] at h
  simp only [Option.some.injEq] at h
  subst h
  by_cases hA : p.Afk = true
  · simp [hA, htags]
  · simp only [hA, Bool.false_eq_true, if_false]
    exact tagsFor_not_heroic _ _ _ _ _ _ _ _ htags

/-! ## The first-found rule of the marking loop -/

theorem exists_first_of_exists (G : Nat → Prop) (j : Nat) (h : ∃ i, i < j ∧ G i) :
    ∃ i, i < j ∧ G i ∧ ∀ i2, i2 < i → ¬ G i2 := by
  classical
  have hex : ∃ i, G i := by
    rcases h with ⟨i, _, hi⟩
    exact ⟨i, hi⟩
  refine ⟨Nat.find hex, ?_, Nat.find_spec hex, fun i2 hi2 => Nat.find_min hex hi2⟩
  rcases h with ⟨i, hij, hi⟩
  exact lt_of_le_of_lt (Nat.find_min' hex hi) hij

/-- A flag that the loop body sets on a candidate only while no player with the
same key carries it ends up on the first non-AFK candidate of every key. -/
theorem single_holder {κ : Type} (key : Nat → κ) (flag : PlayerSummary → Bool)
    (cand : Nat → PlayerSummary → Prop)
    (F : List PlayerSummary → Nat → PlayerSummary → PlayerSummary) (ps : List PlayerSummary)
    (hflag0 : ∀ (j : Nat) (p : PlayerSummary), ps[j]? = some p → flag p = false)
    (hF : ∀ (l : List PlayerSummary) (i : Nat) (p : PlayerSummary), flag p = false →
      (flag (F l i p) = true ↔
        cand i p ∧ ¬ ∃ (j2 : Nat) (q : PlayerSummary), l[j2]? = some q ∧ key j2 = key i ∧ flag q = true)) :
    ∀ (j k : Nat) (p q : PlayerSummary), j < k → ps[j]? = some p →
      (loopUpTo F ps k)[j]? = some q →
      (flag q = true ↔
        p.Afk = false ∧ cand j p ∧
          ∀ (j2 : Nat) (p2 : PlayerSummary), j2 < j → ps[j2]? = some p2 → key j2 = key j → p2.Afk = false →
            ¬ cand j2 p2) := by
  intro j
  induction j using Nat.strong_induction_on with
  | _ j ih =>
    intro k p q hjk hp hq
    rw [loopUpTo_getElem?_done F ps hp hjk] at hq
    simp only [Option.some.injEq] at hq
    by_cases hA : p.Afk = true
    · simp only [hA, if_true] at hq
      subst hq
      simp [hflag0 j _ hp, hA]
    · simp only [hA, Bool.false_eq_true, if_false] at hq
      subst hq
      have hA2 : p.Afk = false := by simpa using hA
      rw [hF _ _ _ (hflag0 j p hp)]
      have key_iff :
          (∃ (j2 : Nat) (q : PlayerSummary), (loopUpTo F ps j)[j2]? = some q ∧ key j2 = key j ∧ flag q = true) ↔
            ∃ j2, j2 < j ∧ ∃ p2, ps[j2]? = some p2 ∧ key j2 = key j ∧ p2.Afk = false ∧
              cand j2 p2 := by
        constructor
        · rintro ⟨j2, q2, hq2, hkey, hfl⟩
          by_cases hlt : j2 < j
          · have hj2len : j2 < ps.length := by
              rcases List.getElem?_eq_some.1 hq2 with ⟨hlen, _⟩
              rwa [loopUpTo_length] at hlen
            have hp2 : ps[j2]? = some ps[j2] := List.getElem?_eq_getElem hj2len
            have := (ih j2 hlt j ps[j2] q2 hlt hp2 hq2).1 hfl
            exact ⟨j2, hlt, ps[j2], hp2, hkey, this.1, this.2.1⟩
          · rw [loopUpTo_getElem?_ge F ps (by omega)] at hq2
            rw [hflag0 j2 q2 hq2] at hfl
            exact absurd hfl (by simp)
        · intro hex
          obtain ⟨j2, hlt, ⟨p2, hp2, hkey, hafk, hc⟩, hmin⟩ :=
            exists_first_of_exists
              (fun j2 => ∃ p2, ps[j2]? = some p2 ∧ key j2 = key j ∧ p2.Afk = false ∧ cand j2 p2)
              j hex
          have hj2len : j2 < (loopUpTo F ps j).length := by
            rw [loopUpTo_length]
            exact (List.getElem?_eq_some.1 hp2).1
          have hq2 : (loopUpTo F ps j)[j2]? = some (loopUpTo F ps j)[j2] :=
            List.getElem?_eq_getElem hj2len
          refine ⟨j2, _, hq2, hkey, (ih j2 hlt j p2 _ hlt hp2 hq2).2 ⟨hafk, hc, ?_⟩⟩
          intro j3 p3 hj3 hp3 hkey3 hafk3 hc3
          exact hmin j3 hj3 ⟨p3, hp3, hkey3.trans hkey, hafk3, hc3⟩
      rw [key_iff]
      constructor
      · rintro ⟨hc, hno⟩
        refine ⟨hA2, hc, ?_⟩
        intro j2 p2 hj2 hp2 hkey hafk hc2
        exact hno ⟨j2, hj2, p2, hp2, hkey, hafk, hc2⟩
      · rintro ⟨_, hc, hno⟩
        refine ⟨hc, ?_⟩
        rintro ⟨j2, hj2, p2, hp2, hkey, hafk, hc2⟩
        exact hno j2 p2 hj2 hp2 hkey hafk hc2

/-! ## The maxima of `identifyStandoutPerformances` -/

theorem maxOver_cons {α : Type} [LinearOrder α] (val : PlayerSummary → α) (p : PlayerSummary)
    (ps : List PlayerSummary) (init : α) :
    maxOver val (p :: ps) init
      = maxOver val ps (if p.Afk then init else if val p > init then val p else init) := rfl

theorem le_maxOver {α : Type} [LinearOrder α] (val : PlayerSummary → α)
    (ps : List PlayerSummary) (init : α) : init ≤ maxOver val ps init := by
  induction ps generalizing init with
  | nil => exact le_refl _
  | cons p ps ih =>
    rw [maxOver_cons]
    refine le_trans ?_ (ih _)
    split_ifs with h1 h2
    · exact le_refl _
    · exact le_of_lt h2
    · exact le_refl _

theorem maxOver_ge {α : Type} [LinearOrder α] (val : PlayerSummary → α)
    (ps : List PlayerSummary) (init : α) (p : PlayerSummary) (hp : p ∈ ps)
    (hA : p.Afk = false) : val p ≤ maxOver val ps init := by
  induction ps generalizing init with
  | nil => simp at hp
  | cons q ps ih =>
    rw [maxOver_cons]
    rcases List.mem_cons.1 hp with h | h
    · subst h
      refine le_trans ?_ (le_maxOver val ps _)
      simp only [hA, Bool.false_eq_true, if_false]
      split_ifs with h2
      · exact le_refl _
      · exact not_lt.1 h2
    · exact ih _ h

theorem maxOver_attained {α : Type} [LinearOrder α] (val : PlayerSummary → α)
    (ps : List PlayerSummary) (init : α) :
    maxOver val ps init = init ∨
      ∃ p, p ∈ ps ∧ p.Afk = false ∧ val p = maxOver val ps init := by
  induction ps generalizing init with
  | nil => exact Or.inl rfl
  | cons q ps ih =>
    rw [maxOver_cons]
    rcases ih (if q.Afk then init else if val q > init then val q else init) with h | h
    · rw [h]
      by_cases hA : q.Afk = true
      · simp [hA]
      · by_cases h2 : val q > init
        · right
          refine ⟨q, List.mem_cons_self _ _, by simpa using hA, ?_⟩
          simp [hA, h2]
        · simp [hA, h2]
    · rcases h with ⟨p, hp, hpA, hv⟩
      exact Or.inr ⟨p, List.mem_cons_of_mem _ hp, hpA, hv⟩

/-- The maximum is the value `d` as soon as a non-AFK player has it, it is above
the start value, and no non-AFK player exceeds it. -/
theorem maxOver_eq {α : Type} [LinearOrder α] (val : PlayerSummary → α)
    (ps : List PlayerSummary) (init d : α) (p : PlayerSummary) (hp : p ∈ ps)
    (hA : p.Afk = false) (hd : val p = d) (hinit : init ≤ d)
    (hle : ∀ q, q ∈ ps → q.Afk = false → val q ≤ d) : maxOver val ps init = d := by
  apply le_antisymm
  · rcases maxOver_attained val ps init with h | ⟨q, hq, hqA, hv⟩
    · rw [h]; exact hinit
    · rw [← hv]; exact hle q hq hqA
  · rw [← hd]; exact maxOver_ge val ps init p hp hA

/-- Without a non-AFK player above the start value the maximum stays there. -/
theorem maxOver_eq_init {α : Type} [LinearOrder α] (val : PlayerSummary → α)
    (ps : List PlayerSummary) (init : α)
    (hle : ∀ q, q ∈ ps → q.Afk = false → val q ≤ init) : maxOver val ps init = init := by
  rcases maxOver_attained val ps init with h | ⟨q, hq, hqA, hv⟩
  · exact h
  · exact le_antisymm (hv ▸ hle q hq hqA) (le_maxOver val ps init)

theorem foldl_gameMaximaStep (ps : List PlayerSummary) (m : GameMaxima) :
    ps.foldl gameMaximaStep m
      = { maxDamage := maxOver (fun p => p.TotalDamage) ps m.maxDamage
          maxHealing := maxOver (fun p => p.TotalHealing) ps m.maxHealing
          maxShielding := maxOver (fun p => p.TotalShielding) ps m.maxShielding
          maxHealingShielding :=
            maxOver (fun p => p.TotalHealing + p.TotalShielding) ps m.maxHealingShielding
          maxVision := maxOver (fun p => p.VisionScore) ps m.maxVision
          maxCC := maxOver (fun p => p.TotalCC) ps m.maxCC
          maxTankingScore := maxOver tankingScoreOf ps m.maxTankingScore } := by
  induction ps generalizing m with
  | nil => rfl
  | cons p ps ih =>
    rw [List.foldl_cons, ih]
    simp only [maxOver_cons]
    unfold gameMaximaStep
    by_cases hA : p.Afk = true <;> simp [hA]

theorem gameMaxima_eq (ps : List PlayerSummary) :
    gameMaxima ps
      = { maxDamage := maxOver (fun p => p.TotalDamage) ps 0
          maxHealing := maxOver (fun p => p.TotalHealing) ps 0
          maxShielding := maxOver (fun p => p.TotalShielding) ps 0
          maxHealingShielding := maxOver (fun p => p.TotalHealing + p.TotalShielding) ps 0
          maxVision := maxOver (fun p => p.VisionScore) ps 0
          maxCC := maxOver (fun p => p.TotalCC) ps 0
          maxTankingScore := maxOver tankingScoreOf ps 0 } := by
  unfold gameMaxima
  rw [foldl_gameMaximaStep]

theorem teamMaxLoop_ge_init (stats : EoGStatsBlock) (val : PlayerSummary → Int) (i : Nat)
    (ps : List PlayerSummary) (m : Int → Int) (T : Int) :
    m T ≤ teamMaxLoop stats val i ps m T := by
  induction ps generalizing i m with
  | nil => exact le_refl _
  | cons p ps ih =>
    unfold teamMaxLoop
    refine le_trans ?_ (ih _ _)
    split_ifs with h1 h2
    · exact le_refl _
    · by_cases hT : T = teamIDAt stats i
      · subst hT; simp only [Function.update_same]; exact le_of_lt h2
      · simp [Function.update_noteq hT]
    · exact le_refl _

theorem teamMaxLoop_ge (stats : EoGStatsBlock) (val : PlayerSummary → Int) (i : Nat)
    (ps : List PlayerSummary) (m : Int → Int) (T : Int) (j : Nat) (p : PlayerSummary)
    (hp : ps[j]? = some p) (hA : p.Afk = false) (hT : teamIDAt stats (i + j) = T) :
    val p ≤ teamMaxLoop stats val i ps m T := by
  induction ps generalizing i m j with
  | nil => simp at hp
  | cons q ps ih =>
    unfold teamMaxLoop
    cases j with
    | zero =>
      simp only [List.getElem?_cons_zero, Option.some.injEq] at hp
      subst hp
      simp only [Nat.add_zero] at hT
      refine le_trans ?_ (teamMaxLoop_ge_init stats val _ ps _ T)
      simp only [hA, Bool.false_eq_true, if_false]
      subst hT
      split_ifs with h2
      · simp
      · exact not_lt.1 h2
    | succ j =>
      simp only [List.getElem?_cons_succ] at hp
      exact ih (i + 1) _ j hp (by rw [← hT]; congr 1; omega)

theorem teamMaxLoop_attained (stats : EoGStatsBlock) (val : PlayerSummary → Int) (i : Nat)
    (ps : List PlayerSummary) (m : Int → Int) (T : Int) :
    teamMaxLoop stats val i ps m T = m T ∨
      ∃ (j : Nat) (p : PlayerSummary), ps[j]? = some p ∧ p.Afk = false ∧
        teamIDAt stats (i + j) = T ∧ val p = teamMaxLoop stats val i ps m T := by
  induction ps generalizing i m with
  | nil => exact Or.inl rfl
  | cons q ps ih =>
    unfold teamMaxLoop
    rcases ih (i + 1) (if q.Afk then m
       else if val q > m (teamIDAt stats i) then Function.update m (teamIDAt stats i) (val q)
       else m) with h | ⟨j, p, hp, hA, hT, hv⟩
    · rw [h]
      by_cases hA : q.Afk = true
      · simp [hA]
      · by_cases h2 : val q > m (teamIDAt stats i)
        · by_cases hT : T = teamIDAt stats i
          · right
            refine ⟨0, q, by simp, by simpa using hA, by simpa using hT.symm, ?_⟩
            subst hT
            simp [hA, h2]
          · left
            simp [hA, h2, Function.update_noteq hT]
        · simp [hA, h2]
    · right
      exact ⟨j + 1, p, by simpa using hp, hA, by rw [← hT]; congr 1; omega, hv⟩

/-! ## The flags set by `identifyStandoutPerformances` -/

theorem NoFlags.flags {p : PlayerSummary} (h : NoFlags p) :
    p.HighestDamageInGame = false ∧ p.HighestDamageOnTeam = false ∧
      p.MostHealingInGame = false ∧ p.MostShieldingInGame = false ∧
      p.MostHealingShielding = false ∧ p.HighestVisionInGame = false ∧
      p.HighestVisionOnTeam = false ∧ p.MostCCInGame = false ∧ p.MostCCOnTeam = false ∧
      p.MostTankingInGame = false := by
  unfold NoFlags at h
  rw [← h]
  simp [withFlagsOf]

theorem any_iff_getElem? (f : PlayerSummary → Bool) (l : List PlayerSummary) :
    l.any f = true ↔ ∃ (j : Nat) (q : PlayerSummary), l[j]? = some q ∧ f q = true := by
  rw [List.any_eq_true]
  constructor
  · rintro ⟨q, hq, hf⟩
    rcases List.mem_iff_getElem?.1 hq with ⟨j, hj⟩
    exact ⟨j, q, hj, hf⟩
  · rintro ⟨j, q, hj, hf⟩
    exact ⟨q, List.mem_iff_getElem?.2 ⟨j, hj⟩, hf⟩

theorem markedOnTeamFrom_iff (stats : EoGStatsBlock) (T : Int) (k : Nat)
    (l : List PlayerSummary) :
    markedOnTeamFrom stats T k l = true ↔
      ∃ (j : Nat) (q : PlayerSummary), l[j]? = some q ∧ teamIDAt stats (k + j) = T ∧
        q.HighestDamageOnTeam = true := by
  induction l generalizing k with
  | nil => simp [markedOnTeamFrom]
  | cons a l ih =>
    unfold markedOnTeamFrom
    rw [Bool.or_eq_true, ih (k + 1)]
    constructor
    · rintro (h | ⟨j, q, hq, hT, hf⟩)
      · simp only [Bool.and_eq_true, decide_eq_true_eq] at h
        exact ⟨0, a, by simp, by simpa using h.1, h.2⟩
      · exact ⟨j + 1, q, by simpa using hq, by rw [← hT]; congr 1; omega, hf⟩
    · rintro ⟨j, q, hq, hT, hf⟩
      cases j with
      | zero =>
        simp only [List.getElem?_cons_zero, Option.some.injEq] at hq
        subst hq
        left
        simp only [Bool.and_eq_true, decide_eq_true_eq]
        exact ⟨by simpa using hT, hf⟩
      | succ j =>
        right
        exact ⟨j, q, by simpa using hq, by rw [← hT]; congr 1; omega, hf⟩

theorem identify_getElem? (ps : List PlayerSummary) (stats : EoGStatsBlock) (t : Int)
    (j : Nat) (p : PlayerSummary) (hp : ps[j]? = some p) :
    (identifyStandoutPerformances ps stats t)[j]?
      = some (if p.Afk then p
          else markPlayer stats (gameMaxima ps) (teamMax stats (fun p => p.TotalDamage) ps)
            (teamMax stats (fun p => p.VisionScore) ps) (teamMax stats (fun p => p.TotalCC) ps)
            (loopUpTo (markPlayer stats (gameMaxima ps)
              (teamMax stats (fun p => p.TotalDamage) ps)
              (teamMax stats (fun p => p.VisionScore) ps)
              (teamMax stats (fun p => p.TotalCC) ps)) ps j) j p) := by
  rw [identify_eq_loop]
  exact loopUpTo_getElem?_done _ ps hp (List.getElem?_eq_some.1 hp).1

/-- An AFK player leaves the standout pass as it entered it. -/
theorem identify_afk (ps : List PlayerSummary) (stats : EoGStatsBlock) (t : Int)
    (j : Nat) (p : PlayerSummary) (hp : ps[j]? = some p) (hA : p.Afk = true) :
    (identifyStandoutPerformances ps stats t)[j]? = some p := by
  rw [identify_getElem? ps stats t j p hp]
  simp [hA]

/-- The flags that every player at the maximum receives. -/
theorem identify_shared_flags (ps : List PlayerSummary) (stats : EoGStatsBlock) (t : Int)
    (j : Nat) (p q : PlayerSummary) (hp : ps[j]? = some p) (hno : NoFlags p)
    (hA : p.Afk = false) (hq : (identifyStandoutPerformances ps stats t)[j]? = some q) :
    (q.MostHealingInGame = true ↔
        p.TotalHealing = (gameMaxima ps).maxHealing ∧ (gameMaxima ps).maxHealing > 0) ∧
      (q.MostShieldingInGame = true ↔
        p.TotalShielding = (gameMaxima ps).maxShielding ∧ (gameMaxima ps).maxShielding > 0) ∧
      (q.MostHealingShielding = true ↔
        p.TotalHealing + p.TotalShielding = (gameMaxima ps).maxHealingShielding ∧
          (gameMaxima ps).maxHealingShielding > 0) ∧
      (q.HighestVisionInGame = true ↔
        p.VisionScore = (gameMaxima ps).maxVision ∧ (gameMaxima ps).maxVision > 0) ∧
      (q.HighestVisionOnTeam = true ↔
        p.VisionScore = teamMax stats (fun p => p.VisionScore) ps (teamIDAt stats j) ∧
          teamMax stats (fun p => p.VisionScore) ps (teamIDAt stats j) > 0) ∧
      (q.MostCCInGame = true ↔
        p.TotalCC = (gameMaxima ps).maxCC ∧ (gameMaxima ps).maxCC > 0) ∧
      (q.MostCCOnTeam = true ↔
        p.TotalCC = teamMax stats (fun p => p.TotalCC) ps (teamIDAt stats j) ∧
          teamMax stats (fun p => p.TotalCC) ps (teamIDAt stats j) > 0) ∧
      (q.MostTankingInGame = true ↔
        tankingScoreOf p = (gameMaxima ps).maxTankingScore ∧
          (gameMaxima ps).maxTankingScore > 1000 ∧ (if p.D = 0 then 1 else p.D) ≤ 5) := by
  rw [identify_getElem? ps stats t j p hp] at hq
  simp only [hA, Bool.false_eq_true, if_false, Option.some.injEq] at hq
  subst hq
  obtain ⟨-, -, h3, h4, h5, h6, h7, h8, h9, h10⟩ := hno.flags
  simp [markPlayer, tankingScoreOf, h3, h4, h5, h6, h7, h8, h9, h10]

/-- The game-wide damage flag goes to the first non-AFK player at the positive
game maximum, and to nobody else. -/
theorem identify_highestDamageInGame (ps : List PlayerSummary) (stats : EoGStatsBlock)
    (t : Int) (hno : ∀ (j : Nat) (p : PlayerSummary), ps[j]? = some p → NoFlags p)
    (j : Nat) (p q : PlayerSummary) (hp : ps[j]? = some p)
    (hq : (identifyStandoutPerformances ps stats t)[j]? = some q) :
    (q.HighestDamageInGame = true ↔
      p.Afk = false ∧
        (p.TotalDamage = (gameMaxima ps).maxDamage ∧ (gameMaxima ps).maxDamage > 0) ∧
        ∀ (j2 : Nat) (p2 : PlayerSummary), j2 < j → ps[j2]? = some p2 → p2.Afk = false →
          ¬ (p2.TotalDamage = (gameMaxima ps).maxDamage ∧ (gameMaxima ps).maxDamage > 0)) := by
  rw [identify_eq_loop] at hq
  have h := single_holder (fun _ => ()) (fun q => q.HighestDamageInGame)
    (fun _ p => p.TotalDamage = (gameMaxima ps).maxDamage ∧ (gameMaxima ps).maxDamage > 0)
    _ ps (fun j p hp => (hno j p hp).flags.1)
    (by
      intro l i p hfl
      simp only [markPlayer, hfl]
      have ha : (l.any fun q => q.HighestDamageInGame) = true ↔
          ∃ (j2 : Nat) (q : PlayerSummary), l[j2]? = some q ∧ q.HighestDamageInGame = true :=
        any_iff_getElem? _ l
      simp only [true_and]
      rw [← ha]
      by_cases hc : p.TotalDamage = (gameMaxima ps).maxDamage ∧ (gameMaxima ps).maxDamage > 0
      · by_cases ha : (l.any fun q => q.HighestDamageInGame) = true <;> simp [hc, ha]
      · simp [hc])
    j ps.length p q (List.getElem?_eq_some.1 hp).1 hp hq
  rw [h]
  constructor
  · rintro ⟨h1, h2, h3⟩
    exact ⟨h1, h2, fun j2 p2 hj2 hp2 hA2 => h3 j2 p2 hj2 hp2 rfl hA2⟩
  · rintro ⟨h1, h2, h3⟩
    exact ⟨h1, h2, fun j2 p2 hj2 hp2 _ hA2 => h3 j2 p2 hj2 hp2 hA2⟩

/-- The team damage flag goes to the first non-AFK player of the team at the
positive team maximum, and to nobody else of the team. -/
theorem identify_highestDamageOnTeam (ps : List PlayerSummary) (stats : EoGStatsBlock)
    (t : Int) (hno : ∀ (j : Nat) (p : PlayerSummary), ps[j]? = some p → NoFlags p)
    (j : Nat) (p q : PlayerSummary) (hp : ps[j]? = some p)
    (hq : (identifyStandoutPerformances ps stats t)[j]? = some q) :
    (q.HighestDamageOnTeam = true ↔
      p.Afk = false ∧
        (p.TotalDamage = teamMax stats (fun p => p.TotalDamage) ps (teamIDAt stats j) ∧
          teamMax stats (fun p => p.TotalDamage) ps (teamIDAt stats j) > 0) ∧
        ∀ (j2 : Nat) (p2 : PlayerSummary), j2 < j → ps[j2]? = some p2 →
          teamIDAt stats j2 = teamIDAt stats j → p2.Afk = false →
          ¬ (p2.TotalDamage = teamMax stats (fun p => p.TotalDamage) ps (teamIDAt stats j2) ∧
            teamMax stats (fun p => p.TotalDamage) ps (teamIDAt stats j2) > 0)) := by
  rw [identify_eq_loop] at hq
  exact single_holder (teamIDAt stats) (fun q => q.HighestDamageOnTeam)
    (fun i p => p.TotalDamage = teamMax stats (fun p => p.TotalDamage) ps (teamIDAt stats i) ∧
      teamMax stats (fun p => p.TotalDamage) ps (teamIDAt stats i) > 0)
    _ ps (fun j p hp => (hno j p hp).flags.2.1)
    (by
      intro l i p hfl
      simp only [markPlayer, hfl]
      have hm := markedOnTeamFrom_iff stats (teamIDAt stats i) 0 l
      simp only [Nat.zero_add] at hm
      rw [← hm]
      by_cases hc : p.TotalDamage = teamMax stats (fun p => p.TotalDamage) ps (teamIDAt stats i)
          ∧ teamMax stats (fun p => p.TotalDamage) ps (teamIDAt stats i) > 0
      · by_cases ha : markedOnTeamFrom stats (teamIDAt stats i) 0 l = true <;> simp [hc, ha]
      · simp [hc])
    j ps.length p q (List.getElem?_eq_some.1 hp).1 hp hq

/-! ## The players returned by `AnalyzeGame` -/

theorem basePlayer_noFlags (stats : EoGStatsBlock) (pt : EoGParticipant) :
    NoFlags (basePlayer stats pt) := rfl

theorem detectAfk_noFlags (cfg : Config) (gm : ℚ) (pl : PlayerSummary) (pt : EoGParticipant)
    (h : NoFlags pl) : NoFlags (detectAfk cfg gm pl pt) := by
  rw [detectAfk_eq]
  unfold NoFlags at h ⊢
  conv_rhs => rw [← h]
  rfl

theorem playersAfterAfk_noFlags (stats : EoGStatsBlock) (cfg : Config) (j : Nat)
    (p : PlayerSummary) (h : (playersAfterAfk stats cfg)[j]? = some p) : NoFlags p := by
  rw [playersAfterAfk_getElem?] at h
  cases hp : stats.Participants[j]? with
  | none => simp [hp] at h
  | some pt =>
    simp only [hp, Option.map_some', Option.some.injEq] at h
    rw [← h]
    exact detectAfk_noFlags _ _ _ _ (basePlayer_noFlags stats pt)

theorem afkOf_eq (cfg : Config) (gm : ℚ) (pl : PlayerSummary) (pt : EoGParticipant)
    (h : pl.Afk = false) : (detectAfk cfg gm pl pt).Afk = afkOf cfg gm pt := by
  rw [detectAfk_eq]
  simp [h]

/-- Entry `j` of the returned players: it comes from participant `j`, through the
second pass, the AFK loop, the standout pass (`q1`) and the tag pass. -/
theorem finalPlayers_entry (stats : EoGStatsBlock) (cfg : Config) (j : Nat)
    (q : PlayerSummary) (hq : (finalPlayers stats cfg)[j]? = some q) :
    ∃ (pt : EoGParticipant) (q1 : PlayerSummary),
      stats.Participants[j]? = some pt ∧
      (playersAfterAfk stats cfg)[j]?
        = some (detectAfk cfg (gameMinutesOf stats) (basePlayer stats pt) pt) ∧
      (identifyStandoutPerformances (playersAfterAfk stats cfg) stats
        (findMyTeamID stats.Participants cfg))[j]? = some q1 ∧
      clearTags q = clearTags q1 ∧
      withFlagsOf q1 {} = detectAfk cfg (gameMinutesOf stats) (basePlayer stats pt) pt := by
  have hj : j < stats.Participants.length := by
    rw [← finalPlayers_length stats cfg]
    exact (List.getElem?_eq_some.1 hq).1
  have hpt : stats.Participants[j]? = some stats.Participants[j] := List.getElem?_eq_getElem hj
  have h0 := playersAfterAfk_getElem? stats cfg j
  rw [hpt, Option.map_some'] at h0
  have h1 := identify_frame (playersAfterAfk stats cfg) stats (findMyTeamID stats.Participants cfg) j
  rw [h0, Option.map_some'] at h1
  have h2 := assign_frame (identifyStandoutPerformances (playersAfterAfk stats cfg) stats
    (findMyTeamID stats.Participants cfg)) stats (gameMinutesOf stats)
    (findMyTeamID stats.Participants cfg) j
  unfold finalPlayers at hq
  rw [hq, Option.map_some'] at h2
  cases hq1 : (identifyStandoutPerformances (playersAfterAfk stats cfg) stats
    (findMyTeamID stats.Participants cfg))[j]? with
  | none => simp [hq1] at h1
  | some q1 =>
    rw [hq1, Option.map_some', Option.some.injEq] at h1 h2
    refine ⟨stats.Participants[j], q1, hpt, h0, rfl, h2, ?_⟩
    rw [h1]
    exact detectAfk_noFlags _ _ _ _ (basePlayer_noFlags stats _)

/-- Every participant has an entry in the returned players. -/
theorem finalPlayers_exists (stats : EoGStatsBlock) (cfg : Config) (j : Nat)
    (pt : EoGParticipant) (hpt : stats.Participants[j]? = some pt) :
    ∃ q, (finalPlayers stats cfg)[j]? = some q := by
  have hj : j < (finalPlayers stats cfg).length := by
    rw [finalPlayers_length]
    exact (List.getElem?_eq_some.1 hpt).1
  exact ⟨_, List.getElem?_eq_getElem hj⟩

/-- A field that neither the standout pass nor the tag pass writes has, in the
returned player, the value the second pass and the AFK loop gave it. -/
theorem finalPlayers_field {β : Type} (g : PlayerSummary → β)
    (hg1 : ∀ x, g (clearTags x) = g x) (hg2 : ∀ x, g (withFlagsOf x {}) = g x)
    (stats : EoGStatsBlock) (cfg : Config) (j : Nat) (q : PlayerSummary) (pt : EoGParticipant)
    (hq : (finalPlayers stats cfg)[j]? = some q) (hpt : stats.Participants[j]? = some pt) :
    g q = g (detectAfk cfg (gameMinutesOf stats) (basePlayer stats pt) pt) := by
  obtain ⟨pt2, q1, hpt2, -, -, h2, h1⟩ := finalPlayers_entry stats cfg j q hq
  rw [hpt] at hpt2
  simp only [Option.some.injEq] at hpt2
  subst hpt2
  rw [← h1, hg2, ← hg1 q, h2, hg1]

theorem finalPlayers_afk (stats : EoGStatsBlock) (cfg : Config) (j : Nat) (q : PlayerSummary)
    (pt : EoGParticipant) (hq : (finalPlayers stats cfg)[j]? = some q)
    (hpt : stats.Participants[j]? = some pt) :
    q.Afk = afkOf cfg (gameMinutesOf stats) pt := by
  rw [finalPlayers_field (fun x => x.Afk) (fun _ => rfl) (fun _ => rfl) stats cfg j q pt hq hpt]
  exact afkOf_eq _ _ _ _ rfl

/-- The fields of a returned player that copy the participant. -/
theorem finalPlayers_values (stats : EoGStatsBlock) (cfg : Config) (j : Nat)
    (q : PlayerSummary) (pt : EoGParticipant) (hq : (finalPlayers stats cfg)[j]? = some q)
    (hpt : stats.Participants[j]? = some pt) :
    q.Champion = getChampionName pt ∧
      q.K = getPlayerStat pt "kills" ∧ q.D = getPlayerStat pt "deaths" ∧
      q.A = getPlayerStat pt "assists" ∧
      q.TotalDamage = getPlayerStat pt "totalDamageDealtToChampions" ∧
      q.TotalHealing = getPlayerStat pt "totalHealsOnTeammates" ∧
      q.TotalShielding = getPlayerStat pt "totalDamageShieldedOnTeammates" ∧
      q.VisionScore = getPlayerStat pt "visionScore" ∧
      q.TotalCC = getPlayerStat pt "timeCCingOthers" ∧
      q.Metrics = (basePlayer stats pt).Metrics := by
  have hf := fun {β : Type} (g : PlayerSummary → β) (hg1 : ∀ x, g (clearTags x) = g x)
      (hg2 : ∀ x, g (withFlagsOf x {}) = g x) =>
    finalPlayers_field g hg1 hg2 stats cfg j q pt hq hpt
  have hd : ∀ pl : PlayerSummary,
      detectAfk cfg (gameMinutesOf stats) pl pt
        = { pl with Afk := pl.Afk || afkOf cfg (gameMinutesOf stats) pt } :=
    fun pl => detectAfk_eq _ _ _ _
  refine ⟨?_, ?_, ?_, ?_, ?_, ?_, ?_, ?_, ?_, ?_⟩
  · rw [hf (fun x => x.Champion) (fun _ => rfl) (fun _ => rfl), hd]; rfl
  · rw [hf (fun x => x.K) (fun _ => rfl) (fun _ => rfl), hd]; rfl
  · rw [hf (fun x => x.D) (fun _ => rfl) (fun _ => rfl), hd]; rfl
  · rw [hf (fun x => x.A) (fun _ => rfl) (fun _ => rfl), hd]; rfl
  · rw [hf (fun x => x.TotalDamage) (fun _ => rfl) (fun _ => rfl), hd]; rfl
  · rw [hf (fun x => x.TotalHealing) (fun _ => rfl) (fun _ => rfl), hd]; rfl
  · rw [hf (fun x => x.TotalShielding) (fun _ => rfl) (fun _ => rfl), hd]; rfl
  · rw [hf (fun x => x.VisionScore) (fun _ => rfl) (fun _ => rfl), hd]; rfl
  · rw [hf (fun x => x.TotalCC) (fun _ => rfl) (fun _ => rfl), hd]; rfl
  · rw [hf (fun x => x.Metrics) (fun _ => rfl) (fun _ => rfl), hd]

/-! ## Tags: `heroic_in_loss` -/

/-- C1 (the code departs from the claim).  Claim C1 says that a non-AFK player on
the losing side of a game of 25 minutes or more who carries one of `hard_carry`,
`frontline_rock`, `vision_mvp`, `utility_mvp` also carries `heroic_in_loss`.  The
rule looks for those tags in the copy of the player taken at the start of the
iteration, whose tag list is still empty, so in the summary returned by
`AnalyzeGame` no player ever carries `heroic_in_loss`. -/
theorem heroic_in_loss_never_assigned (stats : EoGStatsBlock) (cfg : Config) (s : GameSummary)
    (h : (AnalyzeGame stats cfg).1 = some s) (q : PlayerSummary) (hq : q ∈ s.Players) :
    "heroic_in_loss" ∉ q.Tags := by
  rw [(AnalyzeGame_some h).1] at hq
  rcases List.mem_iff_getElem?.1 hq with ⟨j, hj⟩
  exact finalPlayers_not_heroic stats cfg j q hj

/-- C1 at a concrete match: `ann` is not AFK, lost a 30-minute game and carries
`hard_carry`, yet not `heroic_in_loss`. -/
theorem heroic_in_loss_never_assigned_witness :
    (AnalyzeGame lossStats lossCfg).1 = some lossSummary ∧
      lossPlayer 0 ∈ lossSummary.Players ∧
      (lossPlayer 0).SummonerName = "ann" ∧ (lossPlayer 0).Afk = false ∧
      (participantAt lossStats 0).Win = false ∧ (participantAt lossStats 0).Stats = none ∧
      gameMinutesOf lossStats ≥ 25 ∧
      (lossPlayer 0).Tags = ["hard_carry"] ∧
      "heroic_in_loss" ∉ (lossPlayer 0).Tags :=
  ⟨by decide!, by decide!, by decide!, by decide!, by decide!, by decide!, by decide!,
    by decide!,
    heroic_in_loss_never_assigned lossStats lossCfg lossSummary (by decide!) (lossPlayer 0)
      (by decide!)⟩

/-! ## Team totals and derived ratios -/

theorem getStatValue_kills (p : EoGParticipant) :
    getStatValue p "kills" = getPlayerStat p "kills" := by
  unfold getStatValue getPlayerStat
  cases p.Stats <;> simp

theorem foldl_teamTotals (ps : List EoGParticipant) (statName : String) (m : Int → Int)
    (T : Int) :
    ps.foldl (fun m p => Function.update m p.TeamID (m p.TeamID + getStatValue p statName)) m T
      = m T + ((ps.filter (fun p => decide (p.TeamID = T))).map
          (fun p => getStatValue p statName)).sum := by
  induction ps generalizing m with
  | nil => simp
  | cons p ps ih =>
    rw [List.foldl_cons, ih]
    by_cases hT : p.TeamID = T
    · subst hT
      simp [List.filter_cons, add_assoc]
    · have hT2 : T ≠ p.TeamID := fun h => hT h.symm
      simp [List.filter_cons, hT, Function.update_noteq hT2]

theorem teamTotals_kills (stats : EoGStatsBlock) (T : Int) :
    teamTotals stats.Participants "kills" T = teamKillsOf stats T := by
  unfold teamTotals teamKillsOf
  rw [foldl_teamTotals]
  simp [getStatValue_kills]

theorem one_le_floorOne (x : ℚ) : 1 ≤ floorOne x := le_max_left 1 x

theorem AnalyzeGame_player {stats : EoGStatsBlock} {cfg : Config} {s : GameSummary}
    (h : (AnalyzeGame stats cfg).1 = some s) {i : Nat} {q : PlayerSummary}
    (hq : s.Players[i]? = some q) : (finalPlayers stats cfg)[i]? = some q := by
  rw [← (AnalyzeGame_some h).1]
  exact hq

theorem afkOf_iff (cfg : Config) (gm : ℚ) (pt : EoGParticipant) :
    afkOf cfg gm pt = true ↔
      pt.Leaver = true ∨ (∃ st, pt.Stats = some st ∧ st.Leaver = true) ∨
      (gm ≥ cfg.AFKThresholds.MinGameMinutes ∧
        ((getPlayerStat pt "totalMinionsKilled" + getPlayerStat pt "neutralMinionsKilled" : Int)
            : ℚ) / max 1 gm < cfg.AFKThresholds.MaxCsPerMin ∧
        getPlayerStat pt "totalDamageDealtToChampions" < cfg.AFKThresholds.MaxDamageToChamp ∧
        getPlayerStat pt "goldEarned" < cfg.AFKThresholds.MaxGoldEarned ∧
        getPlayerStat pt "kills" = 0 ∧ getPlayerStat pt "assists" = 0) := by
  unfold afkOf detectAfk floorOne
  dsimp only
  cases hst : pt.Stats with
  | none =>
    dsimp only
    split_ifs with h1 h2 h3 h4
    · exact ⟨fun _ => Or.inl h1, fun _ => rfl⟩
    · exact absurd h2 (by simp)
    · exact ⟨fun _ => Or.inr (Or.inr ⟨h3, h4⟩), fun _ => rfl⟩
    · refine ⟨fun hf => absurd hf (by simp), fun hr => ?_⟩
      rcases hr with hl | ⟨st2, hs, _⟩ | ⟨_, hc⟩
      · exact absurd hl h1
      · exact absurd hs (by simp)
      · exact absurd hc h4
    · refine ⟨fun hf => absurd hf (by simp), fun hr => ?_⟩
      rcases hr with hl | ⟨st2, hs, _⟩ | ⟨hg, _⟩
      · exact absurd hl h1
      · exact absurd hs (by simp)
      · exact absurd hg h3
  | some st =>
    dsimp only
    split_ifs with h1 h2 h3 h4
    · exact ⟨fun _ => Or.inl h1, fun _ => rfl⟩
    · exact ⟨fun _ => Or.inr (Or.inl ⟨st, rfl, h2⟩), fun _ => rfl⟩
    · exact ⟨fun _ => Or.inr (Or.inr ⟨h3, h4⟩), fun _ => rfl⟩
    · refine ⟨fun hf => absurd hf (by simp), fun hr => ?_⟩
      rcases hr with hl | ⟨st2, hs, hl⟩ | ⟨_, hc⟩
      · exact absurd hl h1
      · simp only [Option.some.injEq] at hs
        subst hs
        exact absurd hl h2
      · exact absurd hc h4
    · refine ⟨fun hf => absurd hf (by simp), fun hr => ?_⟩
      rcases hr with hl | ⟨st2, hs, hl⟩ | ⟨hg, _⟩
      · exact absurd hl h1
      · simp only [Option.some.injEq] at hs
        subst hs
        exact absurd hl h2
      · exact absurd hg h3

/-- C6.  A player is marked AFK exactly when the leaver flag is set at top level
or in the nested stats, or else when the game reached the configured minimum
length and CS/min, damage to champions and gold are below their configured
maxima and kills and assists are 0; under the default thresholds a player with
gold, kills, assists, CS and damage all 0 in a game of at least 10 minutes is
AFK. -/
theorem afk_iff_leaver_or_heuristic (stats : EoGStatsBlock) (cfg : Config) (s : GameSummary)
    (h : (AnalyzeGame stats cfg).1 = some s) (i : Nat) (pt : EoGParticipant)
    (q : PlayerSummary) (hpt : stats.Participants[i]? = some pt)
    (hq : s.Players[i]? = some q) :
    (q.Afk = true ↔
      pt.Leaver = true ∨ (∃ st, pt.Stats = some st ∧ st.Leaver = true) ∨
      (gameMinutesOf stats ≥ cfg.AFKThresholds.MinGameMinutes ∧
        ((getPlayerStat pt "totalMinionsKilled" + getPlayerStat pt "neutralMinionsKilled" : Int)
            : ℚ) / max 1 (gameMinutesOf stats) < cfg.AFKThresholds.MaxCsPerMin ∧
        getPlayerStat pt "totalDamageDealtToChampions" < cfg.AFKThresholds.MaxDamageToChamp ∧
        getPlayerStat pt "goldEarned" < cfg.AFKThresholds.MaxGoldEarned ∧
        getPlayerStat pt "kills" = 0 ∧ getPlayerStat pt "assists" = 0)) ∧
    (cfg.AFKThresholds = DefaultConfig.AFKThresholds → gameMinutesOf stats ≥ 10 →
      getPlayerStat pt "goldEarned" = 0 → getPlayerStat pt "kills" = 0 →
      getPlayerStat pt "assists" = 0 →
      getPlayerStat pt "totalMinionsKilled" + getPlayerStat pt "neutralMinionsKilled" = 0 →
      getPlayerStat pt "totalDamageDealtToChampions" = 0 → q.Afk = true) := by
  have hA := finalPlayers_afk stats cfg i q pt (AnalyzeGame_player h hq) hpt
  have hiff : (q.Afk = true ↔
      pt.Leaver = true ∨ (∃ st, pt.Stats = some st ∧ st.Leaver = true) ∨
      (gameMinutesOf stats ≥ cfg.AFKThresholds.MinGameMinutes ∧
        ((getPlayerStat pt "totalMinionsKilled" + getPlayerStat pt "neutralMinionsKilled" : Int)
            : ℚ) / max 1 (gameMinutesOf stats) < cfg.AFKThresholds.MaxCsPerMin ∧
        getPlayerStat pt "totalDamageDealtToChampions" < cfg.AFKThresholds.MaxDamageToChamp ∧
        getPlayerStat pt "goldEarned" < cfg.AFKThresholds.MaxGoldEarned ∧
        getPlayerStat pt "kills" = 0 ∧ getPlayerStat pt "assists" = 0)) := by
    rw [hA]
    exact afkOf_iff cfg (gameMinutesOf stats) pt
  refine ⟨hiff, ?_⟩
  intro hcfg hgm hg hk ha hcs hd
  rw [hiff]
  right; right
  rw [hcfg, hg, hk, ha, hcs, hd]
  refine ⟨?_, ?_, ?_, ?_, rfl, rfl⟩
  · exact hgm
  · norm_num [DefaultConfig, DefaultMaxCsPerMin]
  · decide
  · decide

/-- The metrics of returned player `i`, as the second pass computes them from
participant `i`. -/
theorem AnalyzeGame_metrics {stats : EoGStatsBlock} {cfg : Config} {s : GameSummary}
    (h : (AnalyzeGame stats cfg).1 = some s) {i : Nat} {pt : EoGParticipant}
    {q : PlayerSummary} (hpt : stats.Participants[i]? = some pt)
    (hq : s.Players[i]? = some q) : q.Metrics = (basePlayer stats pt).Metrics :=
  (finalPlayers_values stats cfg i q pt (AnalyzeGame_player h hq) hpt).2.2.2.2.2.2.2.2.2

/-- C7.  KDA is (kills + assists) / max(1, deaths) and KP is (kills + assists) /
max(1, team kills), team kills being the sum of the kills of all participants
with the player's team id; with kills 10, assists 5, deaths 2 and team kills 20
this gives KP 0.75 and KDA 7.5. -/
theorem kda_and_kp (stats : EoGStatsBlock) (cfg : Config) (s : GameSummary)
    (h : (AnalyzeGame stats cfg).1 = some s) (i : Nat) (pt : EoGParticipant)
    (q : PlayerSummary) (hpt : stats.Participants[i]? = some pt)
    (hq : s.Players[i]? = some q) :
    q.Metrics.KDA
        = ((getPlayerStat pt "kills" + getPlayerStat pt "assists" : Int) : ℚ)
          / max 1 ((getPlayerStat pt "deaths" : Int) : ℚ) ∧
      q.Metrics.KP
        = ((getPlayerStat pt "kills" + getPlayerStat pt "assists" : Int) : ℚ)
          / max 1 ((teamKillsOf stats pt.TeamID : Int) : ℚ) ∧
      (getPlayerStat pt "kills" = 10 → getPlayerStat pt "assists" = 5 →
        getPlayerStat pt "deaths" = 2 → teamKillsOf stats pt.TeamID = 20 →
        q.Metrics.KP = 0.75 ∧ q.Metrics.KDA = 7.5) := by
  have hm := AnalyzeGame_metrics h hpt hq
  have hkda : q.Metrics.KDA
      = ((getPlayerStat pt "kills" + getPlayerStat pt "assists" : Int) : ℚ)
        / max 1 ((getPlayerStat pt "deaths" : Int) : ℚ) := by
    rw [hm]; rfl
  have hkp : q.Metrics.KP
      = ((getPlayerStat pt "kills" + getPlayerStat pt "assists" : Int) : ℚ)
        / max 1 ((teamKillsOf stats pt.TeamID : Int) : ℚ) := by
    rw [hm, ← teamTotals_kills]; rfl
  refine ⟨hkda, hkp, ?_⟩
  intro hk ha hd ht
  rw [hkda, hkp, hk, ha, hd, ht]
  norm_num

/-- C8.  Every derived ratio is a quotient by `max(1, ·)`, which is at least 1, so
no division by zero occurs for any participant; and a participant whose counters
are all zero gets KDA, KP, damage share, gold share, damage-taken share, CS/min,
damage/min, vision/min, damage-taken/min and CC/min all equal to 0, whatever the
duration and the team totals. -/
theorem ratios_have_floored_denominators (stats : EoGStatsBlock) (cfg : Config)
    (s : GameSummary) (h : (AnalyzeGame stats cfg).1 = some s) (i : Nat)
    (pt : EoGParticipant) (q : PlayerSummary) (hpt : stats.Participants[i]? = some pt)
    (hq : s.Players[i]? = some q) :
    (∀ x : ℚ, 1 ≤ floorOne x) ∧
      (q.Metrics.KDA = ((q.K + q.A : Int) : ℚ) / floorOne (q.D : ℚ) ∧
        q.Metrics.KP = ((q.K + q.A : Int) : ℚ) / floorOne (q.Metrics.TeamKills : ℚ) ∧
        q.Metrics.DamageShare
          = (q.TotalDamage : ℚ) / floorOne (q.Metrics.TeamDamageChamps : ℚ) ∧
        q.Metrics.GoldShare
          = (getPlayerStat pt "goldEarned" : ℚ) / floorOne (q.Metrics.TeamGold : ℚ) ∧
        q.Metrics.DamageTakenShare
          = (q.Metrics.TotalDamageTaken : ℚ) / floorOne (q.Metrics.TeamDamageTaken : ℚ) ∧
        q.Metrics.CSPM = (q.Metrics.CSTotal : ℚ) / floorOne q.Metrics.GameMinutes ∧
        q.Metrics.DPM = (q.TotalDamage : ℚ) / floorOne q.Metrics.GameMinutes ∧
        q.Metrics.VSPM = (q.VisionScore : ℚ) / floorOne q.Metrics.GameMinutes ∧
        q.Metrics.DTAM = (q.Metrics.TotalDamageTaken : ℚ) / floorOne q.Metrics.GameMinutes ∧
        q.Metrics.CCPerMinute = (q.TotalCC : ℚ) / floorOne q.Metrics.GameMinutes) ∧
      ((∀ statName, getPlayerStat pt statName = 0) →
        q.Metrics.KDA = 0 ∧ q.Metrics.KP = 0 ∧ q.Metrics.DamageShare = 0 ∧
        q.Metrics.GoldShare = 0 ∧ q.Metrics.DamageTakenShare = 0 ∧ q.Metrics.CSPM = 0 ∧
        q.Metrics.DPM = 0 ∧ q.Metrics.VSPM = 0 ∧ q.Metrics.DTAM = 0 ∧
        q.Metrics.CCPerMinute = 0) := by
  have hm := AnalyzeGame_metrics h hpt hq
  obtain ⟨-, hK, hD, hA, hTD, -, -, hV, hCC, -⟩ :=
    finalPlayers_values stats cfg i q pt (AnalyzeGame_player h hq) hpt
  refine ⟨one_le_floorOne, ?_, ?_⟩
  · rw [hm, hK, hD, hA, hTD, hV, hCC]
    exact ⟨rfl, rfl, rfl, rfl, rfl, rfl, rfl, rfl, rfl, rfl⟩
  · intro hz
    rw [hm]
    simp [basePlayer, buildPlayerSummary, hz]

/-- C9.  The team total recorded as `Metrics.TeamKills` on a player equals the sum
of the kills `K` reported for all participants with that player's team id, AFK
players included. -/
theorem team_kills_is_sum_of_reported_kills (stats : EoGStatsBlock) (cfg : Config)
    (s : GameSummary) (h : (AnalyzeGame stats cfg).1 = some s) (i : Nat)
    (pt : EoGParticipant) (q : PlayerSummary) (hpt : stats.Participants[i]? = some pt)
    (hq : s.Players[i]? = some q) :
    q.Metrics.TeamKills
      = (((List.zip stats.Participants s.Players).filter
            (fun x => decide (x.1.TeamID = pt.TeamID))).map (fun x => x.2.K)).sum := by
  have hm := AnalyzeGame_metrics h hpt hq
  have hK : s.Players.map (fun x => x.K)
      = stats.Participants.map (fun p => getPlayerStat p "kills") := by
    apply List.ext_getElem?
    intro j
    rw [List.getElem?_map, List.getElem?_map, (AnalyzeGame_some h).1]
    cases hpj : stats.Participants[j]? with
    | none =>
      have : (finalPlayers stats cfg)[j]? = none := by
        apply List.getElem?_eq_none_iff.2
        rw [finalPlayers_length]
        exact List.getElem?_eq_none_iff.1 hpj
      rw [this]; rfl
    | some pj =>
      obtain ⟨qj, hqj⟩ := finalPlayers_exists stats cfg j pj hpj
      rw [hqj]
      simp only [Option.map_some', Option.some.injEq]
      exact (finalPlayers_values stats cfg j qj pj hqj hpj).2.1
  have hsum : ∀ (l : List EoGParticipant) (m : List PlayerSummary),
      m.map (fun x => x.K) = l.map (fun p => getPlayerStat p "kills") →
      (((List.zip l m).filter (fun x => decide (x.1.TeamID = pt.TeamID))).map
          (fun x => x.2.K)).sum
        = ((l.filter (fun p => decide (p.TeamID = pt.TeamID))).map
            (fun p => getPlayerStat p "kills")).sum := by
    intro l
    induction l with
    | nil => intro m _; simp
    | cons a l ih =>
      intro m hmap
      cases m with
      | nil => simp at hmap
      | cons b m =>
        simp only [List.map_cons, List.cons.injEq] at hmap
        simp only [List.zip_cons_cons, List.filter_cons]
        by_cases hT : a.TeamID = pt.TeamID
        · simp only [hT, decide_True, if_true, List.map_cons, List.sum_cons]
          rw [ih m hmap.2, hmap.1]
        · simp only [hT, decide_False, Bool.false_eq_true, if_false]
          exact ih m hmap.2
  rw [hsum _ _ hK, hm]
  exact teamTotals_kills stats pt.TeamID

/-- C10.  A declared role is kept as `Metrics.Role`; without one the role is
`detectRoleFromStats`, an ordered decision list whose first matching rule wins:
JUNGLE, then SUPPORT, then BOTTOM, then MIDDLE, then TOP, else the empty role;
neutral minions 60 with heal+shield 9000 gives JUNGLE. -/
theorem role_declared_or_detected (stats : EoGStatsBlock) (cfg : Config) (s : GameSummary)
    (h : (AnalyzeGame stats cfg).1 = some s) (i : Nat) (pt : EoGParticipant)
    (q : PlayerSummary) (hpt : stats.Participants[i]? = some pt)
    (hq : s.Players[i]? = some q) :
    (pt.Role ≠ "" → q.Metrics.Role = pt.Role) ∧
      (pt.Role = "" →
        q.Metrics.Role
          = detectRoleFromStats (getPlayerStat pt "neutralMinionsKilled")
              (getPlayerStat pt "visionScore")
              (getPlayerStat pt "totalHealsOnTeammates"
                + getPlayerStat pt "totalDamageShieldedOnTeammates")
              q.Metrics.CSPM q.Metrics.DamageShare (gameMinutesOf stats)) ∧
      (∀ (nm vs hs : Int) (cspm ds gm : ℚ),
        ((nm ≥ 50 ∨ (nm ≥ 30 ∧ gm ≥ 20)) → detectRoleFromStats nm vs hs cspm ds gm = "JUNGLE") ∧
        (¬ (nm ≥ 50 ∨ (nm ≥ 30 ∧ gm ≥ 20)) →
          ((hs ≥ 5000 ∨ (vs ≥ 50 ∧ cspm < 2.0)) →
            detectRoleFromStats nm vs hs cspm ds gm = "SUPPORT") ∧
          (¬ (hs ≥ 5000 ∨ (vs ≥ 50 ∧ cspm < 2.0)) →
            (cspm ≥ 7.0 → detectRoleFromStats nm vs hs cspm ds gm = "BOTTOM") ∧
            (¬ cspm ≥ 7.0 →
              ((cspm ≥ 5.0 ∧ ds ≥ 0.25) → detectRoleFromStats nm vs hs cspm ds gm = "MIDDLE") ∧
              (¬ (cspm ≥ 5.0 ∧ ds ≥ 0.25) →
                (cspm ≥ 4.0 → detectRoleFromStats nm vs hs cspm ds gm = "TOP") ∧
                (¬ cspm ≥ 4.0 → detectRoleFromStats nm vs hs cspm ds gm = ""))))) ∧
        detectRoleFromStats 60 vs 9000 cspm ds gm = "JUNGLE") := by
  have hm := AnalyzeGame_metrics h hpt hq
  refine ⟨?_, ?_, ?_⟩
  · intro hr
    rw [hm]
    simp [basePlayer, buildPlayerSummary, hr]
  · intro hr
    rw [hm]
    simp [basePlayer, buildPlayerSummary, hr]
  · intro nm vs hs cspm ds gm
    refine ⟨?_, ?_, ?_⟩
    · intro h1
      simp only [detectRoleFromStats, if_pos h1]
    · intro h1
      refine ⟨?_, ?_⟩
      · intro h2
        simp only [detectRoleFromStats, if_neg h1, if_pos h2]
      · intro h2
        refine ⟨?_, ?_⟩
        · intro h3
          simp only [detectRoleFromStats, if_neg h1, if_neg h2, if_pos h3]
        · intro h3
          refine ⟨?_, ?_⟩
          · intro h4
            simp only [detectRoleFromStats, if_neg h1, if_neg h2, if_neg h3, if_pos h4]
          · intro h4
            refine ⟨?_, ?_⟩
            · intro h5
              simp only [detectRoleFromStats, if_neg h1, if_neg h2, if_neg h3, if_neg h4,
                if_pos h5]
            · intro h5
              simp only [detectRoleFromStats, if_neg h1, if_neg h2, if_neg h3, if_neg h4,
                if_neg h5]
    · simp [detectRoleFromStats]

/-! ## The claims on AFK detection, ratios and roles at the ten-player match -/

theorem scenario_analyzed : (AnalyzeGame scenarioStats scenarioCfg).1 = some scenarioSummary := by
  decide!

theorem scenario_player (i : Nat) (hi : i < 10) :
    scenarioSummary.Players[i]? = some (scenarioPlayer i) := by
  interval_cases i <;> decide!

theorem getPlayerStat_eq_zero (p : EoGParticipant) (hs : p.Stats = none) (h1 : p.Kills = 0)
    (h2 : p.Deaths = 0) (h3 : p.Assists = 0) (h4 : p.TotalMinionsKilled = 0)
    (h5 : p.NeutralMinionsKilled = 0) (h6 : p.GoldEarned = 0)
    (h7 : p.TotalDamageDealtToChampions = 0) (h8 : p.VisionScore = 0)
    (h9 : p.TotalDamageTaken = 0) (h10 : p.TimeCCingOthers = 0)
    (h11 : p.TotalHealsOnTeammates = 0) (h12 : p.TotalDamageShieldedOnTeammates = 0)
    (h13 : p.TotalDamageSelfMitigated = 0) (statName : String) :
    getPlayerStat p statName = 0 := by
  unfold getPlayerStat
  rw [hs, h1, h2, h3, h4, h5, h6, h7, h8, h9, h10, h11, h12, h13]
  simp only [ite_self]

/-- C6 at the ten-player match: `idle` (index 6) has no leaver flag and every
counter at 0 in a 30-minute game under the default thresholds, and is AFK. -/
theorem afk_iff_leaver_or_heuristic_witness :
    (participantAt scenarioStats 6).Leaver = false ∧
      (participantAt scenarioStats 6).Stats = none ∧
      scenarioCfg.AFKThresholds = DefaultConfig.AFKThresholds ∧
      (scenarioPlayer 6).Afk = true :=
  ⟨by decide!, by decide!, rfl,
    (afk_iff_leaver_or_heuristic scenarioStats scenarioCfg scenarioSummary scenario_analyzed 6
      (participantAt scenarioStats 6) (scenarioPlayer 6) (by decide!)
      (scenario_player 6 (by decide))).2 rfl
      (by decide!) (by decide!) (by decide!) (by decide!)
      (by decide!) (by decide!)⟩

/-- C7 at the ten-player match: `kai` (index 0) has kills 10, assists 5, deaths 2
and her team's kills sum to 20. -/
theorem kda_and_kp_witness :
    scenarioStats.GameDurationSeconds = 1800 ∧
      teamKillsOf scenarioStats (participantAt scenarioStats 0).TeamID = 20 ∧
      (scenarioPlayer 0).Metrics.KP = 0.75 ∧ (scenarioPlayer 0).Metrics.KDA = 7.5 :=
  ⟨rfl, by decide!,
    (kda_and_kp scenarioStats scenarioCfg scenarioSummary scenario_analyzed 0
      (participantAt scenarioStats 0) (scenarioPlayer 0) (by decide!)
      (scenario_player 0 (by decide))).2.2 (by decide!) (by decide!) (by decide!) (by decide!)⟩

/-- C8 at the ten-player match: `idle` (index 6) has every counter at 0. -/
theorem ratios_have_floored_denominators_witness :
    (∀ statName, getPlayerStat (participantAt scenarioStats 6) statName = 0) ∧
      (scenarioPlayer 6).Metrics.KDA = 0 ∧ (scenarioPlayer 6).Metrics.KP = 0 ∧
      (scenarioPlayer 6).Metrics.CSPM = 0 :=
  have hz : ∀ statName, getPlayerStat (participantAt scenarioStats 6) statName = 0 :=
    getPlayerStat_eq_zero (participantAt scenarioStats 6) (by decide!) (by decide!) (by decide!)
      (by decide!) (by decide!) (by decide!) (by decide!) (by decide!) (by decide!)
      (by decide!) (by decide!) (by decide!) (by decide!) (by decide!)
  have h := (ratios_have_floored_denominators scenarioStats scenarioCfg scenarioSummary
    scenario_analyzed 6 (participantAt scenarioStats 6) (scenarioPlayer 6) (by decide!)
    (scenario_player 6 (by decide))).2.2 hz
  ⟨hz, h.1, h.2.1, h.2.2.2.2.2.1⟩

/-- C9 at the ten-player match: the team kills recorded on `pam` (index 5) are
the kills 6 + 0 + 9 + 1 + 4 of her team, the AFK players `idle` and `lea`
included. -/
theorem team_kills_is_sum_of_reported_kills_witness :
    (scenarioPlayer 6).Afk = true ∧ (scenarioPlayer 7).Afk = true ∧
      (scenarioPlayer 5).Metrics.TeamKills = 20 ∧
      (scenarioPlayer 5).Metrics.TeamKills
        = (((List.zip scenarioStats.Participants scenarioSummary.Players).filter
              (fun x => decide (x.1.TeamID = (participantAt scenarioStats 5).TeamID))).map
            (fun x => x.2.K)).sum :=
  ⟨by decide!, by decide!, by decide!,
    team_kills_is_sum_of_reported_kills scenarioStats scenarioCfg scenarioSummary
      scenario_analyzed 5 (participantAt scenarioStats 5) (scenarioPlayer 5) (by decide!)
      (scenario_player 5 (by decide))⟩

/-- C10 at the ten-player match: `max` (index 2) keeps the declared role TOP, and
`lee` (index 1), with no declared role, 60 neutral minions and 9000 healing, is
detected as JUNGLE. -/
theorem role_declared_or_detected_witness :
    (participantAt scenarioStats 2).Role = "TOP" ∧ (scenarioPlayer 2).Metrics.Role = "TOP" ∧
      (participantAt scenarioStats 1).Role = "" ∧ (scenarioPlayer 1).Metrics.Role = "JUNGLE" :=
  ⟨by decide!,
    ((role_declared_or_detected scenarioStats scenarioCfg scenarioSummary scenario_analyzed 2
      (participantAt scenarioStats 2) (scenarioPlayer 2) (by decide!)
      (scenario_player 2 (by decide))).1 (by decide!)).trans (by decide!),
    by decide!, by decide!⟩

/-! ## The standout flags in terms of the returned players -/

theorem maxOver_congr {α : Type} [LinearOrder α] (val : PlayerSummary → α)
    (ps ps2 : List PlayerSummary) (init : α)
    (h : ps.map (fun p => (p.Afk, val p)) = ps2.map (fun p => (p.Afk, val p))) :
    maxOver val ps init = maxOver val ps2 init := by
  induction ps generalizing ps2 init with
  | nil =>
    cases ps2 with
    | nil => rfl
    | cons b ps2 => simp at h
  | cons a ps ih =>
    cases ps2 with
    | nil => simp at h
    | cons b ps2 =>
      simp only [List.map_cons, List.cons.injEq, Prod.mk.injEq] at h
      rw [maxOver_cons, maxOver_cons, h.1.1, h.1.2]
      exact ih ps2 _ h.2

theorem teamMaxLoop_congr (stats : EoGStatsBlock) (val : PlayerSummary → Int)
    (ps ps2 : List PlayerSummary) (i : Nat) (m : Int → Int)
    (h : ps.map (fun p => (p.Afk, val p)) = ps2.map (fun p => (p.Afk, val p))) :
    teamMaxLoop stats val i ps m = teamMaxLoop stats val i ps2 m := by
  induction ps generalizing ps2 i m with
  | nil =>
    cases ps2 with
    | nil => rfl
    | cons b ps2 => simp at h
  | cons a ps ih =>
    cases ps2 with
    | nil => simp at h
    | cons b ps2 =>
      simp only [List.map_cons, List.cons.injEq, Prod.mk.injEq] at h
      unfold teamMaxLoop
      rw [h.1.1, h.1.2]
      exact ih ps2 _ _ h.2

/-- Entry `j` of the returned players with the entry `p0` it had after the AFK
loop and the entry `q1` it had after the standout pass: `q` has the flags of
`q1` and every other field, tags apart, of `p0`. -/
theorem finalPlayers_stages (stats : EoGStatsBlock) (cfg : Config) (j : Nat)
    (q : PlayerSummary) (hq : (finalPlayers stats cfg)[j]? = some q) :
    ∃ (p0 q1 : PlayerSummary),
      (playersAfterAfk stats cfg)[j]? = some p0 ∧ NoFlags p0 ∧ p0.Tags = [] ∧
      (identifyStandoutPerformances (playersAfterAfk stats cfg) stats
        (findMyTeamID stats.Participants cfg))[j]? = some q1 ∧
      clearTags q = clearTags q1 ∧ withFlagsOf q1 {} = p0 := by
  obtain ⟨pt, q1, _, h0, h3, h2, h1⟩ := finalPlayers_entry stats cfg j q hq
  exact ⟨_, q1, h0, playersAfterAfk_noFlags stats cfg j _ h0,
    playersAfterAfk_tags stats cfg j _ h0, h3, h2, h1⟩

theorem playersAfterAfk_eq_map_final (stats : EoGStatsBlock) (cfg : Config) :
    playersAfterAfk stats cfg = (finalPlayers stats cfg).map resetPlayer := by
  apply List.ext_getElem?
  intro j
  rw [List.getElem?_map]
  cases hq : (finalPlayers stats cfg)[j]? with
  | none =>
    apply List.getElem?_eq_none_iff.2
    rw [playersAfterAfk_length, ← finalPlayers_length stats cfg]
    exact List.getElem?_eq_none_iff.1 hq
  | some q =>
    obtain ⟨p0, q1, h0, hno, htags, _, h2, h1⟩ := finalPlayers_stages stats cfg j q hq
    rw [h0]
    simp only [Option.map_some', Option.some.injEq]
    have e1 : resetPlayer q = resetPlayer q1 := by
      show withFlagsOf (clearTags q) {} = withFlagsOf (clearTags q1) {}
      rw [h2]
    have e2 : resetPlayer q1 = clearTags p0 := by
      rw [← h1]; rfl
    rw [e1, e2]
    have e3 : clearTags p0 = { p0 with Tags := p0.Tags } := by
      rw [htags]; rfl
    rw [e3]

theorem forall_base_iff (fp : List PlayerSummary) (j : Nat)
    (P : Nat → PlayerSummary → Prop) :
    (∀ (j2 : Nat) (p2 : PlayerSummary), j2 < j → (fp.map resetPlayer)[j2]? = some p2 → P j2 p2)
      ↔ ∀ (j2 : Nat) (r : PlayerSummary), j2 < j → fp[j2]? = some r → P j2 (resetPlayer r) := by
  constructor
  · intro h j2 r hj2 hr
    exact h j2 _ hj2 (by rw [List.getElem?_map, hr]; rfl)
  · intro h j2 p2 hj2 hp2
    rw [List.getElem?_map] at hp2
    cases hr : fp[j2]? with
    | none => simp [hr] at hp2
    | some r =>
      simp only [hr, Option.map_some', Option.some.injEq] at hp2
      rw [← hp2]
      exact h j2 r hj2 hr

/-- Entry `j` of the returned players and the entry after the standout pass. -/
theorem finalPlayers_identify (stats : EoGStatsBlock) (cfg : Config) (j : Nat)
    (q : PlayerSummary) (hq : (finalPlayers stats cfg)[j]? = some q) :
    ∃ q1 : PlayerSummary,
      (identifyStandoutPerformances ((finalPlayers stats cfg).map resetPlayer) stats
        (findMyTeamID stats.Participants cfg))[j]? = some q1 ∧
      clearTags q = clearTags q1 ∧
      ((finalPlayers stats cfg).map resetPlayer)[j]? = some (resetPlayer q) := by
  obtain ⟨p0, q1, _, _, _, h3, h2, _⟩ := finalPlayers_stages stats cfg j q hq
  rw [playersAfterAfk_eq_map_final] at h3
  exact ⟨q1, h3, h2, by rw [List.getElem?_map, hq]; rfl⟩

theorem resetPlayer_noFlags (fp : List PlayerSummary) (j : Nat) (p : PlayerSummary)
    (h : (fp.map resetPlayer)[j]? = some p) : NoFlags p := by
  rw [List.getElem?_map] at h
  cases hr : fp[j]? with
  | none => simp [hr] at h
  | some r =>
    simp only [hr, Option.map_some', Option.some.injEq] at h
    rw [← h]
    rfl

theorem gameMaxima_map_reset (fp : List PlayerSummary) :
    gameMaxima (fp.map resetPlayer) = gameMaxima fp := by
  rw [gameMaxima_eq, gameMaxima_eq]
  have h : ∀ {α : Type} [LinearOrder α] (val : PlayerSummary → α) (init : α),
      (∀ x, val (resetPlayer x) = val x) →
      maxOver val (fp.map resetPlayer) init = maxOver val fp init := by
    intro α _ val init hv
    apply maxOver_congr
    rw [List.map_map]
    apply List.map_congr_left
    intro x _
    show ((resetPlayer x).Afk, val (resetPlayer x)) = (x.Afk, val x)
    rw [hv]; rfl
  rw [h (fun p => p.TotalDamage) 0 (fun _ => rfl), h (fun p => p.TotalHealing) 0 (fun _ => rfl),
    h (fun p => p.TotalShielding) 0 (fun _ => rfl),
    h (fun p => p.TotalHealing + p.TotalShielding) 0 (fun _ => rfl),
    h (fun p => p.VisionScore) 0 (fun _ => rfl), h (fun p => p.TotalCC) 0 (fun _ => rfl),
    h tankingScoreOf 0 (fun _ => rfl)]

theorem teamMax_map_reset (stats : EoGStatsBlock) (val : PlayerSummary → Int)
    (hv : ∀ x, val (resetPlayer x) = val x) (fp : List PlayerSummary) :
    teamMax stats val (fp.map resetPlayer) = teamMax stats val fp := by
  unfold teamMax
  apply teamMaxLoop_congr
  rw [List.map_map]
  apply List.map_congr_left
  intro x _
  show ((resetPlayer x).Afk, val (resetPlayer x)) = (x.Afk, val x)
  rw [hv]; rfl

/-- The game-wide damage flag is on the first non-AFK player whose damage is the
positive maximum over the non-AFK players, and on nobody else. -/
theorem final_highestDamageInGame (stats : EoGStatsBlock) (cfg : Config) (j : Nat)
    (q : PlayerSummary) (hq : (finalPlayers stats cfg)[j]? = some q) :
    (q.HighestDamageInGame = true ↔
      q.Afk = false ∧
        (q.TotalDamage = (gameMaxima (finalPlayers stats cfg)).maxDamage ∧
          (gameMaxima (finalPlayers stats cfg)).maxDamage > 0) ∧
        ∀ (j2 : Nat) (r : PlayerSummary), j2 < j → (finalPlayers stats cfg)[j2]? = some r →
          r.Afk = false →
          ¬ (r.TotalDamage = (gameMaxima (finalPlayers stats cfg)).maxDamage ∧
            (gameMaxima (finalPlayers stats cfg)).maxDamage > 0)) := by
  obtain ⟨q1, h3, h2, h0⟩ := finalPlayers_identify stats cfg j q hq
  have hflag : q.HighestDamageInGame = q1.HighestDamageInGame :=
    congrArg (fun x => x.HighestDamageInGame) h2
  have hchar := identify_highestDamageInGame _ stats
    (findMyTeamID stats.Participants cfg) (resetPlayer_noFlags _) j _ q1 h0 h3
  rw [gameMaxima_map_reset, forall_base_iff] at hchar
  rw [hflag, hchar]
  rfl

/-- The team damage flag is on the first non-AFK player of the team whose damage
is the positive maximum over the team's non-AFK players, and on nobody else of
the team. -/
theorem final_highestDamageOnTeam (stats : EoGStatsBlock) (cfg : Config) (j : Nat)
    (q : PlayerSummary) (hq : (finalPlayers stats cfg)[j]? = some q) :
    (q.HighestDamageOnTeam = true ↔
      q.Afk = false ∧
        (q.TotalDamage
            = teamMax stats (fun p => p.TotalDamage) (finalPlayers stats cfg) (teamIDAt stats j) ∧
          teamMax stats (fun p => p.TotalDamage) (finalPlayers stats cfg) (teamIDAt stats j)
            > 0) ∧
        ∀ (j2 : Nat) (r : PlayerSummary), j2 < j → (finalPlayers stats cfg)[j2]? = some r →
          teamIDAt stats j2 = teamIDAt stats j → r.Afk = false →
          ¬ (r.TotalDamage
              = teamMax stats (fun p => p.TotalDamage) (finalPlayers stats cfg)
                  (teamIDAt stats j2) ∧
            teamMax stats (fun p => p.TotalDamage) (finalPlayers stats cfg) (teamIDAt stats j2)
              > 0)) := by
  obtain ⟨q1, h3, h2, h0⟩ := finalPlayers_identify stats cfg j q hq
  have hflag : q.HighestDamageOnTeam = q1.HighestDamageOnTeam :=
    congrArg (fun x => x.HighestDamageOnTeam) h2
  have hchar := identify_highestDamageOnTeam _ stats
    (findMyTeamID stats.Participants cfg) (resetPlayer_noFlags _) j _ q1 h0 h3
  rw [teamMax_map_reset stats (fun p => p.TotalDamage) (fun _ => rfl), forall_base_iff] at hchar
  rw [hflag, hchar]
  rfl

/-- The flags that all players tied at a positive maximum share. -/
theorem final_shared_flags (stats : EoGStatsBlock) (cfg : Config) (j : Nat)
    (q : PlayerSummary) (hq : (finalPlayers stats cfg)[j]? = some q) (hA : q.Afk = false) :
    (q.MostHealingInGame = true ↔
        q.TotalHealing = (gameMaxima (finalPlayers stats cfg)).maxHealing ∧
          (gameMaxima (finalPlayers stats cfg)).maxHealing > 0) ∧
      (q.MostShieldingInGame = true ↔
        q.TotalShielding = (gameMaxima (finalPlayers stats cfg)).maxShielding ∧
          (gameMaxima (finalPlayers stats cfg)).maxShielding > 0) ∧
      (q.MostHealingShielding = true ↔
        q.TotalHealing + q.TotalShielding
            = (gameMaxima (finalPlayers stats cfg)).maxHealingShielding ∧
          (gameMaxima (finalPlayers stats cfg)).maxHealingShielding > 0) ∧
      (q.HighestVisionInGame = true ↔
        q.VisionScore = (gameMaxima (finalPlayers stats cfg)).maxVision ∧
          (gameMaxima (finalPlayers stats cfg)).maxVision > 0) ∧
      (q.HighestVisionOnTeam = true ↔
        q.VisionScore
            = teamMax stats (fun p => p.VisionScore) (finalPlayers stats cfg) (teamIDAt stats j) ∧
          teamMax stats (fun p => p.VisionScore) (finalPlayers stats cfg) (teamIDAt stats j)
            > 0) ∧
      (q.MostCCInGame = true ↔
        q.TotalCC = (gameMaxima (finalPlayers stats cfg)).maxCC ∧
          (gameMaxima (finalPlayers stats cfg)).maxCC > 0) ∧
      (q.MostCCOnTeam = true ↔
        q.TotalCC
            = teamMax stats (fun p => p.TotalCC) (finalPlayers stats cfg) (teamIDAt stats j) ∧
          teamMax stats (fun p => p.TotalCC) (finalPlayers stats cfg) (teamIDAt stats j) > 0) ∧
      (q.MostTankingInGame = true ↔
        tankingScoreOf q = (gameMaxima (finalPlayers stats cfg)).maxTankingScore ∧
          (gameMaxima (finalPlayers stats cfg)).maxTankingScore > 1000 ∧
          (if q.D = 0 then 1 else q.D) ≤ 5) := by
  obtain ⟨q1, h3, h2, h0⟩ := finalPlayers_identify stats cfg j q hq
  have hchar := identify_shared_flags _ stats (findMyTeamID stats.Participants cfg) j
    (resetPlayer q) q1 h0 (resetPlayer_noFlags _ j _ h0) hA h3
  rw [gameMaxima_map_reset, teamMax_map_reset stats (fun p => p.VisionScore) (fun _ => rfl),
    teamMax_map_reset stats (fun p => p.TotalCC) (fun _ => rfl)] at hchar
  have e1 : q.MostHealingInGame = q1.MostHealingInGame :=
    congrArg (fun x => x.MostHealingInGame) h2
  have e2 : q.MostShieldingInGame = q1.MostShieldingInGame :=
    congrArg (fun x => x.MostShieldingInGame) h2
  have e3 : q.MostHealingShielding = q1.MostHealingShielding :=
    congrArg (fun x => x.MostHealingShielding) h2
  have e4 : q.HighestVisionInGame = q1.HighestVisionInGame :=
    congrArg (fun x => x.HighestVisionInGame) h2
  have e5 : q.HighestVisionOnTeam = q1.HighestVisionOnTeam :=
    congrArg (fun x => x.HighestVisionOnTeam) h2
  have e6 : q.MostCCInGame = q1.MostCCInGame := congrArg (fun x => x.MostCCInGame) h2
  have e7 : q.MostCCOnTeam = q1.MostCCOnTeam := congrArg (fun x => x.MostCCOnTeam) h2
  have e8 : q.MostTankingInGame = q1.MostTankingInGame :=
    congrArg (fun x => x.MostTankingInGame) h2
  rw [e1, e2, e3, e4, e5, e6, e7, e8]
  exact hchar

/-- An AFK player is returned without any flag and without any tag. -/
theorem final_afk_clean (stats : EoGStatsBlock) (cfg : Config) (j : Nat)
    (q : PlayerSummary) (hq : (finalPlayers stats cfg)[j]? = some q) (hA : q.Afk = true) :
    NoFlags q ∧ q.Tags = [] := by
  obtain ⟨p0, q1, h0, hno, htags, h3, h2, h1⟩ := finalPlayers_stages stats cfg j q hq
  have hA0 : p0.Afk = true := by
    rw [← hA, ← h1]; exact (congrArg (fun x => x.Afk) h2).symm
  have hq1 : q1 = p0 := by
    have := identify_afk (playersAfterAfk stats cfg) stats
      (findMyTeamID stats.Participants cfg) j p0 h0 hA0
    rw [h3] at this
    exact Option.some.inj this
  subst hq1
  have hq2 : q = q1 := by
    unfold finalPlayers at hq
    rw [assign_eq_loop, loopUpTo_getElem?_done _ _ h3 (List.getElem?_eq_some.1 h3).1] at hq
    simp only [hA0, if_true, Option.some.injEq] at hq
    exact hq.symm
  subst hq2
  exact ⟨hno, htags⟩

/-! ## The loops of `calculateAchievements` -/

/-- The scan keeps its state when no later qualifying player is above it. -/
theorem scanHolder_stable {α : Type} [LinearOrder α] (cond : Nat → PlayerSummary → Bool)
    (val : PlayerSummary → α) (i : Nat) (ps : List PlayerSummary) (st : α × String)
    (h : ∀ (j : Nat) (p : PlayerSummary), ps[j]? = some p → p.Afk = false →
      cond (i + j) p = true → val p ≤ st.1) :
    scanHolder cond val i ps st = st := by
  induction ps generalizing i with
  | nil => rfl
  | cons a ps ih =>
    unfold scanHolder
    have hstep : (if a.Afk then st
        else if cond i a = true ∧ val a > st.1 then (val a, a.Champion) else st) = st := by
      by_cases hA : a.Afk = true
      · simp [hA]
      · by_cases hc : cond i a = true ∧ val a > st.1
        · have := h 0 a (by simp) (by simpa using hA) (by simpa using hc.1)
          exact absurd hc.2 (not_lt.2 this)
        · simp [hA, hc]
    rw [hstep]
    apply ih
    intro j p hp hpA hpc
    exact h (j + 1) p (by simpa using hp) hpA (by rw [← hpc]; congr 1; omega)

/-- The scan returns the first non-AFK qualifying player when that player is
above the start value and no qualifying player is above that player. -/
theorem scanHolder_first {α : Type} [LinearOrder α] (cond : Nat → PlayerSummary → Bool)
    (val : PlayerSummary → α) (i : Nat) (ps : List PlayerSummary) (st : α × String)
    (k : Nat) (hd : PlayerSummary) (hk : ps[k]? = some hd) (hA : hd.Afk = false)
    (hc : cond (i + k) hd = true) (hv : st.1 < val hd)
    (hpre : ∀ (j : Nat) (p : PlayerSummary), j < k → ps[j]? = some p → p.Afk = false →
      cond (i + j) p = false)
    (hle : ∀ (j : Nat) (p : PlayerSummary), ps[j]? = some p → p.Afk = false →
      cond (i + j) p = true → val p ≤ val hd) :
    scanHolder cond val i ps st = (val hd, hd.Champion) := by
  induction ps generalizing i k with
  | nil => simp at hk
  | cons a ps ih =>
    unfold scanHolder
    cases k with
    | zero =>
      simp only [List.getElem?_cons_zero, Option.some.injEq] at hk
      subst hk
      simp only [Nat.add_zero] at hc
      simp only [hA, Bool.false_eq_true, if_false, hc, true_and, gt_iff_lt, hv, if_true]
      apply scanHolder_stable
      intro j p hp hpA hpc
      exact hle (j + 1) p (by simpa using hp) hpA (by rw [← hpc]; congr 1; omega)
    | succ k =>
      have hstep : (if a.Afk then st
          else if cond i a = true ∧ val a > st.1 then (val a, a.Champion) else st) = st := by
        by_cases hA2 : a.Afk = true
        · simp [hA2]
        · have := hpre 0 a (by omega) (by simp) (by simpa using hA2)
          simp only [Nat.add_zero] at this
          simp [hA2, this]
      rw [hstep]
      apply ih (i + 1) k (by simpa using hk) (by rw [← hc]; congr 1; omega)
      · intro j p hj hp hpA
        have := hpre (j + 1) p (by omega) (by simpa using hp) hpA
        rw [← this]; congr 1; omega
      · intro j p hp hpA hpc
        exact hle (j + 1) p (by simpa using hp) hpA (by rw [← hpc]; congr 1; omega)

theorem holderName_eq {α : Type} [LinearOrder α] [Zero α] (cond : Nat → PlayerSummary → Bool)
    (val : PlayerSummary → α) (ps : List PlayerSummary) :
    holderName cond val ps = (scanHolder cond val 0 ps (0, "")).2 := by
  unfold holderName
  by_cases h : (scanHolder cond val 0 ps (0, "")).2 = ""
  · simp [h]
  · simp [h]

/-- No name is recorded when no non-AFK player qualifies. -/
theorem holderName_none {α : Type} [LinearOrder α] [Zero α] (cond : Nat → PlayerSummary → Bool)
    (val : PlayerSummary → α) (ps : List PlayerSummary)
    (h : ∀ (j : Nat) (p : PlayerSummary), ps[j]? = some p → p.Afk = false →
      cond j p = false) :
    holderName cond val ps = "" := by
  rw [holderName_eq, scanHolder_stable]
  intro j p hp hpA hpc
  rw [Nat.zero_add, h j p hp hpA] at hpc
  exact absurd hpc (by simp)

/-- The recorded name is the champion of the first non-AFK qualifying player when
that player's value is positive and no qualifying player is above it. -/
theorem holderName_first {α : Type} [LinearOrder α] [Zero α]
    (cond : Nat → PlayerSummary → Bool) (val : PlayerSummary → α) (ps : List PlayerSummary)
    (k : Nat) (hd : PlayerSummary) (hk : ps[k]? = some hd) (hA : hd.Afk = false)
    (hc : cond k hd = true) (hv : 0 < val hd)
    (hpre : ∀ (j : Nat) (p : PlayerSummary), j < k → ps[j]? = some p → p.Afk = false →
      cond j p = false)
    (hle : ∀ (j : Nat) (p : PlayerSummary), ps[j]? = some p → p.Afk = false →
      cond j p = true → val p ≤ val hd) :
    holderName cond val ps = hd.Champion := by
  rw [holderName_eq, scanHolder_first cond val 0 ps (0, "") k hd hk hA
    (by rw [Nat.zero_add]; exact hc) hv
    (fun j p hj hp hpA => by rw [Nat.zero_add]; exact hpre j p hj hp hpA)
    (fun j p hp hpA hpc => hle j p hp hpA (by rw [Nat.zero_add] at hpc; exact hpc))]

/-! ## Maxima of the returned players -/

theorem teamMax_nonneg (stats : EoGStatsBlock) (val : PlayerSummary → Int)
    (ps : List PlayerSummary) (T : Int) : 0 ≤ teamMax stats val ps T :=
  teamMaxLoop_ge_init stats val 0 ps (fun _ => 0) T

/-- A team maximum stays 0 when no non-AFK player of the list is above 0. -/
theorem teamMax_eq_zero (stats : EoGStatsBlock) (val : PlayerSummary → Int)
    (ps : List PlayerSummary) (T : Int)
    (h : ∀ q, q ∈ ps → q.Afk = false → val q ≤ 0) : teamMax stats val ps T = 0 := by
  rcases teamMaxLoop_attained stats val 0 ps (fun _ => 0) T with h0 | ⟨j, p, hp, hA, _, hv⟩
  · exact h0
  · apply le_antisymm
    · unfold teamMax
      rw [← hv]
      exact h p (List.mem_iff_getElem?.2 ⟨j, hp⟩) hA
    · exact teamMax_nonneg stats val ps T

/-! ## Ties and zero maxima -/

theorem bool_eq_false_of_imp {b : Bool} (h : b = true → False) : b = false := by
  cases b
  · rfl
  · exact absurd rfl h

/-- C2 as stated fails: in `tieStats` the non-AFK players `bea` and `cal` both have
damage 30000, the positive maximum over the non-AFK players, and only `bea`,
the first of them, has `HighestDamageInGame`. -/
theorem tied_maximum_damage_not_both_flagged :
    (AnalyzeGame tieStats tieCfg).1 = some tieSummary ∧
      tieSummary.Players.map (fun q => (q.Afk, q.TotalDamage, q.HighestDamageInGame))
        = [(false, 20000, false), (false, 30000, true), (false, 30000, false)] ∧
      ¬ ((tiePlayer 1).HighestDamageInGame = true ∧ (tiePlayer 2).HighestDamageInGame = true) :=
  ⟨by decide!, by decide!, by decide!⟩

/-- C2 (amended).  When two non-AFK players have equal damage to champions and
that value is the positive maximum over the non-AFK players, the one that comes
later in input order does not have `HighestDamageInGame`, and the earlier one has
it exactly when no non-AFK player before it has that damage: the flag marks the
first holder of the maximum only. -/
theorem tied_maximum_damage_first_holder_only (stats : EoGStatsBlock) (cfg : Config)
    (s : GameSummary) (h : (AnalyzeGame stats cfg).1 = some s) (i j : Nat)
    (qi qj : PlayerSummary) (hij : i < j) (hi : s.Players[i]? = some qi)
    (hj : s.Players[j]? = some qj) (hAi : qi.Afk = false) ( _hAj : qj.Afk = false)
    ( _heq : qi.TotalDamage = qj.TotalDamage) (hpos : 0 < qi.TotalDamage)
    (hmax : ∀ r, r ∈ s.Players → r.Afk = false → r.TotalDamage ≤ qi.TotalDamage) :
    qj.HighestDamageInGame = false ∧
      (qi.HighestDamageInGame = true ↔
        ∀ (k : Nat) (r : PlayerSummary), k < i → s.Players[k]? = some r → r.Afk = false →
          r.TotalDamage ≠ qi.TotalDamage) := by
  have hP := (AnalyzeGame_some h).1
  rw [hP] at hi hj hmax
  have hM : (gameMaxima (finalPlayers stats cfg)).maxDamage = qi.TotalDamage := by
    rw [gameMaxima_eq]
    exact maxOver_eq (fun p => p.TotalDamage) _ 0 _ qi (List.mem_iff_getElem?.2 ⟨i, hi⟩) hAi rfl
      (le_of_lt hpos) hmax
  have hci := final_highestDamageInGame stats cfg i qi hi
  have hcj := final_highestDamageInGame stats cfg j qj hj
  rw [hM] at hci hcj
  refine ⟨?_, ?_⟩
  · apply bool_eq_false_of_imp
    intro hf
    exact (hcj.1 hf).2.2 i qi hij hi hAi ⟨rfl, hpos⟩
  · rw [hci, hP]
    constructor
    · rintro ⟨_, _, hfirst⟩ k r hk hr hrA hrd
      exact hfirst k r hk hr hrA ⟨hrd, hpos⟩
    · intro hfirst
      exact ⟨hAi, ⟨rfl, hpos⟩, fun k r hk hr hrA hrd => hfirst k r hk hr hrA hrd.1⟩

/-- C2 (amended) at `tieStats`: `bea` (index 1) and `cal` (index 2) tie at 30000. -/
theorem tied_maximum_damage_first_holder_only_witness :
    (tiePlayer 1).TotalDamage = 30000 ∧ (tiePlayer 2).TotalDamage = 30000 ∧
      (tiePlayer 2).HighestDamageInGame = false ∧
      ((tiePlayer 1).HighestDamageInGame = true ↔
        ∀ (k : Nat) (r : PlayerSummary), k < 1 → tieSummary.Players[k]? = some r →
          r.Afk = false → r.TotalDamage ≠ (tiePlayer 1).TotalDamage) :=
  ⟨by decide!, by decide!,
    tied_maximum_damage_first_holder_only tieStats tieCfg tieSummary (by decide!) 1 2
      (tiePlayer 1) (tiePlayer 2) (by decide) (by decide!) (by decide!) (by decide!)
      (by decide!) (by decide!) (by decide!) (by decide!)⟩

/-- C4.  A maximum of zero gives no standout: when no non-AFK player has damage
to champions above 0, no player has `HighestDamageInGame` or
`HighestDamageOnTeam` and the damage names of the achievements are empty; the
same holds for healing, shielding, healing+shielding, vision and CC. -/
theorem zero_maximum_gives_no_standout (stats : EoGStatsBlock) (cfg : Config)
    (s : GameSummary) (h : (AnalyzeGame stats cfg).1 = some s) :
    ((∀ r, r ∈ s.Players → r.Afk = false → r.TotalDamage ≤ 0) →
        (∀ q, q ∈ s.Players → q.HighestDamageInGame = false ∧ q.HighestDamageOnTeam = false) ∧
          s.Achievements.HighestDamageInGame = "" ∧
          s.Achievements.HighestDamageOnMyTeam = "") ∧
      ((∀ r, r ∈ s.Players → r.Afk = false → r.TotalHealing ≤ 0) →
        ∀ q, q ∈ s.Players → q.MostHealingInGame = false) ∧
      ((∀ r, r ∈ s.Players → r.Afk = false → r.TotalShielding ≤ 0) →
        ∀ q, q ∈ s.Players → q.MostShieldingInGame = false) ∧
      ((∀ r, r ∈ s.Players → r.Afk = false → r.TotalHealing + r.TotalShielding ≤ 0) →
        (∀ q, q ∈ s.Players → q.MostHealingShielding = false) ∧
          s.Achievements.MostHealingShielding = "") ∧
      ((∀ r, r ∈ s.Players → r.Afk = false → r.VisionScore ≤ 0) →
        (∀ q, q ∈ s.Players → q.HighestVisionInGame = false ∧ q.HighestVisionOnTeam = false) ∧
          s.Achievements.HighestVisionInGame = "" ∧
          s.Achievements.HighestVisionOnMyTeam = "") ∧
      ((∀ r, r ∈ s.Players → r.Afk = false → r.TotalCC ≤ 0) →
        (∀ q, q ∈ s.Players → q.MostCCInGame = false ∧ q.MostCCOnTeam = false) ∧
          s.Achievements.MostCCInGame = "" ∧ s.Achievements.MostCCOnMyTeam = "") := by
  obtain ⟨hP, hAch⟩ := AnalyzeGame_some h
  rw [hP, hAch]
  have hgm := gameMaxima_eq (finalPlayers stats cfg)
  have shared : ∀ q, q ∈ finalPlayers stats cfg →
      (q.Afk = true → NoFlags q) ∧
      (q.Afk = false → ∃ j : Nat, (finalPlayers stats cfg)[j]? = some q) := by
    intro q hq
    rcases List.mem_iff_getElem?.1 hq with ⟨j, hj⟩
    exact ⟨fun hA => (final_afk_clean stats cfg j q hj hA).1, fun _ => ⟨j, hj⟩⟩
  refine ⟨?_, ?_, ?_, ?_, ?_, ?_⟩
  · intro hz
    have hM : (gameMaxima (finalPlayers stats cfg)).maxDamage = 0 := by
      rw [hgm]; exact maxOver_eq_init _ _ 0 hz
    have hflags : ∀ q, q ∈ finalPlayers stats cfg →
        q.HighestDamageInGame = false ∧ q.HighestDamageOnTeam = false := by
      intro q hq
      rcases List.mem_iff_getElem?.1 hq with ⟨j, hj⟩
      constructor
      · apply bool_eq_false_of_imp
        intro hf
        have := ((final_highestDamageInGame stats cfg j q hj).1 hf).2.1.2
        rw [hM] at this
        exact absurd this (lt_irrefl 0)
      · apply bool_eq_false_of_imp
        intro hf
        have := ((final_highestDamageOnTeam stats cfg j q hj).1 hf).2.1.2
        rw [teamMax_eq_zero stats _ _ _ hz] at this
        exact absurd this (lt_irrefl 0)
    refine ⟨hflags, ?_, ?_⟩
    · apply holderName_none
      intro j p hp _
      exact (hflags p (List.mem_iff_getElem?.2 ⟨j, hp⟩)).1
    · apply holderName_none
      intro j p hp _
      rw [(hflags p (List.mem_iff_getElem?.2 ⟨j, hp⟩)).2]
      simp
  · intro hz q hq
    have hM : (gameMaxima (finalPlayers stats cfg)).maxHealing = 0 := by
      rw [hgm]; exact maxOver_eq_init _ _ 0 hz
    by_cases hA : q.Afk = true
    · exact ((shared q hq).1 hA).flags.2.2.1
    · obtain ⟨j, hj⟩ := (shared q hq).2 (by simpa using hA)
      apply bool_eq_false_of_imp
      intro hf
      have := ((final_shared_flags stats cfg j q hj (by simpa using hA)).1.1 hf).2
      rw [hM] at this
      exact absurd this (lt_irrefl 0)
  · intro hz q hq
    have hM : (gameMaxima (finalPlayers stats cfg)).maxShielding = 0 := by
      rw [hgm]; exact maxOver_eq_init _ _ 0 hz
    by_cases hA : q.Afk = true
    · exact ((shared q hq).1 hA).flags.2.2.2.1
    · obtain ⟨j, hj⟩ := (shared q hq).2 (by simpa using hA)
      apply bool_eq_false_of_imp
      intro hf
      have := ((final_shared_flags stats cfg j q hj (by simpa using hA)).2.1.1 hf).2
      rw [hM] at this
      exact absurd this (lt_irrefl 0)
  · intro hz
    have hM : (gameMaxima (finalPlayers stats cfg)).maxHealingShielding = 0 := by
      rw [hgm]; exact maxOver_eq_init (fun p => p.TotalHealing + p.TotalShielding) _ 0 hz
    have hflags : ∀ q, q ∈ finalPlayers stats cfg → q.MostHealingShielding = false := by
      intro q hq
      by_cases hA : q.Afk = true
      · exact ((shared q hq).1 hA).flags.2.2.2.2.1
      · obtain ⟨j, hj⟩ := (shared q hq).2 (by simpa using hA)
        apply bool_eq_false_of_imp
        intro hf
        have := ((final_shared_flags stats cfg j q hj (by simpa using hA)).2.2.1.1 hf).2
        rw [hM] at this
        exact absurd this (lt_irrefl 0)
    refine ⟨hflags, ?_⟩
    apply holderName_none
    intro j p hp _
    exact hflags p (List.mem_iff_getElem?.2 ⟨j, hp⟩)
  · intro hz
    have hM : (gameMaxima (finalPlayers stats cfg)).maxVision = 0 := by
      rw [hgm]; exact maxOver_eq_init _ _ 0 hz
    have hflags : ∀ q, q ∈ finalPlayers stats cfg →
        q.HighestVisionInGame = false ∧ q.HighestVisionOnTeam = false := by
      intro q hq
      by_cases hA : q.Afk = true
      · exact ⟨((shared q hq).1 hA).flags.2.2.2.2.2.1,
          ((shared q hq).1 hA).flags.2.2.2.2.2.2.1⟩
      · obtain ⟨j, hj⟩ := (shared q hq).2 (by simpa using hA)
        have hsh := final_shared_flags stats cfg j q hj (by simpa using hA)
        constructor
        · apply bool_eq_false_of_imp
          intro hf
          have := (hsh.2.2.2.1.1 hf).2
          rw [hM] at this
          exact absurd this (lt_irrefl 0)
        · apply bool_eq_false_of_imp
          intro hf
          have := (hsh.2.2.2.2.1.1 hf).2
          rw [teamMax_eq_zero stats _ _ _ hz] at this
          exact absurd this (lt_irrefl 0)
    refine ⟨hflags, ?_, ?_⟩
    · apply holderName_none
      intro j p hp _
      exact (hflags p (List.mem_iff_getElem?.2 ⟨j, hp⟩)).1
    · apply holderName_none
      intro j p hp _
      rw [(hflags p (List.mem_iff_getElem?.2 ⟨j, hp⟩)).2]
      simp
  · intro hz
    have hM : (gameMaxima (finalPlayers stats cfg)).maxCC = 0 := by
      rw [hgm]; exact maxOver_eq_init _ _ 0 hz
    have hflags : ∀ q, q ∈ finalPlayers stats cfg →
        q.MostCCInGame = false ∧ q.MostCCOnTeam = false := by
      intro q hq
      by_cases hA : q.Afk = true
      · exact ⟨((shared q hq).1 hA).flags.2.2.2.2.2.2.2.1,
          ((shared q hq).1 hA).flags.2.2.2.2.2.2.2.2.1⟩
      · obtain ⟨j, hj⟩ := (shared q hq).2 (by simpa using hA)
        have hsh := final_shared_flags stats cfg j q hj (by simpa using hA)
        constructor
        · apply bool_eq_false_of_imp
          intro hf
          have := (hsh.2.2.2.2.2.1.1 hf).2
          rw [hM] at this
          exact absurd this (lt_irrefl 0)
        · apply bool_eq_false_of_imp
          intro hf
          have := (hsh.2.2.2.2.2.2.1.1 hf).2
          rw [teamMax_eq_zero stats _ _ _ hz] at this
          exact absurd this (lt_irrefl 0)
    refine ⟨hflags, ?_, ?_⟩
    · apply holderName_none
      intro j p hp _
      exact (hflags p (List.mem_iff_getElem?.2 ⟨j, hp⟩)).1
    · apply holderName_none
      intro j p hp _
      rw [(hflags p (List.mem_iff_getElem?.2 ⟨j, hp⟩)).2]
      simp

/-- C4 at `quietStats`, where every participant has damage to champions 0 and
nobody is AFK. -/
theorem zero_maximum_gives_no_standout_witness :
    quietSummary.Players.map (fun q => (q.Afk, q.TotalDamage)) = [(false, 0), (false, 0)] ∧
      (∀ q, q ∈ quietSummary.Players →
        q.HighestDamageInGame = false ∧ q.HighestDamageOnTeam = false) ∧
      quietSummary.Achievements.HighestDamageInGame = "" ∧
      quietSummary.Achievements.HighestDamageOnMyTeam = "" :=
  ⟨by decide!,
    (zero_maximum_gives_no_standout quietStats quietCfg quietSummary (by decide!)).1
      (by decide!)⟩

/-! ## The canonical achievement names -/

theorem getElem?_mid {α : Type} (pre post : List α) (h : α) :
    (pre ++ h :: post)[pre.length]? = some h := by
  rw [List.getElem?_append_right (le_refl _), Nat.sub_self, List.getElem?_cons_zero]

theorem getElem?_split {α : Type} (pre post : List α) (h a : α) (j : Nat)
    (hj : (pre ++ h :: post)[j]? = some a) :
    (j < pre.length → a ∈ pre) ∧ (j = pre.length → a = h) ∧
      (j ≠ pre.length → a ∈ pre ++ post) := by
  refine ⟨?_, ?_, ?_⟩
  · intro hlt
    rw [List.getElem?_append_left hlt] at hj
    exact List.mem_iff_getElem?.2 ⟨j, hj⟩
  · intro he
    subst he
    rw [getElem?_mid] at hj
    exact (Option.some.inj hj).symm
  · intro hne
    rcases Nat.lt_or_gt_of_ne hne with hlt | hgt
    · rw [List.getElem?_append_left hlt] at hj
      exact List.mem_append_left _ (List.mem_iff_getElem?.2 ⟨j, hj⟩)
    · rw [List.getElem?_append_right (le_of_lt hgt)] at hj
      obtain ⟨m, hm⟩ : ∃ m, j - pre.length = m + 1 := ⟨j - pre.length - 1, by omega⟩
      rw [hm, List.getElem?_cons_succ] at hj
      exact List.mem_append_right _ (List.mem_iff_getElem?.2 ⟨m, hj⟩)

/-- What entry `j` of the returned players copies from participant `j`. -/
theorem final_info (stats : EoGStatsBlock) (cfg : Config) (j : Nat) (q : PlayerSummary)
    (hq : (finalPlayers stats cfg)[j]? = some q) :
    ∃ pt : EoGParticipant, stats.Participants[j]? = some pt ∧
      teamIDAt stats j = pt.TeamID ∧
      q.Afk = afkOf cfg (gameMinutesOf stats) pt ∧
      q.Champion = getChampionName pt ∧
      q.TotalDamage = getPlayerStat pt "totalDamageDealtToChampions" ∧
      q.TotalHealing = getPlayerStat pt "totalHealsOnTeammates" ∧
      q.TotalShielding = getPlayerStat pt "totalDamageShieldedOnTeammates" ∧
      q.VisionScore = getPlayerStat pt "visionScore" ∧
      q.TotalCC = getPlayerStat pt "timeCCingOthers" := by
  obtain ⟨pt, _, hpt, _⟩ := finalPlayers_entry stats cfg j q hq
  obtain ⟨h1, _, _, _, h5, h6, h7, h8, h9, _⟩ := finalPlayers_values stats cfg j q pt hq hpt
  refine ⟨pt, hpt, ?_, finalPlayers_afk stats cfg j q pt hq hpt, h1, h5, h6, h7, h8, h9⟩
  unfold teamIDAt participantAt
  rw [hpt]
  rfl

/-- The name of a game-wide category is the champion of its first holder. -/
theorem game_holder_name (stats : EoGStatsBlock) (cfg : Config)
    (pre post : List EoGParticipant) (h : EoGParticipant)
    (hP : stats.Participants = pre ++ h :: post)
    (flag : PlayerSummary → Bool) (val : PlayerSummary → Int) (valPt : EoGParticipant → Int)
    (hlink : ∀ (j : Nat) (q : PlayerSummary) (pt : EoGParticipant),
      (finalPlayers stats cfg)[j]? = some q → stats.Participants[j]? = some pt →
      val q = valPt pt)
    (hc1 : ∀ (j : Nat) (q : PlayerSummary), (finalPlayers stats cfg)[j]? = some q →
      q.Afk = false → flag q = true → val q = maxOver val (finalPlayers stats cfg) 0)
    (hc2 : ∀ (j : Nat) (q : PlayerSummary), (finalPlayers stats cfg)[j]? = some q →
      q.Afk = false → val q = maxOver val (finalPlayers stats cfg) 0 →
      maxOver val (finalPlayers stats cfg) 0 > 0 →
      (∀ (j2 : Nat) (r : PlayerSummary), j2 < j → (finalPlayers stats cfg)[j2]? = some r →
        r.Afk = false → val r ≠ maxOver val (finalPlayers stats cfg) 0) →
      flag q = true)
    (hFH : FirstHolder cfg (gameMinutesOf stats) (fun _ => True) valPt pre post h) :
    holderName (fun _ p => flag p) val (finalPlayers stats cfg) = getChampionName h := by
  obtain ⟨-, hA, hpos, hle, hne⟩ := hFH
  have hk : stats.Participants[pre.length]? = some h := by rw [hP]; exact getElem?_mid pre post h
  obtain ⟨qh, hqh⟩ := finalPlayers_exists stats cfg pre.length h hk
  obtain ⟨pt, hpt, -, hqA, hqC, -⟩ := final_info stats cfg _ qh hqh
  rw [hk] at hpt
  simp only [Option.some.injEq] at hpt
  subst hpt
  have hqv : val qh = valPt h := hlink _ qh h hqh hk
  have info : ∀ (j : Nat) (r : PlayerSummary), (finalPlayers stats cfg)[j]? = some r →
      r.Afk = false →
      val r ≤ valPt h ∧ (j < pre.length → val r ≠ valPt h) := by
    intro j r hr hrA
    obtain ⟨pt, hpt, -, hrA2, -⟩ := final_info stats cfg j r hr
    have hv := hlink j r pt hr hpt
    have hsp := getElem?_split pre post h pt j (by rw [← hP]; exact hpt)
    rw [hrA2] at hrA
    constructor
    · by_cases hj : j = pre.length
      · rw [hv, hsp.2.1 hj]
      · rw [hv]; exact hle pt (hsp.2.2 hj) trivial hrA
    · intro hj
      rw [hv]; exact hne pt (hsp.1 hj) trivial hrA
  have hM : maxOver val (finalPlayers stats cfg) 0 = valPt h := by
    refine maxOver_eq val _ 0 _ qh (List.mem_iff_getElem?.2 ⟨_, hqh⟩) (hqA.trans hA) hqv
      (le_of_lt hpos) ?_
    intro r hr hrA
    rcases List.mem_iff_getElem?.1 hr with ⟨j, hj⟩
    exact (info j r hj hrA).1
  rw [← hqC]
  refine holderName_first _ val _ pre.length qh hqh (hqA.trans hA) ?_ (hqv ▸ hpos) ?_ ?_
  · refine hc2 _ qh hqh (hqA.trans hA) (hqv.trans hM.symm) (hM ▸ hpos) ?_
    intro j2 r hj2 hr hrA
    rw [hM]
    exact (info j2 r hr hrA).2 hj2
  · intro j p hj hp hpA
    apply bool_eq_false_of_imp
    intro hf
    have := hc1 j p hp hpA hf
    rw [hM] at this
    exact (info j p hp hpA).2 hj this
  · intro j p hp hpA hf
    rw [hc1 j p hp hpA hf, hM, hqv]

/-- A team maximum is the value `d` as soon as a non-AFK player of the team has
it, it is not negative, and no non-AFK player of the team exceeds it. -/
theorem teamMax_eq (stats : EoGStatsBlock) (val : PlayerSummary → Int)
    (ps : List PlayerSummary) (T d : Int) (k : Nat) (p : PlayerSummary)
    (hp : ps[k]? = some p) (hA : p.Afk = false) (hT : teamIDAt stats k = T) (hd : val p = d)
    (h0 : 0 ≤ d)
    (hle : ∀ (j : Nat) (r : PlayerSummary), ps[j]? = some r → r.Afk = false →
      teamIDAt stats j = T → val r ≤ d) :
    teamMax stats val ps T = d := by
  unfold teamMax
  apply le_antisymm
  · rcases teamMaxLoop_attained stats val 0 ps (fun _ => 0) T with h | ⟨j, r, hr, hrA, hrT, hv⟩
    · rw [h]; exact h0
    · rw [← hv]
      exact hle j r hr hrA (by simpa using hrT)
  · rw [← hd]
    exact teamMaxLoop_ge stats val 0 ps _ T k p hp hA (by simpa using hT)

/-- The name of a my-team category is the champion of its first holder among the
participants of team `T`. -/
theorem team_holder_name (stats : EoGStatsBlock) (cfg : Config) (T : Int)
    (pre post : List EoGParticipant) (h : EoGParticipant)
    (hP : stats.Participants = pre ++ h :: post)
    (flag : PlayerSummary → Bool) (val : PlayerSummary → Int) (valPt : EoGParticipant → Int)
    (hlink : ∀ (j : Nat) (q : PlayerSummary) (pt : EoGParticipant),
      (finalPlayers stats cfg)[j]? = some q → stats.Participants[j]? = some pt →
      val q = valPt pt)
    (hc1 : ∀ (j : Nat) (q : PlayerSummary), (finalPlayers stats cfg)[j]? = some q →
      q.Afk = false → flag q = true →
      val q = teamMax stats val (finalPlayers stats cfg) (teamIDAt stats j))
    (hc2 : ∀ (j : Nat) (q : PlayerSummary), (finalPlayers stats cfg)[j]? = some q →
      q.Afk = false → val q = teamMax stats val (finalPlayers stats cfg) (teamIDAt stats j) →
      teamMax stats val (finalPlayers stats cfg) (teamIDAt stats j) > 0 →
      (∀ (j2 : Nat) (r : PlayerSummary), j2 < j → (finalPlayers stats cfg)[j2]? = some r →
        teamIDAt stats j2 = teamIDAt stats j → r.Afk = false →
        val r ≠ teamMax stats val (finalPlayers stats cfg) (teamIDAt stats j)) →
      flag q = true)
    (hFH : FirstHolder cfg (gameMinutesOf stats) (fun p => p.TeamID = T) valPt pre post h) :
    holderName (fun i p => decide (teamIDAt stats i = T) && flag p) val (finalPlayers stats cfg)
      = getChampionName h := by
  obtain ⟨hsel, hA, hpos, hle, hne⟩ := hFH
  have hk : stats.Participants[pre.length]? = some h := by rw [hP]; exact getElem?_mid pre post h
  obtain ⟨qh, hqh⟩ := finalPlayers_exists stats cfg pre.length h hk
  obtain ⟨pt, hpt, hkT, hqA, hqC, -⟩ := final_info stats cfg _ qh hqh
  rw [hk] at hpt
  simp only [Option.some.injEq] at hpt
  subst hpt
  rw [hsel] at hkT
  have hqv : val qh = valPt h := hlink _ qh h hqh hk
  have info : ∀ (j : Nat) (r : PlayerSummary), (finalPlayers stats cfg)[j]? = some r →
      r.Afk = false → teamIDAt stats j = T →
      val r ≤ valPt h ∧ (j < pre.length → val r ≠ valPt h) := by
    intro j r hr hrA hrT
    obtain ⟨pt, hpt, hjT, hrA2, -⟩ := final_info stats cfg j r hr
    have hv := hlink j r pt hr hpt
    have hsp := getElem?_split pre post h pt j (by rw [← hP]; exact hpt)
    rw [hrA2] at hrA
    rw [hjT] at hrT
    constructor
    · by_cases hj : j = pre.length
      · rw [hv, hsp.2.1 hj]
      · rw [hv]; exact hle pt (hsp.2.2 hj) hrT hrA
    · intro hj
      rw [hv]; exact hne pt (hsp.1 hj) hrT hrA
  have hM : teamMax stats val (finalPlayers stats cfg) T = valPt h :=
    teamMax_eq stats val _ T _ pre.length qh hqh (hqA.trans hA) hkT hqv (le_of_lt hpos)
      (fun j r hr hrA hrT => (info j r hr hrA hrT).1)
  rw [← hqC]
  refine holderName_first _ val _ pre.length qh hqh (hqA.trans hA) ?_ (hqv ▸ hpos) ?_ ?_
  · simp only [Bool.and_eq_true, decide_eq_true_eq]
    refine ⟨hkT, hc2 _ qh hqh (hqA.trans hA) ?_ ?_ ?_⟩
    · rw [hkT, hM]; exact hqv
    · rw [hkT, hM]; exact hpos
    · intro j2 r hj2 hr hrT hrA
      rw [hkT, hM]
      exact (info j2 r hr hrA (hrT.trans hkT)).2 hj2
  · intro j p hj hp hpA
    apply bool_eq_false_of_imp
    intro hf
    simp only [Bool.and_eq_true, decide_eq_true_eq] at hf
    have := hc1 j p hp hpA hf.2
    rw [hf.1, hM] at this
    exact (info j p hp hpA hf.1).2 hj this
  · intro j p hp hpA hf
    simp only [Bool.and_eq_true, decide_eq_true_eq] at hf
    rw [hc1 j p hp hpA hf.2, hf.1, hM, hqv]

theorem FirstHolder.perm {cfg : Config} {gm : ℚ} {sel : EoGParticipant → Prop}
    {val : EoGParticipant → Int} {pre post post2 : List EoGParticipant} {h : EoGParticipant}
    (hF : FirstHolder cfg gm sel val pre post h) (hperm : post2.Perm post) :
    FirstHolder cfg gm sel val pre post2 h := by
  obtain ⟨h1, h2, h3, h4, h5⟩ := hF
  refine ⟨h1, h2, h3, ?_, h5⟩
  intro p hp
  apply h4 p
  rcases List.mem_append.1 hp with hp | hp
  · exact List.mem_append_left _ hp
  · exact List.mem_append_right _ (hperm.mem_iff.1 hp)

theorem gameMaxima_fields (ps : List PlayerSummary) :
    (gameMaxima ps).maxDamage = maxOver (fun p => p.TotalDamage) ps 0 ∧
      (gameMaxima ps).maxVision = maxOver (fun p => p.VisionScore) ps 0 ∧
      (gameMaxima ps).maxCC = maxOver (fun p => p.TotalCC) ps 0 ∧
      (gameMaxima ps).maxHealingShielding
        = maxOver (fun p => p.TotalHealing + p.TotalShielding) ps 0 := by
  rw [gameMaxima_eq]
  exact ⟨rfl, rfl, rfl, rfl⟩

theorem final_link (stats : EoGStatsBlock) (cfg : Config) (val : PlayerSummary → Int)
    (valPt : EoGParticipant → Int)
    (hx : ∀ (j : Nat) (q : PlayerSummary), (finalPlayers stats cfg)[j]? = some q →
      ∃ pt2, stats.Participants[j]? = some pt2 ∧ val q = valPt pt2)
    (j : Nat) (q : PlayerSummary) (pt : EoGParticipant)
    (hq : (finalPlayers stats cfg)[j]? = some q) (hp : stats.Participants[j]? = some pt) :
    val q = valPt pt := by
  obtain ⟨pt2, hp2, hv⟩ := hx j q hq
  rw [hp] at hp2
  rw [hv, Option.some.inj hp2]

theorem final_link_damage (stats : EoGStatsBlock) (cfg : Config) (j : Nat) (q : PlayerSummary)
    (pt : EoGParticipant) (hq : (finalPlayers stats cfg)[j]? = some q)
    (hp : stats.Participants[j]? = some pt) :
    q.TotalDamage = getPlayerStat pt "totalDamageDealtToChampions" :=
  final_link stats cfg (fun p => p.TotalDamage)
    (fun p => getPlayerStat p "totalDamageDealtToChampions")
    (fun j q hq => by
      obtain ⟨pt2, hp2, _, _, _, hv, _⟩ := final_info stats cfg j q hq
      exact ⟨pt2, hp2, hv⟩) j q pt hq hp

theorem final_link_vision (stats : EoGStatsBlock) (cfg : Config) (j : Nat) (q : PlayerSummary)
    (pt : EoGParticipant) (hq : (finalPlayers stats cfg)[j]? = some q)
    (hp : stats.Participants[j]? = some pt) :
    q.VisionScore = getPlayerStat pt "visionScore" :=
  final_link stats cfg (fun p => p.VisionScore) (fun p => getPlayerStat p "visionScore")
    (fun j q hq => by
      obtain ⟨pt2, hp2, _, _, _, _, _, _, hv, _⟩ := final_info stats cfg j q hq
      exact ⟨pt2, hp2, hv⟩) j q pt hq hp

theorem final_link_cc (stats : EoGStatsBlock) (cfg : Config) (j : Nat) (q : PlayerSummary)
    (pt : EoGParticipant) (hq : (finalPlayers stats cfg)[j]? = some q)
    (hp : stats.Participants[j]? = some pt) :
    q.TotalCC = getPlayerStat pt "timeCCingOthers" :=
  final_link stats cfg (fun p => p.TotalCC) (fun p => getPlayerStat p "timeCCingOthers")
    (fun j q hq => by
      obtain ⟨pt2, hp2, _, _, _, _, _, _, _, hv⟩ := final_info stats cfg j q hq
      exact ⟨pt2, hp2, hv⟩) j q pt hq hp

theorem final_link_healShield (stats : EoGStatsBlock) (cfg : Config) (j : Nat)
    (q : PlayerSummary) (pt : EoGParticipant) (hq : (finalPlayers stats cfg)[j]? = some q)
    (hp : stats.Participants[j]? = some pt) :
    q.TotalHealing + q.TotalShielding
      = getPlayerStat pt "totalHealsOnTeammates"
        + getPlayerStat pt "totalDamageShieldedOnTeammates" :=
  final_link stats cfg (fun p => p.TotalHealing + p.TotalShielding)
    (fun p => getPlayerStat p "totalHealsOnTeammates"
      + getPlayerStat p "totalDamageShieldedOnTeammates")
    (fun j q hq => by
      obtain ⟨pt2, hp2, _, _, _, _, hv1, hv2, _⟩ := final_info stats cfg j q hq
      exact ⟨pt2, hp2, by
        show q.TotalHealing + q.TotalShielding = _
        rw [hv1, hv2]⟩) j q pt hq hp

/-- The game-wide damage name is the champion of the first holder. -/
theorem name_highestDamageInGame (stats : EoGStatsBlock) (cfg : Config)
    (pre post : List EoGParticipant) (h : EoGParticipant)
    (hP : stats.Participants = pre ++ h :: post)
    (hF : FirstHolder cfg (gameMinutesOf stats) (fun _ => True)
      (fun p => getPlayerStat p "totalDamageDealtToChampions") pre post h) :
    (calculateAchievements (finalPlayers stats cfg) stats
      (findMyTeamID stats.Participants cfg)).HighestDamageInGame = getChampionName h := by
  have hmx := gameMaxima_fields (finalPlayers stats cfg)
  refine game_holder_name stats cfg pre post h hP (fun p => p.HighestDamageInGame)
    (fun p => p.TotalDamage) (fun p => getPlayerStat p "totalDamageDealtToChampions")
    (final_link_damage stats cfg) ?_ ?_ hF
  · intro j q hq _ hf
    rw [← hmx.1]
    exact ((final_highestDamageInGame stats cfg j q hq).1 hf).2.1.1
  · intro j q hq hqA hv hpos hfirst
    rw [← hmx.1] at hv hpos hfirst
    exact (final_highestDamageInGame stats cfg j q hq).2
      ⟨hqA, ⟨hv, hpos⟩, fun j2 r hj2 hr hrA hc => hfirst j2 r hj2 hr hrA hc.1⟩

/-- The game-wide vision name is the champion of the first holder. -/
theorem name_highestVisionInGame (stats : EoGStatsBlock) (cfg : Config)
    (pre post : List EoGParticipant) (h : EoGParticipant)
    (hP : stats.Participants = pre ++ h :: post)
    (hF : FirstHolder cfg (gameMinutesOf stats) (fun _ => True)
      (fun p => getPlayerStat p "visionScore") pre post h) :
    (calculateAchievements (finalPlayers stats cfg) stats
      (findMyTeamID stats.Participants cfg)).HighestVisionInGame = getChampionName h := by
  have hmx := gameMaxima_fields (finalPlayers stats cfg)
  refine game_holder_name stats cfg pre post h hP (fun p => p.HighestVisionInGame)
    (fun p => p.VisionScore) (fun p => getPlayerStat p "visionScore")
    (final_link_vision stats cfg) ?_ ?_ hF
  · intro j q hq hqA hf
    rw [← hmx.2.1]
    exact ((final_shared_flags stats cfg j q hq hqA).2.2.2.1.1 hf).1
  · intro j q hq hqA hv hpos _
    rw [← hmx.2.1] at hv hpos
    exact (final_shared_flags stats cfg j q hq hqA).2.2.2.1.2 ⟨hv, hpos⟩

/-- The game-wide CC name is the champion of the first holder. -/
theorem name_mostCCInGame (stats : EoGStatsBlock) (cfg : Config)
    (pre post : List EoGParticipant) (h : EoGParticipant)
    (hP : stats.Participants = pre ++ h :: post)
    (hF : FirstHolder cfg (gameMinutesOf stats) (fun _ => True)
      (fun p => getPlayerStat p "timeCCingOthers") pre post h) :
    (calculateAchievements (finalPlayers stats cfg) stats
      (findMyTeamID stats.Participants cfg)).MostCCInGame = getChampionName h := by
  have hmx := gameMaxima_fields (finalPlayers stats cfg)
  refine game_holder_name stats cfg pre post h hP (fun p => p.MostCCInGame)
    (fun p => p.TotalCC) (fun p => getPlayerStat p "timeCCingOthers")
    (final_link_cc stats cfg) ?_ ?_ hF
  · intro j q hq hqA hf
    rw [← hmx.2.2.1]
    exact ((final_shared_flags stats cfg j q hq hqA).2.2.2.2.2.1.1 hf).1
  · intro j q hq hqA hv hpos _
    rw [← hmx.2.2.1] at hv hpos
    exact (final_shared_flags stats cfg j q hq hqA).2.2.2.2.2.1.2 ⟨hv, hpos⟩

/-- The healing+shielding name is the champion of the first holder. -/
theorem name_mostHealingShielding (stats : EoGStatsBlock) (cfg : Config)
    (pre post : List EoGParticipant) (h : EoGParticipant)
    (hP : stats.Participants = pre ++ h :: post)
    (hF : FirstHolder cfg (gameMinutesOf stats) (fun _ => True)
      (fun p => getPlayerStat p "totalHealsOnTeammates"
        + getPlayerStat p "totalDamageShieldedOnTeammates") pre post h) :
    (calculateAchievements (finalPlayers stats cfg) stats
      (findMyTeamID stats.Participants cfg)).MostHealingShielding = getChampionName h := by
  have hmx := gameMaxima_fields (finalPlayers stats cfg)
  refine game_holder_name stats cfg pre post h hP (fun p => p.MostHealingShielding)
    (fun p => p.TotalHealing + p.TotalShielding)
    (fun p => getPlayerStat p "totalHealsOnTeammates"
      + getPlayerStat p "totalDamageShieldedOnTeammates")
    (final_link_healShield stats cfg) ?_ ?_ hF
  · intro j q hq hqA hf
    rw [← hmx.2.2.2]
    exact ((final_shared_flags stats cfg j q hq hqA).2.2.1.1 hf).1
  · intro j q hq hqA hv hpos _
    rw [← hmx.2.2.2] at hv hpos
    exact (final_shared_flags stats cfg j q hq hqA).2.2.1.2 ⟨hv, hpos⟩

/-- The my-team damage name is the champion of the first holder on the viewer's
team. -/
theorem name_highestDamageOnMyTeam (stats : EoGStatsBlock) (cfg : Config)
    (pre post : List EoGParticipant) (h : EoGParticipant)
    (hP : stats.Participants = pre ++ h :: post)
    (hF : FirstHolder cfg (gameMinutesOf stats)
      (fun p => p.TeamID = findMyTeamID stats.Participants cfg)
      (fun p => getPlayerStat p "totalDamageDealtToChampions") pre post h) :
    (calculateAchievements (finalPlayers stats cfg) stats
      (findMyTeamID stats.Participants cfg)).HighestDamageOnMyTeam = getChampionName h := by
  refine team_holder_name stats cfg (findMyTeamID stats.Participants cfg) pre post h hP
    (fun p => p.HighestDamageOnTeam) (fun p => p.TotalDamage)
    (fun p => getPlayerStat p "totalDamageDealtToChampions")
    (final_link_damage stats cfg) ?_ ?_ hF
  · intro j q hq _ hf
    exact ((final_highestDamageOnTeam stats cfg j q hq).1 hf).2.1.1
  · intro j q hq hqA hv hpos hfirst
    refine (final_highestDamageOnTeam stats cfg j q hq).2
      ⟨hqA, ⟨hv, hpos⟩, fun j2 r hj2 hr hrT hrA hc => ?_⟩
    rw [hrT] at hc
    exact hfirst j2 r hj2 hr hrT hrA hc.1

/-- The my-team vision name is the champion of the first holder on the viewer's
team. -/
theorem name_highestVisionOnMyTeam (stats : EoGStatsBlock) (cfg : Config)
    (pre post : List EoGParticipant) (h : EoGParticipant)
    (hP : stats.Participants = pre ++ h :: post)
    (hF : FirstHolder cfg (gameMinutesOf stats)
      (fun p => p.TeamID = findMyTeamID stats.Participants cfg)
      (fun p => getPlayerStat p "visionScore") pre post h) :
    (calculateAchievements (finalPlayers stats cfg) stats
      (findMyTeamID stats.Participants cfg)).HighestVisionOnMyTeam = getChampionName h := by
  refine team_holder_name stats cfg (findMyTeamID stats.Participants cfg) pre post h hP
    (fun p => p.HighestVisionOnTeam) (fun p => p.VisionScore)
    (fun p => getPlayerStat p "visionScore") (final_link_vision stats cfg) ?_ ?_ hF
  · intro j q hq hqA hf
    exact ((final_shared_flags stats cfg j q hq hqA).2.2.2.2.1.1 hf).1
  · intro j q hq hqA hv hpos _
    exact (final_shared_flags stats cfg j q hq hqA).2.2.2.2.1.2 ⟨hv, hpos⟩

/-- The my-team CC name is the champion of the first holder on the viewer's
team. -/
theorem name_mostCCOnMyTeam (stats : EoGStatsBlock) (cfg : Config)
    (pre post : List EoGParticipant) (h : EoGParticipant)
    (hP : stats.Participants = pre ++ h :: post)
    (hF : FirstHolder cfg (gameMinutesOf stats)
      (fun p => p.TeamID = findMyTeamID stats.Participants cfg)
      (fun p => getPlayerStat p "timeCCingOthers") pre post h) :
    (calculateAchievements (finalPlayers stats cfg) stats
      (findMyTeamID stats.Participants cfg)).MostCCOnMyTeam = getChampionName h := by
  refine team_holder_name stats cfg (findMyTeamID stats.Participants cfg) pre post h hP
    (fun p => p.MostCCOnTeam) (fun p => p.TotalCC)
    (fun p => getPlayerStat p "timeCCingOthers") (final_link_cc stats cfg) ?_ ?_ hF
  · intro j q hq hqA hf
    exact ((final_shared_flags stats cfg j q hq hqA).2.2.2.2.2.2.1.1 hf).1
  · intro j q hq hqA hv hpos _
    exact (final_shared_flags stats cfg j q hq hqA).2.2.2.2.2.2.1.2 ⟨hv, hpos⟩

/-- C3 (amended).  Take the match whose participants are `pre ++ h :: post` and
any match obtained from it by permuting the participants after `h` (`post2`).
If `h` is the first non-AFK participant whose value is the positive maximum over
the non-AFK participants, the game-wide name of the category (damage, vision, CC
time, healing+shielding) in the achievements of the permuted match is the
champion of `h`.  If `h` is the first such participant among the viewer's non-AFK
teammates, the my-team name (damage, vision, CC) is the champion of `h` as well,
provided the permutation leaves the viewer's team id unchanged. -/
theorem achievement_names_first_holder (stats : EoGStatsBlock) (cfg : Config)
    (pre post post2 : List EoGParticipant) (h : EoGParticipant) (s2 : GameSummary)
    (hperm : post2.Perm post)
    (hs : (AnalyzeGame (withParticipants stats (pre ++ h :: post2)) cfg).1 = some s2) :
    (FirstHolder cfg (gameMinutesOf stats) (fun _ => True)
        (fun p => getPlayerStat p "totalDamageDealtToChampions") pre post h →
      s2.Achievements.HighestDamageInGame = getChampionName h) ∧
    (FirstHolder cfg (gameMinutesOf stats) (fun _ => True)
        (fun p => getPlayerStat p "visionScore") pre post h →
      s2.Achievements.HighestVisionInGame = getChampionName h) ∧
    (FirstHolder cfg (gameMinutesOf stats) (fun _ => True)
        (fun p => getPlayerStat p "timeCCingOthers") pre post h →
      s2.Achievements.MostCCInGame = getChampionName h) ∧
    (FirstHolder cfg (gameMinutesOf stats) (fun _ => True)
        (fun p => getPlayerStat p "totalHealsOnTeammates"
          + getPlayerStat p "totalDamageShieldedOnTeammates") pre post h →
      s2.Achievements.MostHealingShielding = getChampionName h) ∧
    (findMyTeamID (pre ++ h :: post2) cfg = findMyTeamID (pre ++ h :: post) cfg →
      (FirstHolder cfg (gameMinutesOf stats)
          (fun p => p.TeamID = findMyTeamID (pre ++ h :: post) cfg)
          (fun p => getPlayerStat p "totalDamageDealtToChampions") pre post h →
        s2.Achievements.HighestDamageOnMyTeam = getChampionName h) ∧
      (FirstHolder cfg (gameMinutesOf stats)
          (fun p => p.TeamID = findMyTeamID (pre ++ h :: post) cfg)
          (fun p => getPlayerStat p "visionScore") pre post h →
        s2.Achievements.HighestVisionOnMyTeam = getChampionName h) ∧
      (FirstHolder cfg (gameMinutesOf stats)
          (fun p => p.TeamID = findMyTeamID (pre ++ h :: post) cfg)
          (fun p => getPlayerStat p "timeCCingOthers") pre post h →
        s2.Achievements.MostCCOnMyTeam = getChampionName h)) := by
  have hAch := (AnalyzeGame_some hs).2
  generalize hst : withParticipants stats (pre ++ h :: post2) = stats2 at hs hAch
  have hP2 : stats2.Participants = pre ++ h :: post2 := by rw [← hst]; rfl
  have hgm : gameMinutesOf stats = gameMinutesOf stats2 := by rw [← hst]; rfl
  rw [hgm, hAch]
  refine ⟨?_, ?_, ?_, ?_, ?_⟩
  · exact fun hF => name_highestDamageInGame stats2 cfg pre post2 h hP2 (hF.perm hperm)
  · exact fun hF => name_highestVisionInGame stats2 cfg pre post2 h hP2 (hF.perm hperm)
  · exact fun hF => name_mostCCInGame stats2 cfg pre post2 h hP2 (hF.perm hperm)
  · exact fun hF => name_mostHealingShielding stats2 cfg pre post2 h hP2 (hF.perm hperm)
  · intro hT
    have hT2 : findMyTeamID (pre ++ h :: post) cfg = findMyTeamID stats2.Participants cfg := by
      rw [hP2]; exact hT.symm
    rw [hT2]
    refine ⟨?_, ?_, ?_⟩
    · exact fun hF => name_highestDamageOnMyTeam stats2 cfg pre post2 h hP2 (hF.perm hperm)
    · exact fun hF => name_highestVisionOnMyTeam stats2 cfg pre post2 h hP2 (hF.perm hperm)
    · exact fun hF => name_mostCCOnMyTeam stats2 cfg pre post2 h hP2 (hF.perm hperm)

/-- C3 as stated fails for the my-team names: in `twinStats` the viewer's name is
carried by a participant of team 100 and by one of team 200.  `xan` is the first
holder of the damage maximum among the viewer's non-AFK teammates and
`HighestDamageOnMyTeam` is her champion; exchanging the two participants after
her makes team 200 the viewer's team and changes the name. -/
theorem my_team_name_changes_under_permutation :
    twinStats.Participants = [] ++ participantAt twinStats 0
        :: [participantAt twinStats 1, participantAt twinStats 2] ∧
      twinSwapped = [] ++ participantAt twinStats 0
        :: [participantAt twinStats 2, participantAt twinStats 1] ∧
      List.Perm [participantAt twinStats 2, participantAt twinStats 1]
        [participantAt twinStats 1, participantAt twinStats 2] ∧
      FirstHolder twinCfg (gameMinutesOf twinStats)
        (fun p => p.TeamID = findMyTeamID twinStats.Participants twinCfg)
        (fun p => getPlayerStat p "totalDamageDealtToChampions") []
        [participantAt twinStats 1, participantAt twinStats 2] (participantAt twinStats 0) ∧
      (AnalyzeGame twinStats twinCfg).1.map (fun s => s.Achievements.HighestDamageOnMyTeam)
        = some "Xayah" ∧
      (AnalyzeGame (withParticipants twinStats twinSwapped) twinCfg).1.map
        (fun s => s.Achievements.HighestDamageOnMyTeam) = some "Vayne" := by
  refine ⟨by decide!, by decide!, List.Perm.swap _ _ _, ?_, by decide!, by decide!⟩
  simp only [FirstHolder]
  decide!

/-- C3 (amended) at the ten-player match: `kai` comes first and has the highest
damage of the non-AFK players (the AFK player `lea` has more); with the nine
other participants in reverse order the game-wide damage name is still her
champion. -/
theorem achievement_names_first_holder_witness :
    FirstHolder scenarioCfg (gameMinutesOf scenarioStats) (fun _ => True)
        (fun p => getPlayerStat p "totalDamageDealtToChampions") []
        scenarioStats.Participants.tail (participantAt scenarioStats 0) ∧
      (scenarioStats.Participants.tail.reverse).Perm scenarioStats.Participants.tail ∧
      (((AnalyzeGame (withParticipants scenarioStats
          ([] ++ participantAt scenarioStats 0 :: scenarioStats.Participants.tail.reverse))
          scenarioCfg).1).getD {}).Achievements.HighestDamageInGame = "Kaisa" :=
  have hF : FirstHolder scenarioCfg (gameMinutesOf scenarioStats) (fun _ => True)
      (fun p => getPlayerStat p "totalDamageDealtToChampions") []
      scenarioStats.Participants.tail (participantAt scenarioStats 0) := by
    simp only [FirstHolder]
    decide!
  ⟨hF, List.reverse_perm _,
    ((achievement_names_first_holder scenarioStats scenarioCfg [] scenarioStats.Participants.tail
      scenarioStats.Participants.tail.reverse (participantAt scenarioStats 0) _
      (List.reverse_perm _) (by decide!)).1 hF).trans (by decide!)⟩

/-! ## AFK players do not influence the standout and tag passes -/

theorem AfkAgree.refl (p : PlayerSummary) : AfkAgree p p := ⟨rfl, fun _ => rfl, rfl, rfl⟩

theorem SameButAfk.listAgree {ps ps2 : List PlayerSummary} (h : SameButAfk ps ps2) :
    ListAgree ps ps2 := by
  refine ⟨h.1, ?_⟩
  intro j a b ha hb
  rcases h.2 j a b ha hb with he | ⟨hA, hA2, hn, hn2⟩
  · subst he; exact AfkAgree.refl a
  · refine ⟨hA.trans hA2.symm, ?_, ?_, ?_⟩
    · intro hf; rw [hA] at hf; exact absurd hf (by simp)
    · rw [hn.flags.1, hn2.flags.1]
    · rw [hn.flags.2.1, hn2.flags.2.1]

theorem ListAgree.forall₂ {l l2 : List PlayerSummary} (h : ListAgree l l2) :
    List.Forall₂ AfkAgree l l2 := by
  induction l generalizing l2 with
  | nil =>
    cases l2 with
    | nil => exact List.Forall₂.nil
    | cons b l2 => exact absurd h.1 (by simp)
  | cons a l ih =>
    cases l2 with
    | nil => exact absurd h.1 (by simp)
    | cons b l2 =>
      refine List.Forall₂.cons (h.2 0 a b (by simp) (by simp)) (ih ⟨?_, ?_⟩)
      · simpa using h.1
      · intro j x y hx hy
        exact h.2 (j + 1) x y (by simpa using hx) (by simpa using hy)

theorem maxOver_agree {α : Type} [LinearOrder α] (val : PlayerSummary → α)
    {l l2 : List PlayerSummary} (h : List.Forall₂ AfkAgree l l2) (init : α) :
    maxOver val l init = maxOver val l2 init := by
  induction h generalizing init with
  | nil => rfl
  | @cons a b l l2 hab _ ih =>
    rw [maxOver_cons, maxOver_cons, ← hab.1]
    by_cases hA : a.Afk = true
    · simp only [hA, if_true]; exact ih init
    · have hA2 : a.Afk = false := by simpa using hA
      rw [← hab.2.1 hA2]
      exact ih _

theorem gameMaxima_agree {l l2 : List PlayerSummary} (h : List.Forall₂ AfkAgree l l2) :
    gameMaxima l = gameMaxima l2 := by
  rw [gameMaxima_eq, gameMaxima_eq, maxOver_agree _ h, maxOver_agree _ h, maxOver_agree _ h,
    maxOver_agree _ h, maxOver_agree _ h, maxOver_agree _ h, maxOver_agree _ h]

theorem teamMaxLoop_agree (stats : EoGStatsBlock) (val : PlayerSummary → Int)
    {l l2 : List PlayerSummary} (h : List.Forall₂ AfkAgree l l2) (i : Nat) (m : Int → Int) :
    teamMaxLoop stats val i l m = teamMaxLoop stats val i l2 m := by
  induction h generalizing i m with
  | nil => rfl
  | @cons a b l l2 hab _ ih =>
    unfold teamMaxLoop
    rw [← hab.1]
    by_cases hA : a.Afk = true
    · simp only [hA, if_true]; exact ih _ _
    · have hA2 : a.Afk = false := by simpa using hA
      rw [← hab.2.1 hA2]
      exact ih _ _

theorem groupTeamPlayers_agree (stats : EoGStatsBlock)
    {l l2 : List PlayerSummary} (h : List.Forall₂ AfkAgree l l2) (i : Nat)
    (m : Int → List Nat) :
    groupTeamPlayers stats i l m = groupTeamPlayers stats i l2 m := by
  induction h generalizing i m with
  | nil => rfl
  | @cons a b l l2 hab _ ih =>
    unfold groupTeamPlayers
    rw [← hab.1]
    exact ih _ _

/-- Two runs of a loop that writes `players[i]`, started from lists that agree,
end in lists that agree, when the loop bodies agree on a non-AFK player read
from agreeing lists whose AFK marks are those of the start lists. -/
theorem loopUpTo_agree (F F2 : List PlayerSummary → Nat → PlayerSummary → PlayerSummary)
    (ps ps2 : List PlayerSummary) (h0 : ListAgree ps ps2)
    (hFA : ∀ l i p, (F l i p).Afk = p.Afk)
    (hstep : ∀ (l l2 : List PlayerSummary) (i : Nat) (p : PlayerSummary), ListAgree l l2 →
      (∀ j : Nat, (l[j]?).map (fun x => x.Afk) = (ps[j]?).map (fun x => x.Afk)) →
      l[i]? = some p → l2[i]? = some p → p.Afk = false → F l i p = F2 l2 i p)
    (k : Nat) : ListAgree (loopUpTo F ps k) (loopUpTo F2 ps2 k) := by
  induction k with
  | zero => exact h0
  | succ k ih =>
    refine ⟨by rw [loopUpTo_length, loopUpTo_length]; exact h0.1, ?_⟩
    intro j a b ha hb
    rw [loopUpTo_succ] at ha hb
    by_cases hjk : k = j
    · subst hjk
      have hlen : k < (loopUpTo F ps k).length := by
        have := (List.getElem?_eq_some.1 ha).1
        rwa [updateAt_length] at this
      have hlen2 : k < (loopUpTo F2 ps2 k).length := by
        rw [← ih.1]; exact hlen
      have ha0 := List.getElem?_eq_getElem hlen
      have hb0 := List.getElem?_eq_getElem hlen2
      have hag := ih.2 k _ _ ha0 hb0
      rw [updateAt_getElem?_self F _ ha0] at ha
      rw [updateAt_getElem?_self F2 _ hb0] at hb
      simp only [Option.some.injEq] at ha hb
      by_cases hA : (loopUpTo F ps k)[k].Afk = true
      · have hA2 : (loopUpTo F2 ps2 k)[k].Afk = true := by rw [← hag.1]; exact hA
        simp only [hA, if_true] at ha
        simp only [hA2, if_true] at hb
        rw [← ha, ← hb]
        exact hag
      · have hAf : (loopUpTo F ps k)[k].Afk = false := by simpa using hA
        have hA2 : (loopUpTo F2 ps2 k)[k].Afk = false := by rw [← hag.1]; exact hAf
        have heq := hag.2.1 hAf
        simp only [hAf, Bool.false_eq_true, if_false] at ha
        simp only [hA2, Bool.false_eq_true, if_false] at hb
        rw [← ha, ← hb]
        rw [← heq] at hb0
        rw [← heq, hstep _ _ k _ ih (fun j => loopUpTo_preserves (fun x => x.Afk) F hFA ps k j)
          ha0 hb0 hAf]
        exact AfkAgree.refl _
    · rw [updateAt_getElem?_ne F _ hjk] at ha
      rw [updateAt_getElem?_ne F2 _ hjk] at hb
      exact ih.2 j a b ha hb

theorem markPlayer_agree (stats : EoGStatsBlock) (mx : GameMaxima) (a b c : Int → Int)
    (l l2 : List PlayerSummary) (h : ListAgree l l2) (i : Nat) (p : PlayerSummary) :
    markPlayer stats mx a b c l i p = markPlayer stats mx a b c l2 i p := by
  have flags : ∀ (j : Nat), (l[j]?).map (fun q => (q.HighestDamageInGame, q.HighestDamageOnTeam))
      = (l2[j]?).map (fun q => (q.HighestDamageInGame, q.HighestDamageOnTeam)) := by
    intro j
    cases hx : l[j]? with
    | none =>
      have : l2[j]? = none :=
        List.getElem?_eq_none_iff.2 (by rw [← h.1]; exact List.getElem?_eq_none_iff.1 hx)
      rw [this]
    | some x =>
      have hlen : j < l2.length := by rw [← h.1]; exact (List.getElem?_eq_some.1 hx).1
      have hy := List.getElem?_eq_getElem hlen
      have := h.2 j x _ hx hy
      rw [hy]
      simp only [Option.map_some', Option.some.injEq, Prod.mk.injEq]
      exact ⟨this.2.2.1, this.2.2.2⟩
  have hany : (l.any fun q => q.HighestDamageInGame) = (l2.any fun q => q.HighestDamageInGame) := by
    apply Bool.eq_iff_iff.2
    rw [any_iff_getElem?, any_iff_getElem?]
    constructor
    · rintro ⟨j, q, hq, hf⟩
      have := flags j
      rw [hq] at this
      cases hy : l2[j]? with
      | none => simp [hy] at this
      | some y =>
        simp only [hy, Option.map_some', Option.some.injEq, Prod.mk.injEq] at this
        exact ⟨j, y, hy, this.1 ▸ hf⟩
    · rintro ⟨j, q, hq, hf⟩
      have := flags j
      rw [hq] at this
      cases hy : l[j]? with
      | none => simp [hy] at this
      | some y =>
        simp only [hy, Option.map_some', Option.some.injEq, Prod.mk.injEq] at this
        exact ⟨j, y, hy, this.1 ▸ hf⟩
  have hteam : ∀ T, markedOnTeamFrom stats T 0 l = markedOnTeamFrom stats T 0 l2 := by
    intro T
    apply Bool.eq_iff_iff.2
    rw [markedOnTeamFrom_iff, markedOnTeamFrom_iff]
    constructor
    · rintro ⟨j, q, hq, hT, hf⟩
      have := flags j
      rw [hq] at this
      cases hy : l2[j]? with
      | none => simp [hy] at this
      | some y =>
        simp only [hy, Option.map_some', Option.some.injEq, Prod.mk.injEq] at this
        exact ⟨j, y, hy, hT, this.2 ▸ hf⟩
    · rintro ⟨j, q, hq, hT, hf⟩
      have := flags j
      rw [hq] at this
      cases hy : l[j]? with
      | none => simp [hy] at this
      | some y =>
        simp only [hy, Option.map_some', Option.some.injEq, Prod.mk.injEq] at this
        exact ⟨j, y, hy, hT, this.2 ▸ hf⟩
  unfold markPlayer
  simp only [hany, hteam]

/-- The standout pass gives agreeing results on agreeing lists. -/
theorem identify_agree (stats : EoGStatsBlock) (t : Int) (ps ps2 : List PlayerSummary)
    (h : ListAgree ps ps2) :
    ListAgree (identifyStandoutPerformances ps stats t)
      (identifyStandoutPerformances ps2 stats t) := by
  rw [identify_eq_loop, identify_eq_loop]
  have hF := h.forall₂
  rw [← gameMaxima_agree hF]
  unfold teamMax
  rw [← teamMaxLoop_agree stats _ hF, ← teamMaxLoop_agree stats _ hF,
    ← teamMaxLoop_agree stats _ hF, ← h.1]
  refine loopUpTo_agree (markPlayer stats _ _ _ _) (markPlayer stats _ _ _ _) ps ps2 h ?_ ?_ _
  · intro l i p; rfl
  · intro l l2 i p hl _ _ _ _
    exact markPlayer_agree stats _ _ _ _ l l2 hl i p

theorem groupTeamPlayers_mem (stats : EoGStatsBlock) (i : Nat) (l : List PlayerSummary)
    (m : Int → List Nat) (T : Int) (idx : Nat)
    (h : idx ∈ groupTeamPlayers stats i l m T) :
    idx ∈ m T ∨ ∃ (j : Nat) (p : PlayerSummary), l[j]? = some p ∧ p.Afk = false ∧ idx = i + j := by
  induction l generalizing i m with
  | nil => exact Or.inl h
  | cons a l ih =>
    unfold groupTeamPlayers at h
    rcases ih (i + 1) _ h with h1 | ⟨j, p, hp, hA, he⟩
    · by_cases hAa : a.Afk = true
      · simp only [hAa, if_true] at h1
        exact Or.inl h1
      · simp only [hAa, Bool.false_eq_true, if_false] at h1
        by_cases hT : T = teamIDAt stats i
        · subst hT
          simp only [Function.update_same, List.mem_append, List.mem_singleton] at h1
          rcases h1 with h1 | h1
          · exact Or.inl h1
          · exact Or.inr ⟨0, a, by simp, by simpa using hAa, by simpa using h1⟩
        · rw [Function.update_noteq hT] at h1
          exact Or.inl h1
    · exact Or.inr ⟨j + 1, p, by simpa using hp, hA, by omega⟩

theorem tagPlayer_agree (stats : EoGStatsBlock) (gm : ℚ) (ps : List PlayerSummary)
    (td tb : List (Int × Int)) (l l2 : List PlayerSummary) (h : ListAgree l l2)
    (hAfk : ∀ j : Nat, (l[j]?).map (fun x => x.Afk) = (ps[j]?).map (fun x => x.Afk))
    (i : Nat) (p : PlayerSummary) :
    tagPlayer stats gm (groupTeamPlayers stats 0 ps (fun _ => [])) td tb l i p
      = tagPlayer stats gm (groupTeamPlayers stats 0 ps (fun _ => [])) td tb l2 i p := by
  have hm : ∀ (T : Int) (idx : Nat), idx ∈ groupTeamPlayers stats 0 ps (fun _ => []) T →
      metricsAt l idx = metricsAt l2 idx := by
    intro T idx hidx
    rcases groupTeamPlayers_mem stats 0 ps _ T idx hidx with h1 | ⟨j, p0, hp0, hA0, he⟩
    · simp at h1
    · rw [Nat.zero_add] at he
      subst he
      have h2 := hAfk idx
      rw [hp0] at h2
      cases ha : l[idx]? with
      | none => simp [ha] at h2
      | some a =>
        simp only [ha, Option.map_some', Option.some.injEq] at h2
        have hlen : idx < l2.length := by rw [← h.1]; exact (List.getElem?_eq_some.1 ha).1
        have hb := List.getElem?_eq_getElem hlen
        have hag := h.2 idx a _ ha hb
        have hab := hag.2.1 (h2.trans hA0)
        unfold metricsAt
        rw [ha, hb, ← hab]
  have hcc : ∀ T, (groupTeamPlayers stats 0 ps (fun _ => []) T).map
        (fun idx => (metricsAt l idx).CCPerMinute)
      = (groupTeamPlayers stats 0 ps (fun _ => []) T).map
        (fun idx => (metricsAt l2 idx).CCPerMinute) := by
    intro T
    apply List.map_congr_left
    intro idx hidx
    rw [hm T idx hidx]
  have hvs : ∀ T, (groupTeamPlayers stats 0 ps (fun _ => []) T).map
        (fun idx => (metricsAt l idx).VSPM)
      = (groupTeamPlayers stats 0 ps (fun _ => []) T).map
        (fun idx => (metricsAt l2 idx).VSPM) := by
    intro T
    apply List.map_congr_left
    intro idx hidx
    rw [hm T idx hidx]
  have hhs : ∀ T, (groupTeamPlayers stats 0 ps (fun _ => []) T).map
        (fun idx => (metricsAt l idx).TotalHealsOnTeammates
          + (metricsAt l idx).TotalDamageShieldedOnTeammates)
      = (groupTeamPlayers stats 0 ps (fun _ => []) T).map
        (fun idx => (metricsAt l2 idx).TotalHealsOnTeammates
          + (metricsAt l2 idx).TotalDamageShieldedOnTeammates) := by
    intro T
    apply List.map_congr_left
    intro idx hidx
    rw [hm T idx hidx]
  unfold tagPlayer tagsFor
  simp only [hcc, hvs, hhs]

/-- The tag pass gives agreeing results on agreeing lists. -/
theorem assign_agree (stats : EoGStatsBlock) (gm : ℚ) (t : Int) (ps ps2 : List PlayerSummary)
    (h : ListAgree ps ps2) :
    ListAgree (assignGoldenRulesTags ps stats gm t) (assignGoldenRulesTags ps2 stats gm t) := by
  rw [assign_eq_loop, assign_eq_loop, ← groupTeamPlayers_agree stats h.forall₂, ← h.1]
  refine loopUpTo_agree (tagPlayer stats gm _ _ _) (tagPlayer stats gm _ _ _) ps ps2 h ?_ ?_ _
  · intro l i p; rfl
  · intro l l2 i p hl hA _ _ _
    exact tagPlayer_agree stats gm ps _ _ l l2 hl hA i p

/-- C5.  A participant whose leaver flag is set, at top level or in the nested
stats, is marked AFK and is returned with every standout flag false and an empty
tag list, whatever its statistics.  And the values of AFK players are not used by
the standout and tag passes: if the AFK entries handed to the two passes are
replaced by any other AFK entries, every non-AFK player is returned unchanged. -/
theorem afk_players_excluded (stats : EoGStatsBlock) (cfg : Config) (s : GameSummary)
    (h : (AnalyzeGame stats cfg).1 = some s) :
    (∀ (i : Nat) (pt : EoGParticipant) (q : PlayerSummary),
      stats.Participants[i]? = some pt → s.Players[i]? = some q →
      (pt.Leaver = true ∨ ∃ st, pt.Stats = some st ∧ st.Leaver = true) →
      q.Afk = true ∧
        (q.HighestDamageInGame = false ∧ q.HighestDamageOnTeam = false ∧
          q.MostHealingInGame = false ∧ q.MostShieldingInGame = false ∧
          q.MostHealingShielding = false ∧ q.HighestVisionInGame = false ∧
          q.HighestVisionOnTeam = false ∧ q.MostCCInGame = false ∧ q.MostCCOnTeam = false ∧
          q.MostTankingInGame = false) ∧
        q.Tags = []) ∧
    (∀ (ps2 : List PlayerSummary), SameButAfk (playersAfterAfk stats cfg) ps2 →
      ∀ (j : Nat) (q q2 : PlayerSummary), s.Players[j]? = some q →
        (assignGoldenRulesTags
          (identifyStandoutPerformances ps2 stats (findMyTeamID stats.Participants cfg))
          stats (gameMinutesOf stats) (findMyTeamID stats.Participants cfg))[j]? = some q2 →
        q.Afk = false → q2 = q) := by
  have hP := (AnalyzeGame_some h).1
  rw [hP]
  refine ⟨?_, ?_⟩
  · intro i pt q hpt hq hl
    have hA : q.Afk = true := by
      rw [finalPlayers_afk stats cfg i q pt hq hpt, afkOf_iff]
      rcases hl with hl | hl
      · exact Or.inl hl
      · exact Or.inr (Or.inl hl)
    obtain ⟨hn, ht⟩ := final_afk_clean stats cfg i q hq hA
    exact ⟨hA, hn.flags, ht⟩
  · intro ps2 hsame j q q2 hq hq2 hA
    have hag := assign_agree stats (gameMinutesOf stats) (findMyTeamID stats.Participants cfg) _ _
      (identify_agree stats (findMyTeamID stats.Participants cfg) _ _ hsame.listAgree)
    exact ((hag.2 j q q2 hq hq2).2.1 hA).symm

/-- C5 at the ten-player match: `lea` (index 7) has the leaver flag and the
highest damage, healing, shielding, vision and CC of the match. -/
theorem afk_players_excluded_witness :
    (participantAt scenarioStats 7).Leaver = true ∧
      (scenarioPlayer 7).TotalDamage = 50000 ∧
      (∀ q, q ∈ scenarioSummary.Players → q.TotalDamage ≤ 50000) ∧
      (scenarioPlayer 7).Afk = true ∧
      (scenarioPlayer 7).HighestDamageInGame = false ∧
      (scenarioPlayer 7).MostHealingShielding = false ∧
      (scenarioPlayer 7).Tags = [] :=
  have h := (afk_players_excluded scenarioStats scenarioCfg scenarioSummary
    scenario_analyzed).1 7 (participantAt scenarioStats 7) (scenarioPlayer 7) (by decide!)
    (scenario_player 7 (by decide)) (Or.inl (by decide!))
  ⟨by decide!, by decide!, by decide!, h.1, h.2.1.1, h.2.1.2.2.2.2.1, h.2.2⟩

/-! ## The totals of the intensity loop -/

theorem getStatValue_deaths (p : EoGParticipant) : getStatValue p "deaths" = 0 := by
  unfold getStatValue
  cases p.Stats <;> simp

theorem sumNonAfk_cons (cfg : Config) (gm : ℚ) (pt : EoGParticipant)
    (pts : List EoGParticipant) (sel : EoGParticipant → Bool) (statName : String) :
    sumNonAfk cfg gm (pt :: pts) sel statName
      = (if afkOf cfg gm pt = false ∧ sel pt = true then getStatValue pt statName else 0)
        + sumNonAfk cfg gm pts sel statName := by
  unfold sumNonAfk
  by_cases h1 : afkOf cfg gm pt = true <;> by_cases h2 : sel pt = true <;>
    simp [List.filter_cons, h1, h2]

theorem matchTotalsLoop_eq (stats : EoGStatsBlock) (cfg : Config) (gm : ℚ) (T : Int)
    (l : List PlayerSummary) (pts : List EoGParticipant) (i : Nat) (t : MatchTotals)
    (hlen : l.length = pts.length)
    (hafk : ∀ (j : Nat) (p : PlayerSummary) (pt : EoGParticipant),
      l[j]? = some p → pts[j]? = some pt → p.Afk = afkOf cfg gm pt)
    (hpts : ∀ (j : Nat) (pt : EoGParticipant), pts[j]? = some pt →
      stats.Participants[i + j]? = some pt) :
    matchTotalsLoop stats T i l t = addTotals t (totalsOf cfg gm pts T) := by
  induction l generalizing pts i t with
  | nil =>
    cases pts with
    | nil =>
      unfold matchTotalsLoop addTotals totalsOf sumNonAfk
      simp
    | cons pt pts => simp at hlen
  | cons p l ih =>
    cases pts with
    | nil => simp at hlen
    | cons pt pts =>
      unfold matchTotalsLoop
      rw [ih pts (i + 1) _ (by simpa using hlen)
        (fun j q qt hq hqt => hafk (j + 1) q qt (by simpa using hq) (by simpa using hqt))
        (fun j qt hqt => by
          have := hpts (j + 1) qt (by simpa using hqt)
          rw [← this]; congr 1; omega)]
      have hA : p.Afk = afkOf cfg gm pt := hafk 0 p pt (by simp) (by simp)
      have hP : participantAt stats i = pt := by
        have h0 := hpts 0 pt (by simp)
        rw [Nat.add_zero] at h0
        unfold participantAt
        rw [h0]
        rfl
      have hT : teamIDAt stats i = pt.TeamID := by
        unfold teamIDAt; rw [hP]
      unfold addTotals totalsOf
      simp only [sumNonAfk_cons, hA, hP, hT, getStatValue_deaths]
      by_cases h1 : afkOf cfg gm pt = true
      · simp [h1]
      · by_cases h2 : pt.TeamID = T
        · simp [h1, h2]
          refine ⟨?_, ?_, ?_, ?_⟩ <;> ring
        · simp [h1, h2]
          refine ⟨?_, ?_, ?_, ?_⟩ <;> ring

theorem absDiff_eq (a b : Int) : absDiff a b = |a - b| := by
  unfold absDiff
  split_ifs with h
  · exact (abs_of_neg h).symm
  · exact (abs_of_nonneg (not_lt.1 h)).symm

theorem final_totals (stats : EoGStatsBlock) (cfg : Config) :
    matchTotalsLoop stats (findMyTeamID stats.Participants cfg) 0 (finalPlayers stats cfg) {}
      = totalsOf cfg (gameMinutesOf stats) stats.Participants
          (findMyTeamID stats.Participants cfg) := by
  rw [matchTotalsLoop_eq stats cfg (gameMinutesOf stats) _ (finalPlayers stats cfg)
    stats.Participants 0 {} (finalPlayers_length stats cfg)
    (fun j p pt hp hpt => finalPlayers_afk stats cfg j p pt hp hpt)
    (fun j pt hpt => by rw [Nat.zero_add]; exact hpt)]
  unfold addTotals
  simp

/-- The match-level fields of the summary that `AnalyzeGame` returns. -/
theorem AnalyzeGame_match {stats : EoGStatsBlock} {cfg : Config} {s : GameSummary}
    (h : (AnalyzeGame stats cfg).1 = some s) :
    s.GameDurationMinutes = gameMinutesOf stats ∧
      s.WinningTeam = winningTeamOf stats ∧
      s.MyTeam = TeamIDToSide (findMyTeamID stats.Participants cfg) ∧
      s.TotalKills = allTotal stats cfg "kills" ∧
      s.KillDifference = absDiff (myTeamTotal stats cfg "kills") (otherTeamTotal stats cfg "kills") ∧
      s.GoldDifference
        = absDiff (myTeamTotal stats cfg "goldEarned") (otherTeamTotal stats cfg "goldEarned") ∧
      s.IsComeback
        = (decide (s.WinningTeam = s.MyTeam) &&
            (decide (comebackScore s.KillDifference s.TotalKills 0 0 s.GameDurationMinutes ≥ 3) ||
              decide (comebackScore s.KillDifference s.TotalKills 0 0 s.GameDurationMinutes ≥ 2
                ∧ s.GameDurationMinutes ≥ 30))) ∧
      s.IsIntenseMatch
        = ((decide (s.GameDurationMinutes ≥ 30) ||
              decide (s.KillDifference ≤ 10 ∧ s.TotalKills ≥ 40) || decide (s.TotalKills ≥ 60))
            || s.IsComeback
            || decide (absDiff (myTeamTotal stats cfg "totalDamageDealtToChampions")
                  (otherTeamTotal stats cfg "totalDamageDealtToChampions") ≤ 10000 ∧
                myTeamTotal stats cfg "totalDamageDealtToChampions"
                  + otherTeamTotal stats cfg "totalDamageDealtToChampions" ≥ 200000)) ∧
      s.WasStomp = decide (s.KillDifference ≥ 20 ∨ s.GoldDifference ≥ 15000) ∧
      s.WasClose = decide (s.KillDifference ≤ 5 ∧ s.TotalKills ≥ 40) := by
  have ht := final_totals stats cfg
  unfold finalPlayers gameMinutesOf at ht
  unfold AnalyzeGame at h
  split at h
  · simp at h
  · simp only [Option.some.injEq] at h
    subst h
    simp only [ht]
    refine ⟨?_, ?_, ?_, ?_, ?_, ?_, ?_, ?_, ?_, ?_⟩ <;> trivial

/-! ## Intensity, comeback, stomp and close -/

theorem comebackScore_zero_deaths (kd tk : Int) (gm : ℚ) :
    comebackScore kd tk 0 0 gm
      = (if kd ≤ 8 ∧ tk ≥ 50 then 2 else 0) + (if gm ≥ 35 then 1 else 0)
        + (if kd ≤ 5 ∧ tk ≥ 60 then 2 else 0) := by
  unfold comebackScore
  simp

theorem comebackScore_ge_three (kd tk : Int) (gm : ℚ)
    (h : comebackScore kd tk 0 0 gm ≥ 3) : (kd ≤ 8 ∧ tk ≥ 50) ∨ (kd ≤ 5 ∧ tk ≥ 60) := by
  rw [comebackScore_zero_deaths] at h
  by_cases h1 : kd ≤ 8 ∧ tk ≥ 50
  · exact Or.inl h1
  · by_cases h2 : kd ≤ 5 ∧ tk ≥ 60
    · exact Or.inr h2
    · rw [if_neg h1, if_neg h2] at h
      split_ifs at h <;> omega

theorem comeback_is_intense {stats : EoGStatsBlock} {cfg : Config} {s : GameSummary}
    (h : (AnalyzeGame stats cfg).1 = some s) (hc : s.IsComeback = true) :
    s.GameDurationMinutes ≥ 30 ∨ (s.KillDifference ≤ 10 ∧ s.TotalKills ≥ 40)
      ∨ s.TotalKills ≥ 60 := by
  obtain ⟨-, -, -, -, -, -, hcb, -⟩ := AnalyzeGame_match h
  rw [hcb] at hc
  simp only [Bool.and_eq_true, Bool.or_eq_true, decide_eq_true_eq] at hc
  rcases hc.2 with h3 | ⟨-, h30⟩
  · rcases comebackScore_ge_three _ _ _ h3 with ⟨h1, h2⟩ | ⟨h1, h2⟩
    · exact Or.inr (Or.inl ⟨by omega, by omega⟩)
    · exact Or.inr (Or.inr h2)
  · exact Or.inl h30

/-- C16.  `IsIntenseMatch` is true exactly when the duration is at least 30
minutes, or the kill difference is at most 10 with at least 40 total kills, or the
total kills are at least 60, or the damage difference of the two sides is at most
10000 with a combined damage of at least 200000; the totals are sums over the
non-AFK participants, the viewer's team against all others; and a comeback always
satisfies one of the first three conditions, so the comeback branch adds
nothing. -/
theorem intense_match_iff (stats : EoGStatsBlock) (cfg : Config) (s : GameSummary)
    (h : (AnalyzeGame stats cfg).1 = some s) :
    (s.IsIntenseMatch = true ↔
      s.GameDurationMinutes ≥ 30 ∨ (s.KillDifference ≤ 10 ∧ s.TotalKills ≥ 40)
        ∨ s.TotalKills ≥ 60
        ∨ (|myTeamTotal stats cfg "totalDamageDealtToChampions"
              - otherTeamTotal stats cfg "totalDamageDealtToChampions"| ≤ 10000 ∧
            myTeamTotal stats cfg "totalDamageDealtToChampions"
              + otherTeamTotal stats cfg "totalDamageDealtToChampions" ≥ 200000)) ∧
      s.GameDurationMinutes = (stats.GameDurationSeconds : ℚ) / 60 ∧
      s.TotalKills = allTotal stats cfg "kills" ∧
      s.KillDifference = |myTeamTotal stats cfg "kills" - otherTeamTotal stats cfg "kills"| ∧
      (s.IsComeback = true →
        s.GameDurationMinutes ≥ 30 ∨ (s.KillDifference ≤ 10 ∧ s.TotalKills ≥ 40)
          ∨ s.TotalKills ≥ 60) := by
  obtain ⟨hgm, -, -, htk, hkd, -, -, hint, -, -⟩ := AnalyzeGame_match h
  have hcb := comeback_is_intense h
  refine ⟨?_, ?_, htk, ?_, hcb⟩
  · rw [hint, ← absDiff_eq]
    simp only [Bool.or_eq_true, decide_eq_true_eq]
    constructor
    · rintro (((h1 | h2) | h3) | h4)
      · rcases h1 with h1 | h1
        · exact Or.inl h1
        · exact Or.inr (Or.inl h1)
      · exact Or.inr (Or.inr (Or.inl h2))
      · rcases hcb h3 with h5 | h5 | h5
        · exact Or.inl h5
        · exact Or.inr (Or.inl h5)
        · exact Or.inr (Or.inr (Or.inl h5))
      · exact Or.inr (Or.inr (Or.inr h4))
    · rintro (h1 | h1 | h1 | h1)
      · exact Or.inl (Or.inl (Or.inl (Or.inl h1)))
      · exact Or.inl (Or.inl (Or.inl (Or.inr h1)))
      · exact Or.inl (Or.inl (Or.inr h1))
      · exact Or.inr h1
  · rw [hgm]; unfold gameMinutesOf; norm_num
  · rw [hkd, absDiff_eq]

/-- C16 at the ten-player match, which lasts exactly 30 minutes. -/
theorem intense_match_iff_witness :
    scenarioSummary.GameDurationMinutes = 30 ∧ scenarioSummary.TotalKills = 31 ∧
      scenarioSummary.KillDifference = 9 ∧ scenarioSummary.IsIntenseMatch = true :=
  have h := intense_match_iff scenarioStats scenarioCfg scenarioSummary scenario_analyzed
  have hgm : scenarioSummary.GameDurationMinutes = 30 := by
    rw [h.2.1]; decide!
  ⟨hgm, by decide!, by decide!, h.1.2 (Or.inl (by rw [hgm]))⟩

/-- C17.  At `ghostStats` the viewer is not among the participants and no
participant has won, and yet `AnalyzeGame` reports a comeback: the winner and the
viewer's side are both the placeholder `UNKNOWN`, which the comparison `didWin`
takes for a win. -/
theorem comeback_without_viewer_or_winner :
    (∀ p ∈ ghostStats.Participants, getPlayerName p ≠ ghostCfg.MySummonerName) ∧
      (∀ p ∈ ghostStats.Participants, p.Win = false ∧ p.Stats = none) ∧
      winningTeamOf ghostStats = "UNKNOWN" ∧
      TeamIDToSide (findMyTeamID ghostStats.Participants ghostCfg) = "UNKNOWN" ∧
      ((AnalyzeGame ghostStats ghostCfg).1).map (fun s => s.IsComeback) = some true := by
  decide!

/-- C18.  The comeback score that `AnalyzeGame` computes has three terms only: 2
for a kill difference of at most 8 with at least 50 kills, 1 for 35 minutes or
more, 2 for a kill difference of at most 5 with at least 60 kills.  The term for
more deaths on the viewer's side never counts, because both death totals are read
with `getStatValue`, which knows no statistic `deaths` and returns 0.  So
`IsComeback` is true exactly when the sides of winner and viewer agree and the
three-term score is at least 3, or at least 2 with 30 minutes or more; and a match
with a kill difference above 8 is never a comeback, whatever the deaths. -/
theorem comeback_score_ignores_deaths (stats : EoGStatsBlock) (cfg : Config)
    (s : GameSummary) (h : (AnalyzeGame stats cfg).1 = some s) :
    (s.IsComeback = true ↔
      s.WinningTeam = s.MyTeam ∧
        ((if s.KillDifference ≤ 8 ∧ s.TotalKills ≥ 50 then 2 else 0)
            + (if s.GameDurationMinutes ≥ 35 then 1 else 0)
            + (if s.KillDifference ≤ 5 ∧ s.TotalKills ≥ 60 then 2 else 0) ≥ (3 : Int) ∨
          ((if s.KillDifference ≤ 8 ∧ s.TotalKills ≥ 50 then 2 else 0)
            + (if s.GameDurationMinutes ≥ 35 then 1 else 0)
            + (if s.KillDifference ≤ 5 ∧ s.TotalKills ≥ 60 then 2 else 0) ≥ (2 : Int) ∧
            s.GameDurationMinutes ≥ 30))) ∧
      (s.KillDifference > 8 → s.IsComeback = false) := by
  obtain ⟨-, -, -, -, -, -, hcb, -⟩ := AnalyzeGame_match h
  have hiff : s.IsComeback = true ↔
      s.WinningTeam = s.MyTeam ∧
        ((if s.KillDifference ≤ 8 ∧ s.TotalKills ≥ 50 then 2 else 0)
            + (if s.GameDurationMinutes ≥ 35 then 1 else 0)
            + (if s.KillDifference ≤ 5 ∧ s.TotalKills ≥ 60 then 2 else 0) ≥ (3 : Int) ∨
          ((if s.KillDifference ≤ 8 ∧ s.TotalKills ≥ 50 then 2 else 0)
            + (if s.GameDurationMinutes ≥ 35 then 1 else 0)
            + (if s.KillDifference ≤ 5 ∧ s.TotalKills ≥ 60 then 2 else 0) ≥ (2 : Int) ∧
            s.GameDurationMinutes ≥ 30)) := by
    rw [hcb, comebackScore_zero_deaths]
    simp only [Bool.and_eq_true, Bool.or_eq_true, decide_eq_true_eq]
  refine ⟨hiff, ?_⟩
  intro hk
  cases hc : s.IsComeback with
  | false => rfl
  | true =>
    exfalso
    have h2 := (hiff.1 hc).2
    have n1 : ¬ (s.KillDifference ≤ 8 ∧ s.TotalKills ≥ 50) := fun x => by omega
    have n2 : ¬ (s.KillDifference ≤ 5 ∧ s.TotalKills ≥ 60) := fun x => by omega
    rw [if_neg n1, if_neg n2] at h2
    rcases h2 with h2 | ⟨h2, -⟩ <;> split_ifs at h2 <;> omega

/-- C18 at `bloodyStats`: a match won in 36 minutes with 51 kills, a kill
difference of 11 and 31 deaths on the viewer's side against 20 is not declared a
comeback. -/
theorem comeback_score_ignores_deaths_witness :
    bloodySummary.WinningTeam = bloodySummary.MyTeam ∧
      bloodySummary.GameDurationMinutes = 36 ∧ bloodySummary.TotalKills = 51 ∧
      bloodySummary.KillDifference = 11 ∧
      teamDeathsOf bloodyStats 100 = 31 ∧ teamDeathsOf bloodyStats 200 = 20 ∧
      bloodySummary.IsComeback = false :=
  ⟨by decide!, by decide!, by decide!, by decide!, by decide!, by decide!,
    (comeback_score_ignores_deaths bloodyStats bloodyCfg bloodySummary (by decide!)).2
      (by decide!)⟩

/-- C19.  `WasStomp` is true exactly when the kill difference is at least 20 or
the gold difference at least 15000, and `WasClose` exactly when the kill
difference is at most 5 with at least 40 total kills; the total kills are the sum
of the kills of the non-AFK participants, and the two differences are the absolute
differences between the kills, respectively the gold, of the non-AFK participants
with the viewer's team id and of all other non-AFK participants. -/
theorem stomp_and_close_iff (stats : EoGStatsBlock) (cfg : Config) (s : GameSummary)
    (h : (AnalyzeGame stats cfg).1 = some s) :
    (s.WasStomp = true ↔ s.KillDifference ≥ 20 ∨ s.GoldDifference ≥ 15000) ∧
      (s.WasClose = true ↔ s.KillDifference ≤ 5 ∧ s.TotalKills ≥ 40) ∧
      s.TotalKills = allTotal stats cfg "kills" ∧
      s.KillDifference = |myTeamTotal stats cfg "kills" - otherTeamTotal stats cfg "kills"| ∧
      s.GoldDifference
        = |myTeamTotal stats cfg "goldEarned" - otherTeamTotal stats cfg "goldEarned"| := by
  obtain ⟨-, -, -, htk, hkd, hgd, -, -, hst, hcl⟩ := AnalyzeGame_match h
  refine ⟨?_, ?_, htk, ?_, ?_⟩
  · rw [hst]; simp only [decide_eq_true_eq]
  · rw [hcl]; simp only [decide_eq_true_eq]
  · rw [hkd, absDiff_eq]
  · rw [hgd, absDiff_eq]

/-- C19 at the ten-player match: 20 kills against 11 and 51300 gold against
28900 among the non-AFK participants make a stomp that is not close. -/
theorem stomp_and_close_iff_witness :
    myTeamTotal scenarioStats scenarioCfg "kills" = 20 ∧
      otherTeamTotal scenarioStats scenarioCfg "kills" = 11 ∧
      myTeamTotal scenarioStats scenarioCfg "goldEarned" = 51300 ∧
      otherTeamTotal scenarioStats scenarioCfg "goldEarned" = 28900 ∧
      scenarioSummary.KillDifference = 9 ∧ scenarioSummary.GoldDifference = 22400 ∧
      scenarioSummary.WasStomp = true ∧ scenarioSummary.WasClose = false :=
  have h := stomp_and_close_iff scenarioStats scenarioCfg scenarioSummary scenario_analyzed
  ⟨by decide!, by decide!, by decide!, by decide!, by decide!, by decide!,
    h.1.2 (Or.inr (by decide!)), by decide!⟩

/-! ## Tags: `vision_mvp` -/

theorem foldl_max_le (l : List ℚ) (init v : ℚ) :
    l.foldl (fun m x => if x > m then x else m) init ≤ v ↔ init ≤ v ∧ ∀ x ∈ l, x ≤ v := by
  induction l generalizing init with
  | nil => simp
  | cons a l ih =>
    rw [List.foldl_cons, ih]
    simp only [List.mem_cons, forall_eq_or_imp]
    split_ifs with h
    · constructor
      · rintro ⟨h1, h2⟩
        exact ⟨le_trans (le_of_lt h) h1, h1, h2⟩
      · rintro ⟨_, h1, h2⟩
        exact ⟨h1, h2⟩
    · constructor
      · rintro ⟨h1, h2⟩
        exact ⟨h1, le_trans (not_lt.1 h) h1, h2⟩
      · rintro ⟨h0, _, h2⟩
        exact ⟨h0, h2⟩

theorem isHighest_iff (v : ℚ) (values : List ℚ) (hne : values ≠ []) :
    isHighest v values = true ↔ (∀ x ∈ values, x ≤ v) ∧ v > 0 := by
  cases values with
  | nil => exact absurd rfl hne
  | cons v0 rest =>
    unfold isHighest
    simp only [decide_eq_true_eq, ge_iff_le]
    rw [foldl_max_le]
    constructor
    · rintro ⟨⟨_, h2⟩, h3⟩
      exact ⟨h2, h3⟩
    · rintro ⟨h2, h3⟩
      exact ⟨⟨h2 v0 (List.mem_cons_self _ _), h2⟩, h3⟩

theorem groupTeamPlayers_iff (stats : EoGStatsBlock) (i : Nat) (l : List PlayerSummary)
    (m : Int → List Nat) (T : Int) (idx : Nat) :
    idx ∈ groupTeamPlayers stats i l m T ↔
      idx ∈ m T ∨ ∃ (j : Nat) (p : PlayerSummary), l[j]? = some p ∧ p.Afk = false ∧
        teamIDAt stats (i + j) = T ∧ idx = i + j := by
  induction l generalizing i m with
  | nil => simp [groupTeamPlayers]
  | cons a l ih =>
    unfold groupTeamPlayers
    rw [ih]
    constructor
    · rintro (h1 | ⟨j, p, hp, hA, hT, he⟩)
      · by_cases hAa : a.Afk = true
        · simp only [hAa, if_true] at h1
          exact Or.inl h1
        · simp only [hAa, Bool.false_eq_true, if_false] at h1
          by_cases hT : T = teamIDAt stats i
          · subst hT
            simp only [Function.update_same, List.mem_append, List.mem_singleton] at h1
            rcases h1 with h1 | h1
            · exact Or.inl h1
            · exact Or.inr ⟨0, a, by simp, by simpa using hAa, by simp, by simpa using h1⟩
          · rw [Function.update_noteq hT] at h1
            exact Or.inl h1
      · refine Or.inr ⟨j + 1, p, by simpa using hp, hA, ?_, by omega⟩
        rw [← hT]; congr 1; omega
    · rintro (h1 | ⟨j, p, hp, hA, hT, he⟩)
      · left
        by_cases hAa : a.Afk = true
        · simpa only [hAa, if_true] using h1
        · simp only [hAa, Bool.false_eq_true, if_false]
          by_cases hT : T = teamIDAt stats i
          · subst hT
            simp only [Function.update_same, List.mem_append, List.mem_singleton]
            exact Or.inl h1
          · rw [Function.update_noteq hT]
            exact h1
      · cases j with
        | zero =>
          simp only [List.getElem?_cons_zero, Option.some.injEq] at hp
          subst hp
          left
          simp only [hA, Bool.false_eq_true, if_false]
          rw [Nat.add_zero] at hT he
          subst hT
          simp only [Function.update_same, List.mem_append, List.mem_singleton]
          exact Or.inr he
        | succ j =>
          right
          refine ⟨j, p, by simpa using hp, hA, ?_, by omega⟩
          rw [← hT]; congr 1; omega

theorem tagsFor_vision (stats : EoGStatsBlock) (gm : ℚ) (tp : Int → List Nat)
    (td tb : List (Int × Int)) (ps : List PlayerSummary) (i : Nat) (p : PlayerSummary)
    (h : p.Tags = []) :
    "vision_mvp" ∈ tagsFor stats gm tp td tb ps i p ↔
      isHighest p.Metrics.VSPM
          ((tp (teamIDAt stats i)).map (fun idx => (metricsAt ps idx).VSPM)) = true ∧
        p.Metrics.VSPM ≥ 1.5 := by
  unfold tagsFor teamIDAt
  simp only [mem_appendIf, h, List.any_nil]
  simp

theorem assign_vision_mvp (stats : EoGStatsBlock) (gm : ℚ) (t : Int) (ps : List PlayerSummary)
    (htags : ∀ (k : Nat) (p : PlayerSummary), ps[k]? = some p → p.Tags = [])
    (j : Nat) (q : PlayerSummary) (hq : (assignGoldenRulesTags ps stats gm t)[j]? = some q)
    (hA : q.Afk = false) :
    "vision_mvp" ∈ q.Tags ↔
      q.Metrics.VSPM ≥ 1.5 ∧
        ∀ (k : Nat) (r : PlayerSummary), (assignGoldenRulesTags ps stats gm t)[k]? = some r →
          r.Afk = false → teamIDAt stats k = teamIDAt stats j →
          r.Metrics.VSPM ≤ q.Metrics.VSPM := by
  have hpres : ∀ (n k : Nat),
      ((loopUpTo (tagPlayer stats gm (groupTeamPlayers stats 0 ps (fun _ => []))
          (stats.TeamDragons.getD []) (stats.TeamBarons.getD [])) ps n)[k]?).map
          (fun x => (x.Afk, x.Metrics))
        = (ps[k]?).map (fun x => (x.Afk, x.Metrics)) := fun n k =>
    loopUpTo_preserves (fun x => (x.Afk, x.Metrics))
      (tagPlayer stats gm (groupTeamPlayers stats 0 ps (fun _ => []))
          (stats.TeamDragons.getD []) (stats.TeamBarons.getD []))
      (fun _ _ _ => rfl) ps n k
  rw [assign_eq_loop] at hq ⊢
  have hj : j < ps.length := by
    have := (List.getElem?_eq_some.1 hq).1
    rwa [loopUpTo_length] at this
  obtain ⟨p, hp⟩ : ∃ p, ps[j]? = some p := ⟨ps[j], List.getElem?_eq_getElem hj⟩
  have hpq := hpres ps.length j
  rw [hq, hp] at hpq
  simp only [Option.map_some', Option.some.injEq, Prod.mk.injEq] at hpq
  have hpA : p.Afk = false := by rw [← hpq.1]; exact hA
  have hq2 := hq
  rw [loopUpTo_getElem?_done _ ps hp hj] at hq2
  simp only [hpA, Bool.false_eq_true, if_false, Option.some.injEq] at hq2
  have hqt : q.Tags = tagsFor stats gm (groupTeamPlayers stats 0 ps (fun _ => []))
      (stats.TeamDragons.getD []) (stats.TeamBarons.getD [])
      (loopUpTo (tagPlayer stats gm (groupTeamPlayers stats 0 ps (fun _ => []))
          (stats.TeamDragons.getD []) (stats.TeamBarons.getD [])) ps j) j p := by
    rw [← hq2]; rfl
  rw [hqt, tagsFor_vision _ _ _ _ _ _ _ _ (htags j p hp), ← hpq.2]
  have hmem : j ∈ groupTeamPlayers stats 0 ps (fun _ => []) (teamIDAt stats j) :=
    (groupTeamPlayers_iff stats 0 ps _ _ j).2
      (Or.inr ⟨j, p, hp, hpA, by rw [Nat.zero_add], by rw [Nat.zero_add]⟩)
  have hne : (groupTeamPlayers stats 0 ps (fun _ => []) (teamIDAt stats j)).map
      (fun idx => (metricsAt (loopUpTo (tagPlayer stats gm
        (groupTeamPlayers stats 0 ps (fun _ => []))
        (stats.TeamDragons.getD []) (stats.TeamBarons.getD [])) ps j) idx).VSPM) ≠ [] := by
    intro h0
    rw [List.map_eq_nil_iff] at h0
    rw [h0] at hmem
    simp at hmem
  rw [isHighest_iff _ _ hne]
  have hmet : ∀ (n k : Nat) (r : PlayerSummary), ps[k]? = some r →
      metricsAt (loopUpTo (tagPlayer stats gm (groupTeamPlayers stats 0 ps (fun _ => []))
          (stats.TeamDragons.getD []) (stats.TeamBarons.getD [])) ps n) k = r.Metrics := by
    intro n k r hr
    have h1 := hpres n k
    rw [hr] at h1
    unfold metricsAt
    cases hx : (loopUpTo (tagPlayer stats gm (groupTeamPlayers stats 0 ps (fun _ => []))
          (stats.TeamDragons.getD []) (stats.TeamBarons.getD [])) ps n)[k]? with
    | none => simp [hx] at h1
    | some x =>
      simp only [hx, Option.map_some', Option.some.injEq, Prod.mk.injEq] at h1
      simp [h1.2]
  constructor
  · rintro ⟨⟨hall, _⟩, h15⟩
    refine ⟨h15, ?_⟩
    intro k r hr hrA hT
    have hk : k < ps.length := by
      have := (List.getElem?_eq_some.1 hr).1
      rwa [loopUpTo_length] at this
    have hr0 : ps[k]? = some ps[k] := List.getElem?_eq_getElem hk
    have h1 := hpres ps.length k
    rw [hr, hr0] at h1
    simp only [Option.map_some', Option.some.injEq, Prod.mk.injEq] at h1
    have hkm : k ∈ groupTeamPlayers stats 0 ps (fun _ => []) (teamIDAt stats j) :=
      (groupTeamPlayers_iff stats 0 ps _ _ k).2
        (Or.inr ⟨k, ps[k], hr0, by rw [← h1.1]; exact hrA, by rw [Nat.zero_add]; exact hT,
          by rw [Nat.zero_add]⟩)
    have := hall _ (List.mem_map.2 ⟨k, hkm, rfl⟩)
    rw [hmet j k _ hr0, ← h1.2] at this
    exact this
  · rintro ⟨h15, hall⟩
    refine ⟨⟨?_, lt_of_lt_of_le (by norm_num) h15⟩, h15⟩
    intro x hx
    obtain ⟨k, hkm, rfl⟩ := List.mem_map.1 hx
    rcases (groupTeamPlayers_iff stats 0 ps _ _ k).1 hkm with h0 | ⟨k2, r0, hr0, hrA, hT, he⟩
    · simp at h0
    · rw [Nat.zero_add] at hT he
      subst he
      have hk : k < (loopUpTo (tagPlayer stats gm (groupTeamPlayers stats 0 ps (fun _ => []))
          (stats.TeamDragons.getD []) (stats.TeamBarons.getD [])) ps ps.length).length := by
        rw [loopUpTo_length]; exact (List.getElem?_eq_some.1 hr0).1
      have hr := List.getElem?_eq_getElem hk
      have h1 := hpres ps.length k
      rw [hr, hr0] at h1
      simp only [Option.map_some', Option.some.injEq, Prod.mk.injEq] at h1
      have := hall k _ hr (by rw [h1.1]; exact hrA) hT
      rw [hmet j k _ hr0, ← h1.2]
      exact this

theorem identify_tags (stats : EoGStatsBlock) (cfg : Config) (k : Nat) (p : PlayerSummary)
    (hp : (identifyStandoutPerformances (playersAfterAfk stats cfg) stats
      (findMyTeamID stats.Participants cfg))[k]? = some p) : p.Tags = [] := by
  have h1 := identify_field (fun q => q.Tags) (fun _ => rfl) (playersAfterAfk stats cfg) stats
    (findMyTeamID stats.Participants cfg) k
  rw [hp] at h1
  cases h0 : (playersAfterAfk stats cfg)[k]? with
  | none => simp [h0] at h1
  | some p0 =>
    simp only [h0, Option.map_some', Option.some.injEq] at h1
    rw [h1]
    exact playersAfterAfk_tags stats cfg k p0 h0

/-- C20.  A non-AFK player of the summary carries `vision_mvp` exactly when its
vision score per minute is at least 1.5 and no non-AFK player with the same team
id has a higher one: the comparison of `isHighest` is `>=`, so a player tied with
a teammate at the team's highest value still qualifies. -/
theorem vision_mvp_iff_team_maximum (stats : EoGStatsBlock) (cfg : Config) (s : GameSummary)
    (h : (AnalyzeGame stats cfg).1 = some s) (j : Nat) (q : PlayerSummary)
    (hq : s.Players[j]? = some q) (hA : q.Afk = false) :
    "vision_mvp" ∈ q.Tags ↔
      q.Metrics.VSPM ≥ 1.5 ∧
        ∀ (k : Nat) (r : PlayerSummary), s.Players[k]? = some r → r.Afk = false →
          teamIDAt stats k = teamIDAt stats j → r.Metrics.VSPM ≤ q.Metrics.VSPM := by
  rw [(AnalyzeGame_some h).1] at hq ⊢
  unfold finalPlayers at hq ⊢
  exact assign_vision_mvp stats (gameMinutesOf stats) _ _ (identify_tags stats cfg) j q hq hA

/-- C20 at `visionTieStats`: `ada` and `ben`, teammates tied at 2 vision score
per minute, both carry `vision_mvp`. -/
theorem vision_mvp_given_to_tied_teammates :
    (AnalyzeGame visionTieStats visionTieCfg).1 = some visionTieSummary ∧
      teamIDAt visionTieStats 0 = teamIDAt visionTieStats 1 ∧
      (visionTiePlayer 0).Afk = false ∧ (visionTiePlayer 1).Afk = false ∧
      (visionTiePlayer 0).Metrics.VSPM = 2 ∧ (visionTiePlayer 1).Metrics.VSPM = 2 ∧
      "vision_mvp" ∈ (visionTiePlayer 0).Tags ∧ "vision_mvp" ∈ (visionTiePlayer 1).Tags := by
  decide!

/-- C20 at the ten-player match: `nia` (index 3), with 70 vision score in 30
minutes, has the highest vision score per minute of her team and carries the
tag. -/
theorem vision_mvp_iff_team_maximum_witness :
    (scenarioPlayer 3).Afk = false ∧ (scenarioPlayer 3).Metrics.VSPM ≥ 1.5 ∧
      "vision_mvp" ∈ (scenarioPlayer 3).Tags :=
  have h := vision_mvp_iff_team_maximum scenarioStats scenarioCfg scenarioSummary
    scenario_analyzed 3 (scenarioPlayer 3) (scenario_player 3 (by decide)) (by decide!)
  ⟨by decide!, by decide!, h.2 ⟨by decide!, by
    intro k r hr hrA hT
    have hk : k < 10 := by
      have := (List.getElem?_eq_some.1 hr).1
      have hl : scenarioSummary.Players.length = 10 := by decide!
      omega
    rw [scenario_player k hk, Option.some.injEq] at hr
    subst hr
    interval_cases k <;> first | decide! | exact absurd hT (by decide!)⟩⟩

/-! ## `ParseEoGStats`: errors and duration -/

/-- C11.  The empty JSON object, in which no strategy locates a participant
list, is accepted: `ParseEoGStats` returns the zero record and no error. -/
theorem empty_object_is_accepted : ParseEoGStats (some (JVal.obj [])) = (some {}, none) := by
  decide!

/-- C11.  `ParseEoGStats` returns either a record or an error, and for valid JSON
the error exactly when the document is neither an object nor `null`, or when the
teams strategy and the wrapper strategies yield no participant and the direct
decode of the document into an `EoGStatsBlock` fails on a mistyped member.  An
object with only an integer `gameLength` is accepted as a record without
participants. -/
theorem parse_error_iff (doc : JVal) :
    ((ParseEoGStats (some doc)).2 ≠ none ↔
      rawDataOf doc = none ∨
        (teamsParticipants ((rawDataOf doc).getD []) = [] ∧ wrapperResult doc = none ∧
          decodeStatsBlock true doc {} = none)) ∧
      ((ParseEoGStats (some doc)).1 = none ↔ (ParseEoGStats (some doc)).2 ≠ none) ∧
      (∀ n : Int, -(2 : Int) ^ 63 ≤ n → n < (2 : Int) ^ 63 →
        ParseEoGStats (some (JVal.obj [("gameLength", JVal.int n)]))
          = (some { GameLength := n, GameDurationSeconds := if n > 0 then n else 0 }, none)) := by
  refine ⟨?_, ?_, ?_⟩
  · unfold ParseEoGStats
    cases hr : rawDataOf doc with
    | none => simp [hr]
    | some rawData =>
      simp only [hr, Option.getD_some]
      by_cases ht : (teamsParticipants rawData).length > 0
      · have hne : teamsParticipants rawData ≠ [] := by
          intro h0; rw [h0] at ht; simp at ht
        simp [ht, hne]
      · have he : teamsParticipants rawData = [] := by
          cases hl : teamsParticipants rawData with
          | nil => rfl
          | cons a l => rw [hl] at ht; simp at ht
        simp only [ht, if_false, he, true_and]
        cases hw : wrapperResult doc with
        | some r => simp
        | none =>
          cases hd : decodeStatsBlock true doc {} with
          | none => simp
          | some st => simp
  · unfold ParseEoGStats
    cases hr : rawDataOf doc with
    | none => simp [hr]
    | some rawData =>
      simp only [hr]
      by_cases ht : (teamsParticipants rawData).length > 0
      · simp [ht]
      · simp only [ht, if_false]
        cases hw : wrapperResult doc with
        | some r => simp
        | none =>
          cases hd : decodeStatsBlock true doc {} with
          | none => simp
          | some st => simp
  · intro n h1 h2
    have hd : decodeInt true (JVal.int n) 0 = some n := by
      unfold decodeInt JVal.int
      norm_num at h1 h2
      simp [h1, h2]
    have hw : wrapperResult (JVal.obj [("gameLength", JVal.int n)]) = none := by
      unfold wrapperResult decodeWrapper decodeFields membersRead decodeMember
      have hm : matchField ["gameLength", "gameDuration", "statsBlock", "teams", "participants"]
          "gameLength" = some "gameLength" := by decide
      simp [hm, setWrapperField, hd]
    have hs : decodeStatsBlock true (JVal.obj [("gameLength", JVal.int n)]) {}
        = some { GameLength := n } := by
      unfold decodeStatsBlock decodeFields membersRead decodeMember
      have hm : matchField statsBlockFieldNames "gameLength" = some "gameLength" := by decide
      simp [hm, setStatsBlockField, hd]
    have ht : teamsParticipants [("gameLength", JVal.int n)] = [] := rfl
    unfold ParseEoGStats
    simp only [rawDataOf, ht, hw, hs]
    by_cases hn : n > 0
    · simp [hn]
    · simp [hn]

/-- C11 at `gameLength` 1800: the object with only that member is accepted. -/
theorem parse_error_iff_witness :
    ParseEoGStats (some (JVal.obj [("gameLength", JVal.int 1800)]))
      = (some { GameLength := 1800, GameDurationSeconds := 1800 }, none) :=
  (parse_error_iff JVal.null).2.2 1800 (by decide) (by decide)

/-- C12.  The participant `x`, whose kills are the string `abc`, is parsed with
kills 0 when it stands in `teams[].players`; in a top-level `participants` list it
makes `ParseEoGStats` return an error, and in `statsBlock.participants` it makes
it return a record without any participant. -/
theorem mistyped_counter_aborts_parse :
    ParseEoGStats (some mistypedTeams)
        = (some { GameDurationSeconds := 1800
                  Participants := [ { SummonerName := "x", TeamID := 100, Deaths := 2 } ] },
           none) ∧
      ParseEoGStats (some mistypedTop) = (none, some "failed to parse EoG stats") ∧
      ParseEoGStats (some mistypedNested)
        = (some { GameDurationSeconds := 1800, GameLength := 1800 }, none) := by
  decide!

/-- C13.  When the teams strategy yields participants and `gameLength` is a
number, the duration of the record is that number, also when it is 0 and
`gameDuration` is not. -/
theorem teams_duration_takes_gameLength (rawData : List (String × JVal)) (g : ℚ) (il : Bool)
    (hteams : teamsParticipants rawData ≠ [])
    (hlen : mapIndex rawData "gameLength" = some (JVal.num g il)) :
    ∃ r, ParseEoGStats (some (JVal.obj rawData)) = (some r, none) ∧
      r.GameDurationSeconds = goInt g := by
  have ht : (teamsParticipants rawData).length > 0 := List.length_pos.2 hteams
  unfold ParseEoGStats
  simp only [rawDataOf, ht, if_true, hlen, asFloat64]
  exact ⟨_, rfl, rfl⟩

/-- C13 at `zeroLengthTeams`: with `gameLength` 0 and `gameDuration` 1800 the
teams strategy gives the duration 0, while the same player in a top-level
`participants` list gives 1800. -/
theorem teams_duration_takes_gameLength_witness :
    mapIndex [("gameLength", JVal.int 0), ("gameDuration", JVal.int 1800)] "gameDuration"
        = some (JVal.int 1800) ∧
      (∃ r, ParseEoGStats (some zeroLengthTeams) = (some r, none) ∧ r.GameDurationSeconds = 0) ∧
      ((ParseEoGStats (some zeroLengthTop)).1).map (fun r => r.GameDurationSeconds)
        = some 1800 :=
  ⟨rfl, teams_duration_takes_gameLength _ 0 true (by decide!) rfl, by decide!⟩

/-! ## `ParseEoGStats`: top-level and nested copies of a counter -/

theorem normalizeTagline_top (c : Counter) (p : EoGParticipant) :
    c.top (normalizeTagline p) = c.top p ∧ (normalizeTagline p).Stats = p.Stats := by
  unfold normalizeTagline
  split_ifs <;> cases c <;> exact ⟨rfl, rfl⟩

theorem fillInt_self (x : Int) : fillInt x x = x := by
  unfold fillInt
  split_ifs with h
  · rfl
  · rfl

/-- The participant that the three blocks of the player loop make of the decoded
participant `p` and the nested stats `statsMap`: counter by counter. -/
theorem merge_top (statsMap : List (String × JVal)) (p : EoGParticipant) (c : Counter) :
    c.top (camelBlock statsMap (fallbackBlock (upperBlock statsMap p)))
      = (match c with
        | .vision =>
          fillFrom (asFloat64 (mapIndex statsMap "visionScore"))
            (fillInt (setIntEither statsMap "VISION_SCORE" "visionScore" p.VisionScore)
              ((p.Stats.getD {}).VisionScore))
        | .damageTaken | .cc | .heals | .shields | .selfMitigated =>
          setIntEither statsMap c.camelKey c.upperKey (setInt statsMap c.upperKey (c.top p))
        | _ =>
          fillFrom (getNestedStat statsMap c.camelKey c.upperKey)
            (setInt statsMap c.upperKey (c.top p))) := by
  cases c <;>
    simp only [camelBlock, fallbackBlock, upperBlock, Counter.top, Counter.camelKey,
      Counter.upperKey, fillInt_self]
  · unfold fillFrom getNestedStat
    cases asFloat64 (mapIndex statsMap "totalDamageDealtToChampions") with
    | some v => rfl
    | none =>
      cases asFloat64 (mapIndex statsMap "TOTAL_DAMAGE_DEALT_TO_CHAMPIONS") with
      | some v => rfl
      | none => rfl

theorem merge_nested (statsMap : List (String × JVal)) (p : EoGParticipant) (c : Counter) :
    ∃ s, (camelBlock statsMap (fallbackBlock (upperBlock statsMap p))).Stats = some s ∧
      c.nested s
        = (match c with
          | .damageTaken | .cc | .heals | .shields | .selfMitigated =>
            setIntEither statsMap c.camelKey c.upperKey 0
          | _ => c.top (camelBlock statsMap (fallbackBlock (upperBlock statsMap p)))) := by
  refine ⟨_, rfl, ?_⟩
  cases c <;> rfl

theorem parseTeamPlayer_merge (playerMap statsMap : List (String × JVal)) (p0 : EoGParticipant)
    (hdec : decodeParticipant false (JVal.obj playerMap) {} = some p0)
    (hstats : asMap (mapIndex playerMap "stats") = some statsMap) :
    parseTeamPlayer (JVal.obj playerMap)
      = camelBlock statsMap (fallbackBlock (upperBlock statsMap (normalizeTagline p0))) := by
  unfold parseTeamPlayer
  simp only [hdec, hstats]

/-- C14.  A player of `teams[].players` that decodes into a participant `p0`
(whose fields are the top-level copies) and whose nested stats hold a counter
under exactly one of its two keys, as the number `n`.  For kills, deaths,
assists, gold, minions, neutral minions and damage to champions with the nested
copy under the camelCase key, the result is the top-level copy when that is not 0
and the nested copy otherwise.  In every other case, i.e. under the
UPPER_SNAKE_CASE key, and for vision score, damage taken, CC time, healing,
shielding and self-mitigated damage under either key, the result is the nested
copy, also when the nested copy is 0 and the top-level copy is not.  (For a
nested vision score of 0 this supposes that the decoded `Stats` record holds no
positive vision score.)  The `Stats` record of the result holds the same
value. -/
theorem nested_copy_of_counter (playerMap statsMap : List (String × JVal))
    (p0 : EoGParticipant) (c : Counter) (n : ℚ)
    (hdec : decodeParticipant false (JVal.obj playerMap) {} = some p0)
    (hstats : asMap (mapIndex playerMap "stats") = some statsMap)
    (hone :
      (asFloat64 (mapIndex statsMap c.camelKey) = some n ∧
          asFloat64 (mapIndex statsMap c.upperKey) = none) ∨
        (asFloat64 (mapIndex statsMap c.camelKey) = none ∧
          asFloat64 (mapIndex statsMap c.upperKey) = some n))
    (hvis : c = Counter.vision → goInt n = 0 →
      ∀ s0, p0.Stats = some s0 → s0.VisionScore ≤ 0) :
    c.top (parseTeamPlayer (JVal.obj playerMap))
        = (if c.filledWhenZero = true ∧ asFloat64 (mapIndex statsMap c.upperKey) = none ∧
              c.top p0 ≠ 0
            then c.top p0 else goInt n) ∧
      ∃ s, (parseTeamPlayer (JVal.obj playerMap)).Stats = some s ∧
        c.nested s = c.top (parseTeamPlayer (JVal.obj playerMap)) := by
  rw [parseTeamPlayer_merge playerMap statsMap p0 hdec hstats]
  obtain ⟨htop, hst⟩ := normalizeTagline_top c p0
  have hform := merge_top statsMap (normalizeTagline p0) c
  obtain ⟨s, hs, hn⟩ := merge_nested statsMap (normalizeTagline p0) c
  have hv : c = Counter.vision → goInt n = 0 →
      ((normalizeTagline p0).Stats.getD {}).VisionScore ≤ 0 := by
    intro h1 h2
    rw [hst]
    cases hs0 : p0.Stats with
    | none => simp
    | some s0 => simpa using hvis h1 h2 s0 hs0
  have hvt := (normalizeTagline_top Counter.vision p0).1
  simp only [Counter.top] at hvt
  constructor
  · rw [hform]
    rcases hone with ⟨h1, h2⟩ | ⟨h1, h2⟩
    · cases c <;>
        simp only [Counter.camelKey, Counter.upperKey, Counter.top, Counter.filledWhenZero] at *
          <;>
        simp [fillFrom, fillInt, setInt, setIntEither, getNestedStat, h1, h2, htop, hvt]
      all_goals (intro _ h0 hpos; exact absurd (hv trivial h0) (not_le.2 hpos))
    · cases c <;>
        simp only [Counter.camelKey, Counter.upperKey, Counter.top, Counter.filledWhenZero] at *
          <;>
        simp [fillFrom, fillInt, setInt, setIntEither, getNestedStat, h1, h2, htop, hvt]
      all_goals (intro h0 hpos; exact absurd (hv trivial h0) (not_le.2 hpos))
  · refine ⟨s, hs, ?_⟩
    rw [hn]
    rcases hone with ⟨h1, h2⟩ | ⟨h1, h2⟩
    · cases c <;>
        simp only [Counter.camelKey, Counter.upperKey, Counter.top, Counter.filledWhenZero] at *
          <;>
        simp [hform, fillFrom, fillInt, setInt, setIntEither, getNestedStat, h1, h2, htop, hvt]
    · cases c <;>
        simp only [Counter.camelKey, Counter.upperKey, Counter.top, Counter.filledWhenZero] at *
          <;>
        simp [hform, fillFrom, fillInt, setInt, setIntEither, getNestedStat, h1, h2, htop, hvt]

/-- C14 at `upperZeroPlayer`: the top-level kills are 7 and the nested stats hold
0 under `CHAMPIONS_KILLED`; the kills of the result and of its `Stats` record are
0, not the non-zero copy.  At `visionZeroPlayer` the vision score 30 is replaced
by the nested 0 likewise. -/
theorem nested_zero_replaces_top_level :
    (decodeParticipant false upperZeroPlayer {}).map (fun p => p.Kills) = some 7 ∧
      (parseTeamPlayer upperZeroPlayer).Kills = 0 ∧
      ((parseTeamPlayer upperZeroPlayer).Stats).map (fun s => s.Kills) = some 0 ∧
      (decodeParticipant false visionZeroPlayer {}).map (fun p => p.VisionScore) = some 30 ∧
      (parseTeamPlayer visionZeroPlayer).VisionScore = 0 ∧
      ((parseTeamPlayer visionZeroPlayer).Stats).map (fun s => s.VisionScore) = some 0 := by
  decide!

/-- C14 at `camelZeroPlayer`: with the nested 0 under the camelCase key `kills`
the top-level 7 is kept. -/
theorem nested_copy_of_counter_witness :
    (parseTeamPlayer camelZeroPlayer).Kills = 7 ∧
      ∃ s, (parseTeamPlayer camelZeroPlayer).Stats = some s ∧ s.Kills = 7 :=
  have h := nested_copy_of_counter
    [("summonerName", JVal.str "x"), ("kills", JVal.int 7),
      ("stats", JVal.obj [("kills", JVal.int 0)])]
    [("kills", JVal.int 0)] { SummonerName := "x", Kills := 7, Stats := some {} }
    Counter.kills 0 (by decide!) rfl (Or.inl ⟨rfl, rfl⟩) (fun hc => absurd hc (by decide))
  ⟨h.1.trans (by decide!), by
    obtain ⟨s, hs, hk⟩ := h.2
    exact ⟨s, hs, hk.trans (h.1.trans (by decide!))⟩⟩

/-! ## `ParseEoGStats`: the sign of the counters -/

theorem inRangeList_iff (xs : List JVal) :
    inRangeList xs = true ↔ ∀ x ∈ xs, x.inRange = true := by
  induction xs with
  | nil => simp [inRangeList]
  | cons x xs ih => simp [inRangeList, ih]

theorem inRangeFields_iff (kvs : List (String × JVal)) :
    inRangeFields kvs = true ↔ ∀ kv ∈ kvs, kv.2.inRange = true := by
  induction kvs with
  | nil => simp [inRangeFields]
  | cons kv kvs ih => simp [inRangeFields, ih]

/-- Within the range of `int64` the conversion is the floor of a non-negative
number. -/
theorem goInt_small {q : ℚ} (h : 0 ≤ q ∧ q < 9223372036854775808) : goInt q = ⌊q⌋ := by
  have ht : q.num.tdiv q.den = ⌊q⌋ := by
    rw [Int.tdiv_eq_ediv (Rat.num_nonneg.2 h.1) (Int.ofNat_nonneg _)]
    exact (Rat.floor_def' q).symm
  have h0 : 0 ≤ ⌊q⌋ := Int.floor_nonneg.2 h.1
  have h1 : ⌊q⌋ < 9223372036854775808 := Int.floor_lt.2 (by exact_mod_cast h.2)
  unfold goInt
  simp only [ht]
  rw [if_pos ⟨by omega, h1⟩]

theorem goInt_nonneg {q : ℚ} (h : 0 ≤ q ∧ q < 9223372036854775808) : 0 ≤ goInt q := by
  rw [goInt_small h]
  exact Int.floor_nonneg.2 h.1

theorem mapIndex_mem {kvs : List (String × JVal)} {key : String} {v : JVal}
    (h : mapIndex kvs key = some v) : (key, v) ∈ kvs := by
  unfold mapIndex at h
  obtain ⟨l1, l2, hl, -⟩ := List.lookup_eq_some_iff.1 h
  have : (key, v) ∈ kvs.reverse := by rw [hl]; simp
  exact List.mem_reverse.1 this

theorem mapIndex_inRange {kvs : List (String × JVal)} {key : String} {v : JVal}
    (hn : inRangeFields kvs = true) (h : mapIndex kvs key = some v) : v.inRange = true :=
  (inRangeFields_iff kvs).1 hn _ (mapIndex_mem h)

theorem float_nonneg {m : List (String × JVal)} {key : String} {q : ℚ}
    (hn : inRangeFields m = true) (h : asFloat64 (mapIndex m key) = some q) :
    0 ≤ q ∧ q < 9223372036854775808 := by
  cases hv : mapIndex m key with
  | none => rw [hv] at h; simp [asFloat64] at h
  | some v =>
    have hnn := mapIndex_inRange hn hv
    rw [hv] at h
    cases v <;> simp [asFloat64] at h
    subst h
    simpa [JVal.inRange] using hnn

theorem asMap_inRange {m sm : List (String × JVal)} {key : String}
    (hn : inRangeFields m = true) (h : asMap (mapIndex m key) = some sm) :
    inRangeFields sm = true := by
  cases hv : mapIndex m key with
  | none => rw [hv] at h; simp [asMap] at h
  | some v =>
    have hnn := mapIndex_inRange hn hv
    rw [hv] at h
    cases v <;> simp [asMap] at h
    subst h
    simpa [JVal.inRange] using hnn

theorem asArray_inRange {m : List (String × JVal)} {xs : List JVal} {key : String}
    (hn : inRangeFields m = true) (h : asArray (mapIndex m key) = some xs) :
    inRangeList xs = true := by
  cases hv : mapIndex m key with
  | none => rw [hv] at h; simp [asArray] at h
  | some v =>
    have hnn := mapIndex_inRange hn hv
    rw [hv] at h
    cases v <;> simp [asArray] at h
    subst h
    simpa [JVal.inRange] using hnn

theorem setInt_nonneg {m : List (String × JVal)} (hn : inRangeFields m = true) (key : String)
    {x : Int} (hx : 0 ≤ x) : 0 ≤ setInt m key x := by
  unfold setInt
  cases h : asFloat64 (mapIndex m key) with
  | none => exact hx
  | some q => exact goInt_nonneg (float_nonneg hn h)

theorem getNestedStat_nonneg {m : List (String × JVal)} (hn : inRangeFields m = true)
    {k1 k2 : String} {q : ℚ} (h : getNestedStat m k1 k2 = some q) :
    0 ≤ q ∧ q < 9223372036854775808 := by
  unfold getNestedStat at h
  cases h1 : asFloat64 (mapIndex m k1) with
  | none => rw [h1] at h; exact float_nonneg hn h
  | some v =>
    rw [h1] at h
    simp only [Option.some.injEq] at h
    subst h
    exact float_nonneg hn h1

theorem setIntEither_nonneg {m : List (String × JVal)} (hn : inRangeFields m = true)
    (k1 k2 : String) {x : Int} (hx : 0 ≤ x) : 0 ≤ setIntEither m k1 k2 x := by
  unfold setIntEither
  cases h : getNestedStat m k1 k2 with
  | none => exact hx
  | some q => exact goInt_nonneg (getNestedStat_nonneg hn h)

theorem fillInt_nonneg {x s : Int} (hx : 0 ≤ x) (hs : 0 ≤ s) : 0 ≤ fillInt x s := by
  unfold fillInt
  split_ifs
  · exact hs
  · exact hx

theorem fillFrom_nonneg {o : Option ℚ}
    (ho : ∀ q, o = some q → 0 ≤ q ∧ q < 9223372036854775808) {x : Int} (hx : 0 ≤ x) :
    0 ≤ fillFrom o x := by
  unfold fillFrom
  cases o with
  | none => exact hx
  | some q =>
    simp only
    split_ifs
    · exact goInt_nonneg (ho q rfl)
    · exact hx

theorem decodeInt_nonneg {lit : Bool} {v : JVal} {cur x : Int} (hv : v.inRange = true)
    (hc : 0 ≤ cur) (h : decodeInt lit v cur = some x) : 0 ≤ x := by
  unfold decodeInt at h
  cases v with
  | null => simp at h; omega
  | num q il =>
    simp only at h
    split_ifs at h
    simp only [Option.some.injEq] at h
    subst h
    have hq : 0 ≤ q ∧ q < 9223372036854775808 := by simpa [JVal.inRange] using hv
    exact Rat.num_nonneg.2 hq.1
  | bool b => simp at h
  | str s => simp at h
  | arr xs => simp at h
  | obj kvs => simp at h

theorem goodStats_zero : GoodStats {} := by
  intro c; cases c <;> decide

theorem goodParticipant_zero : GoodParticipant {} := by
  refine ⟨?_, ?_⟩
  · intro c; cases c <;> decide
  · intro s hs; simp at hs

theorem foldl_decodeMember_none {σ : Type} (names : List String)
    (set : String → JVal → σ → Option σ) (kvs : List (String × JVal)) :
    kvs.foldl (decodeMember names set) none = none := by
  induction kvs with
  | nil => rfl
  | cons kv kvs ih => simpa [decodeMember] using ih

/-- A property of the record that every field decoder keeps, for the values of
the members read, holds after `decodeFields`. -/
theorem decodeFields_inv {σ : Type} (P : σ → Prop) (Q : JVal → Prop) (names : List String)
    (set : String → JVal → σ → Option σ)
    (hset : ∀ f v s s2, Q v → P s → set f v s = some s2 → P s2)
    (kvs : List (String × JVal)) (hk : ∀ kv ∈ kvs, Q kv.2) (init r : σ) (hinit : P init)
    (h : decodeFields names set kvs init = some r) : P r := by
  unfold decodeFields at h
  induction kvs generalizing init with
  | nil =>
    simp only [List.foldl_nil, Option.some.injEq] at h
    subst h
    exact hinit
  | cons kv kvs ih =>
    rw [List.foldl_cons] at h
    have hk2 : ∀ kv2 ∈ kvs, Q kv2.2 := fun kv2 h2 => hk kv2 (List.mem_cons_of_mem _ h2)
    cases hm : matchField names kv.1 with
    | none =>
      simp only [decodeMember, hm] at h
      exact ih hk2 init hinit h
    | some f =>
      cases hs : set f kv.2 init with
      | none =>
        simp only [decodeMember, hm, hs] at h
        rw [foldl_decodeMember_none] at h
        simp at h
      | some s2 =>
        simp only [decodeMember, hm, hs] at h
        exact ih hk2 s2 (hset f kv.2 init s2 (hk kv (List.mem_cons_self _ _)) hinit hs) h

theorem mem_insertMember {kv x : String × JVal} {l : List (String × JVal)}
    (h : x ∈ insertMember kv l) : x = kv ∨ x ∈ l := by
  induction l with
  | nil => simpa [insertMember] using h
  | cons y rest ih =>
    unfold insertMember at h
    split_ifs at h
    · rcases List.mem_cons.1 h with h1 | h1
      · exact Or.inl h1
      · exact Or.inr (List.mem_cons_of_mem _ h1)
    · rcases List.mem_cons.1 h with h1 | h1
      · exact Or.inl h1
      · exact Or.inr h1
    · rcases List.mem_cons.1 h with h1 | h1
      · exact Or.inr (h1 ▸ List.mem_cons_self _ _)
      · rcases ih h1 with h2 | h2
        · exact Or.inl h2
        · exact Or.inr (List.mem_cons_of_mem _ h2)

theorem mem_foldl_insertMember {x : String × JVal} (kvs acc : List (String × JVal))
    (h : x ∈ kvs.foldl (fun acc kv => insertMember kv acc) acc) : x ∈ acc ∨ x ∈ kvs := by
  induction kvs generalizing acc with
  | nil => exact Or.inl h
  | cons kv kvs ih =>
    rw [List.foldl_cons] at h
    rcases ih _ h with h1 | h1
    · rcases mem_insertMember h1 with h2 | h2
      · exact Or.inr (h2 ▸ List.mem_cons_self _ _)
      · exact Or.inl h2
    · exact Or.inr (List.mem_cons_of_mem _ h1)

theorem mem_marshalMembers {x : String × JVal} {kvs : List (String × JVal)}
    (h : x ∈ marshalMembers kvs) : x ∈ kvs := by
  rcases mem_foldl_insertMember kvs [] h with h1 | h1
  · simp at h1
  · exact h1

theorem membersRead_inRange {lit : Bool} {kvs : List (String × JVal)}
    (hn : inRangeFields kvs = true) : ∀ kv ∈ membersRead lit kvs, kv.2.inRange = true := by
  intro kv hkv
  unfold membersRead at hkv
  split_ifs at hkv
  · exact (inRangeFields_iff kvs).1 hn kv hkv
  · exact (inRangeFields_iff kvs).1 hn kv (mem_marshalMembers hkv)

theorem ite_some_imp {α : Type} {c : Prop} [Decidable c] {x y : Option α} {r : α} {P : Prop}
    (hx : x = some r → P) (hy : y = some r → P) : (if c then x else y) = some r → P := by
  split_ifs
  · exact hx
  · exact hy

theorem setStatsField_good (lit : Bool) (f : String) (v : JVal) (s s2 : EoGPlayerStats)
    (hv : v.inRange = true) (hs : GoodStats s) (h : setStatsField lit f v s = some s2) :
    GoodStats s2 := by
  unfold setStatsField at h
  revert h
  repeat' apply ite_some_imp
  all_goals
    intro h
    intro c
    have H := hs c
    first
    | (obtain ⟨x, hx, rfl⟩ := Option.map_eq_some'.1 h
       cases c <;> first | exact H | exact decodeInt_nonneg hv H hx)
    | (simp only [Option.some.injEq] at h
       subst h
       exact H)

theorem decodeStatsPtr_good (lit : Bool) (v : JVal) (cur r : Option EoGPlayerStats)
    (hv : v.inRange = true) (hc : ∀ s, cur = some s → GoodStats s)
    (h : decodeStatsPtr lit v cur = some r) : ∀ s, r = some s → GoodStats s := by
  unfold decodeStatsPtr at h
  cases v with
  | null =>
    simp only [Option.some.injEq] at h
    subst h
    intro s hs
    simp at hs
  | obj kvs =>
    simp only at h
    obtain ⟨x, hx, rfl⟩ := Option.map_eq_some'.1 h
    intro s hs
    simp only [Option.some.injEq] at hs
    subst hs
    refine decodeFields_inv GoodStats (fun v => v.inRange = true) _ _
      (fun f v s s2 hv hs h => setStatsField_good lit f v s s2 hv hs h) _
      (membersRead_inRange (by simpa [JVal.inRange] using hv)) _ _ ?_ hx
    cases cur with
    | none => exact goodStats_zero
    | some s0 => exact hc s0 rfl
  | bool b => simp at h
  | num q il => simp at h
  | str s => simp at h
  | arr xs => simp at h

theorem setParticipantField_good (lit : Bool) (f : String) (v : JVal) (p p2 : EoGParticipant)
    (hv : v.inRange = true) (hp : GoodParticipant p)
    (h : setParticipantField lit f v p = some p2) : GoodParticipant p2 := by
  unfold setParticipantField at h
  revert h
  repeat' apply ite_some_imp
  all_goals
    intro h
    first
    | (obtain ⟨x, hx, rfl⟩ := Option.map_eq_some'.1 h
       refine ⟨fun c => ?_, hp.2⟩
       have H := hp.1 c
       cases c <;> first | exact H | exact decodeInt_nonneg hv H hx)
    | (obtain ⟨x, hx, rfl⟩ := Option.map_eq_some'.1 h
       refine ⟨fun c => ?_, decodeStatsPtr_good lit v p.Stats x hv hp.2 hx⟩
       have H := hp.1 c
       cases c <;> exact H)
    | (simp only [Option.some.injEq] at h
       subst h
       exact hp)

theorem decodeParticipant_good (lit : Bool) (v : JVal) (cur r : EoGParticipant)
    (hv : v.inRange = true) (hc : GoodParticipant cur)
    (h : decodeParticipant lit v cur = some r) : GoodParticipant r := by
  unfold decodeParticipant at h
  cases v with
  | null =>
    simp only [Option.some.injEq] at h
    subst h
    exact hc
  | obj kvs =>
    simp only at h
    exact decodeFields_inv GoodParticipant (fun v => v.inRange = true) _ _
      (fun f v s s2 hv hs h => setParticipantField_good lit f v s s2 hv hs h) _
      (membersRead_inRange (by simpa [JVal.inRange] using hv)) _ _ hc h
  | bool b => simp at h
  | num q il => simp at h
  | str s => simp at h
  | arr xs => simp at h

theorem decodeElems_good {α : Type} (P : α → Prop) (dec : JVal → α → Option α) (zero : α)
    (hzero : P zero)
    (hdec : ∀ v c r, v.inRange = true → P c → dec v c = some r → P r)
    (xs : List JVal) (hxs : ∀ x ∈ xs, x.inRange = true) (cur r : List α)
    (hcur : ∀ c ∈ cur, P c) (h : decodeElems dec zero xs cur = some r) : ∀ a ∈ r, P a := by
  induction xs generalizing cur r with
  | nil =>
    simp only [decodeElems, Option.some.injEq] at h
    subst h
    intro a ha
    simp at ha
  | cons x xs ih =>
    unfold decodeElems at h
    rw [List.headD_eq_head?_getD] at h
    have hhead : P (cur.head?.getD zero) := by
      cases cur with
      | nil => exact hzero
      | cons c cs => exact hcur c (List.mem_cons_self _ _)
    have htail : ∀ c ∈ cur.tail, P c := fun c hc => hcur c (List.mem_of_mem_tail hc)
    cases h1 : dec x (cur.head?.getD zero) with
    | none => simp [h1] at h
    | some a =>
      cases h2 : decodeElems dec zero xs cur.tail with
      | none => simp [h1, h2] at h
      | some rest =>
        simp only [h1, h2, Option.some.injEq] at h
        subst h
        intro b hb
        rcases List.mem_cons.1 hb with hb | hb
        · subst hb
          exact hdec x _ _ (hxs x (List.mem_cons_self _ _)) hhead h1
        · exact ih (fun y hy => hxs y (List.mem_cons_of_mem _ hy)) _ _ htail h2 b hb

theorem decodeSlice_good {α : Type} (P : α → Prop) (dec : JVal → α → Option α) (zero : α)
    (hzero : P zero)
    (hdec : ∀ v c r, v.inRange = true → P c → dec v c = some r → P r)
    (v : JVal) (hv : v.inRange = true) (cur r : List α)
    (hcur : ∀ c ∈ cur, P c) (h : decodeSlice dec zero v cur = some r) : ∀ a ∈ r, P a := by
  unfold decodeSlice at h
  cases v with
  | null =>
    simp only [Option.some.injEq] at h
    subst h
    intro a ha
    simp at ha
  | arr xs =>
    simp only at h
    exact decodeElems_good P dec zero hzero hdec xs
      ((inRangeList_iff xs).1 (by simpa [JVal.inRange] using hv)) cur r hcur h
  | bool b => simp at h
  | num q il => simp at h
  | str s => simp at h
  | obj kvs => simp at h

theorem decodeParticipants_good (lit : Bool) (v : JVal) (hv : v.inRange = true)
    (cur r : List EoGParticipant) (hcur : ∀ c ∈ cur, GoodParticipant c)
    (h : decodeSlice (decodeParticipant lit) {} v cur = some r) :
    ∀ a ∈ r, GoodParticipant a :=
  decodeSlice_good GoodParticipant (decodeParticipant lit) {} goodParticipant_zero
    (fun v c r hv hc h => decodeParticipant_good lit v c r hv hc h) v hv cur r hcur h

theorem goodBlock_zero : GoodBlock {} := by
  refine ⟨le_refl _, le_refl _, ?_⟩
  intro p hp
  simp at hp

theorem setStatsBlockField_good (lit : Bool) (f : String) (v : JVal) (b b2 : EoGStatsBlock)
    (hv : v.inRange = true) (hb : GoodBlock b) (h : setStatsBlockField lit f v b = some b2) :
    GoodBlock b2 := by
  unfold setStatsBlockField at h
  revert h
  repeat' apply ite_some_imp
  all_goals
    intro h
    first
    | (obtain ⟨x, hx, rfl⟩ := Option.map_eq_some'.1 h
       exact ⟨decodeInt_nonneg hv hb.1 hx, hb.2.1, hb.2.2⟩)
    | (obtain ⟨x, hx, rfl⟩ := Option.map_eq_some'.1 h
       exact ⟨hb.1, decodeInt_nonneg hv hb.2.1 hx, hb.2.2⟩)
    | (obtain ⟨x, hx, rfl⟩ := Option.map_eq_some'.1 h
       exact ⟨hb.1, hb.2.1, decodeParticipants_good lit v hv _ _ hb.2.2 hx⟩)
    | (obtain ⟨x, hx, rfl⟩ := Option.map_eq_some'.1 h
       exact hb)
    | (simp only [Option.some.injEq] at h
       subst h
       exact hb)

theorem decodeStatsBlock_good (lit : Bool) (v : JVal) (cur r : EoGStatsBlock)
    (hv : v.inRange = true) (hc : GoodBlock cur)
    (h : decodeStatsBlock lit v cur = some r) : GoodBlock r := by
  unfold decodeStatsBlock at h
  cases v with
  | null =>
    simp only [Option.some.injEq] at h
    subst h
    exact hc
  | obj kvs =>
    simp only at h
    exact decodeFields_inv GoodBlock (fun v => v.inRange = true) _ _
      (fun f v s s2 hv hs h => setStatsBlockField_good lit f v s s2 hv hs h) _
      (membersRead_inRange (by simpa [JVal.inRange] using hv)) _ _ hc h
  | bool b => simp at h
  | num q il => simp at h
  | str s => simp at h
  | arr xs => simp at h

theorem decodeStatsBlockPtr_good (lit : Bool) (v : JVal) (cur r : Option EoGStatsBlock)
    (hv : v.inRange = true) (hc : ∀ b, cur = some b → GoodBlock b)
    (h : decodeStatsBlockPtr lit v cur = some r) : ∀ b, r = some b → GoodBlock b := by
  unfold decodeStatsBlockPtr at h
  cases v with
  | null =>
    simp only [Option.some.injEq] at h
    subst h
    intro s hs
    simp at hs
  | obj kvs =>
    simp only at h
    obtain ⟨x, hx, rfl⟩ := Option.map_eq_some'.1 h
    intro s hs
    simp only [Option.some.injEq] at hs
    subst hs
    refine decodeFields_inv GoodBlock (fun v => v.inRange = true) _ _
      (fun f v s s2 hv hs h => setStatsBlockField_good lit f v s s2 hv hs h) _
      (membersRead_inRange (by simpa [JVal.inRange] using hv)) _ _ ?_ hx
    cases cur with
    | none => exact goodBlock_zero
    | some s0 => exact hc s0 rfl
  | bool b => simp at h
  | num q il => simp at h
  | str s => simp at h
  | arr xs => simp at h

theorem setWrapperField_good (lit : Bool) (f : String) (v : JVal) (w w2 : EoGStatsBlockWrapper)
    (hv : v.inRange = true) (hw : GoodWrapper w) (h : setWrapperField lit f v w = some w2) :
    GoodWrapper w2 := by
  unfold setWrapperField at h
  revert h
  repeat' apply ite_some_imp
  all_goals
    intro h
    first
    | (obtain ⟨x, hx, rfl⟩ := Option.map_eq_some'.1 h
       exact ⟨decodeInt_nonneg hv hw.1 hx, hw.2.1, hw.2.2.1, hw.2.2.2⟩)
    | (obtain ⟨x, hx, rfl⟩ := Option.map_eq_some'.1 h
       exact ⟨hw.1, decodeInt_nonneg hv hw.2.1 hx, hw.2.2.1, hw.2.2.2⟩)
    | (obtain ⟨x, hx, rfl⟩ := Option.map_eq_some'.1 h
       exact ⟨hw.1, hw.2.1, decodeStatsBlockPtr_good lit v _ _ hv hw.2.2.1 hx, hw.2.2.2⟩)
    | (obtain ⟨x, hx, rfl⟩ := Option.map_eq_some'.1 h
       exact ⟨hw.1, hw.2.1, hw.2.2.1, decodeParticipants_good lit v hv _ _ hw.2.2.2 hx⟩)
    | (obtain ⟨x, hx, rfl⟩ := Option.map_eq_some'.1 h
       exact hw)
    | (simp only [Option.some.injEq] at h
       subst h
       exact hw)

theorem decodeWrapper_good (v : JVal) (r : EoGStatsBlockWrapper) (hv : v.inRange = true)
    (h : decodeWrapper true v {} = some r) : GoodWrapper r := by
  have hz : GoodWrapper {} := by
    refine ⟨le_refl _, le_refl _, ?_, ?_⟩
    · intro sb hsb; simp at hsb
    · intro p hp; simp at hp
  unfold decodeWrapper at h
  cases v with
  | null =>
    simp only [Option.some.injEq] at h
    subst h
    exact hz
  | obj kvs =>
    simp only at h
    exact decodeFields_inv GoodWrapper (fun v => v.inRange = true) _ _
      (fun f v s s2 hv hs h => setWrapperField_good true f v s s2 hv hs h) _
      (membersRead_inRange (by simpa [JVal.inRange] using hv)) _ _ hz h
  | bool b => simp at h
  | num q il => simp at h
  | str s => simp at h
  | arr xs => simp at h

theorem extractParticipantFromMap_good (playerMap : List (String × JVal))
    (hn : inRangeFields playerMap = true) :
    GoodParticipant (extractParticipantFromMap playerMap) := by
  unfold extractParticipantFromMap
  split
  · rename_i statsMap hs
    have hsn := asMap_inRange hn hs
    refine ⟨fun c => ?_, fun s hs2 => ?_⟩
    · cases c <;> exact setIntEither_nonneg hsn _ _ (le_refl _)
    · simp only [Option.some.injEq] at hs2
      subst hs2
      intro c
      cases c <;> exact setIntEither_nonneg hsn _ _ (le_refl _)
  · refine ⟨fun c => ?_, fun s hs2 => ?_⟩
    · cases c <;> first | exact setInt_nonneg hn _ (le_refl _) | exact le_refl _
    · simp at hs2

theorem goodStats_getD (p : EoGParticipant) (hp : GoodParticipant p) :
    GoodStats (p.Stats.getD {}) := by
  cases hs : p.Stats with
  | none => exact goodStats_zero
  | some s => exact hp.2 s hs

theorem upperBlock_good (statsMap : List (String × JVal)) (p : EoGParticipant)
    (hn : inRangeFields statsMap = true) (hp : GoodParticipant p) :
    GoodParticipant (upperBlock statsMap p) := by
  have hS := goodStats_getD p hp
  unfold upperBlock
  refine ⟨fun c => ?_, fun s hs2 => ?_⟩
  · have H := hp.1 c
    cases c <;> first | exact setInt_nonneg hn _ H | exact setIntEither_nonneg hn _ _ H
  · simp only [Option.some.injEq] at hs2
    subst hs2
    intro c
    have H := hp.1 c
    have HS := hS c
    cases c <;>
      first | exact setInt_nonneg hn _ H | exact setIntEither_nonneg hn _ _ H | exact HS

theorem fallbackBlock_good (p : EoGParticipant) (hp : GoodParticipant p) :
    GoodParticipant (fallbackBlock p) := by
  unfold fallbackBlock
  split
  · exact hp
  · rename_i s hs
    refine ⟨fun c => ?_, fun s2 hs2 => hp.2 s2 hs2⟩
    have H := hp.1 c
    have HS := hp.2 s hs c
    cases c <;> first | exact fillInt_nonneg H HS | exact H

theorem camelBlock_good (statsMap : List (String × JVal)) (p : EoGParticipant)
    (hn : inRangeFields statsMap = true) (hp : GoodParticipant p) :
    GoodParticipant (camelBlock statsMap p) := by
  have hdmg : 0 ≤ (camelBlock statsMap p).TotalDamageDealtToChampions := by
    unfold camelBlock
    simp only
    have H := hp.1 Counter.damage
    simp only [Counter.top] at H
    cases h1 : asFloat64 (mapIndex statsMap "totalDamageDealtToChampions") with
    | some v =>
      simp only
      split_ifs
      · exact goInt_nonneg (float_nonneg hn h1)
      · exact H
    | none =>
      cases h2 : asFloat64 (mapIndex statsMap "TOTAL_DAMAGE_DEALT_TO_CHAMPIONS") with
      | some v =>
        simp only
        split_ifs
        · exact goInt_nonneg (float_nonneg hn h2)
        · exact H
      | none => exact H
  refine ⟨fun c => ?_, fun s hs2 => ?_⟩
  · have H := hp.1 c
    cases c <;>
      first
      | exact hdmg
      | exact fillFrom_nonneg (fun q h => getNestedStat_nonneg hn h) H
      | exact fillFrom_nonneg (fun q h => float_nonneg hn h) H
      | exact setIntEither_nonneg hn _ _ H
  · have hst : (camelBlock statsMap p).Stats = some s := hs2
    unfold camelBlock at hs2
    simp only [Option.some.injEq] at hs2
    subst hs2
    intro c
    have H := hp.1 c
    cases c <;>
      first
      | exact hdmg
      | exact fillFrom_nonneg (fun q h => getNestedStat_nonneg hn h) H
      | exact fillFrom_nonneg (fun q h => float_nonneg hn h) H
      | exact setIntEither_nonneg hn _ _ (le_refl _)

theorem normalizeTagline_good (p : EoGParticipant) (hp : GoodParticipant p) :
    GoodParticipant (normalizeTagline p) := by
  unfold normalizeTagline
  split_ifs
  · refine ⟨fun c => ?_, hp.2⟩
    have H := hp.1 c
    cases c <;> exact H
  · exact hp

theorem parseTeamPlayer_good (v : JVal) (hv : v.inRange = true) :
    GoodParticipant (parseTeamPlayer v) := by
  unfold parseTeamPlayer
  cases hd : decodeParticipant false v {} with
  | none =>
    cases v with
    | obj playerMap =>
      exact extractParticipantFromMap_good playerMap (by simpa [JVal.inRange] using hv)
    | null => exact goodParticipant_zero
    | bool b => exact goodParticipant_zero
    | num q il => exact goodParticipant_zero
    | str s => exact goodParticipant_zero
    | arr xs => exact goodParticipant_zero
  | some p0 =>
    have h1 := normalizeTagline_good p0
      (decodeParticipant_good false v {} p0 hv goodParticipant_zero hd)
    cases v with
    | obj playerMap =>
      have hn : inRangeFields playerMap = true := by simpa [JVal.inRange] using hv
      simp only
      cases hs : asMap (mapIndex playerMap "stats") with
      | some statsMap =>
        have hsn := asMap_inRange hn hs
        exact camelBlock_good _ _ hsn (fallbackBlock_good _ (upperBlock_good _ _ hsn h1))
      | none => exact fallbackBlock_good _ h1
    | null => exact fallbackBlock_good _ h1
    | bool b => exact fallbackBlock_good _ h1
    | num q il => exact fallbackBlock_good _ h1
    | str s => exact fallbackBlock_good _ h1
    | arr xs => exact fallbackBlock_good _ h1

theorem teamParticipants_good (teamRaw : JVal) (hv : teamRaw.inRange = true) :
    ∀ p ∈ teamParticipants teamRaw, GoodParticipant p := by
  intro p hp
  unfold teamParticipants at hp
  cases teamRaw with
  | obj teamMap =>
    simp only at hp
    have hn : inRangeFields teamMap = true := by simpa [JVal.inRange] using hv
    cases hs : asArray (mapIndex teamMap "players") with
    | none => simp [hs] at hp
    | some playersRaw =>
      simp only [hs] at hp
      have hxs := (inRangeList_iff playersRaw).1 (asArray_inRange hn hs)
      obtain ⟨x, hx, rfl⟩ := List.mem_map.1 (List.mem_filter.1 hp).1
      exact parseTeamPlayer_good x (hxs x hx)
  | null => simp at hp
  | bool b => simp at hp
  | num q il => simp at hp
  | str s => simp at hp
  | arr xs => simp at hp

theorem teamsParticipants_good (rawData : List (String × JVal))
    (hn : inRangeFields rawData = true) :
    ∀ p ∈ teamsParticipants rawData, GoodParticipant p := by
  unfold teamsParticipants
  cases hs : asArray (mapIndex rawData "teams") with
  | none => intro p hp; simp at hp
  | some teamsRaw =>
    simp only
    have hxs := (inRangeList_iff teamsRaw).1 (asArray_inRange hn hs)
    clear hs
    induction teamsRaw with
    | nil => intro p hp; simp at hp
    | cons t ts ih =>
      intro p hp
      rw [List.foldr_cons] at hp
      rcases List.mem_append.1 hp with h1 | h1
      · exact teamParticipants_good t (hxs t (List.mem_cons_self _ _)) p h1
      · exact ih (fun x hx => hxs x (List.mem_cons_of_mem _ hx)) p h1

theorem wrapperDuration_nonneg (w : EoGStatsBlockWrapper) (hw : GoodWrapper w) {cur : Int}
    (hc : 0 ≤ cur) : 0 ≤ wrapperDuration w cur := by
  unfold wrapperDuration
  split_ifs
  · exact hw.1
  · exact hw.2.1
  · exact hc

theorem wrapperResult_good (doc : JVal) (r : EoGStatsBlock) (hv : doc.inRange = true)
    (h : wrapperResult doc = some r) : GoodBlock r := by
  unfold wrapperResult at h
  cases hd : decodeWrapper true doc {} with
  | none => simp [hd] at h
  | some w =>
    have hw := decodeWrapper_good doc w hv hd
    simp only [hd] at h
    split_ifs at h with h1
    · simp only [Option.some.injEq] at h
      subst h
      exact ⟨wrapperDuration_nonneg w hw (le_refl _), le_refl _, hw.2.2.2⟩
    · cases hsb : w.StatsBlock with
      | none => simp [hsb] at h
      | some sb =>
        have hgb := hw.2.2.1 sb hsb
        simp only [hsb] at h
        split_ifs at h with h2 h3
        · simp only [Option.some.injEq] at h
          subst h
          exact ⟨wrapperDuration_nonneg w hw hgb.1, hgb.2.1, hgb.2.2⟩
        · simp only [Option.some.injEq] at h
          subst h
          exact hgb

theorem rawDataOf_inRange {doc : JVal} {rawData : List (String × JVal)}
    (hv : doc.inRange = true) (h : rawDataOf doc = some rawData) :
    inRangeFields rawData = true := by
  unfold rawDataOf at h
  cases doc with
  | obj kvs =>
    simp only [Option.some.injEq] at h
    subst h
    simpa [JVal.inRange] using hv
  | null =>
    simp only [Option.some.injEq] at h
    subst h
    rfl
  | bool b => simp at h
  | num q il => simp at h
  | str s => simp at h
  | arr xs => simp at h

theorem ParseEoGStats_good (doc : JVal) (r : EoGStatsBlock) (hv : doc.inRange = true)
    (h : ParseEoGStats (some doc) = (some r, none)) : GoodBlock r := by
  unfold ParseEoGStats at h
  cases hr : rawDataOf doc with
  | none => simp [hr] at h
  | some rawData =>
    have hn := rawDataOf_inRange hv hr
    simp only [hr] at h
    split_ifs at h with ht
    · simp only [Prod.mk.injEq, Option.some.injEq, and_true] at h
      subst h
      refine ⟨?_, le_refl _, teamsParticipants_good rawData hn⟩
      simp only
      cases h1 : asFloat64 (mapIndex rawData "gameLength") with
      | some g => exact goInt_nonneg (float_nonneg hn h1)
      | none =>
        cases h2 : asFloat64 (mapIndex rawData "gameDuration") with
        | some g => exact goInt_nonneg (float_nonneg hn h2)
        | none => exact le_refl _
    · cases hw : wrapperResult doc with
      | some res =>
        simp only [hw, Prod.mk.injEq, Option.some.injEq, and_true] at h
        subst h
        exact wrapperResult_good doc _ hv hw
      | none =>
        cases hd : decodeStatsBlock true doc {} with
        | none => simp [hw, hd] at h
        | some stats =>
          have hg := decodeStatsBlock_good true doc {} stats hv goodBlock_zero hd
          simp only [hw, hd, Prod.mk.injEq, Option.some.injEq, and_true] at h
          subst h
          split_ifs
          · exact ⟨hg.2.1, hg.2.1, hg.2.2⟩
          · exact hg

/-- C15.  At `negativeTeams`, a payload that `ParseEoGStats` accepts, the player's
kills are -5 and the duration is -60: negative numbers are carried into the
record. -/
theorem negative_counter_is_accepted :
    ParseEoGStats (some negativeTeams)
      = (some { GameDurationSeconds := -60
                Participants := [ { SummonerName := "x", Kills := -5 } ] },
         none) := by
  decide!

/-- At `hugeTeams` the two numbers reach the record through `int(v)` outside the
range of `int64`, where Go leaves the result to the implementation: with the value
of the amd64 code the duration and the kills are the least `int64`, although no
number of the payload is negative. -/
theorem huge_number_leaves_the_range :
    ParseEoGStats (some hugeTeams)
      = (some { GameDurationSeconds := -9223372036854775808
                Participants := [ { SummonerName := "x", Kills := -9223372036854775808 } ] },
         none) := by
  decide!

/-- C15.  The counters and the duration of an accepted payload are integers, and
`ParseEoGStats` does not check their sign; when every number of the payload is at
least 0 and below `2^63`, the range in which `int(v)` is the truncation of `v`
whatever the implementation, the duration and every counter of every participant
of the record, at top level and in its `Stats` record, are non-negative. -/
theorem counters_nonneg_of_nonneg_payload (doc : JVal) (r : EoGStatsBlock)
    (hv : doc.inRange = true) (h : ParseEoGStats (some doc) = (some r, none)) :
    0 ≤ r.GameDurationSeconds ∧
      ∀ p ∈ r.Participants, ∀ c : Counter,
        0 ≤ c.top p ∧ ∀ s, p.Stats = some s → 0 ≤ c.nested s := by
  have hg := ParseEoGStats_good doc r hv h
  exact ⟨hg.1, fun p hp c => ⟨(hg.2.2 p hp).1 c, fun s hs => (hg.2.2 p hp).2 s hs c⟩⟩

/-- C15 at `zeroLengthTeams`, a payload whose numbers are 0, 3, 100 and 1800. -/
theorem counters_nonneg_of_nonneg_payload_witness :
    zeroLengthTeams.inRange = true ∧
      ParseEoGStats (some zeroLengthTeams)
        = (some { Participants := [ { SummonerName := "x", Kills := 3 } ] }, none) ∧
      ∀ p ∈ [ ({ SummonerName := "x", Kills := 3 } : EoGParticipant) ], ∀ c : Counter,
        0 ≤ c.top p ∧ ∀ s, p.Stats = some s → 0 ≤ c.nested s :=
  ⟨by decide!, by decide!,
    (counters_nonneg_of_nonneg_payload zeroLengthTeams
      { Participants := [ { SummonerName := "x", Kills := 3 } ] } (by decide!) (by decide!)).2⟩

/-! ## `AnalyzeGame` always returns -/

/-- C25.  For a record without participants `AnalyzeGame` returns no summary and
no error, whatever the duration, the other fields and the configuration. -/
theorem empty_record_gives_no_summary (stats : EoGStatsBlock) (cfg : Config)
    (h : stats.Participants = []) : AnalyzeGame stats cfg = (none, none) := by
  unfold AnalyzeGame
  simp [h]

/-- C25 at a record that has a duration and a game mode but no participant. -/
theorem empty_record_gives_no_summary_witness :
    AnalyzeGame { GameDurationSeconds := 1800, GameMode := "ARAM" } scenarioCfg = (none, none) :=
  empty_record_gives_no_summary { GameDurationSeconds := 1800, GameMode := "ARAM" } scenarioCfg
    rfl

theorem AnalyzeGame_returns (stats : EoGStatsBlock) (cfg : Config)
    (h : stats.Participants ≠ []) : ∃ s, AnalyzeGame stats cfg = (some s, none) := by
  have hne : ¬ stats.Participants.length = 0 := fun h0 => h (List.length_eq_zero.1 h0)
  unfold AnalyzeGame
  rw [if_neg hne]
  exact ⟨_, rfl⟩

/-- C26.  For a record with at least one participant `AnalyzeGame` returns a
summary and no error, whatever the team ids and whether or not the viewer plays.
The `Players` of the summary are as many as the participants, and entry `i` has
the name, the kills, the deaths, the assists and the side of participant `i`.  No
index goes out of range: every index of the players has a participant, and the
indices that the tag pass collects per team are indices of players. -/
theorem analyze_returns_one_player_per_participant (stats : EoGStatsBlock) (cfg : Config)
    (h : stats.Participants ≠ []) :
    ∃ s, AnalyzeGame stats cfg = (some s, none) ∧
      s.Players.length = stats.Participants.length ∧
      (∀ (i : Nat) (pt : EoGParticipant), stats.Participants[i]? = some pt →
        ∃ q, s.Players[i]? = some q ∧ q.SummonerName = getPlayerName pt ∧
          q.K = getPlayerStat pt "kills" ∧ q.D = getPlayerStat pt "deaths" ∧
          q.A = getPlayerStat pt "assists" ∧ q.Team = TeamIDToSide pt.TeamID) ∧
      (∀ i : Nat, i < s.Players.length → ∃ pt, stats.Participants[i]? = some pt) ∧
      (∀ (T : Int) (idx : Nat),
        idx ∈ groupTeamPlayers stats 0
            (identifyStandoutPerformances (playersAfterAfk stats cfg) stats
              (findMyTeamID stats.Participants cfg)) (fun _ => []) T →
          idx < s.Players.length) := by
  obtain ⟨s, hs⟩ := AnalyzeGame_returns stats cfg h
  have h1 : (AnalyzeGame stats cfg).1 = some s := by rw [hs]
  have hP := (AnalyzeGame_some h1).1
  have hlen : s.Players.length = stats.Participants.length := by
    rw [hP, finalPlayers_length]
  refine ⟨s, hs, hlen, ?_, ?_, ?_⟩
  · intro i pt hpt
    obtain ⟨q, hq⟩ := finalPlayers_exists stats cfg i pt hpt
    have hv := finalPlayers_values stats cfg i q pt hq hpt
    have hname := finalPlayers_field (fun x => x.SummonerName) (fun _ => rfl) (fun _ => rfl)
      stats cfg i q pt hq hpt
    have hteam := finalPlayers_field (fun x => x.Team) (fun _ => rfl) (fun _ => rfl)
      stats cfg i q pt hq hpt
    refine ⟨q, by rw [hP]; exact hq, ?_, hv.2.1, hv.2.2.1, hv.2.2.2.1, ?_⟩
    · refine hname.trans ?_
      rw [detectAfk_eq]; rfl
    · refine hteam.trans ?_
      rw [detectAfk_eq]; rfl
  · intro i hi
    rw [hlen] at hi
    exact ⟨_, List.getElem?_eq_getElem hi⟩
  · intro T idx hidx
    rcases (groupTeamPlayers_iff stats 0 _ _ T idx).1 hidx with h0 | ⟨j, p, hp, _, _, he⟩
    · simp at h0
    · rw [Nat.zero_add] at he
      subst he
      have := (List.getElem?_eq_some.1 hp).1
      rw [identify_length, playersAfterAfk_length] at this
      rw [hlen]
      exact this

/-- C26 at `ghostStats`, a match with the team ids 0 and 200 in which the viewer
does not play. -/
theorem analyze_returns_one_player_per_participant_witness :
    ∃ s, AnalyzeGame ghostStats ghostCfg = (some s, none) ∧ s.Players.length = 2 ∧
      ∃ q, s.Players[1]? = some q ∧ q.SummonerName = "vic" ∧ q.K = 28 ∧ q.D = 30 ∧ q.A = 3 ∧
        q.Team = "RED" := by
  obtain ⟨s, hs, hlen, hq, -, -⟩ :=
    analyze_returns_one_player_per_participant ghostStats ghostCfg (by decide)
  obtain ⟨q, h1, h2, h3, h4, h5, h6⟩ := hq 1 (participantAt ghostStats 1) (by decide!)
  exact ⟨s, hs, hlen.trans (by decide), q, h1, h2.trans (by decide!), h3.trans (by decide!),
    h4.trans (by decide!), h5.trans (by decide!), h6.trans (by decide!)⟩

/-! ## One holder of the damage flags, and game flags imply team flags -/

/-- A non-AFK player holds the positive maximum over the non-AFK players exactly
when its value is positive and no non-AFK player exceeds it. -/
theorem holds_game_max_iff (val : PlayerSummary → Int) (ps : List PlayerSummary)
    (q : PlayerSummary) (hq : q ∈ ps) (hA : q.Afk = false) :
    (val q = maxOver val ps 0 ∧ maxOver val ps 0 > 0) ↔
      (0 < val q ∧ ∀ r, r ∈ ps → r.Afk = false → val r ≤ val q) := by
  constructor
  · rintro ⟨h1, h2⟩
    refine ⟨by rw [h1]; exact h2, fun r hr hrA => ?_⟩
    rw [h1]
    exact maxOver_ge val ps 0 r hr hrA
  · rintro ⟨h1, h2⟩
    have hM := maxOver_eq val ps 0 (val q) q hq hA rfl (le_of_lt h1) h2
    rw [hM]
    exact ⟨rfl, h1⟩

/-- A non-AFK player holds the positive maximum of its team exactly when its
value is positive and no non-AFK player of the team exceeds it. -/
theorem holds_team_max_iff (stats : EoGStatsBlock) (val : PlayerSummary → Int)
    (ps : List PlayerSummary) (j : Nat) (q : PlayerSummary) (hq : ps[j]? = some q)
    (hA : q.Afk = false) :
    (val q = teamMax stats val ps (teamIDAt stats j) ∧
        teamMax stats val ps (teamIDAt stats j) > 0) ↔
      (0 < val q ∧ ∀ (k : Nat) (r : PlayerSummary), ps[k]? = some r → r.Afk = false →
        teamIDAt stats k = teamIDAt stats j → val r ≤ val q) := by
  constructor
  · rintro ⟨h1, h2⟩
    refine ⟨by rw [h1]; exact h2, fun k r hr hrA hT => ?_⟩
    rw [h1]
    exact teamMaxLoop_ge stats val 0 ps (fun _ => 0) _ k r hr hrA (by rw [Nat.zero_add]; exact hT)
  · rintro ⟨h1, h2⟩
    have hM := teamMax_eq stats val ps (teamIDAt stats j) (val q) j q hq hA rfl rfl
      (le_of_lt h1) h2
    rw [hM]
    exact ⟨rfl, h1⟩

theorem final_game_damage_holder (stats : EoGStatsBlock) (cfg : Config) (j : Nat)
    (q : PlayerSummary) (hq : (finalPlayers stats cfg)[j]? = some q) :
    q.HighestDamageInGame = true ↔
      q.Afk = false ∧ 0 < q.TotalDamage ∧
        (∀ r, r ∈ finalPlayers stats cfg → r.Afk = false → r.TotalDamage ≤ q.TotalDamage) ∧
        ∀ (k : Nat) (r : PlayerSummary), k < j → (finalPlayers stats cfg)[k]? = some r →
          r.Afk = false → r.TotalDamage ≠ q.TotalDamage := by
  have hc := final_highestDamageInGame stats cfg j q hq
  have hmem : q ∈ finalPlayers stats cfg := List.mem_iff_getElem?.2 ⟨j, hq⟩
  rw [(gameMaxima_fields (finalPlayers stats cfg)).1] at hc
  rw [hc]
  constructor
  · rintro ⟨hA, hmax, hfirst⟩
    have hm := (holds_game_max_iff (fun p => p.TotalDamage) _ q hmem hA).1 hmax
    exact ⟨hA, hm.1, hm.2, fun k r hk hr hrA he => hfirst k r hk hr hrA ⟨he.trans hmax.1, hmax.2⟩⟩
  · rintro ⟨hA, hpos, hle, hfirst⟩
    have hm := (holds_game_max_iff (fun p => p.TotalDamage) _ q hmem hA).2 ⟨hpos, hle⟩
    exact ⟨hA, hm, fun k r hk hr hrA he => hfirst k r hk hr hrA (he.1.trans hm.1.symm)⟩

theorem final_team_damage_holder (stats : EoGStatsBlock) (cfg : Config) (j : Nat)
    (q : PlayerSummary) (hq : (finalPlayers stats cfg)[j]? = some q) :
    q.HighestDamageOnTeam = true ↔
      q.Afk = false ∧ 0 < q.TotalDamage ∧
        (∀ (k : Nat) (r : PlayerSummary), (finalPlayers stats cfg)[k]? = some r →
          r.Afk = false → teamIDAt stats k = teamIDAt stats j →
          r.TotalDamage ≤ q.TotalDamage) ∧
        ∀ (k : Nat) (r : PlayerSummary), k < j → (finalPlayers stats cfg)[k]? = some r →
          teamIDAt stats k = teamIDAt stats j → r.Afk = false →
          r.TotalDamage ≠ q.TotalDamage := by
  have hc := final_highestDamageOnTeam stats cfg j q hq
  rw [hc]
  constructor
  · rintro ⟨hA, hmax, hfirst⟩
    have hm := (holds_team_max_iff stats (fun p => p.TotalDamage) _ j q hq hA).1 hmax
    refine ⟨hA, hm.1, hm.2, fun k r hk hr hT hrA he => hfirst k r hk hr hT hrA ?_⟩
    rw [hT]
    exact ⟨he.trans hmax.1, hmax.2⟩
  · rintro ⟨hA, hpos, hle, hfirst⟩
    have hm := (holds_team_max_iff stats (fun p => p.TotalDamage) _ j q hq hA).2 ⟨hpos, hle⟩
    refine ⟨hA, hm, fun k r hk hr hT hrA he => hfirst k r hk hr hT hrA ?_⟩
    rw [hT] at he
    exact he.1.trans hm.1.symm

/-- C27.  At most one player of the summary has `HighestDamageInGame`: the first
non-AFK player whose damage to champions is positive and not exceeded by any
non-AFK player.  And among the players with one team id at most one has
`HighestDamageOnTeam`: the first non-AFK player of that team whose damage is
positive and not exceeded by any non-AFK player of the team. -/
theorem one_holder_of_highest_damage (stats : EoGStatsBlock) (cfg : Config) (s : GameSummary)
    (h : (AnalyzeGame stats cfg).1 = some s) :
    (∀ (i j : Nat) (qi qj : PlayerSummary), s.Players[i]? = some qi →
        s.Players[j]? = some qj → qi.HighestDamageInGame = true →
        qj.HighestDamageInGame = true → i = j) ∧
      (∀ (j : Nat) (q : PlayerSummary), s.Players[j]? = some q →
        (q.HighestDamageInGame = true ↔
          q.Afk = false ∧ 0 < q.TotalDamage ∧
            (∀ r, r ∈ s.Players → r.Afk = false → r.TotalDamage ≤ q.TotalDamage) ∧
            ∀ (k : Nat) (r : PlayerSummary), k < j → s.Players[k]? = some r →
              r.Afk = false → r.TotalDamage ≠ q.TotalDamage)) ∧
      (∀ (i j : Nat) (qi qj : PlayerSummary), s.Players[i]? = some qi →
        s.Players[j]? = some qj → teamIDAt stats i = teamIDAt stats j →
        qi.HighestDamageOnTeam = true → qj.HighestDamageOnTeam = true → i = j) ∧
      (∀ (j : Nat) (q : PlayerSummary), s.Players[j]? = some q →
        (q.HighestDamageOnTeam = true ↔
          q.Afk = false ∧ 0 < q.TotalDamage ∧
            (∀ (k : Nat) (r : PlayerSummary), s.Players[k]? = some r → r.Afk = false →
              teamIDAt stats k = teamIDAt stats j → r.TotalDamage ≤ q.TotalDamage) ∧
            ∀ (k : Nat) (r : PlayerSummary), k < j → s.Players[k]? = some r →
              teamIDAt stats k = teamIDAt stats j → r.Afk = false →
              r.TotalDamage ≠ q.TotalDamage)) := by
  rw [(AnalyzeGame_some h).1]
  have hgame : ∀ (i j : Nat) (qi qj : PlayerSummary), i < j →
      (finalPlayers stats cfg)[i]? = some qi → (finalPlayers stats cfg)[j]? = some qj →
      qi.HighestDamageInGame = true → qj.HighestDamageInGame = true → False := by
    intro i j qi qj hij hi hj hfi hfj
    have hci := (final_game_damage_holder stats cfg i qi hi).1 hfi
    have hcj := (final_game_damage_holder stats cfg j qj hj).1 hfj
    have h1 := hci.2.2.1 qj (List.mem_iff_getElem?.2 ⟨j, hj⟩) hcj.1
    have h2 := hcj.2.2.1 qi (List.mem_iff_getElem?.2 ⟨i, hi⟩) hci.1
    exact hcj.2.2.2 i qi hij hi hci.1 (le_antisymm h2 h1)
  have hteam : ∀ (i j : Nat) (qi qj : PlayerSummary), i < j →
      (finalPlayers stats cfg)[i]? = some qi → (finalPlayers stats cfg)[j]? = some qj →
      teamIDAt stats i = teamIDAt stats j →
      qi.HighestDamageOnTeam = true → qj.HighestDamageOnTeam = true → False := by
    intro i j qi qj hij hi hj hT hfi hfj
    have hci := (final_team_damage_holder stats cfg i qi hi).1 hfi
    have hcj := (final_team_damage_holder stats cfg j qj hj).1 hfj
    have h1 := hci.2.2.1 j qj hj hcj.1 hT.symm
    have h2 := hcj.2.2.1 i qi hi hci.1 hT
    exact hcj.2.2.2 i qi hij hi hT hci.1 (le_antisymm h2 h1)
  refine ⟨?_, fun j q hq => final_game_damage_holder stats cfg j q hq, ?_,
    fun j q hq => final_team_damage_holder stats cfg j q hq⟩
  · intro i j qi qj hi hj hfi hfj
    rcases Nat.lt_trichotomy i j with hlt | heq | hgt
    · exact (hgame i j qi qj hlt hi hj hfi hfj).elim
    · exact heq
    · exact (hgame j i qj qi hgt hj hi hfj hfi).elim
  · intro i j qi qj hi hj hT hfi hfj
    rcases Nat.lt_trichotomy i j with hlt | heq | hgt
    · exact (hteam i j qi qj hlt hi hj hT hfi hfj).elim
    · exact heq
    · exact (hteam j i qj qi hgt hj hi hT.symm hfj hfi).elim

/-- C27 at `tieStats`: `bea` (index 1) and `cal` (index 2) both deal the highest
damage, 30000; only `bea` has the game flag, and each has the flag of its own
team. -/
theorem one_holder_of_highest_damage_witness :
    (tiePlayer 1).HighestDamageInGame = true ∧ (tiePlayer 2).HighestDamageInGame = false ∧
      (tiePlayer 1).HighestDamageOnTeam = true ∧ (tiePlayer 2).HighestDamageOnTeam = true ∧
      teamIDAt tieStats 1 ≠ teamIDAt tieStats 2 :=
  have h := one_holder_of_highest_damage tieStats tieCfg tieSummary (by decide!)
  have h1 : (tiePlayer 1).HighestDamageInGame = true := by decide!
  have e1 : tieSummary.Players[1]? = some (tiePlayer 1) := by decide!
  have e2 : tieSummary.Players[2]? = some (tiePlayer 2) := by decide!
  ⟨h1,
    bool_eq_false_of_imp (fun h2 => absurd (h.1 1 2 _ _ e1 e2 h1 h2) (by decide)),
    by decide!, by decide!, by decide!⟩

theorem game_max_is_team_max (stats : EoGStatsBlock) (val : PlayerSummary → Int)
    (ps : List PlayerSummary) (j : Nat) (q : PlayerSummary) (hq : ps[j]? = some q)
    (hA : q.Afk = false) (h : val q = maxOver val ps 0 ∧ maxOver val ps 0 > 0) :
    val q = teamMax stats val ps (teamIDAt stats j) ∧
      teamMax stats val ps (teamIDAt stats j) > 0 := by
  have hm := (holds_game_max_iff val ps q (List.mem_iff_getElem?.2 ⟨j, hq⟩) hA).1 h
  exact (holds_team_max_iff stats val ps j q hq hA).2
    ⟨hm.1, fun k r hr hrA _ => hm.2 r (List.mem_iff_getElem?.2 ⟨k, hr⟩) hrA⟩

/-- C29.  In the summary every player with `HighestDamageInGame` has
`HighestDamageOnTeam`, every player with `HighestVisionInGame` has
`HighestVisionOnTeam`, and every player with `MostCCInGame` has `MostCCOnTeam`. -/
theorem game_flag_implies_team_flag (stats : EoGStatsBlock) (cfg : Config) (s : GameSummary)
    (h : (AnalyzeGame stats cfg).1 = some s) (j : Nat) (q : PlayerSummary)
    (hq : s.Players[j]? = some q) :
    (q.HighestDamageInGame = true → q.HighestDamageOnTeam = true) ∧
      (q.HighestVisionInGame = true → q.HighestVisionOnTeam = true) ∧
      (q.MostCCInGame = true → q.MostCCOnTeam = true) := by
  have hq2 := AnalyzeGame_player h hq
  refine ⟨?_, ?_, ?_⟩
  · intro hf
    obtain ⟨hA, hpos, hle, hfirst⟩ := (final_game_damage_holder stats cfg j q hq2).1 hf
    exact (final_team_damage_holder stats cfg j q hq2).2
      ⟨hA, hpos, fun k r hr hrA _ => hle r (List.mem_iff_getElem?.2 ⟨k, hr⟩) hrA,
        fun k r hk hr _ hrA => hfirst k r hk hr hrA⟩
  · intro hf
    cases hA : q.Afk with
    | true =>
      have hn := (final_afk_clean stats cfg j q hq2 hA).1
      have := congrArg (fun x => x.HighestVisionInGame) hn
      simp only [withFlagsOf] at this
      rw [← this] at hf
      exact absurd hf (by simp)
    | false =>
      obtain ⟨-, -, -, h4, h5, -, -, -⟩ := final_shared_flags stats cfg j q hq2 hA
      have hg := h4.1 hf
      rw [(gameMaxima_fields (finalPlayers stats cfg)).2.1] at hg
      exact h5.2 (game_max_is_team_max stats (fun p => p.VisionScore) _ j q hq2 hA hg)
  · intro hf
    cases hA : q.Afk with
    | true =>
      have hn := (final_afk_clean stats cfg j q hq2 hA).1
      have := congrArg (fun x => x.MostCCInGame) hn
      simp only [withFlagsOf] at this
      rw [← this] at hf
      exact absurd hf (by simp)
    | false =>
      obtain ⟨-, -, -, -, -, h6, h7, -⟩ := final_shared_flags stats cfg j q hq2 hA
      have hg := h6.1 hf
      rw [(gameMaxima_fields (finalPlayers stats cfg)).2.2.1] at hg
      exact h7.2 (game_max_is_team_max stats (fun p => p.TotalCC) _ j q hq2 hA hg)

/-- C29 at the ten-player match: `kai` (index 0) has the highest damage and `nia`
(index 3) the highest vision score among the non-AFK players, `max` (index 2) the
longest crowd control; each has the team flag too. -/
theorem game_flag_implies_team_flag_witness :
    (scenarioPlayer 0).HighestDamageInGame = true ∧
      (scenarioPlayer 0).HighestDamageOnTeam = true ∧
      (scenarioPlayer 3).HighestVisionInGame = true ∧
      (scenarioPlayer 3).HighestVisionOnTeam = true ∧
      (scenarioPlayer 2).MostCCInGame = true ∧ (scenarioPlayer 2).MostCCOnTeam = true :=
  have h0 := game_flag_implies_team_flag scenarioStats scenarioCfg scenarioSummary
    scenario_analyzed 0 (scenarioPlayer 0) (scenario_player 0 (by decide))
  have h3 := game_flag_implies_team_flag scenarioStats scenarioCfg scenarioSummary
    scenario_analyzed 3 (scenarioPlayer 3) (scenario_player 3 (by decide))
  have h2 := game_flag_implies_team_flag scenarioStats scenarioCfg scenarioSummary
    scenario_analyzed 2 (scenarioPlayer 2) (scenario_player 2 (by decide))
  ⟨by decide!, h0.1 (by decide!), by decide!, h3.2.1 (by decide!), by decide!,
    h2.2.2 (by decide!)⟩

/-! ## Team insights without a utility score -/

theorem AnalyzeGame_insights {stats : EoGStatsBlock} {cfg : Config} {s : GameSummary}
    (h : (AnalyzeGame stats cfg).1 = some s) :
    s.MyTeamInsights
        = calculateTeamInsights (finalPlayers stats cfg) stats
            (findMyTeamID stats.Participants cfg) true ∧
      s.EnemyTeamInsights
        = calculateTeamInsights (finalPlayers stats cfg) stats
            (findMyTeamID stats.Participants cfg) false := by
  unfold AnalyzeGame at h
  split at h
  · simp at h
  · simp only [Option.some.injEq] at h
    subst h
    exact ⟨rfl, rfl⟩

theorem final_utilityScore (stats : EoGStatsBlock) (cfg : Config) (q : PlayerSummary)
    (hq : q ∈ finalPlayers stats cfg) : q.Metrics.UtilityScore = 0 := by
  obtain ⟨j, hj⟩ := List.mem_iff_getElem?.1 hq
  obtain ⟨pt, _, hpt, -⟩ := finalPlayers_entry stats cfg j q hj
  rw [(finalPlayers_values stats cfg j q pt hj hpt).2.2.2.2.2.2.2.2.2]
  rfl

theorem mem_teamPlayersOf (stats : EoGStatsBlock) (T : Int) (isMy : Bool) (i : Nat)
    (ps : List PlayerSummary) (q : PlayerSummary)
    (h : q ∈ teamPlayersOf stats T isMy i ps) : q ∈ ps := by
  induction ps generalizing i with
  | nil => simp [teamPlayersOf] at h
  | cons p ps ih =>
    unfold teamPlayersOf at h
    split_ifs at h
    · exact List.mem_cons_of_mem _ (ih _ h)
    · rcases List.mem_cons.1 h with h1 | h1
      · exact h1 ▸ List.mem_cons_self _ _
      · exact List.mem_cons_of_mem _ (ih _ h1)
    · rcases List.mem_cons.1 h with h1 | h1
      · exact h1 ▸ List.mem_cons_self _ _
      · exact List.mem_cons_of_mem _ (ih _ h1)
    · exact List.mem_cons_of_mem _ (ih _ h)

theorem sum_synergy (l : List PlayerSummary) (h : ∀ q ∈ l, q.Metrics.UtilityScore = 0) :
    (l.map synergyOf).sum = 0.6 * (l.map (fun q => q.Metrics.KP)).sum := by
  induction l with
  | nil => simp
  | cons a l ih =>
    have ha : synergyOf a = a.Metrics.KP * 0.6 := by
      unfold synergyOf
      rw [h a (List.mem_cons_self _ _)]
      simp
    rw [List.map_cons, List.sum_cons, List.map_cons, List.sum_cons,
      ih (fun q hq => h q (List.mem_cons_of_mem _ hq)), ha]
    ring

theorem countP_excellence (l : List PlayerSummary) (h : ∀ q ∈ l, q.Metrics.UtilityScore = 0) :
    l.countP (fun q => decide (excellenceCount q ≥ 2))
      = l.countP (fun q => decide (excellenceWithoutUtility q ≥ 2)) := by
  apply List.countP_congr
  intro q hq
  have : excellenceCount q = excellenceWithoutUtility q := by
    unfold excellenceCount excellenceWithoutUtility
    rw [h q hq]
    norm_num
  simp [this]

/-- The insights of one side when no player has a utility score. -/
theorem insights_without_utility (stats : EoGStatsBlock) (T : Int) (isMy : Bool)
    (ps : List PlayerSummary) (h : ∀ q ∈ ps, q.Metrics.UtilityScore = 0) :
    (calculateTeamInsights ps stats T isMy).SynergyScore
        = 0.6 * (calculateTeamInsights ps stats T isMy).AverageKP ∧
      (calculateTeamInsights ps stats T isMy).WellRoundedPlayers
        = ((teamPlayersOf stats T isMy 0 ps).countP
            (fun q => decide (excellenceWithoutUtility q ≥ 2)) : Nat) ∧
      (teamPlayersOf stats T isMy 0 ps = [] → calculateTeamInsights ps stats T isMy = {}) := by
  have hmem : ∀ q ∈ teamPlayersOf stats T isMy 0 ps, q.Metrics.UtilityScore = 0 :=
    fun q hq => h q (mem_teamPlayersOf stats T isMy 0 ps q hq)
  unfold calculateTeamInsights
  by_cases h0 : (teamPlayersOf stats T isMy 0 ps).length = 0
  · have hnil : teamPlayersOf stats T isMy 0 ps = [] := List.length_eq_zero.1 h0
    simp [hnil]
  · have hne : teamPlayersOf stats T isMy 0 ps ≠ [] := fun hn => h0 (by rw [hn]; rfl)
    simp only [h0, if_false]
    refine ⟨?_, ?_, fun hn => absurd hn hne⟩
    · rw [sum_synergy _ hmem]
      ring
    · rw [countP_excellence _ hmem]

/-- C30.  No player of a summary has a utility score, so for both sides the
`SynergyScore` is 0.6 times the `AverageKP`, the `WellRoundedPlayers` are the
non-AFK players of the side that meet at least two of the four criteria other
than the utility score (damage share, vision per minute, KP, CS per minute), and
a side without a non-AFK player has the zero-valued `TeamInsights`. -/
theorem synergy_is_share_of_average_kp (stats : EoGStatsBlock) (cfg : Config) (s : GameSummary)
    (h : (AnalyzeGame stats cfg).1 = some s) :
    (∀ q ∈ s.Players, q.Metrics.UtilityScore = 0) ∧
      s.MyTeamInsights.SynergyScore = 0.6 * s.MyTeamInsights.AverageKP ∧
      s.EnemyTeamInsights.SynergyScore = 0.6 * s.EnemyTeamInsights.AverageKP ∧
      s.MyTeamInsights.WellRoundedPlayers
        = ((teamPlayersOf stats (findMyTeamID stats.Participants cfg) true 0 s.Players).countP
            (fun q => decide (excellenceWithoutUtility q ≥ 2)) : Nat) ∧
      s.EnemyTeamInsights.WellRoundedPlayers
        = ((teamPlayersOf stats (findMyTeamID stats.Participants cfg) false 0 s.Players).countP
            (fun q => decide (excellenceWithoutUtility q ≥ 2)) : Nat) ∧
      (teamPlayersOf stats (findMyTeamID stats.Participants cfg) true 0 s.Players = [] →
        s.MyTeamInsights = {}) ∧
      (teamPlayersOf stats (findMyTeamID stats.Participants cfg) false 0 s.Players = [] →
        s.EnemyTeamInsights = {}) := by
  obtain ⟨hmy, hen⟩ := AnalyzeGame_insights h
  rw [(AnalyzeGame_some h).1, hmy, hen]
  have hu := final_utilityScore stats cfg
  have h1 := insights_without_utility stats (findMyTeamID stats.Participants cfg) true
    (finalPlayers stats cfg) hu
  have h2 := insights_without_utility stats (findMyTeamID stats.Participants cfg) false
    (finalPlayers stats cfg) hu
  exact ⟨hu, h1.1, h2.1, h1.2.1, h2.2.1, h1.2.2, h2.2.2⟩

/-- C30 at the ten-player match: the viewer's side has an average KP of 63/100,
hence a synergy score of 189/500, and three well-rounded players. -/
theorem synergy_is_share_of_average_kp_witness :
    scenarioSummary.MyTeamInsights.AverageKP = 63 / 100 ∧
      scenarioSummary.MyTeamInsights.SynergyScore = 0.6 * (63 / 100) ∧
      scenarioSummary.MyTeamInsights.WellRoundedPlayers = 3 :=
  have h := synergy_is_share_of_average_kp scenarioStats scenarioCfg scenarioSummary
    scenario_analyzed
  have hk : scenarioSummary.MyTeamInsights.AverageKP = 63 / 100 := by decide!
  ⟨hk, by rw [h.2.1, hk], by decide!⟩

/-! ## `FormatNumber` -/

theorem goInt_eq_floor {q : ℚ} (h : 0 ≤ q) (h2 : q < 9223372036854775808) :
    goInt q = ⌊q⌋ :=
  goInt_small ⟨h, h2⟩

theorem goInt_add_half (m : Nat) (hm : m < 4611686018427387904) :
    goInt ((m : ℚ) + 1 / 2) = (m : Int) := by
  have hq : (m : ℚ) < 4611686018427387904 := by exact_mod_cast hm
  rw [goInt_eq_floor (by positivity) (by linarith), Int.floor_eq_iff]
  constructor
  · push_cast; linarith
  · push_cast; linarith

theorem roundHalfEven_intCast (m : Int) : roundHalfEven (m : ℚ) = m := by
  unfold roundHalfEven
  have hf : Rat.floor (m : ℚ) = m := by
    show ⌊(m : ℚ)⌋ = m
    exact Int.floor_intCast m
  simp only [hf, sub_self]
  norm_num

theorem formatFixed_half (k : Nat) :
    formatFixed 1 ((k : ℚ) + 1 / 2) = toString k ++ ".5" := by
  have hx : ((k : ℚ) + 1 / 2) * 10 = ((10 * k + 5 : Int) : ℚ) := by
    push_cast; ring
  have hpos : ¬ ((k : ℚ) + 1 / 2 < 0) := by
    have : (0 : ℚ) ≤ (k : ℚ) := Nat.cast_nonneg k
    intro h; linarith
  have ha : ((10 * k + 5 : Int)).natAbs = 10 * k + 5 := by omega
  unfold formatFixed
  simp only [pow_one, hx, roundHalfEven_intCast, hpos, if_false, ha]
  have h1 : (10 * k + 5) / 10 = k := by omega
  have h2 : (10 * k + 5) % 10 = 5 := by omega
  rw [h1, h2]
  have h3 : padDigits 1 5 = "5" := by decide
  rw [h3, if_neg (by decide), String.empty_append, String.append_assoc]
  rfl

/-- C28.  For every `n` that is a multiple of 500 but not of 1000 between 10000
and 999999, `FormatNumber n` keeps one decimal: `n = 1000 k + 500` gives the
digits of `k` followed by `.5k`, not a whole number of thousands.  The three
documented examples hold. -/
theorem format_number_keeps_one_decimal (k : Nat) (h1 : 10 ≤ k) (h2 : k ≤ 998) :
    FormatNumber (((1000 * k + 500 : Nat) : Int)) = toString k ++ ".5k" ∧
      FormatNumber 1800 = "1.8k" ∧ FormatNumber 27022 = "27k" ∧
      FormatNumber 1500000 = "1.5M" := by
  refine ⟨?_, by decide!, by decide!, by decide!⟩
  have hth : (((1000 * k + 500 : Nat) : Int) : ℚ) / 1000.0 = (k : ℚ) + 1 / 2 := by
    push_cast; norm_num; ring
  have hne : ¬ ((k : ℚ) + 1 / 2 = (((k : Nat) : Int) : ℚ)) := by
    push_cast; intro h; linarith
  have hr : ((goInt (((k : ℚ) + 1 / 2) * 10 + 0.5) : Int) : ℚ) / 10.0 = (k : ℚ) + 1 / 2 := by
    have : ((k : ℚ) + 1 / 2) * 10 + 0.5 = ((10 * k + 5 : Nat) : ℚ) + 1 / 2 := by
      push_cast; norm_num; ring
    rw [this, goInt_add_half _ (by omega)]
    push_cast; norm_num; ring
  unfold FormatNumber
  rw [if_neg (by omega), if_neg (by omega), if_pos (by omega)]
  simp only [hth, goInt_add_half k (by omega), hne, if_false, hr]
  rw [formatFixed_half, String.append_assoc]
  rfl

/-- C28 at 27500, which `FormatNumber` renders as `27.5k`. -/
theorem format_number_keeps_one_decimal_witness : FormatNumber 27500 = "27.5k" :=
  ((format_number_keeps_one_decimal 27 (by decide) (by decide)).1).trans (by decide!)

/-! ## The tanking standout -/

theorem final_tanking_holder (stats : EoGStatsBlock) (cfg : Config) (j : Nat)
    (q : PlayerSummary) (hq : (finalPlayers stats cfg)[j]? = some q) (hA : q.Afk = false) :
    q.MostTankingInGame = true ↔
      (∀ r, r ∈ finalPlayers stats cfg → r.Afk = false →
          tankingScoreOf r ≤ tankingScoreOf q) ∧
        tankingScoreOf q > 1000 ∧ q.D ≤ 5 := by
  have hc := (final_shared_flags stats cfg j q hq hA).2.2.2.2.2.2.2
  have hmem : q ∈ finalPlayers stats cfg := List.mem_iff_getElem?.2 ⟨j, hq⟩
  have hmax : (gameMaxima (finalPlayers stats cfg)).maxTankingScore
      = maxOver tankingScoreOf (finalPlayers stats cfg) 0 := by
    rw [gameMaxima_eq]
  rw [hmax] at hc
  have hD : (if q.D = 0 then 1 else q.D) ≤ 5 ↔ q.D ≤ 5 := by
    by_cases h0 : q.D = 0
    · simp [h0]
    · simp [h0]
  rw [hc, hD]
  constructor
  · rintro ⟨h1, h2, h3⟩
    refine ⟨fun r hr hrA => ?_, by rw [h1]; exact h2, h3⟩
    rw [h1]
    exact maxOver_ge tankingScoreOf _ 0 r hr hrA
  · rintro ⟨h1, h2, h3⟩
    have hM := maxOver_eq tankingScoreOf (finalPlayers stats cfg) 0 (tankingScoreOf q) q hmem hA
      rfl (le_of_lt (lt_trans (by norm_num) h2)) h1
    rw [hM]
    exact ⟨rfl, h2, h3⟩

/-- C24.  A non-AFK player of the summary has `MostTankingInGame` exactly when no
non-AFK player has a higher tanking score, the score is above 1000 and the
player's deaths are at most 5; the score is damage taken divided by the deaths,
a death count of 0 read as 1, which for a non-negative death count is damage
taken / max(deaths, 1).  `Achievements.MostTankingInGame` is the champion of the
first flagged non-AFK player, and it is empty when every non-AFK player that
holds the maximum has more than 5 deaths. -/
theorem most_tanking_flag_and_name (stats : EoGStatsBlock) (cfg : Config) (s : GameSummary)
    (h : (AnalyzeGame stats cfg).1 = some s) :
    (∀ (j : Nat) (q : PlayerSummary), s.Players[j]? = some q → q.Afk = false →
        (q.MostTankingInGame = true ↔
          (∀ r, r ∈ s.Players → r.Afk = false → tankingScoreOf r ≤ tankingScoreOf q) ∧
            tankingScoreOf q > 1000 ∧ q.D ≤ 5)) ∧
      (∀ r : PlayerSummary, 0 ≤ r.D →
        tankingScoreOf r = (r.Metrics.TotalDamageTaken : ℚ) / ((max r.D 1 : Int) : ℚ)) ∧
      (∀ (j : Nat) (q : PlayerSummary), s.Players[j]? = some q → q.Afk = false →
        q.MostTankingInGame = true →
        (∀ (k : Nat) (r : PlayerSummary), k < j → s.Players[k]? = some r → r.Afk = false →
          r.MostTankingInGame = false) →
        s.Achievements.MostTankingInGame = q.Champion) ∧
      ((∀ (j : Nat) (q : PlayerSummary), s.Players[j]? = some q → q.Afk = false →
          (∀ r, r ∈ s.Players → r.Afk = false → tankingScoreOf r ≤ tankingScoreOf q) →
          5 < q.D) →
        s.Achievements.MostTankingInGame = "") := by
  have hname : s.Achievements.MostTankingInGame
      = holderName (fun _ p => p.MostTankingInGame) tankingScoreOf (finalPlayers stats cfg) := by
    rw [(AnalyzeGame_some h).2]
    rfl
  rw [(AnalyzeGame_some h).1]
  refine ⟨fun j q hq hA => final_tanking_holder stats cfg j q hq hA, ?_, ?_, ?_⟩
  · intro r hr
    unfold tankingScoreOf
    by_cases h0 : r.D = 0
    · simp [h0]
    · have h1 : max r.D 1 = r.D := max_eq_left (by omega)
      simp [h0, h1]
  · intro j q hq hA hf hpre
    rw [hname]
    have hc := (final_tanking_holder stats cfg j q hq hA).1 hf
    exact holderName_first (fun _ p => p.MostTankingInGame) tankingScoreOf
      (finalPlayers stats cfg) j q hq hA hf (lt_trans (by norm_num) hc.2.1)
      (fun k r hk hr hrA => hpre k r hk hr hrA)
      (fun k r hr hrA _ => hc.1 r (List.mem_iff_getElem?.2 ⟨k, hr⟩) hrA)
  · intro hall
    rw [hname]
    apply holderName_none
    intro j p hp hpA
    cases hf : p.MostTankingInGame with
    | false => rfl
    | true =>
      have hc := (final_tanking_holder stats cfg j p hp hpA).1 hf
      have := hall j p hp hpA hc.1
      omega

/-- C24 at the ten-player match: `max` (index 2, Malphite), with 40000 damage
taken over 4 deaths, is the first flagged player and gives the name. -/
theorem most_tanking_flag_and_name_witness :
    (scenarioPlayer 2).MostTankingInGame = true ∧ tankingScoreOf (scenarioPlayer 2) = 10000 ∧
      scenarioSummary.Achievements.MostTankingInGame = "Malphite" :=
  have h := most_tanking_flag_and_name scenarioStats scenarioCfg scenarioSummary
    scenario_analyzed
  ⟨by decide!, by decide!,
    (h.2.2.1 2 (scenarioPlayer 2) (scenario_player 2 (by decide)) (by decide!) (by decide!)
      (by
        intro k r hk hr hrA
        rw [scenario_player k (by omega), Option.some.injEq] at hr
        subst hr
        interval_cases k <;> decide!)).trans (by decide!)⟩

/-! ## The exchange sort of `isTopN` -/

theorem swapIfLess_spec (t : List ℚ) (i j : Nat) (hij : i < j) (hj : j < t.length) :
    (swapIfLess t i j).length = t.length ∧ (swapIfLess t i j).Perm t ∧
      (∀ k, k ≠ i → k ≠ j → (swapIfLess t i j)[k]? = t[k]?) ∧
      ((swapIfLess t i j)[i]?).getD 0 = max ((t[i]?).getD 0) ((t[j]?).getD 0) ∧
      ((swapIfLess t i j)[j]?).getD 0 = min ((t[i]?).getD 0) ((t[j]?).getD 0) := by
  have hi : i < t.length := by omega
  have e1 : t[i]? = some t[i] := List.getElem?_eq_getElem hi
  have e2 : t[j]? = some t[j] := List.getElem?_eq_getElem hj
  unfold swapIfLess
  simp only [e1, e2, Option.getD_some]
  by_cases h : t[i] < t[j]
  · simp only [h, if_true]
    refine ⟨by simp, ?_, ?_, ?_, ?_⟩
    · rw [List.perm_iff_count]
      intro x
      have hj2 : j < (t.set i t[j]).length := by simpa using hj
      rw [List.count_set _ _ _ _ hj2, List.count_set _ _ _ _ hi]
      have hne : i ≠ j := by omega
      have hg : (t.set i t[j])[j] = t[j] := by
        rw [List.getElem_set_ne hne]
      rw [hg]
      have hc : t[i] = x → 0 < List.count x t := by
        intro hx
        rw [← hx]
        exact List.count_pos_iff.2 (List.getElem_mem _)
      by_cases h1 : t[i] = x
      · have hpos := hc h1
        have h2 : ¬ t[j] = x := by
          intro h2
          rw [h1, h2] at h
          exact lt_irrefl _ h
        simp only [h1, h2, beq_self_eq_true, if_true, beq_iff_eq, if_false]
        omega
      · by_cases h2 : t[j] = x
        · simp only [h1, h2, beq_self_eq_true, if_true, beq_iff_eq, if_false]
          omega
        · simp only [h1, h2, beq_self_eq_true, if_true, beq_iff_eq, if_false]
          omega
    · intro k hk1 hk2
      rw [List.getElem?_set_ne (by omega), List.getElem?_set_ne (by omega)]
    · rw [List.getElem?_set_ne (by omega), List.getElem?_set_self hi]
      simp [max_eq_right (le_of_lt h)]
    · rw [List.getElem?_set_self (by simpa using hj)]
      simp [min_eq_left (le_of_lt h)]
  · simp only [h, if_false, e1, e2, Option.getD_some]
    exact ⟨trivial, List.Perm.refl _, fun _ _ _ => trivial, (max_eq_left (not_lt.1 h)).symm,
      (min_eq_right (not_lt.1 h)).symm⟩

theorem innerLoop_spec (i cnt : Nat) (t : List ℚ) (h : i + 1 + cnt ≤ t.length) :
    ((List.range' (i + 1) cnt).foldl (fun t j => swapIfLess t i j) t).length = t.length ∧
      ((List.range' (i + 1) cnt).foldl (fun t j => swapIfLess t i j) t).Perm t ∧
      (∀ k, k < i →
        ((List.range' (i + 1) cnt).foldl (fun t j => swapIfLess t i j) t)[k]? = t[k]?) ∧
      (∀ k, i < k → k < i + 1 + cnt →
        ((((List.range' (i + 1) cnt).foldl (fun t j => swapIfLess t i j) t)[k]?).getD 0
          ≤ (((List.range' (i + 1) cnt).foldl (fun t j => swapIfLess t i j) t)[i]?).getD 0)) ∧
      (∀ x : ℚ, (∀ k, i ≤ k → k < t.length → (t[k]?).getD 0 ≤ x) →
        ∀ k, i ≤ k → k < t.length →
          (((List.range' (i + 1) cnt).foldl (fun t j => swapIfLess t i j) t)[k]?).getD 0
            ≤ x) := by
  induction cnt with
  | zero =>
    refine ⟨rfl, List.Perm.refl _, fun _ _ => rfl, ?_, fun x hx => hx⟩
    intro k h1 h2
    omega
  | succ cnt ih =>
    obtain ⟨hl, hp, hpre, hdom, hb⟩ := ih (by omega)
    rw [List.range'_1_concat, List.foldl_append]
    simp only [List.foldl_cons, List.foldl_nil]
    generalize (List.range' (i + 1) cnt).foldl (fun t j => swapIfLess t i j) t = u at *
    obtain ⟨sl, sp, so, si, sj⟩ := swapIfLess_spec u i (i + 1 + cnt) (by omega) (by omega)
    refine ⟨sl.trans hl, sp.trans hp, ?_, ?_, ?_⟩
    · intro k hk
      rw [so k (by omega) (by omega)]
      exact hpre k hk
    · intro k h1 h2
      rw [si]
      by_cases hk : k = i + 1 + cnt
      · rw [hk, sj]
        exact min_le_iff.2 (Or.inl (le_max_left _ _))
      · rw [so k (by omega) hk]
        exact le_trans (hdom k h1 (by omega)) (le_max_left _ _)
    · intro x hx k h1 h2
      have hu := hb x hx
      by_cases hki : k = i
      · rw [hki, si]
        exact max_le (hu i (le_refl _) (by omega)) (hu _ (by omega) (by omega))
      · by_cases hk : k = i + 1 + cnt
        · rw [hk, sj]
          exact min_le_iff.2 (Or.inl (hu i (le_refl _) (by omega)))
        · rw [so k hki hk]
          exact hu k h1 h2

/-- The exchange sort returns a permutation of its input in descending order. -/
theorem outerLoop_spec (values : List ℚ) (m : Nat) (hm : m + 1 ≤ values.length ∨ m = 0) :
    ((List.range m).foldl
        (fun s i => (List.range' (i + 1) (values.length - (i + 1))).foldl
          (fun t j => swapIfLess t i j) s) values).length = values.length ∧
      ((List.range m).foldl
        (fun s i => (List.range' (i + 1) (values.length - (i + 1))).foldl
          (fun t j => swapIfLess t i j) s) values).Perm values ∧
      ∀ a b, a < m → a < b → b < values.length →
        ((((List.range m).foldl
          (fun s i => (List.range' (i + 1) (values.length - (i + 1))).foldl
            (fun t j => swapIfLess t i j) s) values)[b]?).getD 0
          ≤ (((List.range m).foldl
          (fun s i => (List.range' (i + 1) (values.length - (i + 1))).foldl
            (fun t j => swapIfLess t i j) s) values)[a]?).getD 0) := by
  induction m with
  | zero =>
    refine ⟨rfl, List.Perm.refl _, ?_⟩
    intro a b h1
    omega
  | succ m ih =>
    have hm2 : m + 2 ≤ values.length := by omega
    obtain ⟨hl, hp, hs⟩ := ih (Or.inl (by omega))
    rw [List.range_succ, List.foldl_append]
    simp only [List.foldl_cons, List.foldl_nil]
    generalize (List.range m).foldl
        (fun s i => (List.range' (i + 1) (values.length - (i + 1))).foldl
          (fun t j => swapIfLess t i j) s) values = u at *
    obtain ⟨il, ip, ipre, idom, ib⟩ :=
      innerLoop_spec m (values.length - (m + 1)) u (by omega)
    refine ⟨il.trans hl, ip.trans hp, ?_⟩
    intro a b h1 h2 h3
    by_cases ha : a = m
    · subst ha
      exact idom b h2 (by omega)
    · have ham : a < m := by omega
      rw [ipre a ham]
      by_cases hb : b < m
      · rw [ipre b hb]
        exact hs a b ham h2 h3
      · exact ib _ (fun k hk1 hk2 => hs a k ham (by omega) (by omega)) b (by omega) (by omega)

theorem sortDescending_spec (values : List ℚ) :
    (sortDescending values).length = values.length ∧ (sortDescending values).Perm values ∧
      ∀ a b, a < b → b < values.length →
        ((sortDescending values)[b]?).getD 0 ≤ ((sortDescending values)[a]?).getD 0 := by
  obtain ⟨hl, hp, hs⟩ := outerLoop_spec values (values.length - 1) (by omega)
  exact ⟨hl, hp, fun a b h1 h2 => hs a b (by omega) h1 h2⟩

/-- A value of the list is among the top two exactly when it is positive and
fewer than two entries of the list are strictly greater. -/
theorem isTopN_two_iff (v : ℚ) (vs : List ℚ) (hv : v ∈ vs) :
    isTopN v vs 2 = true ↔ 0 < v ∧ vs.countP (fun x => decide (x > v)) < 2 := by
  obtain ⟨hl, hp, hs⟩ := sortDescending_spec vs
  have hcount : vs.countP (fun x => decide (x > v))
      = (sortDescending vs).countP (fun x => decide (x > v)) := (hp.countP_eq _).symm
  have hmem : v ∈ sortDescending vs := hp.mem_iff.2 hv
  have hpos : 0 < vs.length := List.length_pos_of_mem hv
  unfold isTopN
  have hcond : ¬ (vs.length = 0 ∨ (2 : Int) ≤ 0) := by
    rintro (h | h)
    · omega
    · omega
  rw [if_neg hcond]
  simp only []
  rw [hcount]
  rw [← hl] at hs
  generalize sortDescending vs = s at *
  match s, hmem, hs with
  | [], hmem, _ => simp at hmem
  | [a], hmem, _ =>
    have hva : v = a := by simpa using hmem
    subst hva
    simp [List.range_succ]
  | a :: b :: rest, _, hs =>
    have hab : b ≤ a := by simpa using hs 0 1 (by omega) (by simp)
    have hrest : ∀ x ∈ rest, x ≤ b := by
      intro x hx
      obtain ⟨k, hk⟩ := List.mem_iff_getElem?.1 hx
      have hkl : k < rest.length := (List.getElem?_eq_some.1 hk).1
      have := hs 1 (k + 2) (by omega) (by simp; omega)
      simpa [hk] using this
    have hn2 : (if (2 : Int) > (((a :: b :: rest).length : Nat) : Int)
        then (((a :: b :: rest).length : Nat) : Int) else 2) = 2 :=
      if_neg (by simp; omega)
    rw [hn2]
    have h2 : (2 : Int).toNat = 2 := rfl
    rw [h2]
    simp only [List.range_succ, List.range_zero, List.nil_append, List.cons_append,
      List.any_cons, List.any_nil, Bool.or_false, List.getElem?_cons_zero,
      List.getElem?_cons_succ, Option.getD_some, Bool.or_eq_true, decide_eq_true_eq,
      List.countP_cons]
    constructor
    · rintro (⟨h1, h0⟩ | ⟨h1, h0⟩)
      · refine ⟨h0, ?_⟩
        have hz : rest.countP (fun x => decide (x > v)) = 0 := by
          rw [List.countP_eq_zero]
          intro x hx
          simpa using le_trans (hrest x hx) (le_trans hab h1)
        have ha : ¬ (a > v) := not_lt.2 h1
        have hb : ¬ (b > v) := not_lt.2 (le_trans hab h1)
        simp [hz, ha, hb]
      · refine ⟨h0, ?_⟩
        have hz : rest.countP (fun x => decide (x > v)) = 0 := by
          rw [List.countP_eq_zero]
          intro x hx
          simpa using le_trans (hrest x hx) h1
        have hb : ¬ (b > v) := not_lt.2 h1
        simp only [hz, hb, decide_False, Bool.false_eq_true, if_false]
        split_ifs <;> omega
    · rintro ⟨h0, hc⟩
      by_cases ha : a > v
      · by_cases hb : b > v
        · simp only [ha, hb, decide_True, if_true] at hc
          omega
        · exact Or.inr ⟨not_lt.1 hb, h0⟩
      · exact Or.inl ⟨not_lt.1 ha, h0⟩

/-! ## The tags that compare a player with its team -/

theorem mem_nonAfkOfTeam (stats : EoGStatsBlock) (T : Int) (i : Nat) (l : List PlayerSummary)
    (r : PlayerSummary) :
    r ∈ nonAfkOfTeam stats T i l ↔
      ∃ k, l[k]? = some r ∧ r.Afk = false ∧ teamIDAt stats (i + k) = T := by
  induction l generalizing i with
  | nil => simp [nonAfkOfTeam]
  | cons a l ih =>
    unfold nonAfkOfTeam
    have hshift : (∃ k, l[k]? = some r ∧ r.Afk = false ∧ teamIDAt stats (i + 1 + k) = T) ↔
        ∃ k, (a :: l)[k + 1]? = some r ∧ r.Afk = false ∧ teamIDAt stats (i + (k + 1)) = T := by
      constructor
      · rintro ⟨k, h1, h2, h3⟩
        exact ⟨k, by simpa using h1, h2, by rw [← h3]; congr 1; omega⟩
      · rintro ⟨k, h1, h2, h3⟩
        exact ⟨k, by simpa using h1, h2, by rw [← h3]; congr 1; omega⟩
    constructor
    · intro h
      split_ifs at h with hc
      · rcases List.mem_cons.1 h with h | h
        · subst h
          exact ⟨0, by simp, hc.1, by simpa using hc.2⟩
        · obtain ⟨k, hk⟩ := hshift.1 ((ih (i + 1)).1 h)
          exact ⟨k + 1, hk⟩
      · obtain ⟨k, hk⟩ := hshift.1 ((ih (i + 1)).1 h)
        exact ⟨k + 1, hk⟩
    · rintro ⟨k, h1, h2, h3⟩
      cases k with
      | zero =>
        simp only [List.getElem?_cons_zero, Option.some.injEq] at h1
        subst h1
        rw [Nat.add_zero] at h3
        rw [if_pos ⟨h2, h3⟩]
        exact List.mem_cons_self _ _
      | succ k =>
        have hm := (ih (i + 1)).2 (hshift.2 ⟨k, h1, h2, h3⟩)
        split_ifs
        · exact List.mem_cons_of_mem _ hm
        · exact hm

/-- The values the tagging loop collects over `teamPlayers[T]` are the values of
the non-AFK players with team id `T`. -/
theorem group_values {β : Type} (stats : EoGStatsBlock) (g : PlayerMetrics → β)
    (full : List PlayerSummary) (T : Int) (l l2 : List PlayerSummary) (i : Nat)
    (m : Int → List Nat)
    (hagree : l.map (fun p => (p.Afk, p.Metrics)) = l2.map (fun p => (p.Afk, p.Metrics)))
    (hfull : ∀ (k : Nat) (p : PlayerSummary), l2[k]? = some p →
      metricsAt full (i + k) = p.Metrics) :
    (groupTeamPlayers stats i l m T).map (fun idx => g (metricsAt full idx))
      = (m T).map (fun idx => g (metricsAt full idx))
        ++ (nonAfkOfTeam stats T i l2).map (fun r => g r.Metrics) := by
  induction l generalizing l2 i m with
  | nil =>
    cases l2 with
    | nil => simp [groupTeamPlayers, nonAfkOfTeam]
    | cons b l2 => simp at hagree
  | cons a l ih =>
    cases l2 with
    | nil => simp at hagree
    | cons b l2 =>
      simp only [List.map_cons, List.cons.injEq, Prod.mk.injEq] at hagree
      obtain ⟨⟨hA, hM⟩, htl⟩ := hagree
      have hb : metricsAt full i = b.Metrics := by
        have := hfull 0 b (by simp)
        simpa using this
      have hfull2 : ∀ (k : Nat) (p : PlayerSummary), l2[k]? = some p →
          metricsAt full (i + 1 + k) = p.Metrics := by
        intro k p hp
        have := hfull (k + 1) p (by simpa using hp)
        rw [← this]; congr 1; omega
      unfold groupTeamPlayers nonAfkOfTeam
      rw [ih l2 (i + 1) _ htl hfull2, ← hA]
      by_cases hAa : a.Afk = true
      · simp [hAa]
      · have hAf : a.Afk = false := by simpa using hAa
        simp only [hAf, Bool.false_eq_true, if_false, true_and]
        by_cases hT : teamIDAt stats i = T
        · subst hT
          simp [hb]
        · rw [Function.update_noteq (Ne.symm hT)]
          simp [hT]

theorem tagsFor_congr (stats : EoGStatsBlock) (gm : ℚ) (tp : Int → List Nat)
    (td tb : List (Int × Int)) (ps ps2 : List PlayerSummary) (i : Nat) (p p2 : PlayerSummary)
    (h1 : p.Metrics = p2.Metrics) (h2 : p.Tags = p2.Tags)
    (h3 : metricsAt ps = metricsAt ps2) :
    tagsFor stats gm tp td tb ps i p = tagsFor stats gm tp td tb ps2 i p2 := by
  unfold tagsFor
  simp only [h1, h2, h3]

theorem tagsFor_frontline (stats : EoGStatsBlock) (gm : ℚ) (tp : Int → List Nat)
    (td tb : List (Int × Int)) (ps : List PlayerSummary) (i : Nat) (p : PlayerSummary)
    (h : p.Tags = []) :
    "frontline_rock" ∈ tagsFor stats gm tp td tb ps i p ↔
      p.Metrics.DamageTakenShare ≥ 0.30 ∧ p.Metrics.Deaths ≤ 8 ∧
        isTopN p.Metrics.CCPerMinute
          ((tp (teamIDAt stats i)).map (fun idx => (metricsAt ps idx).CCPerMinute)) 2 = true := by
  unfold tagsFor teamIDAt
  simp only [mem_appendIf, h, List.any_nil]
  simp

theorem tagsFor_utility (stats : EoGStatsBlock) (gm : ℚ) (tp : Int → List Nat)
    (td tb : List (Int × Int)) (ps : List PlayerSummary) (i : Nat) (p : PlayerSummary)
    (h : p.Tags = []) :
    "utility_mvp" ∈ tagsFor stats gm tp td tb ps i p ↔
      p.Metrics.Assists ≥ 10 ∧
        (isHighest
            ((p.Metrics.TotalHealsOnTeammates + p.Metrics.TotalDamageShieldedOnTeammates : Int) : ℚ)
            (floatSlice ((tp (teamIDAt stats i)).map (fun idx =>
              (metricsAt ps idx).TotalHealsOnTeammates
                + (metricsAt ps idx).TotalDamageShieldedOnTeammates))) = true ∨
          isHighest p.Metrics.CCPerMinute
            ((tp (teamIDAt stats i)).map (fun idx => (metricsAt ps idx).CCPerMinute))
              = true) := by
  unfold tagsFor teamIDAt
  simp only [mem_appendIf, h, List.any_nil]
  simp

theorem tagsFor_objective (stats : EoGStatsBlock) (gm : ℚ) (tp : Int → List Nat)
    (td tb : List (Int × Int)) (ps : List PlayerSummary) (i : Nat) (p : PlayerSummary)
    (h : p.Tags = []) :
    "objective_brain" ∈ tagsFor stats gm tp td tb ps i p ↔
      (p.Metrics.Role = "JUNGLE" ∨ p.Metrics.Role = "SUPPORT") ∧ p.Metrics.KP ≥ 0.60 ∧
        mapGet td (teamIDAt stats i)
          ≥ mapGet td (if teamIDAt stats i = TeamIDBlue then TeamIDRed else TeamIDBlue) ∧
        mapGet tb (teamIDAt stats i)
          ≥ mapGet tb (if teamIDAt stats i = TeamIDBlue then TeamIDRed else TeamIDBlue) := by
  unfold tagsFor teamIDAt
  simp only [mem_appendIf, h, List.any_nil]
  simp

/-- The tags of a non-AFK returned player are those of its iteration of the
tagging loop, and the value lists of that iteration range over the non-AFK
returned players of the team. -/
theorem final_tag_context (stats : EoGStatsBlock) (cfg : Config) (j : Nat) (q : PlayerSummary)
    (hq : (finalPlayers stats cfg)[j]? = some q) (hA : q.Afk = false) :
    ∃ (tp : Int → List Nat) (cur : List PlayerSummary) (p : PlayerSummary),
      p.Tags = [] ∧ p.Metrics = q.Metrics ∧
      q.Tags = tagsFor stats (gameMinutesOf stats) tp (stats.TeamDragons.getD [])
        (stats.TeamBarons.getD []) cur j p ∧
      ∀ (T : Int) (β : Type) (g : PlayerMetrics → β),
        (tp T).map (fun idx => g (metricsAt cur idx))
          = (nonAfkOfTeam stats T 0 (finalPlayers stats cfg)).map (fun r => g r.Metrics) := by
  unfold finalPlayers at hq ⊢
  generalize hps : identifyStandoutPerformances (playersAfterAfk stats cfg) stats
      (findMyTeamID stats.Participants cfg) = ps at hq ⊢
  have htags : ∀ (k : Nat) (p : PlayerSummary), ps[k]? = some p → p.Tags = [] := by
    intro k p hp
    rw [← hps] at hp
    exact identify_tags stats cfg k p hp
  rw [assign_eq_loop] at hq ⊢
  generalize hF : tagPlayer stats (gameMinutesOf stats) (groupTeamPlayers stats 0 ps (fun _ => []))
      (stats.TeamDragons.getD []) (stats.TeamBarons.getD []) = F at hq ⊢
  have hpres : ∀ (n k : Nat),
      ((loopUpTo F ps n)[k]?).map (fun x => (x.Afk, x.Metrics))
        = (ps[k]?).map (fun x => (x.Afk, x.Metrics)) := by
    intro n k
    rw [← hF]
    exact loopUpTo_preserves (fun x => (x.Afk, x.Metrics))
      (tagPlayer stats (gameMinutesOf stats) (groupTeamPlayers stats 0 ps (fun _ => []))
        (stats.TeamDragons.getD []) (stats.TeamBarons.getD []))
      (fun _ _ _ => rfl) ps n k
  have hj : j < ps.length := by
    have := (List.getElem?_eq_some.1 hq).1
    rwa [loopUpTo_length] at this
  obtain ⟨p, hp⟩ : ∃ p, ps[j]? = some p := ⟨ps[j], List.getElem?_eq_getElem hj⟩
  have hpq := hpres ps.length j
  rw [hq, hp] at hpq
  simp only [Option.map_some', Option.some.injEq, Prod.mk.injEq] at hpq
  have hpA : p.Afk = false := by rw [← hpq.1]; exact hA
  have hq2 := hq
  rw [loopUpTo_getElem?_done _ ps hp hj] at hq2
  simp only [hpA, Bool.false_eq_true, if_false, Option.some.injEq] at hq2
  refine ⟨groupTeamPlayers stats 0 ps (fun _ => []), loopUpTo F ps j, p, htags j p hp,
    hpq.2.symm, ?_, ?_⟩
  · rw [← hq2, ← hF]; rfl
  · intro T β g
    have hagree : ps.map (fun p => (p.Afk, p.Metrics))
        = (loopUpTo F ps ps.length).map (fun p => (p.Afk, p.Metrics)) := by
      apply List.ext_getElem?
      intro k
      rw [List.getElem?_map, List.getElem?_map]
      exact (hpres ps.length k).symm
    have hfull : ∀ (k : Nat) (r : PlayerSummary), (loopUpTo F ps ps.length)[k]? = some r →
        metricsAt (loopUpTo F ps j) (0 + k) = r.Metrics := by
      intro k r hr
      have h1 := hpres ps.length k
      have h2 := hpres j k
      rw [← h1, hr] at h2
      rw [Nat.zero_add]
      unfold metricsAt
      cases hx : (loopUpTo F ps j)[k]? with
      | none => simp [hx] at h2
      | some x =>
        simp only [hx, Option.map_some', Option.some.injEq, Prod.mk.injEq] at h2
        simp [h2.2]
    have := group_values stats g (loopUpTo F ps j) T ps (loopUpTo F ps ps.length) 0
      (fun _ => []) hagree hfull
    simpa using this

theorem floatSlice_eq (ints : List Int) :
    floatSlice ints = List.map (fun (v : Int) => (v : ℚ)) ints := by
  unfold floatSlice
  induction ints with
  | nil => rfl
  | cons a l ih =>
    simp only [List.map_cons]
    rw [← ih]
    rfl

theorem final_own_team (stats : EoGStatsBlock) (cfg : Config) (j : Nat) (q : PlayerSummary)
    (hq : (finalPlayers stats cfg)[j]? = some q) (hA : q.Afk = false) :
    q ∈ nonAfkOfTeam stats (teamIDAt stats j) 0 (finalPlayers stats cfg) :=
  (mem_nonAfkOfTeam stats _ 0 _ q).2 ⟨j, hq, hA, by rw [Nat.zero_add]⟩

theorem final_frontline (stats : EoGStatsBlock) (cfg : Config) (j : Nat) (q : PlayerSummary)
    (hq : (finalPlayers stats cfg)[j]? = some q) (hA : q.Afk = false) :
    "frontline_rock" ∈ q.Tags ↔
      q.Metrics.DamageTakenShare ≥ 0.30 ∧ q.Metrics.Deaths ≤ 8 ∧
        0 < q.Metrics.CCPerMinute ∧
        (nonAfkOfTeam stats (teamIDAt stats j) 0 (finalPlayers stats cfg)).countP
          (fun r => decide (r.Metrics.CCPerMinute > q.Metrics.CCPerMinute)) < 2 := by
  obtain ⟨tp, cur, p, ht, hm, hqt, hvals⟩ := final_tag_context stats cfg j q hq hA
  have hcc : (tp (teamIDAt stats j)).map (fun idx => (metricsAt cur idx).CCPerMinute)
      = (nonAfkOfTeam stats (teamIDAt stats j) 0 (finalPlayers stats cfg)).map
          (fun r => r.Metrics.CCPerMinute) :=
    hvals (teamIDAt stats j) ℚ (fun m => m.CCPerMinute)
  have hv : q.Metrics.CCPerMinute
      ∈ (nonAfkOfTeam stats (teamIDAt stats j) 0 (finalPlayers stats cfg)).map
          (fun r => r.Metrics.CCPerMinute) :=
    List.mem_map.2 ⟨q, final_own_team stats cfg j q hq hA, rfl⟩
  rw [hqt, tagsFor_frontline _ _ _ _ _ _ _ _ ht, hcc, hm, isTopN_two_iff _ _ hv,
    List.countP_map]
  rfl

theorem final_utility (stats : EoGStatsBlock) (cfg : Config) (j : Nat) (q : PlayerSummary)
    (hq : (finalPlayers stats cfg)[j]? = some q) (hA : q.Afk = false) :
    "utility_mvp" ∈ q.Tags ↔
      q.Metrics.Assists ≥ 10 ∧
        ((0 < q.Metrics.TotalHealsOnTeammates + q.Metrics.TotalDamageShieldedOnTeammates ∧
            ∀ r, r ∈ nonAfkOfTeam stats (teamIDAt stats j) 0 (finalPlayers stats cfg) →
              r.Metrics.TotalHealsOnTeammates + r.Metrics.TotalDamageShieldedOnTeammates
                ≤ q.Metrics.TotalHealsOnTeammates + q.Metrics.TotalDamageShieldedOnTeammates) ∨
          (0 < q.Metrics.CCPerMinute ∧
            ∀ r, r ∈ nonAfkOfTeam stats (teamIDAt stats j) 0 (finalPlayers stats cfg) →
              r.Metrics.CCPerMinute ≤ q.Metrics.CCPerMinute)) := by
  obtain ⟨tp, cur, p, ht, hm, hqt, hvals⟩ := final_tag_context stats cfg j q hq hA
  have hcc : (tp (teamIDAt stats j)).map (fun idx => (metricsAt cur idx).CCPerMinute)
      = (nonAfkOfTeam stats (teamIDAt stats j) 0 (finalPlayers stats cfg)).map
          (fun r => r.Metrics.CCPerMinute) :=
    hvals (teamIDAt stats j) ℚ (fun m => m.CCPerMinute)
  have hhs : (tp (teamIDAt stats j)).map (fun idx =>
        (metricsAt cur idx).TotalHealsOnTeammates
          + (metricsAt cur idx).TotalDamageShieldedOnTeammates)
      = (nonAfkOfTeam stats (teamIDAt stats j) 0 (finalPlayers stats cfg)).map
          (fun r => r.Metrics.TotalHealsOnTeammates + r.Metrics.TotalDamageShieldedOnTeammates) :=
    hvals (teamIDAt stats j) Int
      (fun m => m.TotalHealsOnTeammates + m.TotalDamageShieldedOnTeammates)
  have hown := final_own_team stats cfg j q hq hA
  have hne1 : (nonAfkOfTeam stats (teamIDAt stats j) 0 (finalPlayers stats cfg)).map
      (fun r => r.Metrics.CCPerMinute) ≠ [] := by
    intro h0
    rw [List.map_eq_nil_iff] at h0
    rw [h0] at hown
    simp at hown
  have hne2 : floatSlice ((nonAfkOfTeam stats (teamIDAt stats j) 0 (finalPlayers stats cfg)).map
      (fun r => r.Metrics.TotalHealsOnTeammates + r.Metrics.TotalDamageShieldedOnTeammates))
        ≠ [] := by
    intro h0
    rw [floatSlice_eq, List.map_eq_nil_iff, List.map_eq_nil_iff] at h0
    rw [h0] at hown
    simp at hown
  rw [hqt, tagsFor_utility _ _ _ _ _ _ _ _ ht, hcc, hhs, hm, isHighest_iff _ _ hne1,
    isHighest_iff _ _ hne2, floatSlice_eq]
  simp only [List.mem_map, forall_exists_index, and_imp, forall_apply_eq_imp_iff₂, gt_iff_lt,
    Int.cast_pos, Int.cast_le]
  constructor
  · rintro ⟨h1, h2 | h2⟩
    · exact ⟨h1, Or.inl ⟨h2.2, h2.1⟩⟩
    · exact ⟨h1, Or.inr ⟨h2.2, h2.1⟩⟩
  · rintro ⟨h1, h2 | h2⟩
    · exact ⟨h1, Or.inl ⟨h2.2, h2.1⟩⟩
    · exact ⟨h1, Or.inr ⟨h2.2, h2.1⟩⟩

theorem final_objective (stats : EoGStatsBlock) (cfg : Config) (j : Nat) (q : PlayerSummary)
    (hq : (finalPlayers stats cfg)[j]? = some q) (hA : q.Afk = false) :
    "objective_brain" ∈ q.Tags ↔
      (q.Metrics.Role = "JUNGLE" ∨ q.Metrics.Role = "SUPPORT") ∧ q.Metrics.KP ≥ 0.60 ∧
        mapGet (stats.TeamDragons.getD []) (teamIDAt stats j)
          ≥ mapGet (stats.TeamDragons.getD [])
              (if teamIDAt stats j = TeamIDBlue then TeamIDRed else TeamIDBlue) ∧
        mapGet (stats.TeamBarons.getD []) (teamIDAt stats j)
          ≥ mapGet (stats.TeamBarons.getD [])
              (if teamIDAt stats j = TeamIDBlue then TeamIDRed else TeamIDBlue) := by
  obtain ⟨tp, cur, p, ht, hm, hqt, _⟩ := final_tag_context stats cfg j q hq hA
  rw [hqt, tagsFor_objective _ _ _ _ _ _ _ _ ht, hm]

/-- C21.  In the ten-player match `pam` (index 5) is not AFK, took 33/70 of her
team's damage and died 5 times, and every non-AFK player of her team has 0 CC
per minute; she does not carry `frontline_rock`. -/
theorem frontline_rock_needs_positive_cc :
    (AnalyzeGame scenarioStats scenarioCfg).1 = some scenarioSummary ∧
      scenarioSummary.Players[5]? = some (scenarioPlayer 5) ∧
      (scenarioPlayer 5).Afk = false ∧ (scenarioPlayer 5).Metrics.DamageTakenShare ≥ 0.30 ∧
      (scenarioPlayer 5).Metrics.Deaths ≤ 8 ∧
      (∀ r ∈ nonAfkOfTeam scenarioStats (teamIDAt scenarioStats 5) 0 scenarioSummary.Players,
        r.Metrics.CCPerMinute = 0) ∧
      "frontline_rock" ∉ (scenarioPlayer 5).Tags := by
  decide!

/-- C21.  A non-AFK player of the summary carries `frontline_rock` exactly when
its damage-taken share is at least 0.30, its deaths are at most 8, its CC per
minute is positive and fewer than two non-AFK players with the same team id have
a strictly greater CC per minute.  The players counted are the non-AFK players of
the summary whose participant has the player's team id. -/
theorem frontline_rock_iff (stats : EoGStatsBlock) (cfg : Config) (s : GameSummary)
    (h : (AnalyzeGame stats cfg).1 = some s) (j : Nat) (q : PlayerSummary)
    (hq : s.Players[j]? = some q) (hA : q.Afk = false) :
    ("frontline_rock" ∈ q.Tags ↔
        q.Metrics.DamageTakenShare ≥ 0.30 ∧ q.Metrics.Deaths ≤ 8 ∧
          0 < q.Metrics.CCPerMinute ∧
          (nonAfkOfTeam stats (teamIDAt stats j) 0 s.Players).countP
            (fun r => decide (r.Metrics.CCPerMinute > q.Metrics.CCPerMinute)) < 2) ∧
      ∀ r, r ∈ nonAfkOfTeam stats (teamIDAt stats j) 0 s.Players ↔
        ∃ k, s.Players[k]? = some r ∧ r.Afk = false ∧
          teamIDAt stats k = teamIDAt stats j := by
  rw [(AnalyzeGame_some h).1] at hq ⊢
  refine ⟨final_frontline stats cfg j q hq hA, fun r => ?_⟩
  rw [mem_nonAfkOfTeam]
  simp only [Nat.zero_add]

/-- C21 at the ten-player match: `max` (index 2), with 40/113 of his team's
damage taken, 4 deaths and 2 seconds of CC per minute, the only positive value
of his team, carries the tag. -/
theorem frontline_rock_iff_witness :
    (scenarioPlayer 2).Afk = false ∧ (scenarioPlayer 2).Metrics.CCPerMinute = 2 ∧
      "frontline_rock" ∈ (scenarioPlayer 2).Tags :=
  have h := frontline_rock_iff scenarioStats scenarioCfg scenarioSummary scenario_analyzed 2
    (scenarioPlayer 2) (scenario_player 2 (by decide)) (by decide!)
  ⟨by decide!, by decide!, h.1.2 (by decide!)⟩

/-- C22.  In `visionTieStats` `ben` (index 1) is not AFK and has 12 assists, and
no non-AFK player of his team has healed, shielded or applied CC, so his totals
of 0 equal the team maxima; he does not carry `utility_mvp`. -/
theorem utility_mvp_needs_positive_value :
    (AnalyzeGame visionTieStats visionTieCfg).1 = some visionTieSummary ∧
      visionTieSummary.Players[1]? = some (visionTiePlayer 1) ∧
      (visionTiePlayer 1).Afk = false ∧ (visionTiePlayer 1).Metrics.Assists ≥ 10 ∧
      (∀ r ∈ nonAfkOfTeam visionTieStats (teamIDAt visionTieStats 1) 0 visionTieSummary.Players,
        r.Metrics.TotalHealsOnTeammates + r.Metrics.TotalDamageShieldedOnTeammates = 0 ∧
          r.Metrics.CCPerMinute = 0) ∧
      "utility_mvp" ∉ (visionTiePlayer 1).Tags := by
  decide!

/-- C22.  A non-AFK player of the summary carries `utility_mvp` exactly when its
assists are at least 10 and either its heal+shield total is positive and no
non-AFK player with the same team id has a greater one, or its CC per minute is
positive and no non-AFK player with the same team id has a greater one. -/
theorem utility_mvp_iff (stats : EoGStatsBlock) (cfg : Config) (s : GameSummary)
    (h : (AnalyzeGame stats cfg).1 = some s) (j : Nat) (q : PlayerSummary)
    (hq : s.Players[j]? = some q) (hA : q.Afk = false) :
    "utility_mvp" ∈ q.Tags ↔
      q.Metrics.Assists ≥ 10 ∧
        ((0 < q.Metrics.TotalHealsOnTeammates + q.Metrics.TotalDamageShieldedOnTeammates ∧
            ∀ (k : Nat) (r : PlayerSummary), s.Players[k]? = some r → r.Afk = false →
              teamIDAt stats k = teamIDAt stats j →
              r.Metrics.TotalHealsOnTeammates + r.Metrics.TotalDamageShieldedOnTeammates
                ≤ q.Metrics.TotalHealsOnTeammates + q.Metrics.TotalDamageShieldedOnTeammates) ∨
          (0 < q.Metrics.CCPerMinute ∧
            ∀ (k : Nat) (r : PlayerSummary), s.Players[k]? = some r → r.Afk = false →
              teamIDAt stats k = teamIDAt stats j →
              r.Metrics.CCPerMinute ≤ q.Metrics.CCPerMinute)) := by
  rw [(AnalyzeGame_some h).1] at hq ⊢
  rw [final_utility stats cfg j q hq hA]
  have hall : ∀ P : PlayerSummary → Prop,
      (∀ r, r ∈ nonAfkOfTeam stats (teamIDAt stats j) 0 (finalPlayers stats cfg) → P r) ↔
        ∀ (k : Nat) (r : PlayerSummary), (finalPlayers stats cfg)[k]? = some r →
          r.Afk = false → teamIDAt stats k = teamIDAt stats j → P r := by
    intro P
    constructor
    · intro h1 k r hr hrA hT
      exact h1 r ((mem_nonAfkOfTeam stats _ 0 _ r).2 ⟨k, hr, hrA, by rw [Nat.zero_add]; exact hT⟩)
    · intro h1 r hr
      obtain ⟨k, hk, hrA, hT⟩ := (mem_nonAfkOfTeam stats _ 0 _ r).1 hr
      rw [Nat.zero_add] at hT
      exact h1 k r hk hrA hT
  rw [hall (fun r => r.Metrics.TotalHealsOnTeammates + r.Metrics.TotalDamageShieldedOnTeammates
      ≤ q.Metrics.TotalHealsOnTeammates + q.Metrics.TotalDamageShieldedOnTeammates),
    hall (fun r => r.Metrics.CCPerMinute ≤ q.Metrics.CCPerMinute)]

/-- C22 at the ten-player match: `sam` (index 8), with 10 assists and 8000 healing
on teammates, the most among the non-AFK players of her team, carries the tag. -/
theorem utility_mvp_iff_witness :
    (scenarioPlayer 8).Afk = false ∧ (scenarioPlayer 8).Metrics.Assists = 10 ∧
      (scenarioPlayer 8).Metrics.TotalHealsOnTeammates = 8000 ∧
      "utility_mvp" ∈ (scenarioPlayer 8).Tags :=
  have h := utility_mvp_iff scenarioStats scenarioCfg scenarioSummary scenario_analyzed 8
    (scenarioPlayer 8) (scenario_player 8 (by decide)) (by decide!)
  ⟨by decide!, by decide!, by decide!, h.2 ⟨by decide!, Or.inl ⟨by decide!, by
    intro k r hr hrA hT
    have hk : k < 10 := by
      have := (List.getElem?_eq_some.1 hr).1
      have hl : scenarioSummary.Players.length = 10 := by decide!
      omega
    rw [scenario_player k hk, Option.some.injEq] at hr
    subst hr
    interval_cases k <;>
      first | decide! | exact absurd hT (by decide!) | exact absurd hrA (by decide!)⟩⟩⟩

/-- C23.  In `farTeamsStats` the only teams are 300 and 400, and team 400 took 3
dragons against none for team 300; `jo` (index 0), the jungler of team 300 with a
kill participation of 0.9, carries `objective_brain`. -/
theorem objective_brain_against_more_dragons :
    (AnalyzeGame farTeamsStats farTeamsCfg).1 = some farTeamsSummary ∧
      farTeamsSummary.Players[0]? = some (farTeamsPlayer 0) ∧
      farTeamsStats.Participants.map (fun p => p.TeamID) = [300, 300, 400] ∧
      mapGet (farTeamsStats.TeamDragons.getD []) 300 = 0 ∧
      mapGet (farTeamsStats.TeamDragons.getD []) 400 = 3 ∧
      (farTeamsPlayer 0).Afk = false ∧ teamIDAt farTeamsStats 0 = 300 ∧
      "objective_brain" ∈ (farTeamsPlayer 0).Tags := by
  decide!

/-- C23.  A non-AFK player of the summary carries `objective_brain` exactly when
its role is JUNGLE or SUPPORT, its kill participation is at least 0.60, and the
dragon count and the baron count recorded for its team id are each at least the
count recorded for team 200 when the player's team id is 100, and for team 100
otherwise; a team id without a recorded count reads as 0. -/
theorem objective_brain_iff (stats : EoGStatsBlock) (cfg : Config) (s : GameSummary)
    (h : (AnalyzeGame stats cfg).1 = some s) (j : Nat) (q : PlayerSummary)
    (hq : s.Players[j]? = some q) (hA : q.Afk = false) :
    ("objective_brain" ∈ q.Tags ↔
        (q.Metrics.Role = "JUNGLE" ∨ q.Metrics.Role = "SUPPORT") ∧ q.Metrics.KP ≥ 0.60 ∧
          mapGet (stats.TeamDragons.getD []) (teamIDAt stats j)
            ≥ mapGet (stats.TeamDragons.getD []) (if teamIDAt stats j = 100 then 200 else 100) ∧
          mapGet (stats.TeamBarons.getD []) (teamIDAt stats j)
            ≥ mapGet (stats.TeamBarons.getD [])
                (if teamIDAt stats j = 100 then 200 else 100)) ∧
      ∀ (m : List (Int × Int)) (T : Int), m.lookup T = none → mapGet m T = 0 := by
  rw [(AnalyzeGame_some h).1] at hq
  refine ⟨final_objective stats cfg j q hq hA, fun m T hm => ?_⟩
  unfold mapGet
  rw [hm]
  rfl

/-- C23 at the ten-player match, which records no objective: `lee` (index 1), the
jungler with a kill participation of 13/20, carries the tag. -/
theorem objective_brain_iff_witness :
    (scenarioPlayer 1).Afk = false ∧ (scenarioPlayer 1).Metrics.Role = "JUNGLE" ∧
      (scenarioPlayer 1).Metrics.KP = 13 / 20 ∧
      "objective_brain" ∈ (scenarioPlayer 1).Tags :=
  have h := objective_brain_iff scenarioStats scenarioCfg scenarioSummary scenario_analyzed 1
    (scenarioPlayer 1) (scenario_player 1 (by decide)) (by decide!)
  ⟨by decide!, by decide!, by decide!, h.1.2 (by decide!)⟩

end LolKindBot
